import Mathlib

/-!
# VideoCore shared-memory driver (`drivers/char/broadcom/vc_sm/vmcs_sm.c`)

A shallow embedding of the resource registry of the driver: the tracking
records (`SM_RESOURCE_T`, `sm_mmap`, `SM_PRIV_DATA_T`), the global state
(`SM_STATE_T`) and the functions that acquire, release, allocate, share, free,
lock and unlock resources, followed by theorems about them.

Conventions of the embedding.

* A pointer to a tracking record is a natural number (`Ptr`) handed out by
  `kzalloc`; numbers are never handed out twice, so a freed record stays
  recognisable.  The records live in the maps `resources` and `maps` of the
  state; `none` means "not allocated / already freed".
* An intrusive `list_head` list is the list of the pointers of its members,
  newest first (`list_add` inserts at the head).
* `uint32_t` arithmetic is arithmetic modulo `2 ^ 32`, `uint8_t` arithmetic is
  arithmetic modulo `2 ^ 8`.
* Calls that leave the driver (remote memory service, cache maintenance,
  `do_munmap`, `ioremap`) are appended to `trace`; the reply of a remote call
  is an argument of the function that issues it, except for the reply to
  `vc_vchi_sm_free`, which is the field `vchi_free` of the state because the
  call sits inside `vmcs_sm_release_resource`.
* Dereferencing a freed record is undefined behaviour in C.  The embedding
  records it by setting `status := Status.fault`; from then on every function
  leaves the state alone.  `Status.out_of_fuel` marks a recursion or loop of the
  embedding that was cut short; it never stands for a behaviour of the driver.
* A run of the driver is a list of `Call`s (one `ioctl` each, together with the
  answers of the environment) applied to the state after start-up.
-/

namespace VcSm

/-- Address of a tracking record. -/
abbrev Ptr := Nat

/-! ## Constants -/

/-- Modelled from the spec: `PAGE_SHIFT` of the kernel headers (not under `src/`); the
driver itself calls 4096 "the kernel page size". -/
def PAGE_SHIFT : Nat := 12

/-- Modelled from the spec: `PAGE_SIZE` of the kernel headers, `1 << PAGE_SHIFT`. -/
def PAGE_SIZE : Nat := 4096

/-- Modelled from the spec: errno value `EPERM` of the kernel headers. -/
def EPERM : Int := 1

/-- Modelled from the spec: errno value `EINTR` of the kernel headers. -/
def EINTR : Int := 4

/-- Modelled from the spec: errno value `ENOMEM` of the kernel headers. -/
def ENOMEM : Int := 12

/-- Modelled from the spec: errno value `EFAULT` of the kernel headers. -/
def EFAULT : Int := 14

/-- Modelled from the spec: errno value `EINVAL` of the kernel headers. -/
def EINVAL : Int := 22

/-- Modelled from the spec: errno value `ERESTARTSYS` of the kernel headers. -/
def ERESTARTSYS : Int := 512

/-- Index `ALLOC` of `enum SM_STATS_T`. -/
def ALLOC : Nat := 0
/-- Index `FREE` of `enum SM_STATS_T`. -/
def FREE : Nat := 1
/-- Index `LOCK` of `enum SM_STATS_T`. -/
def LOCK : Nat := 2
/-- Index `UNLOCK` of `enum SM_STATS_T`. -/
def UNLOCK : Nat := 3
/-- Index `MAP` of `enum SM_STATS_T`. -/
def MAP : Nat := 4
/-- Index `FLUSH` of `enum SM_STATS_T`. -/
def FLUSH : Nat := 5
/-- Index `INVALID` of `enum SM_STATS_T`. -/
def INVALID : Nat := 6
/-- Index `END_ATTEMPT` of `enum SM_STATS_T`. -/
def END_ATTEMPT : Nat := 7
/-- Index `ALLOC_FAIL` of `enum SM_STATS_T`. -/
def ALLOC_FAIL : Nat := 8
/-- Index `FREE_FAIL` of `enum SM_STATS_T`. -/
def FREE_FAIL : Nat := 9
/-- Index `LOCK_FAIL` of `enum SM_STATS_T`. -/
def LOCK_FAIL : Nat := 10
/-- Index `UNLOCK_FAIL` of `enum SM_STATS_T`. -/
def UNLOCK_FAIL : Nat := 11
/-- Index `MAP_FAIL` of `enum SM_STATS_T`. -/
def MAP_FAIL : Nat := 12
/-- Index `FLUSH_FAIL` of `enum SM_STATS_T`. -/
def FLUSH_FAIL : Nat := 13
/-- Index `INVALID_FAIL` of `enum SM_STATS_T`. -/
def INVALID_FAIL : Nat := 14
/-- Number of counters, `END_ALL` of `enum SM_STATS_T`. -/
def END_ALL : Nat := 15

/-- Modelled from the spec: `VMCS_SM_CACHE_NONE` of the missing header `vmcs_sm_ioctl.h`
(index 0 of `sm_cache_map_vector`). -/
def VMCS_SM_CACHE_NONE : Nat := 0
/-- Modelled from the spec: `VMCS_SM_CACHE_HOST` of the missing header `vmcs_sm_ioctl.h`. -/
def VMCS_SM_CACHE_HOST : Nat := 1
/-- Modelled from the spec: `VMCS_SM_CACHE_VC` of the missing header `vmcs_sm_ioctl.h`. -/
def VMCS_SM_CACHE_VC : Nat := 2
/-- Modelled from the spec: `VMCS_SM_CACHE_BOTH` of the missing header `vmcs_sm_ioctl.h`. -/
def VMCS_SM_CACHE_BOTH : Nat := 3

/-- Modelled from the spec: the message kinds of the missing header `vc_sm_defs.h`; the
driver stores one of them in `int_action` when a remote call is interrupted.  A
record fresh from `kzalloc` holds the first one. -/
inductive VC_SM_MSG_TYPE
  | VC_SM_MSG_TYPE_ALLOC
  | VC_SM_MSG_TYPE_LOCK
  | VC_SM_MSG_TYPE_UNLOCK
  | VC_SM_MSG_TYPE_UNLOCK_NOANS
  | VC_SM_MSG_TYPE_FREE
  | VC_SM_MSG_TYPE_RESIZE
  | VC_SM_MSG_TYPE_WALK_ALLOC
  | VC_SM_MSG_TYPE_ACTION_CLEAN
  deriving DecidableEq, Repr

/-! ## Machine arithmetic -/

/-- Increment of a `uint32_t`. -/
def u32_inc (n : Nat) : Nat := (n + 1) % 4294967296

/-- Decrement of a `uint32_t`. -/
def u32_dec (n : Nat) : Nat := (n + 4294967295) % 4294967296

/-- Increment of a `uint8_t`. -/
def u8_inc (n : Nat) : Nat := (n + 1) % 256

/-- Addition of two `unsigned long`, 32 bits wide on the 32-bit ARM target. -/
def ulong_add (a b : Nat) : Nat := (a + b) % 4294967296

/-! ## Data model -/

/-- A call that leaves the driver. -/
inductive Event
  | vc_vchi_sm_alloc (cached : Bool) (base_unit num_unit alignement allocator : Nat)
  | vc_vchi_sm_free (res_handle res_mem : Nat)
  | vc_vchi_sm_lock (res_handle res_mem : Nat)
  | vc_vchi_sm_unlock (res_handle res_mem : Nat) (wait_reply : Nat)
  | vc_vchi_sm_resize (res_handle res_mem res_new_size : Nat)
  | vc_vchi_sm_clean_up (res_action : VC_SM_MSG_TYPE) (action_trans_id : Nat)
  | vc_vchi_sm_walk_alloc
  | do_munmap (mm addr len : Nat)
  | ioremap_cached (phys_addr size : Nat)
  | ioremap_nocache (phys_addr size : Nat)
  | iounmap (addr : Nat)
  | dmac_flush_range (start stop : Nat)
  | outer_clean_range (start stop : Nat)
  | outer_inv_range (start stop : Nat)
  | zap_vma_ptes (mm addr size : Nat)
  | vm_insert_pfn (mm addr pfn : Nat)
  deriving DecidableEq, Repr

/-- The record `struct sm_mmap`: one mapping of a resource. -/
structure sm_mmap where
  resource : Ptr
  res_pid : Nat
  res_vc_hdl : Nat
  res_usr_hdl : Nat
  res_addr : Nat
  vma : Option Ptr
  ref_count : Nat
  deriving DecidableEq, Repr

/-- The record `struct SM_RESOURCE_T`.  `priv` is the field `private` of the
source, the session the resource belongs to. -/
structure SM_RESOURCE_T where
  pid : Nat
  res_guid : Nat
  lock_count : Nat
  ref_count : Nat
  res_handle : Nat
  res_base_mem : Nat
  res_size : Nat
  res_cached : Nat
  res_shared : Option Ptr
  res_stats : List Nat
  map_count : Nat
  map_list : List Ptr
  priv : Ptr
  deriving DecidableEq, Repr

/-- The record `struct SM_PRIV_DATA_T`: one opened device (a session). -/
structure SM_PRIV_DATA_T where
  resource_list : List Ptr
  pid : Nat
  restart_sys : Int
  int_action : VC_SM_MSG_TYPE
  int_trans_id : Nat
  deriving DecidableEq, Repr

/-- The part of the kernel's `struct vm_area_struct` the driver reads: the
address space it belongs to, its bounds, and the mapping stored in
`vm_private_data`. -/
structure vm_area_struct where
  vm_mm : Nat
  vm_start : Nat
  vm_end : Nat
  vm_private_data : Ptr
  deriving DecidableEq, Repr

/-- Reply of the remote service to `vc_vchi_sm_free`: the status and the
transaction id written through the last argument. -/
structure FreeReply where
  status : Int
  trans_id : Nat
  deriving DecidableEq, Repr

/-- Whether the embedding is still following defined behaviour of the driver. -/
inductive Status
  | running
  | fault
  | out_of_fuel
  deriving DecidableEq, Repr

/-- The global `struct SM_STATE_T` (fields `map_list` to `guid`) together with
the memory the driver works on: the tracking records, the sessions, the user
address spaces (`vmas`, and `ptes mm addr` telling whether the page at `addr` of
address space `mm` has a present page-table entry), the external variable
`mm_vc_mem_phys_addr`, the allocator, the trace of outgoing calls and the
oracle for the replies to `vc_vchi_sm_free`. -/
structure SM_STATE_T where
  map_list : List Ptr
  resource_list : List Ptr
  deceased : List Nat
  terminated : List Nat
  res_deceased_cnt : Nat
  res_terminated_cnt : Nat
  data_knl : Ptr
  guid : Nat
  resources : Ptr → Option SM_RESOURCE_T
  maps : Ptr → Option sm_mmap
  sessions : Ptr → SM_PRIV_DATA_T
  vmas : List (Ptr × vm_area_struct)
  ptes : Nat → Nat → Bool
  mm_vc_mem_phys_addr : Nat
  brk : Ptr
  trace : List Event
  vchi_free : List Event → Nat → Nat → FreeReply
  status : Status

/-- A session record fresh from `kzalloc` and `INIT_LIST_HEAD`. -/
def SM_PRIV_DATA_T.zero : SM_PRIV_DATA_T :=
  { resource_list := [], pid := 0, restart_sys := 0,
    int_action := VC_SM_MSG_TYPE.VC_SM_MSG_TYPE_ALLOC, int_trans_id := 0 }

/-- A resource record fresh from `kzalloc` and `INIT_LIST_HEAD`. -/
def SM_RESOURCE_T.zero : SM_RESOURCE_T :=
  { pid := 0, res_guid := 0, lock_count := 0, ref_count := 0, res_handle := 0,
    res_base_mem := 0, res_size := 0, res_cached := 0, res_shared := none,
    res_stats := List.replicate 15 0, map_count := 0, map_list := [], priv := 0 }

/-- The state after `vc_sm_connected_init`: empty lists, zeroed counters, every
session record zeroed; `vf` is the behaviour of the remote service on free. -/
def SM_STATE_T.init (vf : List Event → Nat → Nat → FreeReply) : SM_STATE_T :=
  { map_list := [], resource_list := [], deceased := List.replicate 15 0,
    terminated := List.replicate 15 0, res_deceased_cnt := 0, res_terminated_cnt := 0,
    data_knl := 0, guid := 0, resources := fun _ => none, maps := fun _ => none,
    sessions := fun _ => SM_PRIV_DATA_T.zero, vmas := [], ptes := fun _ _ => false,
    mm_vc_mem_phys_addr := 0, brk := 1, trace := [],
    vchi_free := vf, status := Status.running }

/-! ## List and counter primitives -/

/-- The kernel's `list_del`: unlink a member from the list it is on. -/
def list_del (p : Ptr) (l : List Ptr) : List Ptr := l.filter (fun q => q != p)

/-- The statement `stats[ix]++` on an array of counters. -/
def stat_inc (st : List Nat) (ix : Nat) : List Nat := st.set ix (u32_inc (st.getD ix 0))

/-- The statement `stats[ix]--` on an array of counters. -/
def stat_dec (st : List Nat) (ix : Nat) : List Nat := st.set ix (u32_dec (st.getD ix 0))

/-- The loop `for (ix = 0; ix < END_ALL; ix++) acc[ix] += stats[ix]`. -/
def stats_add (acc stats : List Nat) : List Nat :=
  (List.range END_ALL).map (fun ix => (acc.getD ix 0 + stats.getD ix 0) % 4294967296)

/-- Mark the state as having dereferenced a freed record. -/
@[simp]
def SM_STATE_T.crash (s : SM_STATE_T) : SM_STATE_T := { s with status := Status.fault }

/-- Store a resource record. -/
@[simp]
def SM_STATE_T.set_res (s : SM_STATE_T) (p : Ptr) (r : SM_RESOURCE_T) : SM_STATE_T :=
  { s with resources := Function.update s.resources p (some r) }

/-! ## Mappings -/

/-- Source function `vmcs_sm_add_map`: link a mapping into the global list and
into the list of its resource, and count it. -/
def vmcs_sm_add_map (s : SM_STATE_T) (resource : Ptr) (map : Ptr) : SM_STATE_T :=
  if s.status ≠ Status.running then s else
  match s.resources resource with
  | none => s.crash
  | some r =>
    { s with
      map_list := map :: s.map_list
      resources := Function.update s.resources resource
        (some { r with map_list := map :: r.map_list, map_count := u8_inc r.map_count }) }

/-- Source function `vmcs_sm_remove_map`: unlink a mapping from both lists, lower
`map_count` unless it is already zero, and free the mapping record. -/
def vmcs_sm_remove_map (s : SM_STATE_T) (resource : Ptr) (map : Ptr) : SM_STATE_T :=
  if s.status ≠ Status.running then s else
  match s.resources resource with
  | none => s.crash
  | some r =>
    { s with
      map_list := list_del map s.map_list
      resources := Function.update s.resources resource
        (some { r with
                map_list := list_del map r.map_list
                map_count := if r.map_count > 0 then r.map_count - 1 else r.map_count })
      maps := Function.update s.maps map none }

/-- Source function `vcsm_vma_close`: drop one attachment of the mapping behind a
VMA and remove the mapping when none is left. -/
def vcsm_vma_close (s : SM_STATE_T) (vma : vm_area_struct) : SM_STATE_T :=
  if s.status ≠ Status.running then s else
  match s.maps vma.vm_private_data with
  | none => s.crash
  | some m =>
    let m1 := { m with ref_count := u32_dec m.ref_count }
    let s1 := { s with maps := Function.update s.maps vma.vm_private_data (some m1) }
    if m1.ref_count = 0 then vmcs_sm_remove_map s1 m1.resource vma.vm_private_data else s1

/-- Source function `vcsm_vma_open`: one more attachment of the mapping behind
a VMA. -/
def vcsm_vma_open (s : SM_STATE_T) (vma : vm_area_struct) : SM_STATE_T :=
  if s.status ≠ Status.running then s else
  match s.maps vma.vm_private_data with
  | none => s.crash
  | some m =>
    { s with maps := Function.update s.maps vma.vm_private_data
               (some { m with ref_count := u32_inc m.ref_count }) }

/-- The kernel's `do_munmap` as the driver sees it: every VMA of address space
`mm` that lies inside `[start, start + len)` is detached and its `close`
handler (`vcsm_vma_close`) runs.  VMAs that only overlap the range are left
alone (the kernel would split them, which nets to no call of `close` on the
surviving part).  The page-table entries of the detached VMAs are dropped. -/
def do_munmap (s : SM_STATE_T) (mm start len : Nat) : SM_STATE_T :=
  if s.status ≠ Status.running then s else
  let hit : Ptr × vm_area_struct → Bool := fun v =>
    v.2.vm_mm == mm && decide (start ≤ v.2.vm_start) && decide (v.2.vm_end ≤ start + len)
  let gone : Nat → Bool := fun a =>
    (s.vmas.filter hit).any (fun v => decide (v.2.vm_start ≤ a) && decide (a < v.2.vm_end))
  let s1 := { s with trace := s.trace ++ [Event.do_munmap mm start len]
                     vmas := s.vmas.filter (fun v => !hit v)
                     ptes := fun m a => if m = mm ∧ gone a = true then false else s.ptes m a }
  (s.vmas.filter hit).foldl (fun st v => vcsm_vma_close st v.2) s1

/-! ## Acquiring and releasing resources -/

/-- The loop `list_for_each_entry` of the acquire functions: the first member of
`l` whose `res_guid` is `res_guid`. -/
def find_guid (res : Ptr → Option SM_RESOURCE_T) (l : List Ptr) (res_guid : Nat) :
    Option Ptr :=
  l.find? (fun p =>
    match res p with
    | some r => r.res_guid == res_guid
    | none => false)

/-- The statement `resource->ref_count++; ret = resource;` of the acquire
functions. -/
def take_ref (s : SM_STATE_T) (p : Ptr) : SM_STATE_T × Option Ptr :=
  match s.resources p with
  | none => (s.crash, none)
  | some r => (s.set_res p { r with ref_count := u32_inc r.ref_count }, some p)

/-- Source function `vmcs_sm_acquire_resource`: look `res_guid` up in the list of
the session and take a reference on the resource found. -/
def vmcs_sm_acquire_resource (s : SM_STATE_T) (priv : Ptr) (res_guid : Nat) :
    SM_STATE_T × Option Ptr :=
  if s.status ≠ Status.running then (s, none) else
  match find_guid s.resources (s.sessions priv).resource_list res_guid with
  | none => (s, none)
  | some p => take_ref s p

/-- Source function `vmcs_sm_acquire_first_resource`: take a reference on the
first resource of the session. -/
def vmcs_sm_acquire_first_resource (s : SM_STATE_T) (priv : Ptr) :
    SM_STATE_T × Option Ptr :=
  if s.status ≠ Status.running then (s, none) else
  match (s.sessions priv).resource_list with
  | [] => (s, none)
  | p :: _ => take_ref s p

/-- Source function `vmcs_sm_acquire_global_resource`: look `res_guid` up in the
global list and take a reference on the resource found. -/
def vmcs_sm_acquire_global_resource (s : SM_STATE_T) (res_guid : Nat) :
    SM_STATE_T × Option Ptr :=
  if s.status ≠ Status.running then (s, none) else
  match find_guid s.resources s.resource_list res_guid with
  | none => (s, none)
  | some p => take_ref s p

/-- Source function `vc_sm_resource_deceased`: carry the statistics of a dying
resource over to the global counters, as a forced (`terminated`) or a natural
termination. -/
def vc_sm_resource_deceased (s : SM_STATE_T) (p_res : Ptr) (terminated : Bool) : SM_STATE_T :=
  if s.status ≠ Status.running then s else
  match s.resources p_res with
  | none => s.crash
  | some r =>
    if terminated then
      { s with res_terminated_cnt := u32_inc s.res_terminated_cnt
               terminated := stats_add s.terminated r.res_stats }
    else
      { s with res_deceased_cnt := u32_inc s.res_deceased_cnt
               deceased := stats_add s.deceased r.res_stats }

/-- The kernel's `kfree` on a resource record. -/
def kfree_resource (s : SM_STATE_T) (p : Ptr) : SM_STATE_T :=
  if s.status ≠ Status.running then s else
  { s with resources := Function.update s.resources p none }

/-- The walk of the global list in `vmcs_sm_release_resource`: is there a
registered resource with remote handle `h`? -/
def handle_in_use (res : Ptr → Option SM_RESOURCE_T) (l : List Ptr) (h : Nat) : Bool :=
  l.any (fun q =>
    match res q with
    | some rq => rq.res_handle == h
    | none => false)

/-- First part of the teardown in `vmcs_sm_release_resource`: `list_del` from the
session list and the global list, clear `res_handle` when another registered
resource has the same remote handle, and count the free attempt. -/
def release_unlink (s : SM_STATE_T) (p : Ptr) : SM_STATE_T :=
  if s.status ≠ Status.running then s else
  match s.resources p with
  | none => s.crash
  | some r =>
    let f := s.sessions r.priv
    let s1 := { s with
      sessions := Function.update s.sessions r.priv
        { f with resource_list := list_del p f.resource_list }
      resource_list := list_del p s.resource_list }
    let h := if handle_in_use s1.resources s1.resource_list r.res_handle then 0 else r.res_handle
    s1.set_res p { r with res_handle := h, res_stats := stat_inc r.res_stats FREE }

/-- Second part of the teardown: "make sure the resource we're removing is
unmapped first", one `do_munmap` on the current address space per mapping
still on the resource's list. -/
def release_unmap (s : SM_STATE_T) (cur : Nat) (p : Ptr) : SM_STATE_T :=
  if s.status ≠ Status.running then s else
  match s.resources p with
  | none => s.crash
  | some r =>
    if r.map_count ≠ 0 ∧ r.map_list ≠ [] then
      r.map_list.foldl (fun st mp =>
        if st.status ≠ Status.running then st else
        match st.maps mp, st.resources p with
        | some m, some r1 => do_munmap st cur m.res_addr r1.res_size
        | _, _ => st.crash) s
    else s

/-- Third part of the teardown: the remote free, issued only when `res_handle`
is still set; a failure other than an interruption is counted in `FREE_FAIL`. -/
def release_vc_free (s : SM_STATE_T) (p : Ptr) : SM_STATE_T :=
  if s.status ≠ Status.running then s else
  match s.resources p with
  | none => s.crash
  | some r =>
    if r.res_handle = 0 then s else
    let reply := s.vchi_free s.trace r.res_handle r.res_base_mem
    let f := s.sessions r.priv
    let s1 := { s with
      trace := s.trace ++ [Event.vc_vchi_sm_free r.res_handle r.res_base_mem]
      sessions := Function.update s.sessions r.priv { f with int_trans_id := reply.trans_id } }
    if reply.status ≠ 0 ∧ reply.status ≠ -EINTR then
      s1.set_res p { r with res_stats := stat_inc r.res_stats FREE_FAIL }
    else s1

/-- The alias link `resource->res_shared` read during the teardown. -/
def shared_of (s : SM_STATE_T) (p : Ptr) : Option Ptr :=
  match s.resources p with
  | some r => r.res_shared
  | none => none

/-- Source function `vmcs_sm_release_resource` with an explicit bound on the depth of
the recursion through `res_shared`. -/
def release_aux : Nat → SM_STATE_T → Nat → Ptr → Bool → SM_STATE_T
  | 0, s, _, _, _ =>
    if s.status ≠ Status.running then s else { s with status := Status.out_of_fuel }
  | fuel + 1, s, cur, p, force =>
    if s.status ≠ Status.running then s else
    match s.resources p with
    | none => s.crash
    | some r =>
      let s0 := s.set_res p { r with ref_count := u32_dec r.ref_count }
      if u32_dec r.ref_count ≠ 0 then s0 else
      let s1 := release_vc_free (release_unmap (release_unlink s0 p) cur p) p
      let s2 :=
        match shared_of s1 p with
        | some q => release_aux fuel s1 cur q false
        | none => s1
      kfree_resource (vc_sm_resource_deceased s2 p force) p

/-- Source function `vmcs_sm_release_resource`.  An alias is always allocated after
the resource it shares, so `resource + 1` levels of recursion are enough. -/
def vmcs_sm_release_resource (s : SM_STATE_T) (cur : Nat) (resource : Ptr) (force : Bool) :
    SM_STATE_T :=
  release_aux (resource + 1) s cur resource force

/-- Source function `vmcs_sm_add_resource`: link a resource into the list of its
session and into the global list. -/
def vmcs_sm_add_resource (s : SM_STATE_T) (privdata : Ptr) (resource : Ptr) : SM_STATE_T :=
  if s.status ≠ Status.running then s else
  let f := s.sessions privdata
  { s with
    sessions := Function.update s.sessions privdata
      { f with resource_list := resource :: f.resource_list }
    resource_list := resource :: s.resource_list }

/-! ## Allocation, sharing and freeing -/

/-- The fields of `struct vmcs_sm_ioctl_alloc` (header not under `src/`) the driver
uses. -/
structure vmcs_sm_ioctl_alloc where
  size : Nat
  num : Nat
  cached : Nat
  handle : Nat
  deriving DecidableEq, Repr

/-- The fields of `struct vmcs_sm_ioctl_alloc_share` the driver uses. -/
structure vmcs_sm_ioctl_alloc_share where
  handle : Nat
  size : Nat
  deriving DecidableEq, Repr

/-- The field of `struct vmcs_sm_ioctl_free` the driver uses. -/
structure vmcs_sm_ioctl_free where
  handle : Nat
  deriving DecidableEq, Repr

/-- Reply of the remote service to `vc_vchi_sm_alloc`: the status, the result
record `VC_SM_ALLOC_RESULT_T` and the transaction id. -/
structure AllocReply where
  status : Int
  res_handle : Nat
  res_mem : Nat
  trans_id : Nat
  deriving DecidableEq, Repr

/-- The expression `(base_unit + alignement - 1) & ~(alignement - 1)` on
`uint32_t` operands. -/
def align_unit (base_unit alignement : Nat) : Nat :=
  ((base_unit + alignement - 1) % 4294967296) &&& (4294967295 - (alignement - 1))

/-- The statements `resource->res_guid = ++sm_state->guid; resource->res_guid <<=
PAGE_SHIFT;` on `uint32_t` operands: the new counter and the GUID. -/
def next_guid (guid : Nat) : Nat × Nat :=
  (u32_inc guid, (u32_inc guid <<< PAGE_SHIFT) % 4294967296)

/-- The error exit of `vc_sm_ioctl_alloc` once the tracking record exists: the
record is accounted as a forced termination and freed. -/
def alloc_discard (s : SM_STATE_T) (p : Ptr) : SM_STATE_T :=
  kfree_resource (vc_sm_resource_deceased s p true) p

/-- Source function `vc_sm_ioctl_alloc`.  `cur` is `current->tgid`, `kz` tells whether
`kzalloc` succeeds, `reply` is the answer of the remote service. -/
def vc_sm_ioctl_alloc (s : SM_STATE_T) (priv : Ptr) (cur : Nat) (ioparam : vmcs_sm_ioctl_alloc)
    (kz : Bool) (reply : AllocReply) : SM_STATE_T × Int × vmcs_sm_ioctl_alloc :=
  if s.status ≠ Status.running then (s, 0, ioparam) else
  let cached := ioparam.cached == VMCS_SM_CACHE_VC || ioparam.cached == VMCS_SM_CACHE_BOTH
  let alignement := 4096
  let base_unit := align_unit ioparam.size alignement
  if kz = false then (s, -ENOMEM, ioparam) else
  let p := s.brk
  let r0 : SM_RESOURCE_T := { SM_RESOURCE_T.zero with ref_count := u32_inc 0, pid := cur }
  let f := s.sessions priv
  let s1 := { s with
    brk := s.brk + 1
    resources := Function.update s.resources p (some r0)
    trace := s.trace ++ [Event.vc_vchi_sm_alloc cached base_unit ioparam.num alignement cur]
    sessions := Function.update s.sessions priv { f with int_trans_id := reply.trans_id } }
  if reply.status = -EINTR then
    let f1 := s1.sessions priv
    let s2 := { s1 with
      sessions := Function.update s1.sessions priv
        { f1 with restart_sys := -EINTR, int_action := VC_SM_MSG_TYPE.VC_SM_MSG_TYPE_ALLOC } }
    (alloc_discard s2 p, -ERESTARTSYS, ioparam)
  else if reply.status ≠ 0 ∨ reply.res_mem = 0 then
    let s2 := s1.set_res p { r0 with res_stats := stat_inc r0.res_stats ALLOC_FAIL }
    (alloc_discard s2 p, -ENOMEM, ioparam)
  else
    let g := next_guid s1.guid
    let r1 : SM_RESOURCE_T := { r0 with
      priv := priv
      res_handle := reply.res_handle
      res_base_mem := reply.res_mem
      res_size := (base_unit * ioparam.num) % 4294967296
      res_cached := ioparam.cached
      res_guid := g.2 }
    let s2 := vmcs_sm_add_resource ({ s1 with guid := g.1 }.set_res p r1) priv p
    let s3 := s2.set_res p { r1 with res_stats := stat_inc r1.res_stats ALLOC }
    (s3, 0, { ioparam with handle := r1.res_guid })

/-- Source function `vc_sm_ioctl_alloc_share`. -/
def vc_sm_ioctl_alloc_share (s : SM_STATE_T) (priv : Ptr) (cur : Nat)
    (ioparam : vmcs_sm_ioctl_alloc_share) (kz : Bool) :
    SM_STATE_T × Int × vmcs_sm_ioctl_alloc_share :=
  if s.status ≠ Status.running then (s, 0, ioparam) else
  match vmcs_sm_acquire_global_resource s ioparam.handle with
  | (s1, none) => (s1, -ENOMEM, ioparam)
  | (s1, some shared_resource) =>
    if kz = false then
      (vmcs_sm_release_resource s1 cur shared_resource false, -ENOMEM, ioparam)
    else
      match s1.resources shared_resource with
      | none => (s1.crash, 0, ioparam)
      | some sh =>
        let p := s1.brk
        let g := next_guid s1.guid
        let r1 : SM_RESOURCE_T := { SM_RESOURCE_T.zero with
          ref_count := u32_inc 0
          pid := cur
          priv := priv
          res_handle := sh.res_handle
          res_base_mem := sh.res_base_mem
          res_size := sh.res_size
          res_cached := sh.res_cached
          res_shared := some shared_resource
          res_guid := g.2 }
        let s2 := { s1 with brk := s1.brk + 1, guid := g.1 }.set_res p r1
        let s3 := vmcs_sm_add_resource s2 priv p
        let s4 := s3.set_res p { r1 with res_stats := stat_inc r1.res_stats ALLOC }
        (s4, 0, { handle := r1.res_guid, size := r1.res_size })

/-- Source function `vc_sm_ioctl_free`. -/
def vc_sm_ioctl_free (s : SM_STATE_T) (priv : Ptr) (cur : Nat) (ioparam : vmcs_sm_ioctl_free) :
    SM_STATE_T × Int :=
  if s.status ≠ Status.running then (s, 0) else
  match vmcs_sm_acquire_resource s priv ioparam.handle with
  | (s1, none) => (s1, -EINVAL)
  | (s1, some resource) =>
    match s1.resources resource with
    | none => (s1.crash, 0)
    | some r =>
      if r.pid ≠ 0 ∧ r.pid ≠ cur then
        (vmcs_sm_release_resource s1 cur resource false, -EPERM)
      else
        (vmcs_sm_release_resource (vmcs_sm_release_resource s1 cur resource false)
          cur resource false, 0)

/-! ## Closing a session -/

/-- The loop `while ((resource = vmcs_sm_acquire_first_resource(file_data)) != NULL)`
of `vc_sm_release`, cut after `fuel` iterations. -/
def release_all : Nat → SM_STATE_T → Nat → Ptr → SM_STATE_T
  | 0, s, _, _ =>
    if s.status ≠ Status.running then s else { s with status := Status.out_of_fuel }
  | fuel + 1, s, cur, file_data =>
    match vmcs_sm_acquire_first_resource s file_data with
    | (s1, none) => s1
    | (s1, some resource) =>
      release_all fuel
        (vmcs_sm_release_resource (vmcs_sm_release_resource s1 cur resource false)
          cur resource true)
        cur file_data

/-- The remote clean-up of an interrupted action issued by `vc_sm_release`; the
pending mark is left as it is. -/
def release_clean_up (s : SM_STATE_T) (file_data : Ptr) : SM_STATE_T :=
  if s.status ≠ Status.running then s else
  let f := s.sessions file_data
  if f.restart_sys = -EINTR then
    { s with trace := s.trace ++ [Event.vc_vchi_sm_clean_up f.int_action f.int_trans_id] }
  else s

/-- Source function `vc_sm_release` (closing the device).  The session record itself
is kept so that its final list can be looked at; `kfree(file_data)` and the
removal of the proc entries are not represented. -/
def vc_sm_release (fuel : Nat) (s : SM_STATE_T) (cur : Nat) (file_data : Ptr) : SM_STATE_T :=
  release_all fuel (release_clean_up s file_data) cur file_data

/-! ## Locking and unlocking -/

/-- The fields of `struct vmcs_sm_ioctl_lock_unlock` the driver uses. -/
structure vmcs_sm_ioctl_lock_unlock where
  handle : Nat
  addr : Nat
  deriving DecidableEq, Repr

/-- Reply of the remote service to `vc_vchi_sm_lock`: the status, the result
record `VC_SM_LOCK_RESULT_T` and the transaction id. -/
structure LockReply where
  status : Int
  res_mem : Nat
  res_old_mem : Nat
  trans_id : Nat
  deriving DecidableEq, Repr

/-- Reply of the remote service to `vc_vchi_sm_unlock`. -/
structure UnlockReply where
  status : Int
  trans_id : Nat
  deriving DecidableEq, Repr

/-- Source function `vmcs_sm_usr_address_from_pid_and_usr_handle`: the address of the
first mapping in the global list recorded for `pid` and user handle `hdl`, 0 if
there is none. -/
def vmcs_sm_usr_address_from_pid_and_usr_handle (s : SM_STATE_T) (pid hdl : Nat) : Nat :=
  if hdl = 0 then 0 else
  match s.map_list.find? (fun mp =>
    match s.maps mp with
    | some m => m.res_pid == pid && m.res_usr_hdl == hdl
    | none => false) with
  | none => 0
  | some mp =>
    match s.maps mp with
    | some m => m.res_addr
    | none => 0

/-- The loop over `resource->map_list` that stops at the first mapping with a non
null `res_addr` (the kernel window of a kernel-owned resource). -/
def first_window (s : SM_STATE_T) (l : List Ptr) : Option Ptr :=
  l.find? (fun mp =>
    match s.maps mp with
    | some m => m.res_addr != 0
    | none => false)

/-- The statements `iounmap(map->res_addr); map->res_addr = 0;
vmcs_sm_remove_map(sm_state, map->resource, map);` on a kernel window. -/
def drop_window (s : SM_STATE_T) (mp : Ptr) : SM_STATE_T :=
  if s.status ≠ Status.running then s else
  match s.maps mp with
  | none => s.crash
  | some m =>
    let s1 := { s with
      trace := s.trace ++ [Event.iounmap m.res_addr]
      maps := Function.update s.maps mp (some { m with res_addr := 0 }) }
    vmcs_sm_remove_map s1 m.resource mp

/-- The address `(res_base_mem & 0x3FFFFFFF) + mm_vc_mem_phys_addr`. -/
def phys_of (s : SM_STATE_T) (res_base_mem : Nat) : Nat :=
  ((res_base_mem % 4294967296 &&& 1073741823) + s.mm_vc_mem_phys_addr) % 4294967296

/-- What `vcsm_vma_cache_clean_page_range` does on the bounds of a VMA, which the
kernel keeps page-aligned, below `2 ^ 32`: one `dmac_flush_range` per page of
`[addr, stop)` that has a present page-table entry in the current address
space.  The unlock path runs it on `vma->vm_start`, `vma->vm_end` only; the
function itself, loop by loop and for any bounds, is `clean_page_range_walk`,
which the commands `FLUSH` and `INVALID` run on the bounds the caller gives. -/
def vcsm_vma_cache_clean_page_range (s : SM_STATE_T) (cur addr stop : Nat) : SM_STATE_T :=
  if s.status ≠ Status.running then s else
  if addr ≥ stop then s else
  let pages := (List.range ((stop - addr + (PAGE_SIZE - 1)) / PAGE_SIZE)).map
    (fun i => addr + i * PAGE_SIZE)
  { s with trace := s.trace ++
      (pages.filter (fun a => s.ptes cur a)).map (fun a => Event.dmac_flush_range a (a + PAGE_SIZE)) }

/-- The kernel's `zap_vma_ptes` as the driver sees it: the page-table entries of
`[addr, addr + size)` in address space `mm` are dropped. -/
def zap_vma_ptes (s : SM_STATE_T) (mm addr size : Nat) : SM_STATE_T :=
  if s.status ≠ Status.running then s else
  { s with
    trace := s.trace ++ [Event.zap_vma_ptes mm addr size]
    ptes := fun m a => if m = mm ∧ addr ≤ a ∧ a < addr + size then false else s.ptes m a }

/-- The loop body `if (map->vma) k(map->vma)` over the mappings of a resource:
a mapping without VMA is skipped, a freed mapping or a VMA that no longer
exists is a fault. -/
def with_vma (s : SM_STATE_T) (mp : Ptr) (k : SM_STATE_T → vm_area_struct → SM_STATE_T) :
    SM_STATE_T :=
  if s.status ≠ Status.running then s else
  match s.maps mp with
  | none => s.crash
  | some m =>
    match m.vma with
    | none => s
    | some v =>
      match s.vmas.find? (fun x => x.1 == v) with
      | some x => k s x.2
      | none => s.crash

/-- The part of `vc_sm_ioctl_lock` that follows a successful lock when the
resource has no mapping yet: a kernel-owned resource gets a window through
`ioremap`, registered as a mapping owned by pid 0; `ioremap_ret` is the address
`ioremap` returns.  The result is the new state, the status and `ioparam->addr`. -/
def lock_window (s : SM_STATE_T) (p : Ptr) (kz : Bool) (ioremap_ret : Nat) :
    SM_STATE_T × Int × Nat :=
  match s.resources p with
  | none => (s.crash, 0, 0)
  | some r =>
    if r.pid = 0 then
      if kz = false then (s, -ENOMEM, 0) else
      let phys_addr := phys_of s r.res_base_mem
      let ev := if r.res_cached = VMCS_SM_CACHE_HOST
        then Event.ioremap_cached phys_addr r.res_size
        else Event.ioremap_nocache phys_addr r.res_size
      let mp := s.brk
      let m : sm_mmap :=
        { resource := p, res_pid := 0, res_vc_hdl := r.res_handle, res_usr_hdl := r.res_guid,
          res_addr := ioremap_ret, vma := none, ref_count := 0 }
      let s1 := { s with
        brk := s.brk + 1
        trace := s.trace ++ [ev]
        maps := Function.update s.maps mp (some m) }
      (vmcs_sm_add_map s1 p mp, 0, ioremap_ret)
    else (s, 0, 0)

/-- The body of `vc_sm_ioctl_lock` between the permission check and the label
`error`, for a resource `p` on which a reference is held. -/
def lock_body (s : SM_STATE_T) (priv : Ptr) (cur : Nat) (p : Ptr)
    (ioparam : vmcs_sm_ioctl_lock_unlock) (change_cache : Bool) (cache_type : Nat)
    (vc_addr : Nat) (reply : LockReply) (kz : Bool) (ioremap_ret : Nat) :
    SM_STATE_T × Int × vmcs_sm_ioctl_lock_unlock :=
  match s.resources p with
  | none => (s.crash, 0, ioparam)
  | some r =>
    let f := s.sessions priv
    -- the remote lock, or the address passed in
    let s1 :=
      if vc_addr = 0 then
        { s with
          trace := s.trace ++ [Event.vc_vchi_sm_lock r.res_handle r.res_base_mem]
          sessions := Function.update s.sessions priv { f with int_trans_id := reply.trans_id } }
      else s.set_res p { r with res_base_mem := vc_addr }
    if vc_addr = 0 ∧ reply.status = -EINTR then
      let f1 := s1.sessions priv
      ({ s1 with
          sessions := Function.update s1.sessions priv
            { f1 with restart_sys := -EINTR, int_action := VC_SM_MSG_TYPE.VC_SM_MSG_TYPE_LOCK } },
        -ERESTARTSYS, ioparam)
    else if vc_addr = 0 ∧ (reply.status ≠ 0 ∨ reply.res_mem = 0) then
      (s1.set_res p { r with res_stats := stat_inc r.res_stats LOCK_FAIL }, -EPERM, ioparam)
    else
      let ra : SM_RESOURCE_T := if vc_addr = 0 then r else { r with res_base_mem := vc_addr }
      let rb : SM_RESOURCE_T :=
        { ra with res_stats := stat_inc ra.res_stats LOCK, lock_count := u32_inc ra.lock_count }
      let moved : Bool :=
        decide (vc_addr = 0) && (reply.res_mem != 0) && (reply.res_old_mem != 0)
          && (reply.res_mem != reply.res_old_mem)
      let rc : SM_RESOURCE_T := if moved then { rb with res_base_mem := reply.res_mem } else rb
      let s2 := s1.set_res p rc
      -- a kernel-owned resource that moved loses its window
      let s3 :=
        if moved = true ∧ rc.pid = 0 then
          match first_window s2 rc.map_list with
          | some mp => drop_window s2 mp
          | none => s2
        else s2
      match s3.resources p with
      | none => (s3.crash, 0, ioparam)
      | some rd =>
        let re : SM_RESOURCE_T := if change_cache then { rd with res_cached := cache_type } else rd
        let s4 := s3.set_res p re
        if re.map_count ≠ 0 then
          (s4, 0, { ioparam with
            addr := vmcs_sm_usr_address_from_pid_and_usr_handle s4 cur ioparam.handle })
        else
          let w := lock_window s4 p kz ioremap_ret
          (w.1, w.2.1, { ioparam with addr := w.2.2 })

/-- Source function `vc_sm_ioctl_lock`. -/
def vc_sm_ioctl_lock (s : SM_STATE_T) (priv : Ptr) (cur : Nat)
    (ioparam : vmcs_sm_ioctl_lock_unlock) (change_cache : Bool) (cache_type : Nat)
    (vc_addr : Nat) (reply : LockReply) (kz : Bool) (ioremap_ret : Nat) :
    SM_STATE_T × Int × vmcs_sm_ioctl_lock_unlock :=
  if s.status ≠ Status.running then (s, 0, ioparam) else
  match vmcs_sm_acquire_resource s priv ioparam.handle with
  | (s1, none) => (s1, -EINVAL, ioparam)
  | (s1, some resource) =>
    match s1.resources resource with
    | none => (s1.crash, 0, ioparam)
    | some r =>
      if r.pid ≠ 0 ∧ r.pid ≠ cur then
        (vmcs_sm_release_resource s1 cur resource false, -EPERM, ioparam)
      else
        let b := lock_body s1 priv cur resource ioparam change_cache cache_type vc_addr
          reply kz ioremap_ret
        (vmcs_sm_release_resource b.1 cur resource false, b.2.1, b.2.2)

/-- The cache maintenance and unmapping that `vc_sm_ioctl_unlock` performs before
the remote unlock, for a resource `p` on which a reference is held. -/
def unlock_prepare (s : SM_STATE_T) (cur : Nat) (p : Ptr) (flush : Bool) : SM_STATE_T :=
  match s.resources p with
  | none => s.crash
  | some r =>
    if r.pid ≠ 0 then
      -- user space allocated resources
      let s1 :=
        if r.res_cached ≠ 0 ∧ flush = true then
          let s0 := s.set_res p { r with res_stats := stat_inc r.res_stats FLUSH }
          let phys_addr := phys_of s r.res_base_mem
          let s01 := r.map_list.foldl (fun st mp =>
            with_vma st mp (fun st1 v =>
              vcsm_vma_cache_clean_page_range st1 cur v.vm_start v.vm_end)) s0
          { s01 with trace := s01.trace ++
              [Event.outer_clean_range phys_addr (ulong_add phys_addr r.res_size)] }
        else s
      if r.lock_count = 1 then
        r.map_list.foldl (fun st mp =>
          with_vma st mp (fun st1 v =>
            zap_vma_ptes st1 v.vm_mm v.vm_start (v.vm_end - v.vm_start))) s1
      else s1
    else
      -- kernel allocated resources
      if r.ref_count = 2 then
        match first_window s r.map_list with
        | none => s
        | some mp =>
          match s.maps mp with
          | none => s.crash
          | some m =>
            let s1 :=
              if flush = true ∧ r.res_cached = VMCS_SM_CACHE_HOST then
                let phys_addr := phys_of s r.res_base_mem
                { s with trace := s.trace ++
                    [Event.dmac_flush_range m.res_addr (ulong_add m.res_addr r.res_size),
                     Event.outer_clean_range phys_addr (ulong_add phys_addr r.res_size)] }
              else s
            drop_window s1 mp
      else s

/-- The remote unlock of `vc_sm_ioctl_unlock` and the bookkeeping after it, with
`unlock_handle` and `unlock_mem` the handle and address read before the cache
maintenance. -/
def unlock_remote (s : SM_STATE_T) (priv : Ptr) (p : Ptr) (unlock_handle unlock_mem : Nat)
    (wait_reply : Nat) (no_vc_unlock : Bool) (reply : UnlockReply) : SM_STATE_T × Int :=
  if s.status ≠ Status.running then (s, 0) else
  match s.resources p with
  | none => (s.crash, 0)
  | some r =>
    if r.lock_count = 0 then (s, 0) else
    let done : SM_STATE_T → SM_RESOURCE_T → SM_STATE_T := fun st rr =>
      st.set_res p { rr with res_stats := stat_inc rr.res_stats UNLOCK,
                             lock_count := u32_dec rr.lock_count }
    if no_vc_unlock then (done s r, 0) else
    let f := s.sessions priv
    let s1 := { s with
      trace := s.trace ++ [Event.vc_vchi_sm_unlock unlock_handle unlock_mem wait_reply]
      sessions := Function.update s.sessions priv { f with int_trans_id := reply.trans_id } }
    if reply.status = -EINTR then
      let f1 := s1.sessions priv
      let s2 := s1.set_res p { r with res_stats := stat_dec r.res_stats UNLOCK }
      ({ s2 with
          sessions := Function.update s2.sessions priv
            { f1 with restart_sys := -EINTR, int_action := VC_SM_MSG_TYPE.VC_SM_MSG_TYPE_UNLOCK } },
        -ERESTARTSYS)
    else if reply.status ≠ 0 then
      (s1.set_res p { r with res_stats := stat_inc r.res_stats UNLOCK_FAIL }, -EPERM)
    else (done s1 r, 0)

/-- Source function `vc_sm_ioctl_unlock`. -/
def vc_sm_ioctl_unlock (s : SM_STATE_T) (priv : Ptr) (cur : Nat)
    (ioparam : vmcs_sm_ioctl_lock_unlock) (flush : Bool) (wait_reply : Nat)
    (no_vc_unlock : Bool) (reply : UnlockReply) : SM_STATE_T × Int :=
  if s.status ≠ Status.running then (s, 0) else
  match vmcs_sm_acquire_resource s priv ioparam.handle with
  | (s1, none) => (s1, -EINVAL)
  | (s1, some resource) =>
    match s1.resources resource with
    | none => (s1.crash, 0)
    | some r =>
      if r.pid ≠ 0 ∧ r.pid ≠ cur then
        (vmcs_sm_release_resource s1 cur resource false, -EPERM)
      else
        let s2 := unlock_prepare s1 cur resource flush
        let u := unlock_remote s2 priv resource r.res_handle r.res_base_mem wait_reply
          no_vc_unlock reply
        (vmcs_sm_release_resource u.1 cur resource false, u.2)

/-! ## Resizing -/

/-- The fields of `struct vmcs_sm_ioctl_resize` the driver uses. -/
structure vmcs_sm_ioctl_resize where
  handle : Nat
  new_size : Nat
  old_size : Nat
  deriving DecidableEq, Repr

/-- Reply of the remote service to `vc_vchi_sm_resize`. -/
structure ResizeReply where
  status : Int
  trans_id : Nat
  deriving DecidableEq, Repr

/-- Source function `vc_sm_ioctl_resize`. -/
def vc_sm_ioctl_resize (s : SM_STATE_T) (priv : Ptr) (cur : Nat)
    (ioparam : vmcs_sm_ioctl_resize) (reply : ResizeReply) :
    SM_STATE_T × Int × vmcs_sm_ioctl_resize :=
  if s.status ≠ Status.running then (s, 0, ioparam) else
  match vmcs_sm_acquire_resource s priv ioparam.handle with
  | (s1, none) => (s1, -EFAULT, ioparam)
  | (s1, some resource) =>
    match s1.resources resource with
    | none => (s1.crash, 0, ioparam)
    | some r =>
      if r.lock_count ≠ 0 then
        (vmcs_sm_release_resource s1 cur resource false, -EFAULT, ioparam)
      else if r.pid ≠ 0 ∧ r.pid ≠ cur then
        (vmcs_sm_release_resource s1 cur resource false, -EPERM, ioparam)
      else if r.map_count ≠ 0 then
        (vmcs_sm_release_resource s1 cur resource false, -EFAULT, ioparam)
      else
        let f := s1.sessions priv
        let s2 := { s1 with
          trace := s1.trace ++
            [Event.vc_vchi_sm_resize r.res_handle r.res_base_mem ioparam.new_size]
          sessions := Function.update s1.sessions priv { f with int_trans_id := reply.trans_id } }
        if reply.status = -EINTR then
          let f1 := s2.sessions priv
          let s3 := { s2 with
            sessions := Function.update s2.sessions priv
              { f1 with restart_sys := -EINTR,
                        int_action := VC_SM_MSG_TYPE.VC_SM_MSG_TYPE_RESIZE } }
          (vmcs_sm_release_resource s3 cur resource false, -ERESTARTSYS, ioparam)
        else if reply.status ≠ 0 then
          (vmcs_sm_release_resource s2 cur resource false, -EPERM, ioparam)
        else
          let s3 := s2.set_res resource { r with res_size := ioparam.new_size }
          (vmcs_sm_release_resource s3 cur resource false, 0,
            { ioparam with old_size := r.res_size })

/-- The state in which `vc_sm_ioctl_resize` leaves the driver once the remote side
has been asked to resize `r`: the request is in the trace and its transaction
id is noted in the session. -/
def resize_sent (s : SM_STATE_T) (priv : Ptr) (r : SM_RESOURCE_T) (new_size trans_id : Nat) :
    SM_STATE_T :=
  { s with
    trace := s.trace ++ [Event.vc_vchi_sm_resize r.res_handle r.res_base_mem new_size]
    sessions := Function.update s.sessions priv
      { s.sessions priv with int_trans_id := trans_id } }

/-! ## Mapping into a process -/

/-- The label `error` of `vc_sm_mmap`: the reference is released, then `MAP_FAIL` is
counted on the record (which is a fault if the release freed it). -/
def mmap_error (s : SM_STATE_T) (cur : Nat) (p : Ptr) (ret : Int) : SM_STATE_T × Int :=
  let s1 := vmcs_sm_release_resource s cur p false
  if s1.status ≠ Status.running then (s1, ret) else
  match s1.resources p with
  | none => (s1.crash, ret)
  | some r => (s1.set_res p { r with res_stats := stat_inc r.res_stats MAP_FAIL }, ret)

/-- Source function `vc_sm_mmap`.  The VMA that the kernel built for the request has
bounds `vm_start < vm_end`, offset `vm_pgoff` and belongs to the address space of
the caller (`cur`); `kz` tells whether `kzalloc` succeeds.  When the call
succeeds the VMA is kept by the kernel (it joins `vmas`) with the mapping in
`vm_private_data`.  The flags, the protection and the new `vm_pgoff` of the VMA
are not represented. -/
def vc_sm_mmap (s : SM_STATE_T) (file_data : Ptr) (cur : Nat) (vm_start vm_end vm_pgoff : Nat)
    (kz : Bool) : SM_STATE_T × Int :=
  if s.status ≠ Status.running then (s, 0) else
  match vmcs_sm_acquire_resource s file_data
      (((vm_pgoff % 4294967296) <<< PAGE_SHIFT) % 4294967296) with
  | (s1, none) => (s1, -ENOMEM)
  | (s1, some resource) =>
    match s1.resources resource with
    | none => (s1.crash, 0)
    | some r =>
      if r.pid ≠ 0 ∧ r.pid ≠ cur then mmap_error s1 cur resource (-EPERM)
      else if r.res_size ≠ (vm_end - vm_start) % 4294967296 then
        mmap_error s1 cur resource (-EINVAL)
      else if kz = false then mmap_error s1 cur resource (-ENOMEM)
      else
        let vma := s1.brk
        let map := s1.brk + 1
        let m : sm_mmap :=
          { resource := resource, res_pid := cur, res_vc_hdl := r.res_handle,
            res_usr_hdl := r.res_guid, res_addr := vm_start, vma := some vma, ref_count := 0 }
        let v : vm_area_struct :=
          { vm_mm := cur, vm_start := vm_start, vm_end := vm_end, vm_private_data := map }
        let s2 := { s1 with
          brk := s1.brk + 2
          maps := Function.update s1.maps map (some m)
          vmas := (vma, v) :: s1.vmas }
        let s3 := vcsm_vma_open (vmcs_sm_add_map s2 resource map) v
        if s3.status ≠ Status.running then (s3, 0) else
        match s3.resources resource with
        | none => (s3.crash, 0)
        | some r3 =>
          let s4 := s3.set_res resource { r3 with res_stats := stat_inc r3.res_stats MAP }
          (vmcs_sm_release_resource s4 cur resource false, 0)

/-! ## Page faults -/

/-- Modelled from the spec: errno value `EAGAIN` of the kernel headers. -/
def EAGAIN : Int := 11

/-- The results of a fault handler that `vcsm_vma_fault` returns. -/
inductive VmFault
  | VM_FAULT_NOPAGE
  | VM_FAULT_OOM
  | VM_FAULT_SIGBUS
  deriving DecidableEq, Repr

/-- Source function `vcaddr_to_pfn`, on `unsigned long` (32-bit) operands. -/
def vcaddr_to_pfn (s : SM_STATE_T) (vc_addr : Nat) : Nat :=
  phys_of s vc_addr >>> PAGE_SHIFT

/-- The kernel's `__pfn_to_phys` with a 32-bit `phys_addr_t`. -/
def pfn_to_phys (pfn : Nat) : Nat := (pfn <<< PAGE_SHIFT) % 4294967296

/-- The first half of `vcsm_vma_fault`: "lock the resource if necessary".  The
second component is `false` when the remote lock fails (the handler then
returns `VM_FAULT_SIGBUS`). -/
def fault_lock (s : SM_STATE_T) (p : Ptr) (r : SM_RESOURCE_T) (reply : LockReply) :
    SM_STATE_T × Bool :=
  if r.lock_count ≠ 0 then (s, true) else
  let s1 := { s with
    trace := s.trace ++ [Event.vc_vchi_sm_lock r.res_handle r.res_base_mem] }
  if reply.status ≠ 0 ∨ reply.res_mem = 0 then
    (s1.set_res p { r with res_stats := stat_inc r.res_stats LOCK_FAIL }, false)
  else
    let pfn := vcaddr_to_pfn s r.res_base_mem
    let s2 := { s1 with
      trace := s1.trace ++
        [Event.outer_inv_range (pfn_to_phys pfn) (ulong_add (pfn_to_phys pfn) r.res_size)] }
    let r1 : SM_RESOURCE_T :=
      { r with res_stats := stat_inc r.res_stats LOCK, lock_count := u32_inc r.lock_count }
    let r2 : SM_RESOURCE_T :=
      if reply.res_mem ≠ 0 ∧ reply.res_old_mem ≠ 0 ∧ reply.res_mem ≠ reply.res_old_mem then
        { r1 with res_base_mem := reply.res_mem }
      else r1
    (s2.set_res p r2, true)

/-- Source function `vcsm_vma_fault`: `virtual_address` is the faulting address,
`reply` the answer of the remote service to the lock (if one is issued) and
`insert_ret` the value `vm_insert_pfn` returns; the page-table entry exists
afterwards when that value is 0.  The kernel calls the handler with an address
inside the area, so `virtual_address - vm_start` does not wrap. -/
def vcsm_vma_fault (s : SM_STATE_T) (vma : vm_area_struct) (virtual_address : Nat)
    (reply : LockReply) (insert_ret : Int) : SM_STATE_T × VmFault :=
  if s.status ≠ Status.running then (s, VmFault.VM_FAULT_SIGBUS) else
  match s.maps vma.vm_private_data with
  | none => (s.crash, VmFault.VM_FAULT_SIGBUS)
  | some m =>
    match s.resources m.resource with
    | none => (s.crash, VmFault.VM_FAULT_SIGBUS)
    | some r =>
      let l := fault_lock s m.resource r reply
      if l.2 = false then (l.1, VmFault.VM_FAULT_SIGBUS) else
      match l.1.resources m.resource with
      | none => (l.1.crash, VmFault.VM_FAULT_SIGBUS)
      | some r1 =>
        let page_offset := (virtual_address - vma.vm_start) % 4294967296
        let pfn := ((phys_of l.1 r1.res_base_mem + page_offset) % 4294967296) >>> PAGE_SHIFT
        let s1 := { l.1 with
          trace := l.1.trace ++ [Event.vm_insert_pfn vma.vm_mm virtual_address pfn]
          ptes := fun mm a =>
            if insert_ret = 0 ∧ mm = vma.vm_mm ∧ a = virtual_address then true
            else l.1.ptes mm a }
        if insert_ret = 0 ∨ insert_ret = -ERESTARTSYS then (s1, VmFault.VM_FAULT_NOPAGE)
        else if insert_ret = -ENOMEM ∨ insert_ret = -EAGAIN then (s1, VmFault.VM_FAULT_OOM)
        else (s1, VmFault.VM_FAULT_SIGBUS)

/-! ## The page-table walk -/

/-- The page tables of the current address space as `vcsm_vma_cache_clean_page_range`
reads them through the accessors of the kernel, which are not under `src/` and
are taken as they come.  A pointer to an entry is a number and `p + 1` is the
entry after `p`; `pgd_offset addr` stands for `pgd_offset(current->mm, addr)`;
`x_addr_end addr end` is the macro of that name; `x_none_or_bad p` is the test
`x_none(*p) || x_bad(*p)` and `pte_none_or_absent p` is the test
`pte_none(*p) || !pte_present(*p)`. -/
structure PageTables where
  pgd_offset : Nat → Nat
  pud_offset : Nat → Nat → Nat
  pmd_offset : Nat → Nat → Nat
  pte_offset_map : Nat → Nat → Nat
  pgd_addr_end : Nat → Nat → Nat
  pud_addr_end : Nat → Nat → Nat
  pmd_addr_end : Nat → Nat → Nat
  pgd_none_or_bad : Nat → Bool
  pud_none_or_bad : Nat → Bool
  pmd_none_or_bad : Nat → Bool
  pte_none_or_absent : Nat → Bool

/-- The innermost loop of `vcsm_vma_cache_clean_page_range`,
`do { if (pte_none(*pte) || !pte_present(*pte)) continue; dmac_flush_range(addr,
addr + PAGE_SIZE); } while (pte++, addr += PAGE_SIZE, addr != pmd_next)`, with a
bound on the number of iterations; addresses are `unsigned long`, 32 bits
wide.  The result is the trace with the flushes added, `none` when the bound is
used up. -/
def walk_pte (T : PageTables) : Nat → Nat → Nat → Nat → List Event → Option (List Event)
  | 0, _, _, _, _ => none
  | fuel + 1, pte, addr, pmd_next, tr =>
    let tr1 :=
      if T.pte_none_or_absent pte then tr
      else tr ++ [Event.dmac_flush_range addr (ulong_add addr PAGE_SIZE)]
    let addr1 := ulong_add addr PAGE_SIZE
    if addr1 ≠ pmd_next then walk_pte T fuel (pte + 1) addr1 pmd_next tr1 else some tr1

/-- The shape the three outer loops of `vcsm_vma_cache_clean_page_range` share,
`do { next = x_addr_end(addr, stop); if (x_none(*p) || x_bad(*p)) continue;
inner loop from offset(p, addr) over [addr, next); } while (p++, addr = next,
addr != stop)`, with a bound on the number of iterations that the inner loops
inherit. -/
def walk_level (addr_end : Nat → Nat → Nat) (none_or_bad : Nat → Bool)
    (offset : Nat → Nat → Nat)
    (inner : Nat → Nat → Nat → Nat → List Event → Option (List Event)) :
    Nat → Nat → Nat → Nat → List Event → Option (List Event)
  | 0, _, _, _, _ => none
  | fuel + 1, p, addr, stop, tr =>
    let next := addr_end addr stop
    match (if none_or_bad p then some tr else inner fuel (offset p addr) addr next tr) with
    | none => none
    | some tr1 =>
      if next ≠ stop then
        walk_level addr_end none_or_bad offset inner fuel (p + 1) next stop tr1
      else some tr1

/-- The loop "Walk PMD" of `vcsm_vma_cache_clean_page_range`. -/
def walk_pmd (T : PageTables) : Nat → Nat → Nat → Nat → List Event → Option (List Event) :=
  walk_level T.pmd_addr_end T.pmd_none_or_bad T.pte_offset_map (walk_pte T)

/-- The loop "Walk PUD" of `vcsm_vma_cache_clean_page_range`. -/
def walk_pud (T : PageTables) : Nat → Nat → Nat → Nat → List Event → Option (List Event) :=
  walk_level T.pud_addr_end T.pud_none_or_bad T.pmd_offset (walk_pmd T)

/-- The loop "Walk PGD" of `vcsm_vma_cache_clean_page_range`. -/
def walk_pgd (T : PageTables) : Nat → Nat → Nat → Nat → List Event → Option (List Event) :=
  walk_level T.pgd_addr_end T.pgd_none_or_bad T.pud_offset (walk_pud T)

/-- Source function `vcsm_vma_cache_clean_page_range` loop by loop, on the page tables
`T` of the current address space, with a bound on the iterations of each loop;
`none` when the bound is used up. -/
def clean_page_range_walk (T : PageTables) (fuel : Nat) (s : SM_STATE_T) (addr stop : Nat) :
    Option SM_STATE_T :=
  if s.status ≠ Status.running then some s else
  if addr ≥ stop then some s else
  match walk_pgd T fuel (T.pgd_offset addr) addr stop s.trace with
  | none => none
  | some tr => some { s with trace := tr }

/-! ## The command dispatcher -/

/-- Source function `vmcs_sm_usr_handle_from_pid_and_address`: the user handle of the
first mapping in the global list recorded for `pid` at address `addr`, 0 if
there is none. -/
def vmcs_sm_usr_handle_from_pid_and_address (s : SM_STATE_T) (pid addr : Nat) : Nat :=
  if addr = 0 then 0 else
  match s.map_list.find? (fun mp =>
    match s.maps mp with
    | some m => m.res_pid == pid && m.res_addr == addr
    | none => false) with
  | none => 0
  | some mp =>
    match s.maps mp with
    | some m => m.res_usr_hdl
    | none => 0

/-- Source function `vmcs_sm_vc_handle_from_pid_and_address`: the remote handle of the
first mapping in the global list recorded for `pid` at address `addr`, 0 if
there is none. -/
def vmcs_sm_vc_handle_from_pid_and_address (s : SM_STATE_T) (pid addr : Nat) : Nat :=
  if addr = 0 then 0 else
  match s.map_list.find? (fun mp =>
    match s.maps mp with
    | some m => m.res_pid == pid && m.res_addr == addr
    | none => false) with
  | none => 0
  | some mp =>
    match s.maps mp with
    | some m => m.res_vc_hdl
    | none => 0

/-- The fields of `struct vmcs_sm_ioctl_lock_cache` the driver uses. -/
structure vmcs_sm_ioctl_lock_cache where
  handle : Nat
  cached : Nat
  deriving DecidableEq, Repr

/-- The field of `struct vmcs_sm_ioctl_walk` the driver uses. -/
structure vmcs_sm_ioctl_walk where
  pid : Nat
  deriving DecidableEq, Repr

/-- The fields of `struct vmcs_sm_ioctl_size` the driver uses. -/
structure vmcs_sm_ioctl_size where
  handle : Nat
  size : Nat
  deriving DecidableEq, Repr

/-- The fields of `struct vmcs_sm_ioctl_chk` the driver uses. -/
structure vmcs_sm_ioctl_chk where
  handle : Nat
  addr : Nat
  size : Nat
  cache : Nat
  deriving DecidableEq, Repr

/-- The fields of `struct vmcs_sm_ioctl_map` the driver uses. -/
structure vmcs_sm_ioctl_map where
  pid : Nat
  handle : Nat
  addr : Nat
  size : Nat
  deriving DecidableEq, Repr

/-- The fields of `struct vmcs_sm_ioctl_cache` the driver uses. -/
structure vmcs_sm_ioctl_cache where
  handle : Nat
  addr : Nat
  size : Nat
  deriving DecidableEq, Repr

/-- The command number `_IOC_NR(cmd)` of a call of `vc_sm_ioctl`, with the record
that lies at `arg` for that command.  `unknown` stands for every number that is
no case of the switch. -/
inductive Request
  | VMCS_SM_CMD_ALLOC (ioparam : vmcs_sm_ioctl_alloc)
  | VMCS_SM_CMD_ALLOC_SHARE (ioparam : vmcs_sm_ioctl_alloc_share)
  | VMCS_SM_CMD_LOCK_CACHE (ioparam : vmcs_sm_ioctl_lock_cache)
  | VMCS_SM_CMD_LOCK (ioparam : vmcs_sm_ioctl_lock_unlock)
  | VMCS_SM_CMD_UNLOCK (ioparam : vmcs_sm_ioctl_lock_unlock)
  | VMCS_SM_CMD_RESIZE (ioparam : vmcs_sm_ioctl_resize)
  | VMCS_SM_CMD_FREE (ioparam : vmcs_sm_ioctl_free)
  | VMCS_SM_CMD_VC_WALK_ALLOC
  | VMCS_SM_CMD_HOST_WALK_MAP
  | VMCS_SM_CMD_HOST_WALK_PID_ALLOC (ioparam : vmcs_sm_ioctl_walk)
  | VMCS_SM_CMD_HOST_WALK_PID_MAP (ioparam : vmcs_sm_ioctl_walk)
  | VMCS_SM_CMD_SIZE_USR_HANDLE (ioparam : vmcs_sm_ioctl_size)
  | VMCS_SM_CMD_CHK_USR_HANDLE (ioparam : vmcs_sm_ioctl_chk)
  | VMCS_SM_CMD_MAPPED_USR_HANDLE (ioparam : vmcs_sm_ioctl_map)
  | VMCS_SM_CMD_MAPPED_VC_HDL_FROM_ADDR (ioparam : vmcs_sm_ioctl_map)
  | VMCS_SM_CMD_MAPPED_VC_HDL_FROM_HDL (ioparam : vmcs_sm_ioctl_map)
  | VMCS_SM_CMD_MAPPED_USR_ADDRESS (ioparam : vmcs_sm_ioctl_map)
  | VMCS_SM_CMD_FLUSH (ioparam : vmcs_sm_ioctl_cache)
  | VMCS_SM_CMD_INVALID (ioparam : vmcs_sm_ioctl_cache)
  | unknown (cmdnr : Nat)
  deriving DecidableEq, Repr

/-- What the environment answers during one call of `vc_sm_ioctl`: whether
`copy_from_user` and `copy_to_user` succeed, whether `kzalloc` succeeds, the
replies of the remote service, the address `ioremap` returns, the page tables
of the calling process (`current->mm`) and the bound on the iterations of each
loop of the page-table walk. -/
structure IoctlEnv where
  copy_from_user : Bool
  copy_to_user : Bool
  kz : Bool
  alloc_reply : AllocReply
  lock_reply : LockReply
  unlock_reply : UnlockReply
  resize_reply : ResizeReply
  ioremap_ret : Nat
  tables : PageTables
  walk_fuel : Nat

/-- The first part of `vc_sm_ioctl`: "action is a re-post of a previously
interrupted action?"  A pending action is reported to the remote side with its
kind and its transaction id, and the pending mark is cleared. -/
def ioctl_clean_up (s : SM_STATE_T) (file_data : Ptr) : SM_STATE_T :=
  let f := s.sessions file_data
  if f.restart_sys = -EINTR then
    { s with
      trace := s.trace ++ [Event.vc_vchi_sm_clean_up f.int_action f.int_trans_id]
      sessions := Function.update s.sessions file_data { f with restart_sys := 0 } }
  else s

/-- The cases `VMCS_SM_CMD_FLUSH` (`inval = false`) and `VMCS_SM_CMD_INVALID`
(`inval = true`) of `vc_sm_ioctl` after `copy_from_user`, on the page tables `T`
of the calling process.  The fields of the request are `unsigned int`, and the
sums `(unsigned long)ioparam.addr + ioparam.size` and
`phys_addr + (size_t)ioparam.size` are taken on 32 bits.  The walk is
`clean_page_range_walk` with the bound `fuel` on its loops; when the bound is
used up the walk has not returned and the status is `out_of_fuel`. -/
def ioctl_cache (s : SM_STATE_T) (file_data : Ptr) (cur : Nat) (ioparam : vmcs_sm_ioctl_cache)
    (inval : Bool) (T : PageTables) (fuel : Nat) : SM_STATE_T × Int :=
  match vmcs_sm_acquire_resource s file_data ioparam.handle with
  | (s1, none) => (s1, -EINVAL)
  | (s1, some resource) =>
    match s1.resources resource with
    | none => (s1.crash, 0)
    | some r =>
      if r.res_cached ≠ 0 then
        let s2 := s1.set_res resource
          { r with res_stats := stat_inc r.res_stats (if inval then INVALID else FLUSH) }
        let phys_addr := phys_of s1 r.res_base_mem
        let phys_end := ulong_add phys_addr (ioparam.size % 4294967296)
        let addr := ioparam.addr % 4294967296
        let stop := ulong_add addr (ioparam.size % 4294967296)
        if inval then
          let s21 := { s2 with trace := s2.trace ++ [Event.outer_inv_range phys_addr phys_end] }
          match clean_page_range_walk T fuel s21 addr stop with
          | none => ({ s21 with status := Status.out_of_fuel }, 0)
          | some s3 => (vmcs_sm_release_resource s3 cur resource false, 0)
        else
          match clean_page_range_walk T fuel s2 addr stop with
          | none => ({ s2 with status := Status.out_of_fuel }, 0)
          | some s21 =>
            (vmcs_sm_release_resource
              { s21 with trace := s21.trace ++ [Event.outer_clean_range phys_addr phys_end] }
              cur resource false, 0)
      else (vmcs_sm_release_resource s1 cur resource false, 0)

/-- The `switch (cmdnr)` of `vc_sm_ioctl`.  The result holds the new state, the
value returned and the record copied back to `arg`, if one is.  The two walks
on the host only write to the kernel log and leave the state alone. -/
def ioctl_switch (s : SM_STATE_T) (file_data : Ptr) (cur : Nat) (req : Request)
    (env : IoctlEnv) : SM_STATE_T × Int × Option Request :=
  match req with
  | Request.VMCS_SM_CMD_ALLOC ioparam =>
    if env.copy_from_user = false then (s, -EFAULT, none) else
    let a := vc_sm_ioctl_alloc s file_data cur ioparam env.kz env.alloc_reply
    if a.2.1 ≠ 0 then (a.1, a.2.1, none) else
    if env.copy_to_user = false then
      ((vc_sm_ioctl_free a.1 file_data cur { handle := a.2.2.handle }).1, -EFAULT, none)
    else (a.1, 0, some (Request.VMCS_SM_CMD_ALLOC a.2.2))
  | Request.VMCS_SM_CMD_ALLOC_SHARE ioparam =>
    if env.copy_from_user = false then (s, -EFAULT, none) else
    let a := vc_sm_ioctl_alloc_share s file_data cur ioparam env.kz
    if a.2.1 ≠ 0 then (a.1, a.2.1, none) else
    if env.copy_to_user = false then
      ((vc_sm_ioctl_free a.1 file_data cur { handle := a.2.2.handle }).1, -EFAULT, none)
    else (a.1, 0, some (Request.VMCS_SM_CMD_ALLOC_SHARE a.2.2))
  | Request.VMCS_SM_CMD_LOCK_CACHE ioparam =>
    if env.copy_from_user = false then (s, -EFAULT, none) else
    let l := vc_sm_ioctl_lock s file_data cur { handle := ioparam.handle, addr := 0 } true
      ioparam.cached 0 env.lock_reply env.kz env.ioremap_ret
    (l.1, l.2.1, none)
  | Request.VMCS_SM_CMD_LOCK ioparam =>
    if env.copy_from_user = false then (s, -EFAULT, none) else
    let l := vc_sm_ioctl_lock s file_data cur ioparam false 0 0 env.lock_reply env.kz
      env.ioremap_ret
    if env.copy_to_user = false then (l.1, -EFAULT, none)
    else (l.1, l.2.1, some (Request.VMCS_SM_CMD_LOCK l.2.2))
  | Request.VMCS_SM_CMD_UNLOCK ioparam =>
    if env.copy_from_user = false then (s, -EFAULT, none) else
    let u := vc_sm_ioctl_unlock s file_data cur ioparam false 1 false env.unlock_reply
    (u.1, u.2, none)
  | Request.VMCS_SM_CMD_RESIZE ioparam =>
    if env.copy_from_user = false then (s, -EFAULT, none) else
    let z := vc_sm_ioctl_resize s file_data cur ioparam env.resize_reply
    if env.copy_to_user = false then (z.1, -EFAULT, none)
    else (z.1, z.2.1, some (Request.VMCS_SM_CMD_RESIZE z.2.2))
  | Request.VMCS_SM_CMD_FREE ioparam =>
    if env.copy_from_user = false then (s, -EFAULT, none) else
    let z := vc_sm_ioctl_free s file_data cur ioparam
    (z.1, z.2, none)
  | Request.VMCS_SM_CMD_VC_WALK_ALLOC =>
    ({ s with trace := s.trace ++ [Event.vc_vchi_sm_walk_alloc] }, 0, none)
  | Request.VMCS_SM_CMD_HOST_WALK_MAP => (s, 0, none)
  | Request.VMCS_SM_CMD_HOST_WALK_PID_ALLOC _ =>
    if env.copy_from_user = false then (s, -EFAULT, none) else (s, 0, none)
  | Request.VMCS_SM_CMD_HOST_WALK_PID_MAP _ =>
    if env.copy_from_user = false then (s, -EFAULT, none) else (s, 0, none)
  | Request.VMCS_SM_CMD_SIZE_USR_HANDLE ioparam =>
    if env.copy_from_user = false then (s, -EFAULT, none) else
    let z : SM_STATE_T × Nat :=
      match vmcs_sm_acquire_resource s file_data ioparam.handle with
      | (s1, none) => (s1, 0)
      | (s1, some resource) =>
        match s1.resources resource with
        | none => (s1.crash, 0)
        | some r => (vmcs_sm_release_resource s1 cur resource false, r.res_size)
    if env.copy_to_user = false then (z.1, -EFAULT, none)
    else (z.1, 0, some (Request.VMCS_SM_CMD_SIZE_USR_HANDLE { ioparam with size := z.2 }))
  | Request.VMCS_SM_CMD_CHK_USR_HANDLE ioparam =>
    if env.copy_from_user = false then (s, -EFAULT, none) else
    let z : SM_STATE_T × Int × vmcs_sm_ioctl_chk :=
      match vmcs_sm_acquire_resource s file_data ioparam.handle with
      | (s1, none) => (s1, -EINVAL, ioparam)
      | (s1, some resource) =>
        match s1.resources resource with
        | none => (s1.crash, 0, ioparam)
        | some r =>
          let out : vmcs_sm_ioctl_chk :=
            if r.res_cached = VMCS_SM_CACHE_HOST ∨ r.res_cached = VMCS_SM_CACHE_BOTH then
              { ioparam with
                addr := vmcs_sm_usr_address_from_pid_and_usr_handle s1 cur ioparam.handle
                size := r.res_size
                cache := r.res_cached }
            else { ioparam with addr := 0, size := 0, cache := r.res_cached }
          (vmcs_sm_release_resource s1 cur resource false, 0, out)
    if env.copy_to_user = false then (z.1, -EFAULT, none)
    else (z.1, z.2.1, some (Request.VMCS_SM_CMD_CHK_USR_HANDLE z.2.2))
  | Request.VMCS_SM_CMD_MAPPED_USR_HANDLE ioparam =>
    if env.copy_from_user = false then (s, -EFAULT, none) else
    let handle := vmcs_sm_usr_handle_from_pid_and_address s ioparam.pid ioparam.addr
    let z : SM_STATE_T × Nat :=
      match vmcs_sm_acquire_resource s file_data handle with
      | (s1, none) => (s1, 0)
      | (s1, some resource) =>
        match s1.resources resource with
        | none => (s1.crash, 0)
        | some r =>
          (vmcs_sm_release_resource s1 cur resource false,
            if r.res_cached = VMCS_SM_CACHE_HOST ∨ r.res_cached = VMCS_SM_CACHE_BOTH
            then r.res_size else 0)
    if env.copy_to_user = false then (z.1, -EFAULT, none)
    else (z.1, 0,
      some (Request.VMCS_SM_CMD_MAPPED_USR_HANDLE { ioparam with handle := handle, size := z.2 }))
  | Request.VMCS_SM_CMD_MAPPED_VC_HDL_FROM_ADDR ioparam =>
    if env.copy_from_user = false then (s, -EFAULT, none) else
    if env.copy_to_user = false then (s, -EFAULT, none)
    else (s, 0,
      some (Request.VMCS_SM_CMD_MAPPED_VC_HDL_FROM_ADDR
        { ioparam with
          handle := vmcs_sm_vc_handle_from_pid_and_address s ioparam.pid ioparam.addr }))
  | Request.VMCS_SM_CMD_MAPPED_VC_HDL_FROM_HDL ioparam =>
    if env.copy_from_user = false then (s, -EFAULT, none) else
    let z : SM_STATE_T × Nat :=
      match vmcs_sm_acquire_resource s file_data ioparam.handle with
      | (s1, none) => (s1, 0)
      | (s1, some resource) =>
        match s1.resources resource with
        | none => (s1.crash, 0)
        | some r => (vmcs_sm_release_resource s1 cur resource false, r.res_handle)
    if env.copy_to_user = false then (z.1, -EFAULT, none)
    else (z.1, 0, some (Request.VMCS_SM_CMD_MAPPED_VC_HDL_FROM_HDL { ioparam with handle := z.2 }))
  | Request.VMCS_SM_CMD_MAPPED_USR_ADDRESS ioparam =>
    if env.copy_from_user = false then (s, -EFAULT, none) else
    if env.copy_to_user = false then (s, -EFAULT, none)
    else (s, 0,
      some (Request.VMCS_SM_CMD_MAPPED_USR_ADDRESS
        { ioparam with
          addr := vmcs_sm_usr_address_from_pid_and_usr_handle s ioparam.pid ioparam.handle }))
  | Request.VMCS_SM_CMD_FLUSH ioparam =>
    if env.copy_from_user = false then (s, -EFAULT, none) else
    let z := ioctl_cache s file_data cur ioparam false env.tables env.walk_fuel
    (z.1, z.2, none)
  | Request.VMCS_SM_CMD_INVALID ioparam =>
    if env.copy_from_user = false then (s, -EFAULT, none) else
    let z := ioctl_cache s file_data cur ioparam true env.tables env.walk_fuel
    (z.1, z.2, none)
  | Request.unknown _ => (s, -EINVAL, none)

/-- Source function `vc_sm_ioctl` on an open session `file_data`: the clean-up of a
pending interrupted action, then the command. -/
def vc_sm_ioctl (s : SM_STATE_T) (file_data : Ptr) (cur : Nat) (req : Request)
    (env : IoctlEnv) : SM_STATE_T × Int × Option Request :=
  if s.status ≠ Status.running then (s, 0, none) else
  ioctl_switch (ioctl_clean_up s file_data) file_data cur req env

/-! ## The in-kernel entry points -/

/-- Source function `vc_sm_alloc`: an allocation on the kernel session `data_knl`
whose owner is then set to 0 (kernel-owned).  `base_unit`, `num_unit` and
`cached` are the fields of `VC_SM_ALLOC_T` it reads; the result holds the
status and the value written to `*handle`. -/
def vc_sm_alloc (s : SM_STATE_T) (cur : Nat) (base_unit num_unit : Nat) (cached : Bool)
    (kz : Bool) (reply : AllocReply) : SM_STATE_T × Int × Nat :=
  if s.status ≠ Status.running then (s, 0, 0) else
  let a := vc_sm_ioctl_alloc s s.data_knl cur
    { size := base_unit, num := num_unit,
      cached := if cached then VMCS_SM_CACHE_VC else 0, handle := 0 } kz reply
  if a.2.1 ≠ 0 then (a.1, a.2.1, 0) else
  match vmcs_sm_acquire_resource a.1 a.1.data_knl a.2.2.handle with
  | (s1, none) => (s1, -ENOMEM, 0)
  | (s1, some resource) =>
    match s1.resources resource with
    | none => (s1.crash, 0, 0)
    | some r =>
      (vmcs_sm_release_resource (s1.set_res resource { r with pid := 0 }) cur resource false,
        0, a.2.2.handle)

/-- Source function `vc_sm_lock`: a lock on the kernel session `data_knl` that sets
the cache policy of the resource; `cached_mode` tells whether `mode` is
`VC_SM_LOCK_CACHED`, and `stack_addr` is the value that `ioparam.addr`, which the
source does not initialise, holds when the call starts.  The result holds the
status and the value `*data` has after the call, for a caller whose `*data` was
0 before it (the refusals at the top return before `*data` is written). -/
def vc_sm_lock (s : SM_STATE_T) (cur : Nat) (handle : Nat) (cached_mode : Bool)
    (stack_addr : Nat) (reply : LockReply) (kz : Bool) (ioremap_ret : Nat) :
    SM_STATE_T × Int × Nat :=
  if s.status ≠ Status.running then (s, 0, 0) else
  if handle = 0 then (s, -EPERM, 0) else
  let l := vc_sm_ioctl_lock s s.data_knl cur { handle := handle, addr := stack_addr } true
    (if cached_mode then VMCS_SM_CACHE_HOST else VMCS_SM_CACHE_NONE) 0 reply kz ioremap_ret
  (l.1, l.2.1, l.2.2.addr)

/-- Source function `vc_sm_unlock`: an unlock on the kernel session `data_knl` that
does not wait for the reply of the remote side. -/
def vc_sm_unlock (s : SM_STATE_T) (cur : Nat) (handle : Nat) (flush : Bool)
    (no_vc_unlock : Bool) (reply : UnlockReply) : SM_STATE_T × Int :=
  if s.status ≠ Status.running then (s, 0) else
  if handle = 0 then (s, -EPERM) else
  vc_sm_ioctl_unlock s s.data_knl cur { handle := handle, addr := 0 } flush 0 no_vc_unlock
    reply

/-- Source function `vc_sm_free`: a free on the kernel session `data_knl`. -/
def vc_sm_free (s : SM_STATE_T) (cur : Nat) (handle : Nat) : SM_STATE_T × Int :=
  if s.status ≠ Status.running then (s, 0) else
  if handle = 0 then (s, -EPERM) else
  vc_sm_ioctl_free s s.data_knl cur { handle := handle }

/-! ## Vocabulary of the statements -/

/-- Is the event a call to the remote memory service? -/
def Event.is_remote : Event → Bool
  | Event.vc_vchi_sm_alloc _ _ _ _ _ => true
  | Event.vc_vchi_sm_free _ _ => true
  | Event.vc_vchi_sm_lock _ _ => true
  | Event.vc_vchi_sm_unlock _ _ _ => true
  | Event.vc_vchi_sm_resize _ _ _ => true
  | Event.vc_vchi_sm_clean_up _ _ => true
  | Event.vc_vchi_sm_walk_alloc => true
  | _ => false

/-- The calls to the remote memory service in a trace, oldest first. -/
def remote_calls (t : List Event) : List Event := t.filter Event.is_remote

/-- A resource record without its mapping bookkeeping. -/
def SM_RESOURCE_T.core (r : SM_RESOURCE_T) : SM_RESOURCE_T :=
  { r with map_count := 0, map_list := [] }

/-- What unmapping may change: `s1` differs from `s` at most in the mappings, the
address spaces, the mapping bookkeeping of resources, the calls in the trace
that are not remote calls, and the status. -/
structure MapFrame (s s1 : SM_STATE_T) : Prop where
  resource_list : s1.resource_list = s.resource_list
  sessions : s1.sessions = s.sessions
  deceased : s1.deceased = s.deceased
  terminated : s1.terminated = s.terminated
  res_deceased_cnt : s1.res_deceased_cnt = s.res_deceased_cnt
  res_terminated_cnt : s1.res_terminated_cnt = s.res_terminated_cnt
  guid : s1.guid = s.guid
  brk : s1.brk = s.brk
  vchi_free : s1.vchi_free = s.vchi_free
  remote : remote_calls s1.trace = remote_calls s.trace
  core : ∀ p, (s1.resources p).map SM_RESOURCE_T.core = (s.resources p).map SM_RESOURCE_T.core

/-- The lists of `s1` hold no member that the lists of `s` do not hold. -/
def Shrinks (s s1 : SM_STATE_T) : Prop :=
  (∀ x, x ∈ s1.resource_list → x ∈ s.resource_list) ∧
  ∀ f x, x ∈ (s1.sessions f).resource_list → x ∈ (s.sessions f).resource_list

/-- Every record of `s1` is a record of `s` with the same GUID, session, owner and
alias link: `s1` came from `s` without creating or re-labelling records. -/
def Keeps (s s1 : SM_STATE_T) : Prop :=
  ∀ q r1, s1.resources q = some r1 →
    ∃ r0, s.resources q = some r0 ∧ r0.res_guid = r1.res_guid ∧ r0.priv = r1.priv ∧
      r0.pid = r1.pid ∧ r0.res_shared = r1.res_shared

/-- Is the event a call to `vm_insert_pfn`? -/
def Event.is_vm_insert_pfn : Event → Bool
  | Event.vm_insert_pfn _ _ _ => true
  | _ => false

/-- The calls to `vm_insert_pfn` in a trace, oldest first. -/
def pfn_inserts (t : List Event) : List Event := t.filter Event.is_vm_insert_pfn

/-- A resource record without its statistics and its mapping bookkeeping. -/
def SM_RESOURCE_T.ident (r : SM_RESOURCE_T) : SM_RESOURCE_T :=
  { r with res_stats := [], map_count := 0, map_list := [] }

/-- What the cache maintenance and the unmapping before an unlock may change: `s1`
has the lists, the sessions and the remote calls of `s`, and every record of
`s` up to its statistics and its mapping bookkeeping. -/
structure Steady (s s1 : SM_STATE_T) : Prop where
  resource_list : s1.resource_list = s.resource_list
  sessions : s1.sessions = s.sessions
  remote : remote_calls s1.trace = remote_calls s.trace
  ident : ∀ p, (s1.resources p).map SM_RESOURCE_T.ident =
    (s.resources p).map SM_RESOURCE_T.ident

/-- The state in which `vc_sm_ioctl_unlock` leaves the driver once the remote side
has been asked to unlock: the request is in the trace and its transaction id
is noted in the session. -/
def unlock_sent (s : SM_STATE_T) (priv : Ptr) (unlock_handle unlock_mem wait_reply : Nat)
    (trans_id : Nat) : SM_STATE_T :=
  { s with
    trace := s.trace ++ [Event.vc_vchi_sm_unlock unlock_handle unlock_mem wait_reply]
    sessions := Function.update s.sessions priv
      { s.sessions priv with int_trans_id := trans_id } }

/-- The mark an interrupted remote call leaves: session `priv` of `s1` has a pending
interrupted action of kind `kind` with transaction id `trans_id`, and the
global list and the session lists of `s1` are those of `s`. -/
def Abandoned (s s1 : SM_STATE_T) (priv : Ptr) (kind : VC_SM_MSG_TYPE) (trans_id : Nat) : Prop :=
  (s1.sessions priv).restart_sys = -EINTR ∧ (s1.sessions priv).int_action = kind ∧
  (s1.sessions priv).int_trans_id = trans_id ∧ s1.resource_list = s.resource_list ∧
  ∀ g, (s1.sessions g).resource_list = (s.sessions g).resource_list

/-- The lock count, size, base address and reference count of a record. -/
def SM_RESOURCE_T.held (r : SM_RESOURCE_T) : Nat × Nat × Nat × Nat :=
  (r.lock_count, r.res_size, r.res_base_mem, r.ref_count)

/-- Is the event a call to `vc_vchi_sm_clean_up`? -/
def Event.is_clean_up : Event → Bool
  | Event.vc_vchi_sm_clean_up _ _ => true
  | _ => false

/-- The calls to `vc_vchi_sm_clean_up` in a trace, oldest first. -/
def cleanups (t : List Event) : List Event := t.filter Event.is_clean_up

/-- No call to `vc_vchi_sm_clean_up` is issued between `s` and `s1`. -/
def Quiet (s s1 : SM_STATE_T) : Prop := cleanups s1.trace = cleanups s.trace

/-- The calls `dmac_flush_range` that `vcsm_vma_cache_clean_page_range` makes on
`[addr, stop)` in address space `cur` with page table `ptes`, oldest first. -/
def page_flushes (ptes : Nat → Nat → Bool) (cur addr stop : Nat) : List Event :=
  if addr ≥ stop then [] else
  (((List.range ((stop - addr + (PAGE_SIZE - 1)) / PAGE_SIZE)).map
    (fun i => addr + i * PAGE_SIZE)).filter (fun a => ptes cur a)).map
      (fun a => Event.dmac_flush_range a (a + PAGE_SIZE))

/-- Every record of `s` is still there in `s1` with the reference count it had, and
no record appeared. -/
def Refs (s s1 : SM_STATE_T) : Prop :=
  ∀ q, (s1.resources q).map (fun r => r.ref_count) = (s.resources q).map (fun r => r.ref_count)

/-- Every record of `s` is still there in `s1` with the base address it had, and no
record appeared. -/
def Based (s s1 : SM_STATE_T) : Prop :=
  ∀ q, (s1.resources q).map (fun r => r.res_base_mem) =
    (s.resources q).map (fun r => r.res_base_mem)

/-- Every session that has a pending interrupted action in `s` (`restart_sys` is
`-EINTR`) still has one in `s1`. -/
def Marked (s s1 : SM_STATE_T) : Prop :=
  ∀ f, (s.sessions f).restart_sys = -EINTR → (s1.sessions f).restart_sys = -EINTR

/-- Does the page at `addr` have a present page-table entry?  The tables are looked
up from the top: an entry that is none or bad at an upper level means that there
is no page-table entry at all. -/
def PageTables.present (T : PageTables) (addr : Nat) : Bool :=
  !T.pgd_none_or_bad (T.pgd_offset addr) &&
  (!T.pud_none_or_bad (T.pud_offset (T.pgd_offset addr) addr) &&
  (!T.pmd_none_or_bad (T.pmd_offset (T.pud_offset (T.pgd_offset addr) addr) addr) &&
   !T.pte_none_or_absent
      (T.pte_offset_map (T.pmd_offset (T.pud_offset (T.pgd_offset addr) addr) addr) addr)))

/-- What the kernel guarantees of one level of the page tables on the range
`[a, e)`, with `D addr` the entry of that level for `addr`: from a page-aligned
`x` in the range, `addr_end x e` is a page-aligned address after `x` and not
after `e`, the pages from `x` up to it share the entry of `x`, and when it is
not `e` its entry is the entry after that of `x`. -/
def Level (addr_end : Nat → Nat → Nat) (D : Nat → Nat) (a e : Nat) : Prop :=
  ∀ x, a ≤ x → x < e → PAGE_SIZE ∣ x →
    x < addr_end x e ∧ addr_end x e ≤ e ∧ PAGE_SIZE ∣ addr_end x e ∧
    (∀ b, x ≤ b → b < addr_end x e → PAGE_SIZE ∣ b → D b = D x) ∧
    (addr_end x e ≠ e → D (addr_end x e) = D x + 1)

/-- What the kernel guarantees of the page tables `T` on the range `[addr, stop)`:
`Level` for the PGD on the range, for the PUD on the part of the range under
one PGD entry, for the PMD on the part under one PUD entry, and, under one PMD
entry, the entry of the next page is the next PTE. -/
def PageTables.Regular (T : PageTables) (addr stop : Nat) : Prop :=
  Level T.pgd_addr_end T.pgd_offset addr stop ∧
  ∀ x, addr ≤ x → x < stop → PAGE_SIZE ∣ x →
    Level T.pud_addr_end (T.pud_offset (T.pgd_offset x)) x (T.pgd_addr_end x stop) ∧
    ∀ y, x ≤ y → y < T.pgd_addr_end x stop → PAGE_SIZE ∣ y →
      Level T.pmd_addr_end (T.pmd_offset (T.pud_offset (T.pgd_offset x) y)) y
        (T.pud_addr_end y (T.pgd_addr_end x stop)) ∧
      ∀ z, y ≤ z → z < T.pud_addr_end y (T.pgd_addr_end x stop) → PAGE_SIZE ∣ z →
        ∀ w, z ≤ w →
          w + PAGE_SIZE < T.pmd_addr_end z (T.pud_addr_end y (T.pgd_addr_end x stop)) →
          PAGE_SIZE ∣ w →
          T.pte_offset_map (T.pmd_offset (T.pud_offset (T.pgd_offset x) y) z)
              (w + PAGE_SIZE) =
            T.pte_offset_map (T.pmd_offset (T.pud_offset (T.pgd_offset x) y) z) w + 1

/-- The state in which the page-table walk of `FLUSH` (`inval = false`) or `INVALID`
(`inval = true`) starts on resource `p`: a reference is held on `p`, the command
is counted on it and, for `INVALID`, the outer invalidate has been made. -/
def cache_walk_start (s : SM_STATE_T) (p : Ptr) (r : SM_RESOURCE_T)
    (io : vmcs_sm_ioctl_cache) (inval : Bool) : SM_STATE_T :=
  { s with
    trace :=
      if inval then
        s.trace ++ [Event.outer_inv_range (phys_of s r.res_base_mem)
          (ulong_add (phys_of s r.res_base_mem) (io.size % 4294967296))]
      else s.trace
    resources := Function.update s.resources p
      (some { r with
        ref_count := u32_inc r.ref_count
        res_stats := stat_inc r.res_stats (if inval then INVALID else FLUSH) }) }

/-! ## Concrete states used to exercise the statements -/

/-- A remote service that always confirms a free. -/
def vf_ok : List Event → Nat → Nat → FreeReply := fun _ _ _ => { status := 0, trans_id := 0 }

/-- The driver right after start-up. -/
def demo_init : SM_STATE_T := SM_STATE_T.init vf_ok

/-- Session 10 (process 100) allocates one page; the remote side answers with
handle 77 at address 5000. -/
def demo_alloc : SM_STATE_T × Int × vmcs_sm_ioctl_alloc :=
  vc_sm_ioctl_alloc demo_init 10 100 { size := 4096, num := 1, cached := 3, handle := 0 } true
    { status := 0, res_handle := 77, res_mem := 5000, trans_id := 1 }

/-- The record of the page allocated in `demo_alloc`. -/
def demo_record : SM_RESOURCE_T :=
  { pid := 100, res_guid := 4096, lock_count := 0, ref_count := 1, res_handle := 77,
    res_base_mem := 5000, res_size := 4096, res_cached := 3, res_shared := none,
    res_stats := [1, 0, 0, 0, 0, 0, 0, 0, 0, 0, 0, 0, 0, 0, 0], map_count := 0, map_list := [],
    priv := 10 }

/-- Session 20 (process 200) shares the page of `demo_alloc` through its GUID. -/
def demo_share : SM_STATE_T × Int × vmcs_sm_ioctl_alloc_share :=
  vc_sm_ioctl_alloc_share demo_alloc.1 20 200 { handle := 4096, size := 0 } true

/-- The owner frees the shared page a first time. -/
def demo_free1 : SM_STATE_T × Int := vc_sm_ioctl_free demo_share.1 10 100 { handle := 4096 }

/-- The owner frees the shared page a second time. -/
def demo_free2 : SM_STATE_T × Int := vc_sm_ioctl_free demo_free1.1 10 100 { handle := 4096 }

/-- The sharing session frees its alias after the owner freed the page twice. -/
def demo_free3 : SM_STATE_T × Int := vc_sm_ioctl_free demo_free2.1 20 200 { handle := 8192 }

/-- The state of `demo_alloc` with the page mapped once into process 100 at
address 65536. -/
def demo_mapped : SM_STATE_T :=
  { demo_alloc.1 with
    map_list := [2]
    maps := Function.update demo_alloc.1.maps 2
      (some { resource := 1, res_pid := 100, res_vc_hdl := 77, res_usr_hdl := 4096,
              res_addr := 65536, vma := some 3, ref_count := 1 })
    vmas := [(3, { vm_mm := 100, vm_start := 65536, vm_end := 69632, vm_private_data := 2 })]
    brk := 4
    resources := Function.update demo_alloc.1.resources 1
      (some { demo_record with map_count := 1, map_list := [2] }) }

/-- A kernel client (running as process 1) allocates one page through
`vc_sm_alloc`; the remote side answers with handle 77 at address 5000. -/
def demo_knl : SM_STATE_T × Int × Nat :=
  vc_sm_alloc demo_init 1 4096 1 false true
    { status := 0, res_handle := 77, res_mem := 5000, trans_id := 1 }

/-- The owner of the page of `demo_alloc` locks it; the remote side confirms the
lock at the same address. -/
def demo_locked : SM_STATE_T × Int × vmcs_sm_ioctl_lock_unlock :=
  vc_sm_ioctl_lock demo_alloc.1 10 100 { handle := 4096, addr := 0 } false 0 0
    { status := 0, res_mem := 5000, res_old_mem := 0, trans_id := 2 } true 0

/-- The record of the page locked in `demo_locked`. -/
def demo_locked_record : SM_RESOURCE_T :=
  { demo_record with lock_count := 1, res_stats := stat_inc demo_record.res_stats LOCK }

/-- The owner of the page of `demo_alloc` asks for a lock and the remote call is
interrupted (transaction 9). -/
def demo_pending : SM_STATE_T × Int × vmcs_sm_ioctl_lock_unlock :=
  vc_sm_ioctl_lock demo_alloc.1 10 100 { handle := 4096, addr := 0 } false 0 0
    { status := -EINTR, res_mem := 0, res_old_mem := 0, trans_id := 9 } true 0

/-- Page tables with two levels in the manner of 32-bit ARM: PUD and PMD are folded
into the PGD, a PGD entry covers 2 MiB and has 512 PTEs under it, and
`pgd_addr_end` is the macro of the kernel on 32-bit addresses.  Only PGD entry 0
is in use, and the PTEs with an odd number are present. -/
def demo_tables : PageTables :=
  { pgd_offset := fun a => a / 2097152
    pud_offset := fun pgd _ => pgd
    pmd_offset := fun pud _ => pud
    pte_offset_map := fun pmd a => pmd * 512 + a / 4096 % 512
    pgd_addr_end := fun a e =>
      if ((a % 4294967296 / 2097152 + 1) * 2097152 % 4294967296 + 4294967295) % 4294967296 <
          (e + 4294967295) % 4294967296
      then (a % 4294967296 / 2097152 + 1) * 2097152 % 4294967296 else e
    pud_addr_end := fun _ e => e
    pmd_addr_end := fun _ e => e
    pgd_none_or_bad := fun pgd => decide (pgd ≠ 0)
    pud_none_or_bad := fun _ => false
    pmd_none_or_bad := fun _ => false
    pte_none_or_absent := fun pte => decide (pte % 2 = 0) }

/-- An environment in which every copy and allocation succeeds and the remote side
confirms every request. -/
def demo_env : IoctlEnv :=
  { copy_from_user := true, copy_to_user := true, kz := true,
    alloc_reply := { status := 0, res_handle := 78, res_mem := 9000, trans_id := 10 },
    lock_reply := { status := 0, res_mem := 5000, res_old_mem := 0, trans_id := 11 },
    unlock_reply := { status := 0, trans_id := 12 },
    resize_reply := { status := 0, trans_id := 13 },
    ioremap_ret := 0, tables := demo_tables, walk_fuel := 8 }

/-- A remote service that refuses every free with status 1. -/
def vf_fail : List Event → Nat → Nat → FreeReply := fun _ _ _ => { status := 1, trans_id := 7 }

/-- The state of `demo_alloc` facing a remote service that refuses every free. -/
def demo_refused : SM_STATE_T := { demo_alloc.1 with vchi_free := vf_fail }

/-- The state of `demo_alloc` after `n` calls of `vmcs_sm_add_map` on its page, each
with a mapping record of its own (`100`, `101`, ...). -/
def demo_add_maps : Nat → SM_STATE_T
  | 0 => demo_alloc.1
  | n + 1 => vmcs_sm_add_map (demo_add_maps n) 1 (100 + n)

/-- The kernel client of `demo_knl` locks its page a first time; the remote side
confirms the lock and `ioremap` returns the address 4026531840.  The
uninitialised `ioparam.addr` of `vc_sm_lock` holds 3735928559 when the call
starts. -/
def demo_knl_locked : SM_STATE_T × Int × Nat :=
  vc_sm_lock demo_knl.1 1 4096 false 3735928559
    { status := 0, res_mem := 5000, res_old_mem := 0, trans_id := 2 } true 4026531840

/-- The record of the page of `demo_knl_locked`. -/
def demo_knl_record : SM_RESOURCE_T :=
  { pid := 0, res_guid := 4096, lock_count := 1, ref_count := 1, res_handle := 77,
    res_base_mem := 5000, res_size := 4096, res_cached := 0, res_shared := none,
    res_stats := [1, 0, 1, 0, 0, 0, 0, 0, 0, 0, 0, 0, 0, 0, 0], map_count := 1, map_list := [2],
    priv := 0 }

/-- The window of the page of `demo_knl_locked`. -/
def demo_knl_window : sm_mmap :=
  { resource := 1, res_pid := 0, res_vc_hdl := 77, res_usr_hdl := 4096,
    res_addr := 4026531840, vma := none, ref_count := 0 }

/-- The kernel client of `demo_knl` locks its page and the remote lock, transaction
9, is interrupted: the kernel session has a pending `LOCK`. -/
def demo_knl_pending : SM_STATE_T × Int × Nat :=
  vc_sm_lock demo_knl.1 1 4096 false 3735928559
    { status := -EINTR, res_mem := 0, res_old_mem := 0, trans_id := 9 } true 0

/-- The driver right after start-up, in an address space whose page tables are
`demo_tables`. -/
def demo_paged : SM_STATE_T := { demo_init with ptes := fun _ a => demo_tables.present a }

/-- The state of `demo_alloc` in an address space whose page tables are
`demo_tables`. -/
def demo_alloc_paged : SM_STATE_T :=
  { demo_alloc.1 with ptes := fun _ a => demo_tables.present a }

/-- A remote service that confirms every free, under transaction id 12. -/
def vf_twelve : List Event → Nat → Nat → FreeReply :=
  fun _ _ _ => { status := 0, trans_id := 12 }

/-- Session 10 (process 100) allocates one page, session 20 (process 200) shares it,
and session 10 frees its GUID once: the page stays registered for the alias, and
it is still on the list of session 10. -/
def demo_lent : SM_STATE_T :=
  (vc_sm_ioctl_free
    (vc_sm_ioctl_alloc_share
      (vc_sm_ioctl_alloc (SM_STATE_T.init vf_twelve) 10 100
        { size := 4096, num := 1, cached := 3, handle := 0 } true
        { status := 0, res_handle := 77, res_mem := 5000, trans_id := 1 }).1
      20 200 { handle := 4096, size := 0 } true).1
    10 100 { handle := 4096 }).1

/-- In `demo_lent` session 10 asks `vc_sm_ioctl` for a lock of the page, and the
remote lock, transaction 9, is interrupted. -/
def demo_lent_pending : SM_STATE_T :=
  (vc_sm_ioctl demo_lent 10 100 (Request.VMCS_SM_CMD_LOCK { handle := 4096, addr := 0 })
    { demo_env with
      lock_reply := { status := -EINTR, res_mem := 0, res_old_mem := 0, trans_id := 9 } }).1

/-- After `demo_lent_pending` session 20 frees its alias through `vc_sm_ioctl`;
session 10 makes no request. -/
def demo_lent_freed : SM_STATE_T :=
  (vc_sm_ioctl demo_lent_pending 20 200 (Request.VMCS_SM_CMD_FREE { handle := 8192 })
    demo_env).1

/-! ## Sequences of calls and the invariant they maintain -/

/-- One call of an operation behind `vc_sm_ioctl` (the command itself, without
the clean-up that precedes it), with the answers of the environment it meets
(allocator, remote service, `ioremap`). -/
inductive Call
  | alloc (priv cur : Nat) (ioparam : vmcs_sm_ioctl_alloc) (kz : Bool) (reply : AllocReply)
  | alloc_share (priv cur : Nat) (ioparam : vmcs_sm_ioctl_alloc_share) (kz : Bool)
  | lock (priv cur : Nat) (ioparam : vmcs_sm_ioctl_lock_unlock) (change_cache : Bool)
      (cache_type vc_addr : Nat) (reply : LockReply) (kz : Bool) (ioremap_ret : Nat)
  | unlock (priv cur : Nat) (ioparam : vmcs_sm_ioctl_lock_unlock) (flush : Bool)
      (wait_reply : Nat) (no_vc_unlock : Bool) (reply : UnlockReply)
  | free (priv cur : Nat) (ioparam : vmcs_sm_ioctl_free)

/-- The state after one call. -/
def Call.run (s : SM_STATE_T) : Call → SM_STATE_T
  | Call.alloc priv cur ioparam kz reply => (vc_sm_ioctl_alloc s priv cur ioparam kz reply).1
  | Call.alloc_share priv cur ioparam kz => (vc_sm_ioctl_alloc_share s priv cur ioparam kz).1
  | Call.lock priv cur ioparam change_cache cache_type vc_addr reply kz ioremap_ret =>
    (vc_sm_ioctl_lock s priv cur ioparam change_cache cache_type vc_addr reply kz ioremap_ret).1
  | Call.unlock priv cur ioparam flush wait_reply no_vc_unlock reply =>
    (vc_sm_ioctl_unlock s priv cur ioparam flush wait_reply no_vc_unlock reply).1
  | Call.free priv cur ioparam => (vc_sm_ioctl_free s priv cur ioparam).1

/-- The state after a sequence of calls, oldest first. -/
def run_calls (s : SM_STATE_T) (calls : List Call) : SM_STATE_T := calls.foldl Call.run s

/-- The calls considered when session `f` is closed: every call comes from a user
process (`current->tgid` is not 0), and session `f` itself takes no alias (the
other sessions may allocate, lock, unlock, free and take aliases at will). -/
def Call.admissible (f : Ptr) : Call → Bool
  | Call.alloc _ cur _ _ _ => cur != 0
  | Call.alloc_share priv cur _ _ => cur != 0 && priv != f
  | Call.lock _ cur _ _ _ _ _ _ _ => cur != 0
  | Call.unlock _ cur _ _ _ _ _ => cur != 0
  | Call.free _ cur _ => cur != 0

/-- The fields of a resource record that the bookkeeping of sessions rests on. -/
def SM_RESOURCE_T.key (r : SM_RESOURCE_T) : Ptr × Nat × Nat × List Ptr × Option Ptr :=
  (r.priv, r.pid, r.ref_count, r.map_list, r.res_shared)

/-- Relation between two states that have the same session lists, the same global
mapping list and records with the same `key`; the allocator may have advanced. -/
structure Same (s s1 : SM_STATE_T) : Prop where
  brk : s.brk ≤ s1.brk
  map_list : s1.map_list = s.map_list
  lists : ∀ g, (s1.sessions g).resource_list = (s.sessions g).resource_list
  recs : ∀ x, (s1.resources x).map SM_RESOURCE_T.key = (s.resources x).map SM_RESOURCE_T.key

/-- The invariant of the states reached by admissible calls.  `f` is the session
that takes no alias, `c` bounds the reference counts, `Z` holds the records that
are being torn down (unlinked but not yet freed). -/
structure Inv (f : Ptr) (c : Nat) (Z : Ptr → Prop) (s : SM_STATE_T) : Prop where
  listed : ∀ g x, x ∈ (s.sessions g).resource_list →
    ∃ r, s.resources x = some r ∧ r.priv = g ∧ 1 ≤ r.ref_count ∧ r.ref_count ≤ c ∧
      r.pid ≠ 0 ∧ r.map_list = [] ∧ (g = f → r.res_shared = none)
  live : ∀ x r, s.resources x = some r →
    (Z x ∨ x ∈ (s.sessions r.priv).resource_list) ∧ x < s.brk ∧
      ∀ q, r.res_shared = some q → q < x
  maps : s.map_list = []
  zombies : ∀ z, Z z → ∀ g, z ∉ (s.sessions g).resource_list

/-- A bound on the number of rounds the loop of `vc_sm_release` still has to make
for session `f`: 2^32 for each resource on its list, plus the references left
on the first one. -/
def drain_measure (s : SM_STATE_T) (f : Ptr) : Nat :=
  (s.sessions f).resource_list.length * 4294967296 +
    match (s.sessions f).resource_list with
    | [] => 0
    | p :: _ =>
      match s.resources p with
      | some r => r.ref_count
      | none => 0

/-- A run that touches every call: session 10 allocates a page, session 20 takes an
alias of it, session 10 locks and unlocks the page, allocates a second one and
frees the first. -/
def demo_calls : List Call :=
  [Call.alloc 10 100 { size := 4096, num := 1, cached := 3, handle := 0 } true
      { status := 0, res_handle := 77, res_mem := 5000, trans_id := 1 },
    Call.alloc_share 20 200 { handle := 4096, size := 0 } true,
    Call.lock 10 100 { handle := 4096, addr := 0 } false 0 0
      { status := 0, res_mem := 5000, res_old_mem := 0, trans_id := 2 } true 0,
    Call.unlock 10 100 { handle := 4096, addr := 0 } true 1 false { status := 0, trans_id := 3 },
    Call.alloc 10 100 { size := 100, num := 2, cached := 0, handle := 0 } true
      { status := 0, res_handle := 78, res_mem := 9000, trans_id := 4 },
    Call.free 10 100 { handle := 4096 }]

/-- The call of `demo_alloc`: session 10 (process 100) allocates one page and the
remote side grants it. -/
def demo_alloc_call : Call :=
  Call.alloc 10 100 { size := 4096, num := 1, cached := 3, handle := 0 } true
    { status := 0, res_handle := 77, res_mem := 5000, trans_id := 1 }

/-- The state after `n` successful mapping requests of process 100 on the page of
`demo_alloc`, each for a region of its own. -/
def demo_mmaps : Nat → SM_STATE_T
  | 0 => demo_alloc.1
  | n + 1 =>
    (vc_sm_mmap (demo_mmaps n) 10 100 (65536 + 4096 * n) (65536 + 4096 * n + 4096) 1 true).1

/-! # Theorems -/

/-! ## Unmapping leaves the registry alone -/

theorem mapframe_refl (s : SM_STATE_T) : MapFrame s s :=
  ⟨rfl, rfl, rfl, rfl, rfl, rfl, rfl, rfl, rfl, rfl, fun _ => rfl⟩

theorem mapframe_trans {s s1 s2 : SM_STATE_T} (h1 : MapFrame s s1) (h2 : MapFrame s1 s2) :
    MapFrame s s2 :=
  ⟨h2.resource_list.trans h1.resource_list, h2.sessions.trans h1.sessions,
   h2.deceased.trans h1.deceased, h2.terminated.trans h1.terminated,
   h2.res_deceased_cnt.trans h1.res_deceased_cnt,
   h2.res_terminated_cnt.trans h1.res_terminated_cnt, h2.guid.trans h1.guid,
   h2.brk.trans h1.brk, h2.vchi_free.trans h1.vchi_free, h2.remote.trans h1.remote,
   fun p => (h2.core p).trans (h1.core p)⟩

theorem mapframe_crash (s : SM_STATE_T) : MapFrame s s.crash :=
  ⟨rfl, rfl, rfl, rfl, rfl, rfl, rfl, rfl, rfl, rfl, fun _ => rfl⟩

theorem mapframe_foldl {α : Type} (f : SM_STATE_T → α → SM_STATE_T)
    (hf : ∀ st a, MapFrame st (f st a)) (l : List α) (s : SM_STATE_T) :
    MapFrame s (l.foldl f s) := by
  induction l generalizing s with
  | nil => exact mapframe_refl s
  | cons a l ih => exact mapframe_trans (hf s a) (ih (f s a))

theorem remote_calls_append (t u : List Event) :
    remote_calls (t ++ u) = remote_calls t ++ remote_calls u := by
  simp [remote_calls]

theorem vmcs_sm_remove_map_frame (s : SM_STATE_T) (res mp : Ptr) :
    MapFrame s (vmcs_sm_remove_map s res mp) := by
  unfold vmcs_sm_remove_map
  by_cases hs : s.status = Status.running
  · cases hr : s.resources res with
    | none => simpa [hs, hr] using mapframe_crash s
    | some r =>
      simp only [hs, ne_eq, not_true_eq_false, if_false, hr]
      refine ⟨rfl, rfl, rfl, rfl, rfl, rfl, rfl, rfl, rfl, rfl, fun p => ?_⟩
      by_cases hp : p = res
      · subst hp; simp [hr, SM_RESOURCE_T.core]
      · simp [Function.update_noteq hp]
  · simpa [hs] using mapframe_refl s

theorem vcsm_vma_close_frame (s : SM_STATE_T) (vma : vm_area_struct) :
    MapFrame s (vcsm_vma_close s vma) := by
  unfold vcsm_vma_close
  by_cases hs : s.status = Status.running
  · cases hm : s.maps vma.vm_private_data with
    | none => simpa [hs, hm] using mapframe_crash s
    | some m =>
      simp only [hs, ne_eq, not_true_eq_false, if_false, hm]
      split
      · refine mapframe_trans ?_ (vmcs_sm_remove_map_frame _ _ _)
        exact ⟨rfl, rfl, rfl, rfl, rfl, rfl, rfl, rfl, rfl, rfl, fun _ => rfl⟩
      · exact ⟨rfl, rfl, rfl, rfl, rfl, rfl, rfl, rfl, rfl, rfl, fun _ => rfl⟩
  · simpa [hs] using mapframe_refl s

theorem do_munmap_frame (s : SM_STATE_T) (mm start len : Nat) :
    MapFrame s (do_munmap s mm start len) := by
  unfold do_munmap
  by_cases hs : s.status = Status.running
  · simp only [hs, ne_eq, not_true_eq_false, if_false]
    refine mapframe_trans ?_ (mapframe_foldl _ (fun st (v : Ptr × vm_area_struct) => vcsm_vma_close_frame st v.2) _ _)
    exact ⟨rfl, rfl, rfl, rfl, rfl, rfl, rfl, rfl, rfl,
      by simp [remote_calls_append, remote_calls, Event.is_remote], fun _ => rfl⟩
  · simpa [hs] using mapframe_refl s

theorem release_unmap_frame (s : SM_STATE_T) (cur : Nat) (p : Ptr) :
    MapFrame s (release_unmap s cur p) := by
  unfold release_unmap
  by_cases hs : s.status = Status.running
  · cases hr : s.resources p with
    | none => simpa [hs, hr] using mapframe_crash s
    | some r =>
      simp only [hs, ne_eq, not_true_eq_false, if_false, hr]
      split
      · refine mapframe_foldl _ (fun st mp => ?_) _ _
        split
        · exact mapframe_refl st
        · split
          · exact do_munmap_frame _ _ _ _
          · exact mapframe_crash st
      · exact mapframe_refl s
  · simpa [hs] using mapframe_refl s

/-! ## Lookup lemmas -/

theorem find_guid_some {res : Ptr → Option SM_RESOURCE_T} {l : List Ptr} {g : Nat} {p : Ptr}
    (h : find_guid res l g = some p) :
    p ∈ l ∧ ∃ r, res p = some r ∧ r.res_guid = g := by
  unfold find_guid at h
  refine ⟨List.mem_of_find?_eq_some h, ?_⟩
  have hp := List.find?_some h
  cases hr : res p with
  | none => simp [hr] at hp
  | some r =>
    simp [hr] at hp
    exact ⟨r, rfl, hp⟩

theorem find_guid_none {res : Ptr → Option SM_RESOURCE_T} {l : List Ptr} {g : Nat} :
    find_guid res l g = none ↔ ∀ p ∈ l, ∀ r, res p = some r → r.res_guid ≠ g := by
  unfold find_guid
  rw [List.find?_eq_none]
  constructor
  · intro h p hp r hr hg
    have := h p hp
    simp [hr, hg] at this
  · intro h p hp
    cases hr : res p with
    | none => simp
    | some r =>
      have := h p hp r hr
      simpa using this

theorem find_guid_cons_hit {res : Ptr → Option SM_RESOURCE_T} {l : List Ptr} {g : Nat}
    {p : Ptr} {r : SM_RESOURCE_T} (hr : res p = some r) (hg : r.res_guid = g) :
    find_guid res (p :: l) g = some p := by
  simp [find_guid, hr, hg]

/-- Claim C6.  In a running state whose reference counters are below `UINT32_MAX`:
`vmcs_sm_acquire_resource session guid` returns a resource exactly when the
list of the session holds a (live) resource with that GUID; on a hit the
returned resource is in that list, has that GUID, and the new state is the old
one with the `ref_count` of exactly that resource raised by one; when the GUID
is in no resource of the session list the call returns nothing and the state
is unchanged, whereas `vmcs_sm_acquire_global_resource guid` finds a resource
of the global list with that GUID and raises its `ref_count` by one. -/
theorem acquire_resource_contract (s : SM_STATE_T) (priv g : Nat)
    (hs : s.status = Status.running)
    (hsat : ∀ p r, s.resources p = some r → r.ref_count < 4294967295) :
    ((∃ p, (vmcs_sm_acquire_resource s priv g).2 = some p) ↔
      ∃ p ∈ (s.sessions priv).resource_list, ∃ r, s.resources p = some r ∧ r.res_guid = g) ∧
    (∀ p, (vmcs_sm_acquire_resource s priv g).2 = some p →
      p ∈ (s.sessions priv).resource_list ∧
      ∃ r, s.resources p = some r ∧ r.res_guid = g ∧
        (vmcs_sm_acquire_resource s priv g).1 =
          s.set_res p { r with ref_count := r.ref_count + 1 }) ∧
    ((∀ p ∈ (s.sessions priv).resource_list, ∀ r, s.resources p = some r → r.res_guid ≠ g) →
      vmcs_sm_acquire_resource s priv g = (s, none) ∧
      ((∃ q ∈ s.resource_list, ∃ rq, s.resources q = some rq ∧ rq.res_guid = g) →
        ∃ q ∈ s.resource_list, ∃ rq, s.resources q = some rq ∧ rq.res_guid = g ∧
          vmcs_sm_acquire_global_resource s g =
            (s.set_res q { rq with ref_count := rq.ref_count + 1 }, some q))) := by
  have hinc : ∀ p r, s.resources p = some r → u32_inc r.ref_count = r.ref_count + 1 := by
    intro p r hr
    have := hsat p r hr
    unfold u32_inc
    omega
  refine ⟨?_, ?_, ?_⟩
  · constructor
    · rintro ⟨p, hp⟩
      unfold vmcs_sm_acquire_resource at hp
      simp only [hs, ne_eq, not_true_eq_false, if_false] at hp
      cases hf : find_guid s.resources (s.sessions priv).resource_list g with
      | none => simp [hf] at hp
      | some q =>
        obtain ⟨hm, r, hr, hg⟩ := find_guid_some hf
        exact ⟨q, hm, r, hr, hg⟩
    · rintro ⟨p, hm, r, hr, hg⟩
      cases hf : find_guid s.resources (s.sessions priv).resource_list g with
      | none => exact absurd hg (find_guid_none.mp hf p hm r hr)
      | some q =>
        obtain ⟨_, rq, hrq, _⟩ := find_guid_some hf
        exact ⟨q, by simp [vmcs_sm_acquire_resource, hs, hf, take_ref, hrq]⟩
  · intro p hp
    unfold vmcs_sm_acquire_resource at hp ⊢
    simp only [hs, ne_eq, not_true_eq_false, if_false] at hp ⊢
    cases hf : find_guid s.resources (s.sessions priv).resource_list g with
    | none => simp [hf] at hp
    | some q =>
      obtain ⟨hm, r, hr, hg⟩ := find_guid_some hf
      simp only [hf, take_ref, hr] at hp ⊢
      simp at hp
      subst hp
      exact ⟨hm, r, hr, hg, by simp [hinc q r hr]⟩
  · intro hmiss
    have hf := find_guid_none.mpr hmiss
    refine ⟨by simp [vmcs_sm_acquire_resource, hs, hf], ?_⟩
    rintro ⟨q, hq, rq, hrq, hg⟩
    cases hf2 : find_guid s.resources s.resource_list g with
    | none => exact absurd hg (find_guid_none.mp hf2 q hq rq hrq)
    | some q2 =>
      obtain ⟨hm, r, hr, hg2⟩ := find_guid_some hf2
      exact ⟨q2, hm, r, hr, hg2, by
        simp [vmcs_sm_acquire_global_resource, hs, hf2, take_ref, hr, hinc q2 r hr]⟩

/-! ## Releasing a reference -/

theorem u32_dec_of_two_le {n : Nat} (h2 : 2 ≤ n) (hlt : n < 4294967296) :
    u32_dec n = n - 1 ∧ u32_dec n ≠ 0 := by
  unfold u32_dec
  omega

theorem u32_dec_one : u32_dec 1 = 0 := by
  decide

theorem u32_inc_of_lt {n : Nat} (h : n < 4294967295) : u32_inc n = n + 1 := by
  unfold u32_inc
  omega

theorem release_aux_keep (fuel : Nat) (s : SM_STATE_T) (cur : Nat) (p : Ptr) (force : Bool)
    (r : SM_RESOURCE_T) (hs : s.status = Status.running) (hr : s.resources p = some r)
    (hn : u32_dec r.ref_count ≠ 0) :
    release_aux (fuel + 1) s cur p force =
      s.set_res p { r with ref_count := u32_dec r.ref_count } := by
  simp [release_aux, hs, hr, hn]

theorem release_aux_teardown (fuel : Nat) (s : SM_STATE_T) (cur : Nat) (p : Ptr) (force : Bool)
    (r : SM_RESOURCE_T) (hs : s.status = Status.running) (hr : s.resources p = some r)
    (hn : u32_dec r.ref_count = 0) :
    release_aux (fuel + 1) s cur p force =
      kfree_resource (vc_sm_resource_deceased
        (match shared_of (release_vc_free (release_unmap (release_unlink
            (s.set_res p { r with ref_count := 0 }) p) cur p) p) p with
          | some q => release_aux fuel (release_vc_free (release_unmap (release_unlink
              (s.set_res p { r with ref_count := 0 }) p) cur p) p) cur q false
          | none => release_vc_free (release_unmap (release_unlink
              (s.set_res p { r with ref_count := 0 }) p) cur p) p)
        p force) p := by
  simp [release_aux, hs, hr, hn]

/-! ### The lists only shrink while a reference is released -/

theorem shrinks_refl (s : SM_STATE_T) : Shrinks s s :=
  ⟨fun _ h => h, fun _ _ h => h⟩

theorem shrinks_trans {s s1 s2 : SM_STATE_T} (h1 : Shrinks s s1) (h2 : Shrinks s1 s2) :
    Shrinks s s2 :=
  ⟨fun x h => h1.1 x (h2.1 x h), fun f x h => h1.2 f x (h2.2 f x h)⟩

theorem shrinks_of_eq {s s1 : SM_STATE_T} (h1 : s1.resource_list = s.resource_list)
    (h2 : s1.sessions = s.sessions) : Shrinks s s1 :=
  ⟨fun _ h => h1 ▸ h, fun _ _ h => h2 ▸ h⟩

theorem mapframe_shrinks {s s1 : SM_STATE_T} (h : MapFrame s s1) : Shrinks s s1 :=
  shrinks_of_eq h.resource_list h.sessions

theorem mem_list_del {p x : Ptr} {l : List Ptr} : x ∈ list_del p l ↔ x ∈ l ∧ x ≠ p := by
  simp [list_del]

theorem release_unlink_shrinks (s : SM_STATE_T) (p : Ptr) : Shrinks s (release_unlink s p) := by
  unfold release_unlink
  by_cases hs : s.status = Status.running
  · cases hr : s.resources p with
    | none => simpa [hs, hr] using shrinks_refl s
    | some r =>
      simp only [hs, ne_eq, not_true_eq_false, if_false, hr]
      refine ⟨fun x h => ?_, fun f x h => ?_⟩
      · simp [mem_list_del] at h
        exact h.1
      · by_cases hf : f = r.priv
        · subst hf
          simp [mem_list_del] at h
          exact h.1
        · simpa [Function.update_noteq hf] using h
  · simpa [hs] using shrinks_refl s

theorem release_vc_free_shrinks (s : SM_STATE_T) (p : Ptr) :
    Shrinks s (release_vc_free s p) := by
  unfold release_vc_free
  by_cases hs : s.status = Status.running
  · cases hr : s.resources p with
    | none => simpa [hs, hr] using shrinks_refl s
    | some r =>
      simp only [hs, ne_eq, not_true_eq_false, if_false, hr]
      split
      · exact shrinks_refl s
      · have key : ∀ f x, x ∈ ((Function.update s.sessions r.priv
            { s.sessions r.priv with
              int_trans_id := (s.vchi_free s.trace r.res_handle r.res_base_mem).trans_id })
              f).resource_list → x ∈ (s.sessions f).resource_list := by
          intro f x h
          by_cases hf : f = r.priv
          · subst hf; simpa using h
          · simpa [Function.update_noteq hf] using h
        split
        · exact ⟨fun _ h => h, key⟩
        · exact ⟨fun _ h => h, key⟩
  · simpa [hs] using shrinks_refl s

theorem vc_sm_resource_deceased_shrinks (s : SM_STATE_T) (p : Ptr) (t : Bool) :
    Shrinks s (vc_sm_resource_deceased s p t) := by
  unfold vc_sm_resource_deceased
  by_cases hs : s.status = Status.running
  · cases hr : s.resources p with
    | none => simpa [hs, hr] using shrinks_refl s
    | some r =>
      simp only [hs, ne_eq, not_true_eq_false, if_false, hr]
      split
      · exact shrinks_of_eq rfl rfl
      · exact shrinks_of_eq rfl rfl
  · simpa [hs] using shrinks_refl s

theorem kfree_resource_shrinks (s : SM_STATE_T) (p : Ptr) : Shrinks s (kfree_resource s p) := by
  unfold kfree_resource
  split
  · exact shrinks_refl s
  · exact shrinks_of_eq rfl rfl

theorem release_aux_shrinks (fuel : Nat) : ∀ (s : SM_STATE_T) (cur : Nat) (p : Ptr) (force : Bool),
    Shrinks s (release_aux fuel s cur p force) := by
  induction fuel with
  | zero =>
    intro s cur p force
    unfold release_aux
    split
    · exact shrinks_refl s
    · exact shrinks_of_eq rfl rfl
  | succ fuel ih =>
    intro s cur p force
    by_cases hs : s.status = Status.running
    · cases hr : s.resources p with
      | none => simpa [release_aux, hs, hr] using shrinks_refl s
      | some r =>
        by_cases hn : u32_dec r.ref_count = 0
        · rw [release_aux_teardown fuel s cur p force r hs hr hn]
          have h0 : Shrinks s (s.set_res p { r with ref_count := 0 }) := shrinks_of_eq rfl rfl
          have h1 := shrinks_trans h0 (release_unlink_shrinks (s.set_res p { r with ref_count := 0 }) p)
          have h2 := shrinks_trans h1 (mapframe_shrinks (release_unmap_frame _ cur p))
          have h3 := shrinks_trans h2 (release_vc_free_shrinks _ p)
          refine shrinks_trans ?_ (kfree_resource_shrinks _ _)
          refine shrinks_trans ?_ (vc_sm_resource_deceased_shrinks _ _ _)
          split
          · exact shrinks_trans h3 (ih _ _ _ _)
          · exact h3
        · rw [release_aux_keep fuel s cur p force r hs hr hn]
          exact shrinks_of_eq rfl rfl
    · simpa [release_aux, hs] using shrinks_refl s

theorem release_unlink_not_mem (s : SM_STATE_T) (p : Ptr) (r : SM_RESOURCE_T)
    (hs : s.status = Status.running) (hr : s.resources p = some r) :
    p ∉ (release_unlink s p).resource_list ∧
    p ∉ ((release_unlink s p).sessions r.priv).resource_list := by
  simp [release_unlink, hs, hr, mem_list_del]

/-- Claim C2.  `vmcs_sm_release_resource` on a live resource with `ref_count = n`,
for either value of `force`: when `n ≥ 2` the result is the old state with
`ref_count` lowered to `n - 1` and nothing else changed (the resource stays in
both lists, the trace gets no remote call); when `n = 1` the count reaches
zero and the resource is in neither the global resource list nor the list of
its session afterwards. -/
theorem release_resource_contract (s : SM_STATE_T) (cur : Nat) (p : Ptr) (force : Bool)
    (r : SM_RESOURCE_T) (hs : s.status = Status.running) (hr : s.resources p = some r)
    (hlt : r.ref_count < 4294967296) :
    (2 ≤ r.ref_count →
      vmcs_sm_release_resource s cur p force =
        s.set_res p { r with ref_count := r.ref_count - 1 }) ∧
    (r.ref_count = 1 →
      p ∉ (vmcs_sm_release_resource s cur p force).resource_list ∧
      p ∉ ((vmcs_sm_release_resource s cur p force).sessions r.priv).resource_list) := by
  constructor
  · intro h2
    obtain ⟨he, hne⟩ := u32_dec_of_two_le h2 hlt
    unfold vmcs_sm_release_resource
    rw [release_aux_keep p s cur p force r hs hr hne, he]
  · intro h1
    have hd : u32_dec r.ref_count = 0 := by rw [h1]; exact u32_dec_one
    unfold vmcs_sm_release_resource
    rw [release_aux_teardown p s cur p force r hs hr hd]
    have hu := release_unlink_not_mem (s.set_res p { r with ref_count := 0 }) p
      { r with ref_count := 0 } hs (by simp)
    have hsh : Shrinks (release_unlink (s.set_res p { r with ref_count := 0 }) p)
        (kfree_resource (vc_sm_resource_deceased
        (match shared_of (release_vc_free (release_unmap (release_unlink
            (s.set_res p { r with ref_count := 0 }) p) cur p) p) p with
          | some q => release_aux p (release_vc_free (release_unmap (release_unlink
              (s.set_res p { r with ref_count := 0 }) p) cur p) p) cur q false
          | none => release_vc_free (release_unmap (release_unlink
              (s.set_res p { r with ref_count := 0 }) p) cur p) p)
        p force) p) := by
      have h2 := mapframe_shrinks (release_unmap_frame
        (release_unlink (s.set_res p { r with ref_count := 0 }) p) cur p)
      have h3 := shrinks_trans h2 (release_vc_free_shrinks _ p)
      refine shrinks_trans ?_ (kfree_resource_shrinks _ _)
      refine shrinks_trans ?_ (vc_sm_resource_deceased_shrinks _ _ _)
      split
      · exact shrinks_trans h3 (release_aux_shrinks _ _ _ _ _)
      · exact h3
    exact ⟨fun h => hu.1 (hsh.1 p h), fun h => hu.2 (hsh.2 r.priv p h)⟩

/-! ## Rounding the unit size -/

theorem land_mask_eq (x : Nat) (hx : x < 4294967296) :
    x &&& 4294963200 = x / 4096 * 4096 := by
  apply Nat.eq_of_testBit_eq
  intro i
  have hm : (4294963200 : Nat) = (2 ^ 20 - 1) <<< 12 := by decide
  have hd : x / 4096 * 4096 = (x >>> 12) <<< 12 := by
    rw [Nat.shiftLeft_eq, Nat.shiftRight_eq_div_pow]
  rw [Nat.testBit_and, hm, hd, Nat.testBit_shiftLeft, Nat.testBit_shiftLeft,
    Nat.testBit_two_pow_sub_one, Nat.testBit_shiftRight]
  by_cases h12 : 12 ≤ i
  · have e : 12 + (i - 12) = i := by omega
    rw [e]
    by_cases h32 : i < 32
    · have : i - 12 < 20 := by omega
      simp [h12, this]
    · have hbig : x < 2 ^ i :=
        lt_of_lt_of_le hx (by
          have : (4294967296 : Nat) = 2 ^ 32 := by decide
          rw [this]
          exact Nat.pow_le_pow_right (by decide) (by omega))
      have hf : x.testBit i = false := Nat.testBit_lt_two_pow hbig
      simp [hf]
  · simp [h12]

/-- Claim C10, amended.  For every requested unit size `s ≤ 2 ^ 32 - 4096` the unit
size sent to the remote allocator, `(s + 4095) & ~4095` in 32-bit arithmetic,
is the least multiple of 4096 that is greater than or equal to `s`. -/
theorem align_unit_least_multiple (s : Nat) (hs : s ≤ 4294963200) :
    4096 ∣ align_unit s 4096 ∧ s ≤ align_unit s 4096 ∧
    ∀ m, 4096 ∣ m → s ≤ m → align_unit s 4096 ≤ m := by
  have hlt : s + 4095 < 4294967296 := by omega
  have he : align_unit s 4096 = (s + 4095) / 4096 * 4096 := by
    unfold align_unit
    have h1 : s + 4096 - 1 = s + 4095 := by omega
    have h2 : (4294967295 : Nat) - (4096 - 1) = 4294963200 := by decide
    rw [h1, h2, Nat.mod_eq_of_lt hlt, land_mask_eq _ hlt]
  rw [he]
  refine ⟨Dvd.intro_left _ rfl, by omega, ?_⟩
  rintro m ⟨k, rfl⟩ hm
  omega

/-- Claim C10 as stated fails: for `s = 2 ^ 32 - 1` the sum wraps and the unit size
sent is 0, which is not greater than or equal to `s`. -/
theorem align_unit_overflow :
    ¬ (4096 ∣ align_unit 4294967295 4096 ∧ 4294967295 ≤ align_unit 4294967295 4096 ∧
      ∀ m, 4096 ∣ m → 4294967295 ≤ m → align_unit 4294967295 4096 ≤ m) := by
  intro h
  exact absurd h.2.1 (by decide)

/-- Claim C10, amended, at `s = 4097`. -/
theorem align_unit_least_multiple_witness :
    4096 ∣ align_unit 4097 4096 ∧ 4097 ≤ align_unit 4097 4096 ∧
    ∀ m, 4096 ∣ m → 4097 ≤ m → align_unit 4097 4096 ≤ m :=
  align_unit_least_multiple 4097 (by decide)

theorem next_guid_step_ne (g : Nat) : (next_guid (next_guid g).1).2 ≠ (next_guid g).2 := by
  simp only [next_guid, u32_inc, PAGE_SHIFT, Nat.shiftLeft_eq]
  norm_num
  omega

theorem handle_in_use_eq_false {res : Ptr → Option SM_RESOURCE_T} {l : List Ptr} {h : Nat}
    (hh : ∀ q ∈ l, ∀ rq, res q = some rq → rq.res_handle ≠ h) :
    handle_in_use res l h = false := by
  unfold handle_in_use
  rw [List.any_eq_false]
  intro q hq
  cases hr : res q with
  | none => simp
  | some rq => simpa using hh q hq rq hr

theorem handle_in_use_eq_true {res : Ptr → Option SM_RESOURCE_T} {l : List Ptr} {h : Nat}
    {q : Ptr} {rq : SM_RESOURCE_T}
    (hq : q ∈ l) (hr : res q = some rq) (hh : rq.res_handle = h) :
    handle_in_use res l h = true := by
  unfold handle_in_use
  rw [List.any_eq_true]
  exact ⟨q, hq, by simp [hr, hh]⟩

theorem release_unmap_skip (s : SM_STATE_T) (cur : Nat) (p : Ptr) (r : SM_RESOURCE_T)
    (hr : s.resources p = some r) (hm : r.map_count = 0 ∨ r.map_list = []) :
    release_unmap s cur p = s := by
  unfold release_unmap
  by_cases hs : s.status = Status.running
  · have : ¬ (r.map_count ≠ 0 ∧ r.map_list ≠ []) := by
      rcases hm with h | h
      · simp [h]
      · simp [h]
    simp [hs, hr, this]
  · simp [hs]

theorem release_aux_last_plain (fuel : Nat) (s : SM_STATE_T) (cur : Nat) (p : Ptr)
    (force : Bool) (r : SM_RESOURCE_T)
    (hs : s.status = Status.running) (hr : s.resources p = some r)
    (h1 : r.ref_count = 1) (hm : r.map_count = 0 ∨ r.map_list = [])
    (hsh : r.res_shared = none) (hH : r.res_handle ≠ 0)
    (hscan : ∀ q ∈ s.resource_list, q ≠ p → ∀ rq, s.resources q = some rq →
      rq.res_handle ≠ r.res_handle) :
    release_aux (fuel + 1) s cur p force =
      { s with
        sessions := Function.update s.sessions r.priv
          { s.sessions r.priv with
            resource_list := list_del p (s.sessions r.priv).resource_list
            int_trans_id := (s.vchi_free s.trace r.res_handle r.res_base_mem).trans_id }
        resource_list := list_del p s.resource_list
        resources := Function.update s.resources p none
        trace := s.trace ++ [Event.vc_vchi_sm_free r.res_handle r.res_base_mem]
        res_terminated_cnt :=
          if force then u32_inc s.res_terminated_cnt else s.res_terminated_cnt
        terminated :=
          if force then stats_add s.terminated
            (if (s.vchi_free s.trace r.res_handle r.res_base_mem).status ≠ 0 ∧
                (s.vchi_free s.trace r.res_handle r.res_base_mem).status ≠ -EINTR
              then stat_inc (stat_inc r.res_stats FREE) FREE_FAIL
              else stat_inc r.res_stats FREE)
          else s.terminated
        res_deceased_cnt :=
          if force then s.res_deceased_cnt else u32_inc s.res_deceased_cnt
        deceased :=
          if force then s.deceased else stats_add s.deceased
            (if (s.vchi_free s.trace r.res_handle r.res_base_mem).status ≠ 0 ∧
                (s.vchi_free s.trace r.res_handle r.res_base_mem).status ≠ -EINTR
              then stat_inc (stat_inc r.res_stats FREE) FREE_FAIL
              else stat_inc r.res_stats FREE) } := by
  have hd : u32_dec r.ref_count = 0 := by rw [h1]; exact u32_dec_one
  rw [release_aux_teardown fuel s cur p force r hs hr hd]
  have hu : release_unlink (s.set_res p { r with ref_count := 0 }) p =
      { s with
        sessions := Function.update s.sessions r.priv
          { s.sessions r.priv with
            resource_list := list_del p (s.sessions r.priv).resource_list }
        resource_list := list_del p s.resource_list
        resources := Function.update s.resources p
          (some { r with ref_count := 0, res_stats := stat_inc r.res_stats FREE }) } := by
    have hsc : handle_in_use
        (Function.update s.resources p (some { r with ref_count := 0 }))
        (list_del p s.resource_list) r.res_handle = false := by
      apply handle_in_use_eq_false
      intro q hq rq hrq
      simp only [mem_list_del] at hq
      simp only [Function.update_noteq hq.2] at hrq
      exact hscan q hq.1 hq.2 rq hrq
    simp [release_unlink, hs, hsc]
  rw [hu]
  rw [release_unmap_skip _ cur p { r with ref_count := 0, res_stats := stat_inc r.res_stats FREE }
    (by simp) (by simpa using hm)]
  by_cases hrep : (s.vchi_free s.trace r.res_handle r.res_base_mem).status ≠ 0 ∧
      (s.vchi_free s.trace r.res_handle r.res_base_mem).status ≠ -EINTR
  · cases force <;>
      simp [release_vc_free, hs, hH, hrep, shared_of, hsh, vc_sm_resource_deceased,
        kfree_resource]
  · cases force <;>
      simp [release_vc_free, hs, hH, hrep, shared_of, hsh, vc_sm_resource_deceased,
        kfree_resource]

theorem release_aux_last_alias (fuel : Nat) (s : SM_STATE_T) (cur : Nat) (p : Ptr)
    (force : Bool) (r : SM_RESOURCE_T) (q x : Ptr) (rx : SM_RESOURCE_T)
    (hs : s.status = Status.running) (hr : s.resources p = some r)
    (h1 : r.ref_count = 1) (hm : r.map_count = 0 ∨ r.map_list = [])
    (hsh : r.res_shared = some q)
    (hx : x ∈ s.resource_list) (hxp : x ≠ p) (hrx : s.resources x = some rx)
    (hh : rx.res_handle = r.res_handle) :
    release_aux (fuel + 1) s cur p force =
      kfree_resource (vc_sm_resource_deceased (release_aux fuel
        { s with
          sessions := Function.update s.sessions r.priv
            { s.sessions r.priv with
              resource_list := list_del p (s.sessions r.priv).resource_list }
          resource_list := list_del p s.resource_list
          resources := Function.update s.resources p
            (some { r with ref_count := 0, res_handle := 0,
                           res_stats := stat_inc r.res_stats FREE }) }
        cur q false) p force) p := by
  have hd : u32_dec r.ref_count = 0 := by rw [h1]; exact u32_dec_one
  rw [release_aux_teardown fuel s cur p force r hs hr hd]
  have hu : release_unlink (s.set_res p { r with ref_count := 0 }) p =
      { s with
        sessions := Function.update s.sessions r.priv
          { s.sessions r.priv with
            resource_list := list_del p (s.sessions r.priv).resource_list }
        resource_list := list_del p s.resource_list
        resources := Function.update s.resources p
          (some { r with ref_count := 0, res_handle := 0,
                         res_stats := stat_inc r.res_stats FREE }) } := by
    have hsc : handle_in_use
        (Function.update s.resources p (some { r with ref_count := 0 }))
        (list_del p s.resource_list) r.res_handle = true := by
      apply @handle_in_use_eq_true _ _ _ x rx
      · exact mem_list_del.mpr ⟨hx, hxp⟩
      · simp [Function.update_noteq hxp, hrx]
      · exact hh
    simp [release_unlink, hs, hsc]
  rw [hu]
  rw [release_unmap_skip _ cur p
    { r with ref_count := 0, res_handle := 0, res_stats := stat_inc r.res_stats FREE }
    (by simp) (by simpa using hm)]
  simp [release_vc_free, hs, shared_of, hsh]

theorem free_found (s : SM_STATE_T) (priv cur g : Nat) (p : Ptr) (r : SM_RESOURCE_T)
    (hs : s.status = Status.running)
    (hf : find_guid s.resources (s.sessions priv).resource_list g = some p)
    (hr : s.resources p = some r) (hpid : r.pid = 0 ∨ r.pid = cur) :
    vc_sm_ioctl_free s priv cur ⟨g⟩ =
      (vmcs_sm_release_resource (vmcs_sm_release_resource
        (s.set_res p { r with ref_count := u32_inc r.ref_count }) cur p false) cur p false, 0) := by
  have hp : ¬ (r.pid ≠ 0 ∧ r.pid ≠ cur) := by
    rcases hpid with h | h
    · simp [h]
    · simp [h]
  simp [vc_sm_ioctl_free, vmcs_sm_acquire_resource, hs, hf, take_ref, hr, hp]

theorem set_res_self (s : SM_STATE_T) (p : Ptr) (r : SM_RESOURCE_T)
    (hr : s.resources p = some r) : s.set_res p r = s := by
  simp [← hr]

theorem free_keep (s : SM_STATE_T) (priv cur g : Nat) (p : Ptr) (r : SM_RESOURCE_T)
    (hs : s.status = Status.running)
    (hf : find_guid s.resources (s.sessions priv).resource_list g = some p)
    (hr : s.resources p = some r) (hpid : r.pid = 0 ∨ r.pid = cur)
    (h2 : 2 ≤ r.ref_count) (hlt : r.ref_count < 4294967295) :
    vc_sm_ioctl_free s priv cur ⟨g⟩ =
      (s.set_res p { r with ref_count := r.ref_count - 1 }, 0) := by
  rw [free_found s priv cur g p r hs hf hr hpid]
  have hi := u32_inc_of_lt hlt
  have hd1 : u32_dec (r.ref_count + 1) = r.ref_count ∧ u32_dec (r.ref_count + 1) ≠ 0 := by
    unfold u32_dec; omega
  have hd2 := u32_dec_of_two_le h2 (by omega : r.ref_count < 4294967296)
  unfold vmcs_sm_release_resource
  have e1 := release_aux_keep p (s.set_res p { r with ref_count := u32_inc r.ref_count })
    cur p false { r with ref_count := u32_inc r.ref_count } hs
    (by simp) (by simpa [hi] using hd1.2)
  rw [e1]
  have e2 := release_aux_keep p
    ((s.set_res p { r with ref_count := u32_inc r.ref_count }).set_res p
      { r with ref_count := u32_dec (u32_inc r.ref_count) })
    cur p false { r with ref_count := u32_dec (u32_inc r.ref_count) } hs
    (by simp) (by simpa [hi, hd1.1] using hd2.2)
  simp only [SM_STATE_T.set_res] at e2 ⊢
  rw [e2]
  simp [hi, hd1.1, hd2.1]

theorem free_last (s : SM_STATE_T) (priv cur g : Nat) (p : Ptr) (r : SM_RESOURCE_T)
    (hs : s.status = Status.running)
    (hf : find_guid s.resources (s.sessions priv).resource_list g = some p)
    (hr : s.resources p = some r) (hpid : r.pid = 0 ∨ r.pid = cur)
    (h1 : r.ref_count = 1) :
    vc_sm_ioctl_free s priv cur ⟨g⟩ = (vmcs_sm_release_resource s cur p false, 0) := by
  rw [free_found s priv cur g p r hs hf hr hpid]
  have hi : u32_inc r.ref_count = 2 := by rw [h1]; decide
  have hd : u32_dec 2 = 1 := by decide
  unfold vmcs_sm_release_resource
  have e1 := release_aux_keep p (s.set_res p { r with ref_count := u32_inc r.ref_count })
    cur p false { r with ref_count := u32_inc r.ref_count } hs
    (by simp) (by simp [hi, hd])
  rw [e1]
  have hrr : ({ r with ref_count := u32_dec (u32_inc r.ref_count) } : SM_RESOURCE_T) = r := by
    rw [hi, hd, ← h1]
  have e := set_res_self s p r hr
  simp only [SM_STATE_T.set_res, Function.update_idem] at e ⊢
  rw [hrr, e]

theorem alloc_ok (s : SM_STATE_T) (priv cur : Nat) (io : vmcs_sm_ioctl_alloc)
    (reply : AllocReply) (hs : s.status = Status.running)
    (hok : reply.status = 0) (hmem : reply.res_mem ≠ 0) :
    vc_sm_ioctl_alloc s priv cur io true reply =
      ({ s with
          brk := s.brk + 1
          guid := (next_guid s.guid).1
          trace := s.trace ++ [Event.vc_vchi_sm_alloc
            (io.cached == VMCS_SM_CACHE_VC || io.cached == VMCS_SM_CACHE_BOTH)
            (align_unit io.size 4096) io.num 4096 cur]
          sessions := Function.update s.sessions priv
            { s.sessions priv with
              int_trans_id := reply.trans_id
              resource_list := s.brk :: (s.sessions priv).resource_list }
          resource_list := s.brk :: s.resource_list
          resources := Function.update s.resources s.brk
            (some { SM_RESOURCE_T.zero with
                    ref_count := 1, pid := cur, priv := priv
                    res_handle := reply.res_handle, res_base_mem := reply.res_mem
                    res_size := (align_unit io.size 4096 * io.num) % 4294967296
                    res_cached := io.cached, res_guid := (next_guid s.guid).2
                    res_stats := stat_inc (List.replicate 15 0) ALLOC }) },
        0, { io with handle := (next_guid s.guid).2 }) := by
  have hE : (0:Int) ≠ -EINTR := by decide
  have h1 : u32_inc 0 = 1 := by decide
  simp [vc_sm_ioctl_alloc, hs, hok, hmem, hE, vmcs_sm_add_resource, SM_RESOURCE_T.zero, h1]

theorem share_ok (s : SM_STATE_T) (priv cur g : Nat) (sz : Nat) (q : Ptr) (rq : SM_RESOURCE_T)
    (hs : s.status = Status.running)
    (hf : find_guid s.resources s.resource_list g = some q)
    (hr : s.resources q = some rq) :
    vc_sm_ioctl_alloc_share s priv cur ⟨g, sz⟩ true =
      ({ s with
          brk := s.brk + 1
          guid := (next_guid s.guid).1
          sessions := Function.update s.sessions priv
            { s.sessions priv with
              resource_list := s.brk :: (s.sessions priv).resource_list }
          resource_list := s.brk :: s.resource_list
          resources := Function.update
            (Function.update s.resources q (some { rq with ref_count := u32_inc rq.ref_count }))
            s.brk
            (some { SM_RESOURCE_T.zero with
                    ref_count := 1, pid := cur, priv := priv
                    res_handle := rq.res_handle, res_base_mem := rq.res_base_mem
                    res_size := rq.res_size
                    res_cached := rq.res_cached, res_guid := (next_guid s.guid).2
                    res_shared := some q
                    res_stats := stat_inc (List.replicate 15 0) ALLOC }) },
        0, { handle := (next_guid s.guid).2, size := rq.res_size }) := by
  have h1 : u32_inc 0 = 1 := by decide
  simp [vc_sm_ioctl_alloc_share, vmcs_sm_acquire_global_resource, hs, hf, take_ref, hr,
    vmcs_sm_add_resource, SM_RESOURCE_T.zero, h1]

theorem ptr_succ_ne (p : Ptr) : p + 1 ≠ p := Nat.succ_ne_self p

theorem ptr_ne_succ (p : Ptr) : p ≠ p + 1 := fun h => Nat.succ_ne_self p h.symm

theorem find_guid_congr {res res1 : Ptr → Option SM_RESOURCE_T} {l : List Ptr} {g : Nat}
    (h : ∀ x ∈ l, (res1 x).map (fun r => r.res_guid) = (res x).map (fun r => r.res_guid)) :
    find_guid res1 l g = find_guid res l g := by
  unfold find_guid
  induction l with
  | nil => rfl
  | cons x xs ih =>
    have hx := h x (List.mem_cons_self x xs)
    have ih1 := ih (fun y hy => h y (List.mem_cons_of_mem x hy))
    rw [List.find?_cons, List.find?_cons, ih1]
    cases h1 : res1 x <;> cases h2 : res x <;> simp_all

theorem find_guid_list_del {res : Ptr → Option SM_RESOURCE_T} {l : List Ptr} {g : Nat}
    {p d : Ptr} (h : find_guid res l g = some p) (hpd : p ≠ d) :
    find_guid res (list_del d l) g = some p := by
  unfold find_guid list_del at *
  induction l with
  | nil => simp at h
  | cons x xs ih =>
    rw [List.find?_cons] at h
    by_cases hxd : x = d
    · subst hxd
      split at h
      · simp at h; exact absurd h.symm hpd
      · simpa using ih h
    · have hx : (x != d) = true := by simpa using hxd
      rw [List.filter_cons, if_pos hx, List.find?_cons]
      split at h
      · exact h
      · exact ih h

theorem release_alias_keep (t : SM_STATE_T) (cur : Nat) (pG pR : Ptr) (force : Bool)
    (G R : SM_RESOURCE_T)
    (hs : t.status = Status.running) (hG : t.resources pG = some G)
    (hG1 : G.ref_count = 1) (hGm : G.map_count = 0 ∨ G.map_list = [])
    (hGs : G.res_shared = some pR) (hne : pR ≠ pG) (hRl : pR ∈ t.resource_list)
    (hR : t.resources pR = some R) (hh : R.res_handle = G.res_handle)
    (hR2 : 2 ≤ R.ref_count) (hRlt : R.ref_count < 4294967296) (hpos : 1 ≤ pG) :
    vmcs_sm_release_resource t cur pG force =
      { t with
        sessions := Function.update t.sessions G.priv
          { t.sessions G.priv with
            resource_list := list_del pG (t.sessions G.priv).resource_list }
        resource_list := list_del pG t.resource_list
        resources := Function.update
          (Function.update t.resources pR (some { R with ref_count := R.ref_count - 1 }))
          pG none
        res_terminated_cnt :=
          if force then u32_inc t.res_terminated_cnt else t.res_terminated_cnt
        terminated :=
          if force then stats_add t.terminated (stat_inc G.res_stats FREE) else t.terminated
        res_deceased_cnt :=
          if force then t.res_deceased_cnt else u32_inc t.res_deceased_cnt
        deceased :=
          if force then t.deceased else stats_add t.deceased (stat_inc G.res_stats FREE) } := by
  unfold vmcs_sm_release_resource
  rw [release_aux_last_alias pG t cur pG force G pR pR R hs hG hG1 hGm hGs hRl hne hR hh]
  obtain ⟨k, rfl⟩ : ∃ k, pG = k + 1 := Nat.exists_eq_succ_of_ne_zero (Nat.pos_iff_ne_zero.mp hpos)
  obtain ⟨he, hne0⟩ := u32_dec_of_two_le hR2 hRlt
  rw [release_aux_keep k _ cur pR false R ?_ ?_ hne0]
  · rw [he]
    have hc := Function.update_comm hne (some { R with ref_count := R.ref_count - 1 })
      (none : Option SM_RESOURCE_T) t.resources
    cases force <;>
      simp [vc_sm_resource_deceased, kfree_resource, hs, Function.update_noteq hne.symm,
        Function.update_comm hne, hc]
  · exact hs
  · simp [Function.update_noteq hne, hR]
theorem release_alias_last (t : SM_STATE_T) (cur : Nat) (pG pR : Ptr) (force : Bool)
    (G R : SM_RESOURCE_T)
    (hs : t.status = Status.running) (hG : t.resources pG = some G)
    (hG1 : G.ref_count = 1) (hGm : G.map_count = 0 ∨ G.map_list = [])
    (hGs : G.res_shared = some pR) (hne : pR ≠ pG) (hRl : pR ∈ t.resource_list)
    (hR : t.resources pR = some R) (hh : R.res_handle = G.res_handle)
    (hR1 : R.ref_count = 1) (hRm : R.map_count = 0 ∨ R.map_list = [])
    (hRs : R.res_shared = none) (hH : R.res_handle ≠ 0)
    (hoth : ∀ q ∈ t.resource_list, q ≠ pR → q ≠ pG → ∀ rq, t.resources q = some rq →
      rq.res_handle ≠ R.res_handle)
    (hpos : 1 ≤ pG) :
    (vmcs_sm_release_resource t cur pG force).status = Status.running ∧
    (vmcs_sm_release_resource t cur pG force).trace =
      t.trace ++ [Event.vc_vchi_sm_free R.res_handle R.res_base_mem] ∧
    (vmcs_sm_release_resource t cur pG force).resource_list =
      list_del pR (list_del pG t.resource_list) ∧
    (vmcs_sm_release_resource t cur pG force).resources pR = none ∧
    (vmcs_sm_release_resource t cur pG force).resources pG = none := by
  unfold vmcs_sm_release_resource
  rw [release_aux_last_alias pG t cur pG force G pR pR R hs hG hG1 hGm hGs hRl hne hR hh]
  obtain ⟨k, rfl⟩ : ∃ k, pG = k + 1 := Nat.exists_eq_succ_of_ne_zero (Nat.pos_iff_ne_zero.mp hpos)
  rw [release_aux_last_plain k _ cur pR false R ?_ ?_ hR1 hRm hRs hH ?_]
  · cases force <;>
      simp [vc_sm_resource_deceased, kfree_resource, hs, Function.update_noteq hne.symm,
        Function.update_noteq hne]
  · exact hs
  · simp [Function.update_noteq hne, hR]
  · intro q hq hqR rq hrq
    simp only [mem_list_del] at hq
    simp only [Function.update_noteq hq.2] at hrq
    exact hoth q hq.1 hqR hq.2 rq hrq

/-- Claim C1.  From any running state in which no registered resource has the
remote handle `H` of the reply: session `A` allocates `R` (pointer `s.brk`) and
session `B` shares it as `G2` (pointer `s.brk + 1`).  Both calls succeed, the
alias gets a different GUID and the share adds nothing to the trace (no remote
allocate).  Freeing `G2` alone succeeds, adds nothing to the trace (no remote
free) and leaves `R` in the global list and in the list of `A`.  After one free
of each, in either order, the trace has grown by exactly the one remote free of
`H` and neither resource is in the global list; freeing `R` first adds nothing
to the trace. -/
theorem share_then_free_both (s : SM_STATE_T) (A B curA curB : Nat)
    (io : vmcs_sm_ioctl_alloc) (reply : AllocReply)
    (hs : s.status = Status.running)
    (hok : reply.status = 0) (hmem : reply.res_mem ≠ 0) (hH : reply.res_handle ≠ 0)
    (hfresh : ∀ q ∈ s.resource_list, ∀ rq, s.resources q = some rq →
      rq.res_handle ≠ reply.res_handle) :
    let a := vc_sm_ioctl_alloc s A curA io true reply
    let b := vc_sm_ioctl_alloc_share a.1 B curB ⟨a.2.2.handle, 0⟩ true
    let fG := vc_sm_ioctl_free b.1 B curB ⟨b.2.2.handle⟩
    let fGR := vc_sm_ioctl_free fG.1 A curA ⟨a.2.2.handle⟩
    let fR := vc_sm_ioctl_free b.1 A curA ⟨a.2.2.handle⟩
    let fRG := vc_sm_ioctl_free fR.1 B curB ⟨b.2.2.handle⟩
    (a.2.1 = 0 ∧ b.2.1 = 0 ∧ b.2.2.handle ≠ a.2.2.handle ∧ b.1.trace = a.1.trace) ∧
    (fG.2 = 0 ∧ fG.1.trace = b.1.trace ∧ s.brk ∈ fG.1.resource_list ∧
      s.brk ∈ (fG.1.sessions A).resource_list ∧ fG.1.status = Status.running) ∧
    (fGR.2 = 0 ∧ fGR.1.status = Status.running ∧
      fGR.1.trace = b.1.trace ++ [Event.vc_vchi_sm_free reply.res_handle reply.res_mem] ∧
      s.brk ∉ fGR.1.resource_list ∧ s.brk + 1 ∉ fGR.1.resource_list) ∧
    (fR.2 = 0 ∧ fR.1.trace = b.1.trace) ∧
    (fRG.2 = 0 ∧ fRG.1.status = Status.running ∧
      fRG.1.trace = b.1.trace ++ [Event.vc_vchi_sm_free reply.res_handle reply.res_mem] ∧
      s.brk ∉ fRG.1.resource_list ∧ s.brk + 1 ∉ fRG.1.resource_list) := by
  intro a b fG fGR fR fRG
  have ha : a = _ := alloc_ok s A curA io reply hs hok hmem
  have hsa : a.1.status = Status.running := by rw [ha]; exact hs
  have hb : b = _ := share_ok a.1 B curB a.2.2.handle 0 s.brk _ hsa
    (by rw [ha]; exact find_guid_cons_hit (Function.update_same _ _ _) rfl)
    (by rw [ha]; exact Function.update_same _ _ _)
  have h2 : u32_inc 1 = 2 := by decide
  have hn1 := ptr_succ_ne s.brk
  have hn2 := ptr_ne_succ s.brk
  have hgg := next_guid_step_ne s.guid
  -- the state after the two allocations, seen through what matters below
  have tS : b.1.status = Status.running := by rw [hb, ha]; exact hs
  have tL : b.1.resource_list = (s.brk + 1) :: s.brk :: s.resource_list := by
    rw [hb]; simp only [ha]
  have tR : b.1.resources s.brk = some
      { SM_RESOURCE_T.zero with
        ref_count := 2, pid := curA, priv := A
        res_handle := reply.res_handle, res_base_mem := reply.res_mem
        res_size := (align_unit io.size 4096 * io.num) % 4294967296
        res_cached := io.cached, res_guid := (next_guid s.guid).2
        res_stats := stat_inc (List.replicate 15 0) ALLOC } := by
    rw [hb, ha]; simp [Function.update_noteq hn2, h2, SM_RESOURCE_T.zero]
  have tG : b.1.resources (s.brk + 1) = some
      { SM_RESOURCE_T.zero with
        ref_count := 1, pid := curB, priv := B
        res_handle := reply.res_handle, res_base_mem := reply.res_mem
        res_size := (align_unit io.size 4096 * io.num) % 4294967296
        res_cached := io.cached, res_guid := (next_guid (next_guid s.guid).1).2
        res_shared := some s.brk
        res_stats := stat_inc (List.replicate 15 0) ALLOC } := by
    rw [hb, ha]; simp [SM_RESOURCE_T.zero]
  have tO : ∀ q ∈ b.1.resource_list, q ≠ s.brk → q ≠ s.brk + 1 → ∀ rq,
      b.1.resources q = some rq → rq.res_handle ≠ reply.res_handle := by
    intro q hq h1 h2' rq hrq
    rw [tL] at hq
    simp [h1, h2'] at hq
    rw [hb, ha] at hrq
    simp [Function.update_noteq h1, Function.update_noteq h2'] at hrq
    exact hfresh q hq rq hrq
  have tT : b.1.trace = a.1.trace := by rw [hb]
  have tFB : find_guid b.1.resources (b.1.sessions B).resource_list
      (next_guid (next_guid s.guid).1).2 = some (s.brk + 1) := by
    have : (b.1.sessions B).resource_list = (s.brk + 1) :: (a.1.sessions B).resource_list := by
      rw [hb]; simp [ha]
    rw [this]
    exact find_guid_cons_hit tG rfl
  have tFA : find_guid b.1.resources (b.1.sessions A).resource_list
      (next_guid s.guid).2 = some s.brk := by
    by_cases hAB : A = B
    · subst hAB
      have : (b.1.sessions A).resource_list =
          (s.brk + 1) :: s.brk :: (s.sessions A).resource_list := by
        rw [hb, ha]; simp
      rw [this]
      simp [find_guid, tG, tR, hgg]
    · have : (b.1.sessions A).resource_list = s.brk :: (s.sessions A).resource_list := by
        rw [hb, ha]; simp [Function.update_noteq hAB]
      rw [this]
      exact find_guid_cons_hit tR rfl
  have hbh : b.2.2.handle = (next_guid (next_guid s.guid).1).2 := by rw [hb, ha]
  have hah : a.2.2.handle = (next_guid s.guid).2 := by rw [ha]
  have hb0 : b.2.1 = 0 := by rw [hb]
  have ha0 : a.2.1 = 0 := by rw [ha]
  have hposG : 1 ≤ s.brk + 1 := Nat.succ_le_succ (Nat.zero_le _)
  have hRmem : s.brk ∈ b.1.resource_list := by rw [tL]; simp
  have hRA : s.brk ∈ (b.1.sessions A).resource_list := (find_guid_some tFA).1
  -- freeing the alias first
  have hfG : fG = _ :=
    (free_last b.1 B curB b.2.2.handle (s.brk + 1) _ tS (by rw [hbh]; exact tFB) tG
      (Or.inr rfl) rfl).trans
    (congrArg (fun x => (x, (0 : Int)))
      (release_alias_keep b.1 curB (s.brk + 1) s.brk false _ _ tS tG rfl (Or.inl rfl) rfl
        hn2 hRmem tR rfl (Nat.le_refl 2) (by norm_num) hposG))
  have gS : fG.1.status = Status.running := by rw [hfG]; exact tS
  have gT : fG.1.trace = b.1.trace := by rw [hfG]
  have gL : fG.1.resource_list = list_del (s.brk + 1) b.1.resource_list := by rw [hfG]
  have gR : fG.1.resources s.brk = some
      { SM_RESOURCE_T.zero with
        ref_count := 1, pid := curA, priv := A
        res_handle := reply.res_handle, res_base_mem := reply.res_mem
        res_size := (align_unit io.size 4096 * io.num) % 4294967296
        res_cached := io.cached, res_guid := (next_guid s.guid).2
        res_stats := stat_inc (List.replicate 15 0) ALLOC } := by
    rw [hfG]; simp [Function.update_noteq hn2, SM_RESOURCE_T.zero]
  have gO : ∀ q ∈ fG.1.resource_list, q ≠ s.brk → ∀ rq,
      fG.1.resources q = some rq → rq.res_handle ≠ reply.res_handle := by
    intro q hq h1 rq hrq
    rw [gL, mem_list_del] at hq
    rw [hfG] at hrq
    simp [Function.update_noteq hq.2, Function.update_noteq h1] at hrq
    exact tO q hq.1 h1 hq.2 rq hrq
  have gA : (fG.1.sessions A).resource_list =
      if A = B then list_del (s.brk + 1) (b.1.sessions A).resource_list
      else (b.1.sessions A).resource_list := by
    rw [hfG]
    by_cases hAB : A = B
    · subst hAB; simp [SM_RESOURCE_T.zero]
    · simp [SM_RESOURCE_T.zero, Function.update_noteq hAB, hAB]
  have gRA : s.brk ∈ (fG.1.sessions A).resource_list := by
    rw [gA]
    split
    · exact mem_list_del.mpr ⟨hRA, hn2⟩
    · exact hRA
  have gFA : find_guid fG.1.resources (fG.1.sessions A).resource_list
      (next_guid s.guid).2 = some s.brk := by
    have h1 : find_guid b.1.resources (fG.1.sessions A).resource_list
        (next_guid s.guid).2 = some s.brk := by
      rw [gA]
      split
      · exact find_guid_list_del tFA hn2
      · exact tFA
    obtain ⟨hm, -⟩ := find_guid_some h1
    unfold find_guid at h1 ⊢
    obtain ⟨pre, post, hl, hpre⟩ := List.find?_eq_some.mp h1 |>.2
    rw [hl, List.find?_append, List.find?_cons]
    have hfirst : List.find? (fun p =>
        match fG.1.resources p with
        | some r => r.res_guid == (next_guid s.guid).2
        | none => false) pre = none := by
      rw [List.find?_eq_none]
      intro x hx
      have hb1 := hpre x hx
      by_cases hxR : x = s.brk
      · subst hxR; simp [tR] at hb1
      · by_cases hxG : x = s.brk + 1
        · subst hxG; rw [hfG]; simp
        · have : fG.1.resources x = b.1.resources x := by
            rw [hfG]; simp [Function.update_noteq hxG, Function.update_noteq hxR]
          rw [this]; simpa using hb1
    rw [hfirst]
    simp [gR]
  have hfGR : fGR = _ :=
    (free_last fG.1 A curA a.2.2.handle s.brk _ gS (by rw [hah]; exact gFA) gR
      (Or.inr rfl) rfl).trans
    (congrArg (fun x => (x, (0 : Int)))
      (release_aux_last_plain s.brk fG.1 curA s.brk false _ gS gR rfl (Or.inl rfl) rfl hH
        (fun q hq hqR rq hrq => gO q hq hqR rq hrq)))
  -- freeing the original first
  have hfR : fR = _ :=
    free_keep b.1 A curA a.2.2.handle s.brk _ tS (by rw [hah]; exact tFA) tR (Or.inr rfl)
      (Nat.le_refl 2) (by norm_num)
  have rS : fR.1.status = Status.running := by rw [hfR]; exact tS
  have rT : fR.1.trace = b.1.trace := by rw [hfR]; rfl
  have rL : fR.1.resource_list = b.1.resource_list := by rw [hfR]; rfl
  have rR : fR.1.resources s.brk = some
      { SM_RESOURCE_T.zero with
        ref_count := 1, pid := curA, priv := A
        res_handle := reply.res_handle, res_base_mem := reply.res_mem
        res_size := (align_unit io.size 4096 * io.num) % 4294967296
        res_cached := io.cached, res_guid := (next_guid s.guid).2
        res_stats := stat_inc (List.replicate 15 0) ALLOC } := by
    rw [hfR]; simp [SM_RESOURCE_T.zero]
  have rG : fR.1.resources (s.brk + 1) = b.1.resources (s.brk + 1) := by
    rw [hfR]; simp [Function.update_noteq hn1]
  have rO : ∀ q ∈ fR.1.resource_list, q ≠ s.brk → q ≠ s.brk + 1 → ∀ rq,
      fR.1.resources q = some rq → rq.res_handle ≠ reply.res_handle := by
    intro q hq h1 h2' rq hrq
    rw [rL] at hq
    rw [hfR] at hrq
    simp [Function.update_noteq h1] at hrq
    exact tO q hq h1 h2' rq hrq
  have rFB : find_guid fR.1.resources (fR.1.sessions B).resource_list
      (next_guid (next_guid s.guid).1).2 = some (s.brk + 1) := by
    have hses : fR.1.sessions = b.1.sessions := by rw [hfR]; rfl
    rw [hses, ← tFB]
    apply find_guid_congr
    intro x _
    by_cases hx : x = s.brk
    · subst hx; simp [rR, tR]
    · rw [hfR]; simp [Function.update_noteq hx]
  have hfRG : fRG = _ :=
    free_last fR.1 B curB b.2.2.handle (s.brk + 1) _ rS (by rw [hbh]; exact rFB)
      (rG.trans tG) (Or.inr rfl) rfl
  have hlast := release_alias_last fR.1 curB (s.brk + 1) s.brk false _ _ rS (rG.trans tG) rfl
    (Or.inl rfl) rfl hn2 (by rw [rL]; exact hRmem) rR rfl rfl (Or.inl rfl) rfl hH
    (fun q hq h1 h2' rq hrq => rO q hq h1 h2' rq hrq) hposG
  refine ⟨⟨ha0, hb0, ?_, tT⟩, ⟨?_, gT, ?_, gRA, gS⟩, ⟨?_, ?_, ?_, ?_, ?_⟩, ⟨?_, rT⟩,
    ⟨?_, ?_, ?_, ?_, ?_⟩⟩
  · rw [hbh, hah]; exact hgg
  · rw [hfG]
  · rw [gL]; exact mem_list_del.mpr ⟨hRmem, hn2⟩
  · rw [hfGR]
  · rw [hfGR]; exact gS
  · rw [hfGR]; simp [gT, SM_RESOURCE_T.zero]
  · rw [hfGR]; simp [mem_list_del]
  · rw [hfGR]; simp [mem_list_del, gL]
  · rw [hfR]
  · rw [hfRG]
  · rw [hfRG]; exact hlast.1
  · rw [hfRG]; simp only; rw [hlast.2.1, rT]
  · rw [hfRG]; simp only; rw [hlast.2.2.1]; simp [mem_list_del]
  · rw [hfRG]; simp only; rw [hlast.2.2.1]; simp [mem_list_del]

theorem core_eq_fields {a b : SM_RESOURCE_T} (h : a.core = b.core) :
    a.pid = b.pid ∧ a.res_guid = b.res_guid ∧ a.lock_count = b.lock_count ∧
    a.ref_count = b.ref_count ∧ a.res_handle = b.res_handle ∧
    a.res_base_mem = b.res_base_mem ∧ a.res_size = b.res_size ∧
    a.res_cached = b.res_cached ∧ a.res_shared = b.res_shared ∧
    a.res_stats = b.res_stats ∧ a.priv = b.priv := by
  cases a; cases b
  simp only [SM_RESOURCE_T.core, SM_RESOURCE_T.mk.injEq] at h
  simp only
  tauto

theorem mapframe_lookup {s s1 : SM_STATE_T} (h : MapFrame s s1) {p : Ptr} {r : SM_RESOURCE_T}
    (hr : s.resources p = some r) : ∃ r1, s1.resources p = some r1 ∧ r1.core = r.core := by
  have := h.core p
  rw [hr] at this
  cases h1 : s1.resources p with
  | none => simp [h1] at this
  | some r1 => exact ⟨r1, rfl, by simpa [h1] using this⟩

/-- Claim C7.  `vc_sm_ioctl_free` by a permitted caller on a resource `p` of the
session found under GUID `g`.  If `ref_count = 1`, the resource is no alias,
its remote handle is set and shared by no other registered resource, and
unmapping its remaining mappings goes through (always so when it has none),
then the call returns 0, removes `p` from the global list and from the list of
the session, frees the record, issues exactly one remote call, the free of its
handle and base address, and records one natural and no forced termination.
If `ref_count = k ≥ 2` the call returns 0 and only lowers the count to `k - 1`:
no remote free, the resource stays registered. -/
theorem free_last_reference (s : SM_STATE_T) (priv cur g : Nat) (p : Ptr) (r : SM_RESOURCE_T)
    (hs : s.status = Status.running)
    (hf : find_guid s.resources (s.sessions priv).resource_list g = some p)
    (hr : s.resources p = some r) (hpriv : r.priv = priv)
    (hpid : r.pid = 0 ∨ r.pid = cur) (hlt : r.ref_count < 4294967295) :
    (r.ref_count = 1 → r.res_shared = none → r.res_handle ≠ 0 →
      (∀ q ∈ s.resource_list, q ≠ p → ∀ rq, s.resources q = some rq →
        rq.res_handle ≠ r.res_handle) →
      (release_unmap (release_unlink (s.set_res p { r with ref_count := 0 }) p) cur p).status =
        Status.running →
      (vc_sm_ioctl_free s priv cur ⟨g⟩).2 = 0 ∧
      (vc_sm_ioctl_free s priv cur ⟨g⟩).1.status = Status.running ∧
      (vc_sm_ioctl_free s priv cur ⟨g⟩).1.resource_list = list_del p s.resource_list ∧
      ((vc_sm_ioctl_free s priv cur ⟨g⟩).1.sessions priv).resource_list =
        list_del p (s.sessions priv).resource_list ∧
      (vc_sm_ioctl_free s priv cur ⟨g⟩).1.resources p = none ∧
      remote_calls (vc_sm_ioctl_free s priv cur ⟨g⟩).1.trace =
        remote_calls s.trace ++ [Event.vc_vchi_sm_free r.res_handle r.res_base_mem] ∧
      (vc_sm_ioctl_free s priv cur ⟨g⟩).1.res_deceased_cnt = u32_inc s.res_deceased_cnt ∧
      (vc_sm_ioctl_free s priv cur ⟨g⟩).1.res_terminated_cnt = s.res_terminated_cnt) ∧
    (2 ≤ r.ref_count →
      vc_sm_ioctl_free s priv cur ⟨g⟩ =
        (s.set_res p { r with ref_count := r.ref_count - 1 }, 0)) := by
  refine ⟨?_, fun h2 => free_keep s priv cur g p r hs hf hr hpid h2 hlt⟩
  intro h1 hsh hH hscan hun
  rw [free_last s priv cur g p r hs hf hr hpid h1]
  have hd : u32_dec r.ref_count = 0 := by rw [h1]; exact u32_dec_one
  unfold vmcs_sm_release_resource
  rw [release_aux_teardown p s cur p false r hs hr hd]
  have hu : release_unlink (s.set_res p { r with ref_count := 0 }) p =
      { s with
        sessions := Function.update s.sessions r.priv
          { s.sessions r.priv with
            resource_list := list_del p (s.sessions r.priv).resource_list }
        resource_list := list_del p s.resource_list
        resources := Function.update s.resources p
          (some { r with ref_count := 0, res_stats := stat_inc r.res_stats FREE }) } := by
    have hsc : handle_in_use
        (Function.update s.resources p (some { r with ref_count := 0 }))
        (list_del p s.resource_list) r.res_handle = false := by
      apply handle_in_use_eq_false
      intro q hq rq hrq
      simp only [mem_list_del] at hq
      simp only [Function.update_noteq hq.2] at hrq
      exact hscan q hq.1 hq.2 rq hrq
    simp [release_unlink, hs, hsc]
  rw [hu] at hun ⊢
  have hfr := release_unmap_frame
    { s with
      sessions := Function.update s.sessions r.priv
        { s.sessions r.priv with
          resource_list := list_del p (s.sessions r.priv).resource_list }
      resource_list := list_del p s.resource_list
      resources := Function.update s.resources p
        (some { r with ref_count := 0, res_stats := stat_inc r.res_stats FREE }) } cur p
  generalize release_unmap
    { s with
      sessions := Function.update s.sessions r.priv
        { s.sessions r.priv with
          resource_list := list_del p (s.sessions r.priv).resource_list }
      resource_list := list_del p s.resource_list
      resources := Function.update s.resources p
        (some { r with ref_count := 0, res_stats := stat_inc r.res_stats FREE }) } cur p = s3
    at hun hfr ⊢
  obtain ⟨r3, hr3, hc3⟩ := mapframe_lookup hfr (p := p)
    (r := { r with ref_count := 0, res_stats := stat_inc r.res_stats FREE }) (by simp)
  obtain ⟨-, -, -, -, hh3, hb3, -, -, hs3, -, hp3⟩ := core_eq_fields hc3
  simp only at hh3 hb3 hs3 hp3
  subst hpriv
  have hrl := hfr.resource_list
  have hse := hfr.sessions
  have hrm := hfr.remote
  have hdc := hfr.res_deceased_cnt
  have htc := hfr.res_terminated_cnt
  simp only [remote_calls] at hrl hse hrm hdc htc
  by_cases hrep : (s3.vchi_free s3.trace r.res_handle r.res_base_mem).status ≠ 0 ∧
      (s3.vchi_free s3.trace r.res_handle r.res_base_mem).status ≠ -EINTR
  · simp [release_vc_free, hun, hr3, hH, hrep, shared_of, hs3, hsh, vc_sm_resource_deceased,
      kfree_resource, hrl, hse, hp3, remote_calls_append, hrm, hdc, htc, hh3, hb3,
      remote_calls, Event.is_remote]
  · simp [release_vc_free, hun, hr3, hH, hrep, shared_of, hs3, hsh, vc_sm_resource_deceased,
      kfree_resource, hrl, hse, hp3, remote_calls_append, hrm, hdc, htc, hh3, hb3,
      remote_calls, Event.is_remote]

/-! ### Records keep their identity while a reference is released -/

theorem keeps_refl (s : SM_STATE_T) : Keeps s s :=
  fun _ r1 h => ⟨r1, h, rfl, rfl, rfl, rfl⟩

theorem keeps_trans {s s1 s2 : SM_STATE_T} (h1 : Keeps s s1) (h2 : Keeps s1 s2) :
    Keeps s s2 := by
  intro q r2 hq
  obtain ⟨r1, hr1, a1, a2, a3, a4⟩ := h2 q r2 hq
  obtain ⟨r0, hr0, b1, b2, b3, b4⟩ := h1 q r1 hr1
  exact ⟨r0, hr0, b1.trans a1, b2.trans a2, b3.trans a3, b4.trans a4⟩

theorem keeps_of_eq {s s1 : SM_STATE_T} (h : s1.resources = s.resources) : Keeps s s1 :=
  fun _ r1 hq => ⟨r1, h ▸ hq, rfl, rfl, rfl, rfl⟩

theorem keeps_set_res {s : SM_STATE_T} {p : Ptr} {r r1 : SM_RESOURCE_T} {s1 : SM_STATE_T}
    (hr : s.resources p = some r) (h1 : s1.resources = Function.update s.resources p (some r1))
    (hg : r.res_guid = r1.res_guid) (hp : r.priv = r1.priv) (hpid : r.pid = r1.pid)
    (hsh : r.res_shared = r1.res_shared) : Keeps s s1 := by
  intro q rq hq
  rw [h1] at hq
  by_cases hqp : q = p
  · subst hqp
    simp at hq
    subst hq
    exact ⟨r, hr, hg, hp, hpid, hsh⟩
  · rw [Function.update_noteq hqp] at hq
    exact ⟨rq, hq, rfl, rfl, rfl, rfl⟩

theorem keeps_remove {s : SM_STATE_T} {p : Ptr} {s1 : SM_STATE_T}
    (h1 : s1.resources = Function.update s.resources p none) : Keeps s s1 := by
  intro q rq hq
  rw [h1] at hq
  by_cases hqp : q = p
  · subst hqp; simp at hq
  · rw [Function.update_noteq hqp] at hq
    exact ⟨rq, hq, rfl, rfl, rfl, rfl⟩

theorem mapframe_keeps {s s1 : SM_STATE_T} (h : MapFrame s s1) : Keeps s s1 := by
  intro q r1 hq
  have hc := h.core q
  rw [hq] at hc
  cases h0 : s.resources q with
  | none => simp [h0] at hc
  | some r0 =>
    simp [h0] at hc
    obtain ⟨a1, a2, -, -, -, -, -, -, a9, -, a11⟩ := core_eq_fields hc
    exact ⟨r0, rfl, a2.symm, a11.symm, a1.symm, a9.symm⟩

theorem release_unlink_keeps (s : SM_STATE_T) (p : Ptr) : Keeps s (release_unlink s p) := by
  unfold release_unlink
  by_cases hs : s.status = Status.running
  · cases hr : s.resources p with
    | none => simpa [hs, hr] using keeps_refl s
    | some r =>
      simp only [hs, ne_eq, not_true_eq_false, if_false, hr]
      exact keeps_set_res hr rfl rfl rfl rfl rfl
  · simpa [hs] using keeps_refl s

theorem release_vc_free_keeps (s : SM_STATE_T) (p : Ptr) : Keeps s (release_vc_free s p) := by
  unfold release_vc_free
  by_cases hs : s.status = Status.running
  · cases hr : s.resources p with
    | none => simpa [hs, hr] using keeps_refl s
    | some r =>
      simp only [hs, ne_eq, not_true_eq_false, if_false, hr]
      split
      · exact keeps_refl s
      · split
        · exact keeps_set_res hr rfl rfl rfl rfl rfl
        · exact keeps_of_eq rfl
  · simpa [hs] using keeps_refl s

theorem vc_sm_resource_deceased_keeps (s : SM_STATE_T) (p : Ptr) (t : Bool) :
    Keeps s (vc_sm_resource_deceased s p t) := by
  unfold vc_sm_resource_deceased
  by_cases hs : s.status = Status.running
  · cases hr : s.resources p with
    | none => simpa [hs, hr] using keeps_refl s
    | some r =>
      simp only [hs, ne_eq, not_true_eq_false, if_false, hr]
      split
      · exact keeps_of_eq rfl
      · exact keeps_of_eq rfl
  · simpa [hs] using keeps_refl s

theorem kfree_resource_keeps (s : SM_STATE_T) (p : Ptr) : Keeps s (kfree_resource s p) := by
  unfold kfree_resource
  split
  · exact keeps_refl s
  · exact keeps_remove rfl

theorem release_aux_keeps (fuel : Nat) : ∀ (s : SM_STATE_T) (cur : Nat) (p : Ptr) (force : Bool),
    Keeps s (release_aux fuel s cur p force) := by
  induction fuel with
  | zero =>
    intro s cur p force
    unfold release_aux
    split
    · exact keeps_refl s
    · exact keeps_of_eq rfl
  | succ fuel ih =>
    intro s cur p force
    by_cases hs : s.status = Status.running
    · cases hr : s.resources p with
      | none => simpa [release_aux, hs, hr] using keeps_refl s
      | some r =>
        by_cases hn : u32_dec r.ref_count = 0
        · rw [release_aux_teardown fuel s cur p force r hs hr hn]
          have h0 : Keeps s (s.set_res p { r with ref_count := 0 }) :=
            keeps_set_res hr rfl rfl rfl rfl rfl
          have h1 := keeps_trans h0 (release_unlink_keeps (s.set_res p { r with ref_count := 0 }) p)
          have h2 := keeps_trans h1 (mapframe_keeps (release_unmap_frame _ cur p))
          have h3 := keeps_trans h2 (release_vc_free_keeps _ p)
          refine keeps_trans ?_ (kfree_resource_keeps _ _)
          refine keeps_trans ?_ (vc_sm_resource_deceased_keeps _ _ _)
          split
          · exact keeps_trans h3 (ih _ _ _ _)
          · exact h3
        · rw [release_aux_keep fuel s cur p force r hs hr hn]
          exact keeps_set_res hr rfl rfl rfl rfl rfl
    · simpa [release_aux, hs] using keeps_refl s

theorem kfree_resource_status (s : SM_STATE_T) (p : Ptr) :
    (kfree_resource s p).status = s.status := by
  unfold kfree_resource
  split <;> rfl

theorem kfree_resource_freed (s : SM_STATE_T) (p : Ptr)
    (h : (kfree_resource s p).status = Status.running) :
    (kfree_resource s p).resources p = none := by
  rw [kfree_resource_status] at h
  simp [kfree_resource, h]

theorem release_aux_teardown_freed (fuel : Nat) (s : SM_STATE_T) (cur : Nat) (p : Ptr)
    (force : Bool) (r : SM_RESOURCE_T) (hs : s.status = Status.running)
    (hr : s.resources p = some r) (hn : u32_dec r.ref_count = 0)
    (hrun : (release_aux (fuel + 1) s cur p force).status = Status.running) :
    (release_aux (fuel + 1) s cur p force).resources p = none := by
  rw [release_aux_teardown fuel s cur p force r hs hr hn] at hrun ⊢
  exact kfree_resource_freed _ _ hrun

/-- The second free of a GUID that is gone.  If GUID `g` names exactly one resource of
the session, that
resource has no other reference (`ref_count = 1`), and a first `free g` by a
permitted caller has completed, then the first call returned 0 and a second
`free g` on the same session returns `-EINVAL` (the not-found status of
`vc_sm_ioctl_free`) and leaves the whole state, and so the termination
counters and the global resource list, unchanged. -/
theorem free_twice_not_found (s : SM_STATE_T) (priv cur g : Nat) (p : Ptr) (r : SM_RESOURCE_T)
    (hs : s.status = Status.running)
    (hf : find_guid s.resources (s.sessions priv).resource_list g = some p)
    (hr : s.resources p = some r) (hpid : r.pid = 0 ∨ r.pid = cur) (h1 : r.ref_count = 1)
    (huniq : ∀ q ∈ (s.sessions priv).resource_list, q ≠ p → ∀ rq, s.resources q = some rq →
      rq.res_guid ≠ g)
    (hrun : (vc_sm_ioctl_free s priv cur ⟨g⟩).1.status = Status.running) :
    (vc_sm_ioctl_free s priv cur ⟨g⟩).2 = 0 ∧
    vc_sm_ioctl_free (vc_sm_ioctl_free s priv cur ⟨g⟩).1 priv cur ⟨g⟩ =
      ((vc_sm_ioctl_free s priv cur ⟨g⟩).1, -EINVAL) := by
  have hfl := free_last s priv cur g p r hs hf hr hpid h1
  rw [hfl] at hrun ⊢
  refine ⟨rfl, ?_⟩
  simp only at hrun ⊢
  have hd : u32_dec r.ref_count = 0 := by rw [h1]; exact u32_dec_one
  have hk : Keeps s (vmcs_sm_release_resource s cur p false) := release_aux_keeps _ _ _ _ _
  have hsh : Shrinks s (vmcs_sm_release_resource s cur p false) := release_aux_shrinks _ _ _ _ _
  have hfree : (vmcs_sm_release_resource s cur p false).resources p = none :=
    release_aux_teardown_freed p s cur p false r hs hr hd hrun
  have hnone : find_guid (vmcs_sm_release_resource s cur p false).resources
      ((vmcs_sm_release_resource s cur p false).sessions priv).resource_list g = none := by
    rw [find_guid_none]
    intro q hq rq hrq
    have hqp : q ≠ p := by
      intro h; subst h; rw [hfree] at hrq; exact absurd hrq (by simp)
    obtain ⟨r0, hr0, hg, -⟩ := hk q rq hrq
    rw [← hg]
    exact huniq q (hsh.2 priv q hq) hqp r0 hr0
  simp [vc_sm_ioctl_free, vmcs_sm_acquire_resource, hrun, hnone]

/-! ## The statements on concrete states -/

/-- Claim C1 at start-up, sessions 10 and 20: either order of the two frees ends
with exactly one remote free of handle 77. -/
theorem share_then_free_both_witness :
    demo_init.status = Status.running ∧
    (vc_sm_ioctl_free (vc_sm_ioctl_free demo_share.1 20 200 ⟨8192⟩).1 10 100 ⟨4096⟩).1.trace =
      demo_share.1.trace ++ [Event.vc_vchi_sm_free 77 5000] ∧
    (vc_sm_ioctl_free (vc_sm_ioctl_free demo_share.1 10 100 ⟨4096⟩).1 20 200 ⟨8192⟩).1.trace =
      demo_share.1.trace ++ [Event.vc_vchi_sm_free 77 5000] :=
  have h := share_then_free_both demo_init 10 20 100 200
    { size := 4096, num := 1, cached := 3, handle := 0 }
    { status := 0, res_handle := 77, res_mem := 5000, trans_id := 1 }
    (by decide) (by decide) (by decide) (by decide) (by simp [demo_init, SM_STATE_T.init])
  ⟨by decide, h.2.2.1.2.2.1, h.2.2.2.2.2.2.1⟩

/-- Claim C2 on the shared page of `demo_share` (`ref_count = 2`), with `force` set. -/
theorem release_resource_contract_witness :
    demo_share.1.resources 1 = some { demo_record with ref_count := 2 } ∧
    vmcs_sm_release_resource demo_share.1 100 1 true =
      demo_share.1.set_res 1 { demo_record with ref_count := 1 } :=
  ⟨by decide,
   (release_resource_contract demo_share.1 100 1 true { demo_record with ref_count := 2 }
      (by decide) (by decide) (by decide)).1 (by decide)⟩

/-- The second free of the unshared page of `demo_alloc` is refused. -/
theorem free_twice_not_found_witness :
    (vc_sm_ioctl_free (vc_sm_ioctl_free demo_alloc.1 10 100 ⟨4096⟩).1 10 100 ⟨4096⟩).2 =
      -EINVAL :=
  congrArg Prod.snd
    (free_twice_not_found demo_alloc.1 10 100 4096 1 demo_record (by decide) (by decide)
      (by decide) (by decide) (by decide)
      (by
        intro q hq hne
        have hl : (demo_alloc.1.sessions 10).resource_list = [1] := by decide
        rw [hl] at hq
        simp at hq
        exact absurd hq hne)
      (by decide)).2

/-- Claim C6 on `demo_share`: session 20 does not find GUID 4096 in its own list,
the global lookup does. -/
theorem acquire_resource_contract_witness :
    vmcs_sm_acquire_resource demo_share.1 20 4096 = (demo_share.1, none) ∧
    ∃ q ∈ demo_share.1.resource_list, ∃ rq, demo_share.1.resources q = some rq ∧
      rq.res_guid = 4096 ∧
      vmcs_sm_acquire_global_resource demo_share.1 4096 =
        (demo_share.1.set_res q { rq with ref_count := rq.ref_count + 1 }, some q) :=
  have h := (acquire_resource_contract demo_share.1 20 4096 (by decide) (by
    intro p r hr
    by_cases h1 : p = 1
    · subst h1
      have : demo_share.1.resources 1 = some { demo_record with ref_count := 2 } := by decide
      rw [this] at hr; cases hr; decide
    · by_cases h2 : p = 2
      · subst h2
        have : demo_share.1.resources 2 = some
            { demo_record with res_guid := 8192, pid := 200, priv := 20,
                               res_shared := some 1 } := by decide
        rw [this] at hr; cases hr; decide
      · have : demo_share.1.resources p = none := by
          simp [demo_share, demo_alloc, demo_init, SM_STATE_T.init, vc_sm_ioctl_alloc,
            vmcs_sm_add_resource, vc_sm_ioctl_alloc_share, vmcs_sm_acquire_global_resource,
            find_guid, take_ref, Function.update_noteq h1, Function.update_noteq h2,
            SM_RESOURCE_T.zero, next_guid, u32_inc, PAGE_SHIFT, ENOMEM, EINTR]
        rw [this] at hr; cases hr)).2.2 (by
    intro p hp r hr
    have hl : (demo_share.1.sessions 20).resource_list = [2] := by decide
    rw [hl] at hp
    simp at hp
    subst hp
    have : demo_share.1.resources 2 = some
        { demo_record with res_guid := 8192, pid := 200, priv := 20,
                           res_shared := some 1 } := by decide
    rw [this] at hr; cases hr; decide)
  ⟨h.1, h.2 ⟨1, by decide, { demo_record with ref_count := 2 }, by decide, rfl⟩⟩

/-- Claim C7 on a page that is still mapped once (`demo_mapped`). -/
theorem free_last_reference_witness :
    (vc_sm_ioctl_free demo_mapped 10 100 ⟨4096⟩).2 = 0 ∧
    remote_calls (vc_sm_ioctl_free demo_mapped 10 100 ⟨4096⟩).1.trace =
      remote_calls demo_mapped.trace ++ [Event.vc_vchi_sm_free 77 5000] :=
  have h := (free_last_reference demo_mapped 10 100 4096 1
    { demo_record with map_count := 1, map_list := [2] }
    (by decide) (by decide) (by decide) (by decide) (by decide) (by decide)).1
    (by decide) (by decide) (by decide)
    (by
      intro q hq hne
      have hl : demo_mapped.resource_list = [1] := by decide
      rw [hl] at hq
      simp at hq
      exact absurd hq hne)
    (by decide)
  ⟨h.1, h.2.2.2.2.2.1⟩

/-- Claim C3 at its failing input: on the shared page of `demo_share` the first free by
the owner returns 0 and so does the second one, which also raises the natural
termination counter and shortens the global resource list: it tears the page
down although the alias of session 20 still holds its reference. -/
theorem free_twice_shared_succeeds :
    demo_share.1.status = Status.running ∧
    demo_free1.2 = 0 ∧ demo_free1.1.status = Status.running ∧
    demo_free2.2 = 0 ∧ demo_free2.2 ≠ -EINVAL ∧
    demo_free1.1.res_deceased_cnt = 0 ∧ demo_free2.1.res_deceased_cnt = 1 ∧
    demo_free1.1.resource_list = [2, 1] ∧ demo_free2.1.resource_list = [2] := by
  decide

/-- Claim C4 at its failing input: after the owner freed the shared page twice
the alias (pointer 2) is registered with `ref_count = 1` while its canonical
resource (pointer 1) is freed; tearing the alias down issues the remote free of
handle 77 and then releases the freed record. -/
theorem alias_teardown_after_double_free :
    demo_free2.1.status = Status.running ∧
    demo_free2.1.resource_list = [2] ∧
    (demo_free2.1.resources 2).map (fun r => (r.res_shared, r.ref_count, r.res_handle)) =
      some (some 1, 1, 77) ∧
    demo_free2.1.resources 1 = none ∧
    (vmcs_sm_release_resource demo_free2.1 200 2 false).trace =
      demo_free2.1.trace ++ [Event.vc_vchi_sm_free 77 5000] ∧
    (vmcs_sm_release_resource demo_free2.1 200 2 false).status = Status.fault ∧
    demo_free3.1.trace = demo_free2.1.trace ++ [Event.vc_vchi_sm_free 77 5000] ∧
    demo_free3.1.status = Status.fault := by
  decide

theorem same_refl (s : SM_STATE_T) : Same s s :=
  ⟨Nat.le_refl _, rfl, fun _ => rfl, fun _ => rfl⟩

theorem same_trans {s s1 s2 : SM_STATE_T} (h1 : Same s s1) (h2 : Same s1 s2) : Same s s2 :=
  ⟨Nat.le_trans h1.brk h2.brk, h2.map_list.trans h1.map_list,
    fun g => (h2.lists g).trans (h1.lists g), fun x => (h2.recs x).trans (h1.recs x)⟩

theorem key_eq_iff (r r1 : SM_RESOURCE_T) :
    r1.key = r.key ↔ r1.priv = r.priv ∧ r1.pid = r.pid ∧ r1.ref_count = r.ref_count ∧
      r1.map_list = r.map_list ∧ r1.res_shared = r.res_shared := by
  simp [SM_RESOURCE_T.key, Prod.ext_iff]

theorem same_fwd {s s1 : SM_STATE_T} (h : Same s s1) {x : Ptr} {r : SM_RESOURCE_T}
    (hr : s.resources x = some r) : ∃ r1, s1.resources x = some r1 ∧ r1.key = r.key := by
  have := h.recs x
  rw [hr] at this
  cases h1 : s1.resources x with
  | none => rw [h1] at this; simp at this
  | some r1 => rw [h1] at this; simp at this; exact ⟨r1, rfl, this⟩

theorem same_bwd {s s1 : SM_STATE_T} (h : Same s s1) {x : Ptr} {r1 : SM_RESOURCE_T}
    (hr : s1.resources x = some r1) : ∃ r, s.resources x = some r ∧ r1.key = r.key := by
  have := h.recs x
  rw [hr] at this
  cases h1 : s.resources x with
  | none => rw [h1] at this; simp at this
  | some r => rw [h1] at this; simp at this; exact ⟨r, rfl, this⟩

theorem same_set_res {s : SM_STATE_T} {p : Ptr} {r r1 : SM_RESOURCE_T}
    (hr : s.resources p = some r) (hk : r1.key = r.key) : Same s (s.set_res p r1) := by
  refine ⟨Nat.le_refl _, rfl, fun _ => rfl, fun x => ?_⟩
  by_cases hx : x = p
  · subst hx; simp [hr, hk]
  · simp [Function.update_noteq hx]

theorem inv_same {f : Ptr} {c : Nat} {Z : Ptr → Prop} {s s1 : SM_STATE_T}
    (h : Inv f c Z s) (hs : Same s s1) : Inv f c Z s1 := by
  refine ⟨fun g x hx => ?_, fun x r1 hr1 => ?_, hs.map_list.trans h.maps, fun z hz g => ?_⟩
  · rw [hs.lists g] at hx
    obtain ⟨r, hr, h1, h2, h3, h4, h5, h6⟩ := h.listed g x hx
    obtain ⟨r1, hr1, hk⟩ := same_fwd hs hr
    rw [key_eq_iff] at hk
    obtain ⟨k1, k2, k3, k4, k5⟩ := hk
    exact ⟨r1, hr1, k1.trans h1, k3 ▸ h2, k3 ▸ h3, k2 ▸ h4, k4.trans h5,
      fun hg => k5.trans (h6 hg)⟩
  · obtain ⟨r, hr, hk⟩ := same_bwd hs hr1
    rw [key_eq_iff] at hk
    obtain ⟨k1, k2, k3, k4, k5⟩ := hk
    obtain ⟨l1, l2, l3⟩ := h.live x r hr
    refine ⟨?_, Nat.lt_of_lt_of_le l2 hs.brk, fun q hq => l3 q (k5 ▸ hq)⟩
    rw [hs.lists, k1]; exact l1
  · rw [hs.lists g]; exact h.zombies z hz g

theorem inv_mono {f : Ptr} {c c1 : Nat} {Z : Ptr → Prop} {s : SM_STATE_T}
    (h : Inv f c Z s) (hc : c ≤ c1) : Inv f c1 Z s := by
  refine ⟨fun g x hx => ?_, h.live, h.maps, h.zombies⟩
  obtain ⟨r, hr, h1, h2, h3, h4, h5, h6⟩ := h.listed g x hx
  exact ⟨r, hr, h1, h2, Nat.le_trans h3 hc, h4, h5, h6⟩

theorem inv_set_ref {f : Ptr} {c : Nat} {Z : Ptr → Prop} {s : SM_STATE_T} {p : Ptr}
    {r : SM_RESOURCE_T} (h : Inv f c Z s) (hr : s.resources p = some r) (n : Nat)
    (h1 : 1 ≤ n) (hn : n ≤ c) : Inv f c Z (s.set_res p { r with ref_count := n }) := by
  refine ⟨fun g x hx => ?_, fun x r1 hr1 => ?_, h.maps, h.zombies⟩
  · obtain ⟨r0, hr0, k1, k2, k3, k4, k5, k6⟩ := h.listed g x hx
    by_cases hxp : x = p
    · subst hxp
      rw [hr] at hr0; cases hr0
      exact ⟨{ r with ref_count := n }, by simp, k1, h1, hn, k4, k5, k6⟩
    · exact ⟨r0, by simp [Function.update_noteq hxp, hr0], k1, k2, k3, k4, k5, k6⟩
  · by_cases hxp : x = p
    · subst hxp
      simp at hr1; subst hr1
      exact h.live x r hr
    · simp [Function.update_noteq hxp] at hr1
      exact h.live x r1 hr1

theorem inv_kfree {f : Ptr} {c : Nat} {Z : Ptr → Prop} {s : SM_STATE_T} {p : Ptr}
    (h : Inv f c (fun x => Z x ∨ x = p) s) (hs : s.status = Status.running) :
    Inv f c Z (kfree_resource s p) := by
  have hk : kfree_resource s p = { s with resources := Function.update s.resources p none } := by
    simp [kfree_resource, hs]
  rw [hk]
  refine ⟨fun g x hx => ?_, fun x r1 hr1 => ?_, h.maps, fun z hz g => h.zombies z (Or.inl hz) g⟩
  · have hxp : x ≠ p := fun e => h.zombies p (Or.inr rfl) g (e ▸ hx)
    obtain ⟨r0, hr0, k⟩ := h.listed g x hx
    exact ⟨r0, by simp [Function.update_noteq hxp, hr0], k⟩
  · by_cases hxp : x = p
    · subst hxp; simp at hr1
    · simp [Function.update_noteq hxp] at hr1
      obtain ⟨l1, l2, l3⟩ := h.live x r1 hr1
      refine ⟨?_, l2, l3⟩
      rcases l1 with (l1 | l1) | l1
      · exact Or.inl l1
      · exact absurd l1 hxp
      · exact Or.inr l1

theorem inv_unlink {f : Ptr} {c : Nat} {Z : Ptr → Prop} {s s1 : SM_STATE_T} {p : Ptr}
    {r r1 : SM_RESOURCE_T} (h : Inv f c Z s) (hr : s.resources p = some r)
    (hb : s.brk ≤ s1.brk) (hm : s1.map_list = s.map_list)
    (hl : ∀ g, (s1.sessions g).resource_list =
      if g = r.priv then list_del p (s.sessions g).resource_list
      else (s.sessions g).resource_list)
    (hres : s1.resources = Function.update s.resources p (some r1))
    (hsh : r1.res_shared = r.res_shared) :
    Inv f c (fun x => Z x ∨ x = p) s1 := by
  have hmem : ∀ g x, x ∈ (s1.sessions g).resource_list →
      x ∈ (s.sessions g).resource_list ∧ x ≠ p := by
    intro g x hx
    rw [hl g] at hx
    by_cases hg : g = r.priv
    · rw [if_pos hg] at hx; exact mem_list_del.mp hx
    · rw [if_neg hg] at hx
      refine ⟨hx, fun e => ?_⟩
      subst e
      obtain ⟨r0, hr0, k1, _⟩ := h.listed g x hx
      rw [hr] at hr0; cases hr0
      exact hg k1.symm
  refine ⟨fun g x hx => ?_, fun x r2 hr2 => ?_, hm.trans h.maps, fun z hz g hmz => ?_⟩
  · obtain ⟨hx0, hxp⟩ := hmem g x hx
    obtain ⟨r0, hr0, k⟩ := h.listed g x hx0
    exact ⟨r0, by rw [hres]; simp [Function.update_noteq hxp, hr0], k⟩
  · rw [hres] at hr2
    by_cases hxp : x = p
    · subst hxp
      simp at hr2; subst hr2
      obtain ⟨_, l2, l3⟩ := h.live x r hr
      exact ⟨Or.inl (Or.inr rfl), Nat.lt_of_lt_of_le l2 hb, fun q hq => l3 q (hsh ▸ hq)⟩
    · simp [Function.update_noteq hxp] at hr2
      obtain ⟨l1, l2, l3⟩ := h.live x r2 hr2
      refine ⟨?_, Nat.lt_of_lt_of_le l2 hb, l3⟩
      rcases l1 with l1 | l1
      · exact Or.inl (Or.inl l1)
      · right
        rw [hl]
        split
        · exact mem_list_del.mpr ⟨l1, hxp⟩
        · exact l1
  · obtain ⟨hz0, hzp⟩ := hmem g z hmz
    rcases hz with hz | hz
    · exact h.zombies z hz g hz0
    · exact hzp hz

theorem inv_add {f : Ptr} {c : Nat} {Z : Ptr → Prop} {s s1 : SM_STATE_T} (priv : Ptr)
    {rn : SM_RESOURCE_T} (h : Inv f c Z s) (hZ : ¬ Z s.brk) (hc : 1 ≤ c)
    (hb : s1.brk = s.brk + 1) (hm : s1.map_list = s.map_list)
    (hl : ∀ g, (s1.sessions g).resource_list =
      if g = priv then s.brk :: (s.sessions g).resource_list
      else (s.sessions g).resource_list)
    (hres : s1.resources = Function.update s.resources s.brk (some rn))
    (h1 : rn.priv = priv) (h2 : rn.ref_count = 1) (h3 : rn.pid ≠ 0) (h4 : rn.map_list = [])
    (h5 : priv = f → rn.res_shared = none) (h6 : ∀ q, rn.res_shared = some q → q < s.brk) :
    Inv f c Z s1 := by
  have hfresh : s.resources s.brk = none := by
    cases hq : s.resources s.brk with
    | none => rfl
    | some r => exact absurd (h.live _ r hq).2.1 (Nat.lt_irrefl _)
  have hold : ∀ g x, x ∈ (s.sessions g).resource_list → x ≠ s.brk := by
    intro g x hx e
    obtain ⟨r0, hr0, _⟩ := h.listed g x hx
    rw [e, hfresh] at hr0; cases hr0
  refine ⟨fun g x hx => ?_, fun x r2 hr2 => ?_, hm.trans h.maps, fun z hz g hmz => ?_⟩
  · rw [hl g] at hx
    have hxcase : (g = priv ∧ x = s.brk) ∨ x ∈ (s.sessions g).resource_list := by
      by_cases hg : g = priv
      · rw [if_pos hg] at hx
        rcases List.mem_cons.mp hx with e | e
        · exact Or.inl ⟨hg, e⟩
        · exact Or.inr e
      · rw [if_neg hg] at hx; exact Or.inr hx
    rcases hxcase with ⟨hg, e⟩ | hx0
    · subst e
      exact ⟨rn, by rw [hres]; simp, h1.trans hg.symm, by rw [h2], by rw [h2]; exact hc, h3, h4,
        fun hgf => h5 (hg ▸ hgf)⟩
    · obtain ⟨r0, hr0, k⟩ := h.listed g x hx0
      exact ⟨r0, by rw [hres]; simp [Function.update_noteq (hold g x hx0), hr0], k⟩
  · rw [hres] at hr2
    by_cases hxp : x = s.brk
    · subst hxp
      simp at hr2; subst hr2
      refine ⟨Or.inr ?_, by rw [hb]; exact Nat.lt_succ_self _, h6⟩
      rw [hl, if_pos h1]; exact List.mem_cons_self _ _
    · simp [Function.update_noteq hxp] at hr2
      obtain ⟨l1, l2, l3⟩ := h.live x r2 hr2
      refine ⟨?_, by rw [hb]; exact Nat.lt_succ_of_lt l2, l3⟩
      rcases l1 with l1 | l1
      · exact Or.inl l1
      · right
        rw [hl]
        split
        · exact List.mem_cons_of_mem _ l1
        · exact l1
  · rw [hl g] at hmz
    by_cases hg : g = priv
    · rw [if_pos hg] at hmz
      rcases List.mem_cons.mp hmz with e | e
      · exact hZ (e ▸ hz)
      · exact h.zombies z hz g e
    · rw [if_neg hg] at hmz; exact h.zombies z hz g hmz

theorem release_aux_running {fuel : Nat} {s : SM_STATE_T} {cur : Nat} {p : Ptr} {force : Bool}
    (h : (release_aux fuel s cur p force).status = Status.running) :
    s.status = Status.running := by
  by_contra hs
  cases fuel <;> simp [release_aux, hs] at h

theorem deceased_same {s : SM_STATE_T} {p : Ptr} {t : Bool}
    (h : (vc_sm_resource_deceased s p t).status = Status.running) :
    s.status = Status.running ∧ Same s (vc_sm_resource_deceased s p t) := by
  by_cases hs : s.status = Status.running
  · refine ⟨hs, ?_⟩
    cases hr : s.resources p with
    | none => simp [vc_sm_resource_deceased, hs, hr] at h
    | some r =>
      cases t <;> simp [vc_sm_resource_deceased, hs, hr] <;>
        exact ⟨Nat.le_refl _, rfl, fun _ => rfl, fun _ => rfl⟩
  · simp [vc_sm_resource_deceased, hs] at h

theorem sessions_update_list (s : SM_STATE_T) (g : Ptr) (d : SM_PRIV_DATA_T)
    (hd : d.resource_list = (s.sessions g).resource_list) (x : Ptr) :
    (Function.update s.sessions g d x).resource_list = (s.sessions x).resource_list := by
  by_cases hx : x = g
  · subst hx; simp [hd]
  · simp [Function.update_noteq hx]

theorem release_vc_free_same (s : SM_STATE_T) (p : Ptr) : Same s (release_vc_free s p) := by
  unfold release_vc_free
  split
  · exact same_refl s
  · split
    · exact ⟨Nat.le_refl _, rfl, fun _ => rfl, fun _ => rfl⟩
    · rename_i r hr
      split
      · exact same_refl s
      · dsimp only
        split
        · refine ⟨Nat.le_refl _, rfl, fun x => by apply sessions_update_list; rfl, fun x => ?_⟩
          by_cases hx : x = p
          · subst hx; simp [hr, SM_RESOURCE_T.key]
          · simp [Function.update_noteq hx]
        · exact ⟨Nat.le_refl _, rfl, fun x => by apply sessions_update_list; rfl, fun _ => rfl⟩

theorem release_unlink_fields (s : SM_STATE_T) (p : Ptr) (r : SM_RESOURCE_T)
    (hs : s.status = Status.running) (hr : s.resources p = some r) :
    ∃ r1, (release_unlink s p).resources = Function.update s.resources p (some r1) ∧
      r1.res_shared = r.res_shared ∧ r1.map_list = r.map_list ∧
      (release_unlink s p).brk = s.brk ∧ (release_unlink s p).map_list = s.map_list ∧
      (release_unlink s p).status = Status.running ∧
      (release_unlink s p).resource_list = list_del p s.resource_list ∧
      ∀ g, ((release_unlink s p).sessions g).resource_list =
        if g = r.priv then list_del p (s.sessions g).resource_list
        else (s.sessions g).resource_list := by
  refine ⟨{ r with
      res_handle := if handle_in_use s.resources (list_del p s.resource_list) r.res_handle
        then 0 else r.res_handle
      res_stats := stat_inc r.res_stats FREE }, ?_, ?_, ?_, ?_, ?_, ?_, ?_, ?_⟩
  pick_goal 8
  · intro g
    simp only [release_unlink, hs, hr]
    by_cases hg : g = r.priv
    · subst hg; simp
    · simp [Function.update_noteq hg, hg]
  all_goals first
    | (simp only [release_unlink, hs, hr]; simp)
    | rfl

theorem release_head_inv {f : Ptr} {c : Nat} {Z : Ptr → Prop} {s : SM_STATE_T} {p : Ptr}
    {r : SM_RESOURCE_T} (cur n : Nat) (h : Inv f c Z s) (hs : s.status = Status.running)
    (hr : s.resources p = some r) (hm : r.map_list = []) :
    Inv f c (fun x => Z x ∨ x = p) (release_vc_free (release_unmap (release_unlink
      (s.set_res p { r with ref_count := n }) p) cur p) p) ∧
    shared_of (release_vc_free (release_unmap (release_unlink
      (s.set_res p { r with ref_count := n }) p) cur p) p) p = r.res_shared := by
  obtain ⟨r1, e1, e2, e3, e4, e5, _, _, e8⟩ :=
    release_unlink_fields (s.set_res p { r with ref_count := n }) p { r with ref_count := n }
      hs (by simp)
  have hsu : (release_unlink (s.set_res p { r with ref_count := n }) p).resources p = some r1 := by
    rw [e1]; simp
  rw [release_unmap_skip _ cur p r1 hsu (Or.inr (e3.trans hm))]
  have hI : Inv f c (fun x => Z x ∨ x = p)
      (release_unlink (s.set_res p { r with ref_count := n }) p) :=
    inv_unlink h hr (Nat.le_of_eq e4.symm) e5 e8 (by rw [e1]; simp) e2
  have hS := release_vc_free_same (release_unlink (s.set_res p { r with ref_count := n }) p) p
  refine ⟨inv_same hI hS, ?_⟩
  obtain ⟨r2, hr2, hk⟩ := same_fwd hS hsu
  rw [key_eq_iff] at hk
  simp only [shared_of, hr2]
  exact hk.2.2.2.2.trans e2

theorem release_aux_inv (f : Ptr) (c : Nat) (hc : c < 4294967296) (fuel : Nat) :
    ∀ (s : SM_STATE_T) (cur : Nat) (p : Ptr) (force : Bool) (Z : Ptr → Prop),
      Inv f c Z s → ¬ Z p → (∀ z, Z z → p < z) → p < fuel →
      (release_aux fuel s cur p force).status = Status.running →
      Inv f c Z (release_aux fuel s cur p force) := by
  induction fuel with
  | zero => intro s cur p force Z _ _ _ hf _; exact absurd hf (Nat.not_lt_zero _)
  | succ n ih =>
    intro s cur p force Z h hZ hord hfuel hrun
    have hs : s.status = Status.running := release_aux_running hrun
    cases hr : s.resources p with
    | none => simp [release_aux, hs, hr] at hrun
    | some r =>
      obtain ⟨l1, _, l3⟩ := h.live p r hr
      obtain ⟨r0, hr0, _, k2, k3, _, k5, _⟩ := h.listed r.priv p (l1.resolve_left hZ)
      rw [hr] at hr0; cases hr0
      by_cases h2 : 2 ≤ r.ref_count
      · have hd := u32_dec_of_two_le h2 (by omega)
        rw [release_aux_keep n s cur p force r hs hr hd.2, hd.1]
        exact inv_set_ref h hr _ (by omega) (by omega)
      · have h1 : r.ref_count = 1 := by omega
        have hd : u32_dec r.ref_count = 0 := by rw [h1]; exact u32_dec_one
        obtain ⟨hI1, hsh⟩ := release_head_inv cur 0 h hs hr k5
        rw [release_aux_teardown n s cur p force r hs hr hd] at hrun ⊢
        generalize release_vc_free (release_unmap (release_unlink
          (s.set_res p { r with ref_count := 0 }) p) cur p) p = s1 at hI1 hsh hrun ⊢
        rw [hsh] at hrun ⊢
        cases hq : r.res_shared with
        | none =>
          simp only [hq] at hrun ⊢
          have hdr := (kfree_resource_status _ p).symm.trans hrun
          exact inv_kfree (inv_same hI1 (deceased_same hdr).2) hdr
        | some q =>
          simp only [hq] at hrun ⊢
          have hdr := (kfree_resource_status _ p).symm.trans hrun
          have hqp : q < p := l3 q hq
          have hI2 := ih s1 cur q false (fun x => Z x ∨ x = p) hI1
            (fun hz => hz.elim (fun hz => Nat.lt_asymm hqp (hord q hz))
              (fun e => Nat.ne_of_lt hqp e))
            (fun z hz => hz.elim (fun hz => Nat.lt_trans hqp (hord z hz)) (fun e => e ▸ hqp))
            (Nat.lt_of_lt_of_le hqp (Nat.lt_succ_iff.mp hfuel)) (deceased_same hdr).1
          exact inv_kfree (inv_same hI2 (deceased_same hdr).2) hdr

theorem release_resource_inv {f : Ptr} {c : Nat} (hc : c < 4294967296) {s : SM_STATE_T}
    (cur : Nat) (p : Ptr) (force : Bool) (h : Inv f c (fun _ => False) s)
    (hrun : (vmcs_sm_release_resource s cur p force).status = Status.running) :
    Inv f c (fun _ => False) (vmcs_sm_release_resource s cur p force) :=
  release_aux_inv f c hc (p + 1) s cur p force _ h (fun hz => hz) (fun _ hz => hz.elim)
    (Nat.lt_succ_self p) hrun

theorem same_of_fields {s s1 : SM_STATE_T} (hb : s1.brk = s.brk) (hm : s1.map_list = s.map_list)
    (hl : ∀ g, (s1.sessions g).resource_list = (s.sessions g).resource_list)
    (hres : s1.resources = s.resources) : Same s s1 :=
  ⟨Nat.le_of_eq hb.symm, hm, hl, fun x => by rw [hres]⟩

theorem lock_window_user (s : SM_STATE_T) (p : Ptr) (kz : Bool) (ioremap_ret : Nat)
    (r : SM_RESOURCE_T) (hr : s.resources p = some r) (hpid : r.pid ≠ 0) :
    lock_window s p kz ioremap_ret = (s, 0, 0) := by
  simp [lock_window, hr, hpid]

theorem lock_body_same (s : SM_STATE_T) (priv : Ptr) (cur : Nat) (p : Ptr)
    (ioparam : vmcs_sm_ioctl_lock_unlock) (change_cache : Bool) (cache_type : Nat)
    (vc_addr : Nat) (reply : LockReply) (kz : Bool) (ioremap_ret : Nat) (r : SM_RESOURCE_T)
    (hr : s.resources p = some r) (hpid : r.pid ≠ 0) :
    Same s (lock_body s priv cur p ioparam change_cache cache_type vc_addr reply kz
      ioremap_ret).1 := by
  have hS1 : ∀ r1 : SM_RESOURCE_T, r1.key = r.key →
      Same s (if vc_addr = 0 then
        { s with
          trace := s.trace ++ [Event.vc_vchi_sm_lock r.res_handle r.res_base_mem]
          sessions := Function.update s.sessions priv
            { s.sessions priv with int_trans_id := reply.trans_id } }
        else s.set_res p r1) := by
    intro r1 hk
    split
    · exact same_of_fields rfl rfl (fun g => by apply sessions_update_list; rfl) rfl
    · exact same_set_res hr hk
  unfold lock_body
  simp -zeta only [hr]
  lift_lets
  intro f s1 f1 ra rb moved rc s2 s3
  have h1 : Same s s1 := hS1 _ (by simp [SM_RESOURCE_T.key])
  obtain ⟨r1, hr1, hk1⟩ := same_fwd h1 hr
  have hkc : rc.key = r.key := by
    simp only [rc, rb, ra]
    split_ifs <;> simp [SM_RESOURCE_T.key]
  have h2 : Same s s2 := same_trans h1 (same_set_res hr1 (hkc.trans hk1.symm))
  have hpc : rc.pid = r.pid := ((key_eq_iff _ _).mp hkc).2.1
  have h3 : s3 = s2 := if_neg (fun h => hpid (hpc ▸ h.2))
  have hr3 : s3.resources p = some rc := by rw [h3]; simp [s2]
  split
  · exact same_trans h1 (same_of_fields rfl rfl (fun g => by apply sessions_update_list; rfl) rfl)
  · split
    · exact same_trans h1 (same_set_res hr1 (by rw [hk1]; simp [SM_RESOURCE_T.key]))
    · simp -zeta only [hr3]
      lift_lets
      intro re s4 w
      have hke : re.key = rc.key := by
        simp only [re]
        split_ifs <;> simp [SM_RESOURCE_T.key]
      have h4 : Same s s4 := same_trans (h3 ▸ h2) (same_set_res hr3 hke)
      have hw : w = (s4, 0, 0) :=
        lock_window_user s4 p kz ioremap_ret re (by simp [s4])
          (by rw [((key_eq_iff _ _).mp hke).2.1, hpc]; exact hpid)
      split
      · exact h4
      · rw [hw]; exact h4

theorem update_sessions_list (σ : Ptr → SM_PRIV_DATA_T) (g : Ptr) (d : SM_PRIV_DATA_T) (x : Ptr) :
    (Function.update σ g d x).resource_list =
      if x = g then d.resource_list else (σ x).resource_list := by
  by_cases hx : x = g
  · subst hx; simp
  · simp [Function.update_noteq hx, hx]

theorem unlock_prepare_same (s : SM_STATE_T) (cur : Nat) (p : Ptr) (flush : Bool)
    (r : SM_RESOURCE_T) (hr : s.resources p = some r) (hpid : r.pid ≠ 0)
    (hm : r.map_list = []) : Same s (unlock_prepare s cur p flush) := by
  simp only [unlock_prepare, hr, hm, List.foldl_nil, if_pos hpid, ite_self]
  split
  · refine ⟨Nat.le_refl _, rfl, fun _ => rfl, fun x => ?_⟩
    by_cases hx : x = p
    · subst hx; simp [hr, hm, SM_RESOURCE_T.key]
    · simp [Function.update_noteq hx]
  · exact same_refl s

theorem unlock_remote_same (s : SM_STATE_T) (priv : Ptr) (p : Ptr) (unlock_handle unlock_mem : Nat)
    (wait_reply : Nat) (no_vc_unlock : Bool) (reply : UnlockReply) :
    Same s (unlock_remote s priv p unlock_handle unlock_mem wait_reply no_vc_unlock reply).1 := by
  unfold unlock_remote
  split
  · exact same_refl s
  · split
    · exact ⟨Nat.le_refl _, rfl, fun _ => rfl, fun _ => rfl⟩
    · rename_i r hr
      simp only []
      split_ifs
      all_goals
        refine ⟨Nat.le_refl _, rfl, fun g => ?_, fun x => ?_⟩
        · simp only [SM_STATE_T.set_res, update_sessions_list, Function.update_same]
          try split_ifs with hg
          all_goals first
            | rfl
            | (subst hg; rfl)
        · by_cases hx : x = p
          · subst hx; simp [hr, SM_RESOURCE_T.key]
          · simp [Function.update_noteq hx]

theorem release_resource_running {s : SM_STATE_T} {cur : Nat} {p : Ptr} {force : Bool}
    (h : (vmcs_sm_release_resource s cur p force).status = Status.running) :
    s.status = Status.running :=
  release_aux_running h

theorem acquire_resource_inv {f : Ptr} {c : Nat} {s : SM_STATE_T} (priv g : Nat)
    (h : Inv f c (fun _ => False) s) (hs : s.status = Status.running)
    (hc : c + 1 < 4294967296) :
    vmcs_sm_acquire_resource s priv g = (s, none) ∨
    ∃ p r, s.resources p = some r ∧ r.pid ≠ 0 ∧ r.map_list = [] ∧
      vmcs_sm_acquire_resource s priv g =
        (s.set_res p { r with ref_count := r.ref_count + 1 }, some p) ∧
      Inv f (c + 1) (fun _ => False) (s.set_res p { r with ref_count := r.ref_count + 1 }) := by
  cases hf : find_guid s.resources (s.sessions priv).resource_list g with
  | none => left; simp [vmcs_sm_acquire_resource, hs, hf]
  | some p =>
    right
    obtain ⟨hmem, _⟩ := find_guid_some hf
    obtain ⟨r, hr, _, k2, k3, k4, k5, _⟩ := h.listed priv p hmem
    refine ⟨p, r, hr, k4, k5, ?_, inv_set_ref (inv_mono h (Nat.le_succ c)) hr _ (by omega) (by omega)⟩
    simp [vmcs_sm_acquire_resource, hs, hf, take_ref, hr,
      u32_inc_of_lt (by omega : r.ref_count < 4294967295)]

theorem free_inv {f : Ptr} {c : Nat} {s : SM_STATE_T} (priv cur : Nat)
    (ioparam : vmcs_sm_ioctl_free) (h : Inv f c (fun _ => False) s) (hc : c + 1 < 4294967296)
    (hrun : (vc_sm_ioctl_free s priv cur ioparam).1.status = Status.running) :
    Inv f (c + 1) (fun _ => False) (vc_sm_ioctl_free s priv cur ioparam).1 := by
  have hs : s.status = Status.running := by
    by_contra hs; simp [vc_sm_ioctl_free, hs] at hrun
  unfold vc_sm_ioctl_free at hrun ⊢
  rw [if_neg (not_not.mpr hs)] at hrun ⊢
  rcases acquire_resource_inv priv ioparam.handle h hs hc with ha | ⟨p, r, hr, _, _, ha, hI⟩
  · rw [ha]; exact inv_mono h (Nat.le_succ c)
  · have hr1 : (s.set_res p { r with ref_count := r.ref_count + 1 }).resources p =
        some { r with ref_count := r.ref_count + 1 } := by simp
    rw [ha] at hrun ⊢
    simp only [hr1] at hrun ⊢
    split_ifs at hrun ⊢
    · exact release_resource_inv hc cur p false hI hrun
    · exact release_resource_inv hc cur p false
        (release_resource_inv hc cur p false hI (release_resource_running hrun)) hrun

theorem lock_inv {f : Ptr} {c : Nat} {s : SM_STATE_T} (priv cur : Nat)
    (ioparam : vmcs_sm_ioctl_lock_unlock) (change_cache : Bool) (cache_type vc_addr : Nat)
    (reply : LockReply) (kz : Bool) (ioremap_ret : Nat)
    (h : Inv f c (fun _ => False) s) (hc : c + 1 < 4294967296)
    (hrun : (vc_sm_ioctl_lock s priv cur ioparam change_cache cache_type vc_addr reply kz
      ioremap_ret).1.status = Status.running) :
    Inv f (c + 1) (fun _ => False) (vc_sm_ioctl_lock s priv cur ioparam change_cache cache_type
      vc_addr reply kz ioremap_ret).1 := by
  have hs : s.status = Status.running := by
    by_contra hs; simp [vc_sm_ioctl_lock, hs] at hrun
  unfold vc_sm_ioctl_lock at hrun ⊢
  rw [if_neg (not_not.mpr hs)] at hrun ⊢
  rcases acquire_resource_inv priv ioparam.handle h hs hc with ha | ⟨p, r, hr, hp, _, ha, hI⟩
  · rw [ha]; exact inv_mono h (Nat.le_succ c)
  · have hr1 : (s.set_res p { r with ref_count := r.ref_count + 1 }).resources p =
        some { r with ref_count := r.ref_count + 1 } := by simp
    rw [ha] at hrun ⊢
    simp only [hr1] at hrun ⊢
    split_ifs at hrun ⊢
    · exact release_resource_inv hc cur p false hI hrun
    · exact release_resource_inv hc cur p false
        (inv_same hI (lock_body_same _ priv cur p ioparam change_cache cache_type vc_addr reply
          kz ioremap_ret _ hr1 hp)) hrun

theorem unlock_inv {f : Ptr} {c : Nat} {s : SM_STATE_T} (priv cur : Nat)
    (ioparam : vmcs_sm_ioctl_lock_unlock) (flush : Bool) (wait_reply : Nat)
    (no_vc_unlock : Bool) (reply : UnlockReply)
    (h : Inv f c (fun _ => False) s) (hc : c + 1 < 4294967296)
    (hrun : (vc_sm_ioctl_unlock s priv cur ioparam flush wait_reply no_vc_unlock
      reply).1.status = Status.running) :
    Inv f (c + 1) (fun _ => False) (vc_sm_ioctl_unlock s priv cur ioparam flush wait_reply
      no_vc_unlock reply).1 := by
  have hs : s.status = Status.running := by
    by_contra hs; simp [vc_sm_ioctl_unlock, hs] at hrun
  unfold vc_sm_ioctl_unlock at hrun ⊢
  rw [if_neg (not_not.mpr hs)] at hrun ⊢
  rcases acquire_resource_inv priv ioparam.handle h hs hc with ha | ⟨p, r, hr, hp, hm, ha, hI⟩
  · rw [ha]; exact inv_mono h (Nat.le_succ c)
  · have hr1 : (s.set_res p { r with ref_count := r.ref_count + 1 }).resources p =
        some { r with ref_count := r.ref_count + 1 } := by simp
    rw [ha] at hrun ⊢
    simp only [hr1] at hrun ⊢
    split_ifs at hrun ⊢
    · exact release_resource_inv hc cur p false hI hrun
    · exact release_resource_inv hc cur p false
        (inv_same hI (same_trans (unlock_prepare_same _ cur p flush _ hr1 hp hm)
          (unlock_remote_same _ priv p _ _ wait_reply no_vc_unlock reply))) hrun

theorem alloc_discard_same {s s2 : SM_STATE_T} {p : Ptr} (hs2 : s2.status = Status.running)
    (hp : s.resources p = none) (hb : s.brk ≤ s2.brk) (hm : s2.map_list = s.map_list)
    (hl : ∀ g, (s2.sessions g).resource_list = (s.sessions g).resource_list)
    (hres : ∀ x, x ≠ p → s2.resources x = s.resources x) : Same s (alloc_discard s2 p) := by
  have hrec : ∀ (σ : Ptr → Option SM_RESOURCE_T), (∀ x, x ≠ p → σ x = s.resources x) →
      σ p = none → ∀ x, (σ x).map SM_RESOURCE_T.key = (s.resources x).map SM_RESOURCE_T.key := by
    intro σ h1 h2 x
    by_cases hx : x = p
    · subst hx; rw [h2, hp]
    · rw [h1 x hx]
  cases hr2 : s2.resources p with
  | none =>
    simp only [alloc_discard, vc_sm_resource_deceased, kfree_resource, hs2, hr2]
    exact ⟨hb, hm, hl, hrec _ hres hr2⟩
  | some r2 =>
    simp only [alloc_discard, vc_sm_resource_deceased, kfree_resource, hs2, hr2]
    refine ⟨hb, hm, hl, hrec _ (fun x hx => ?_) ?_⟩
    · simp [Function.update_noteq hx, hres x hx]
    · simp

theorem inv_fresh {f : Ptr} {c : Nat} {Z : Ptr → Prop} {s : SM_STATE_T} (h : Inv f c Z s) :
    s.resources s.brk = none := by
  cases hq : s.resources s.brk with
  | none => rfl
  | some r => exact absurd (h.live _ r hq).2.1 (Nat.lt_irrefl _)

theorem alloc_inv {f : Ptr} {c : Nat} {s : SM_STATE_T} (priv cur : Nat)
    (ioparam : vmcs_sm_ioctl_alloc) (kz : Bool) (reply : AllocReply) (hcur : cur ≠ 0)
    (h : Inv f c (fun _ => False) s) :
    Inv f (c + 1) (fun _ => False) (vc_sm_ioctl_alloc s priv cur ioparam kz reply).1 := by
  by_cases hs : s.status = Status.running
  swap
  · simp only [vc_sm_ioctl_alloc, ne_eq, hs, not_false_eq_true, if_true]
    exact inv_mono h (Nat.le_succ c)
  cases kz with
  | false =>
    simp only [vc_sm_ioctl_alloc, ne_eq, hs, not_true_eq_false, if_false, if_true]
    exact inv_mono h (Nat.le_succ c)
  | true =>
    by_cases h1 : reply.status = -EINTR
    · simp only [vc_sm_ioctl_alloc, ne_eq, hs, not_true_eq_false, if_false, h1, if_true,
        Bool.true_eq_false]
      refine inv_mono (inv_same h (alloc_discard_same rfl (inv_fresh h) (Nat.le_succ _) rfl
        (fun g => ?_) (fun x hx => ?_))) (Nat.le_succ c)
      · simp only [update_sessions_list, Function.update_same]
        split_ifs with hg
        · subst hg; rfl
        · rfl
      · simp [Function.update_noteq hx]
    · by_cases h2 : reply.status ≠ 0 ∨ reply.res_mem = 0
      · simp only [vc_sm_ioctl_alloc, ne_eq, hs, not_true_eq_false, if_false, h1, if_true,
          Bool.true_eq_false, h2]
        refine inv_mono (inv_same h (alloc_discard_same rfl (inv_fresh h) (Nat.le_succ _) rfl
          (fun g => ?_) (fun x hx => ?_))) (Nat.le_succ c)
        · simp only [SM_STATE_T.set_res, update_sessions_list, Function.update_same]
          split_ifs with hg
          · subst hg; rfl
          · rfl
        · simp [Function.update_noteq hx]
      · have hok : reply.status = 0 := by
          by_contra hne; exact h2 (Or.inl hne)
        have hmem : reply.res_mem ≠ 0 := fun e => h2 (Or.inr e)
        rw [alloc_ok s priv cur ioparam reply hs hok hmem]
        refine inv_add priv (inv_mono h (Nat.le_succ c)) (fun hz => hz)
          (Nat.le_add_left 1 c) rfl rfl (fun g => ?_) rfl rfl rfl hcur rfl (fun _ => rfl)
          (fun q hq => ?_)
        · simp only [update_sessions_list]
          split_ifs with hg
          · subst hg; rfl
          · rfl
        · simp [SM_RESOURCE_T.zero] at hq

theorem share_inv {f : Ptr} {c : Nat} {s : SM_STATE_T} (priv cur : Nat)
    (ioparam : vmcs_sm_ioctl_alloc_share) (kz : Bool) (hcur : cur ≠ 0) (hpriv : priv ≠ f)
    (h : Inv f c (fun _ => False) s) (hc : c + 1 < 4294967296)
    (hrun : (vc_sm_ioctl_alloc_share s priv cur ioparam kz).1.status = Status.running) :
    Inv f (c + 1) (fun _ => False) (vc_sm_ioctl_alloc_share s priv cur ioparam kz).1 := by
  have hs : s.status = Status.running := by
    by_contra hs; simp [vc_sm_ioctl_alloc_share, hs] at hrun
  cases hf : find_guid s.resources s.resource_list ioparam.handle with
  | none =>
    simp only [vc_sm_ioctl_alloc_share, vmcs_sm_acquire_global_resource, ne_eq, hs,
      not_true_eq_false, if_false, hf]
    exact inv_mono h (Nat.le_succ c)
  | some q =>
    cases hrq : s.resources q with
    | none =>
      simp [vc_sm_ioctl_alloc_share, vmcs_sm_acquire_global_resource, hs, hf, take_ref, hrq]
        at hrun
    | some rq =>
      obtain ⟨l1, l2, _⟩ := h.live q rq hrq
      obtain ⟨r0, hr0, _, k2, k3, _⟩ := h.listed rq.priv q (l1.resolve_left (fun hz => hz))
      rw [hrq] at hr0; cases hr0
      have hinc : u32_inc rq.ref_count = rq.ref_count + 1 := u32_inc_of_lt (by omega)
      have hI := inv_set_ref (inv_mono h (Nat.le_succ c)) hrq (rq.ref_count + 1)
        (by omega) (by omega)
      cases kz with
      | false =>
        simp only [vc_sm_ioctl_alloc_share, vmcs_sm_acquire_global_resource, ne_eq, hs,
          not_true_eq_false, if_false, hf, take_ref, hrq, hinc, if_true] at hrun ⊢
        exact release_resource_inv hc cur q false hI hrun
      | true =>
        have e : ioparam = ⟨ioparam.handle, ioparam.size⟩ := rfl
        rw [e, share_ok s priv cur ioparam.handle ioparam.size q rq hs hf hrq, hinc]
        refine inv_add priv hI (fun hz => hz) (Nat.le_add_left 1 c) rfl rfl
          (fun g => ?_) rfl rfl rfl hcur rfl (fun hp => absurd hp hpriv) (fun q1 hq => ?_)
        · simp only [SM_STATE_T.set_res, update_sessions_list]
          split_ifs with hg
          · subst hg; rfl
          · rfl
        · simp [SM_RESOURCE_T.zero] at hq
          rw [← hq]; exact l2

theorem release_vc_free_facts (s : SM_STATE_T) (p : Ptr) (r : SM_RESOURCE_T)
    (hs : s.status = Status.running) (hr : s.resources p = some r) :
    (release_vc_free s p).status = Status.running ∧
    (release_vc_free s p).resource_list = s.resource_list := by
  simp only [release_vc_free, ne_eq, hs, not_true_eq_false, if_false, hr]
  split_ifs <;> first
    | exact ⟨hs, rfl⟩
    | exact ⟨rfl, rfl⟩

theorem deceased_facts (s : SM_STATE_T) (p : Ptr) (t : Bool) (r : SM_RESOURCE_T)
    (hs : s.status = Status.running) (hr : s.resources p = some r) :
    (vc_sm_resource_deceased s p t).status = Status.running ∧
    (vc_sm_resource_deceased s p t).resource_list = s.resource_list ∧
    (vc_sm_resource_deceased s p t).sessions = s.sessions := by
  cases t <;> simp [vc_sm_resource_deceased, hs, hr]

theorem kfree_facts (s : SM_STATE_T) (p : Ptr) :
    (kfree_resource s p).resource_list = s.resource_list ∧
    (kfree_resource s p).sessions = s.sessions := by
  unfold kfree_resource
  split_ifs <;> exact ⟨rfl, rfl⟩

theorem release_plain_facts (fuel : Nat) (s : SM_STATE_T) (cur : Nat) (p : Ptr) (force : Bool)
    (r : SM_RESOURCE_T) (hs : s.status = Status.running) (hr : s.resources p = some r)
    (h1 : r.ref_count = 1) (hm : r.map_list = []) (hsh : r.res_shared = none) :
    (release_aux (fuel + 1) s cur p force).status = Status.running ∧
    (release_aux (fuel + 1) s cur p force).resource_list = list_del p s.resource_list ∧
    ∀ g, ((release_aux (fuel + 1) s cur p force).sessions g).resource_list =
      if g = r.priv then list_del p (s.sessions g).resource_list
      else (s.sessions g).resource_list := by
  have hd : u32_dec r.ref_count = 0 := by rw [h1]; exact u32_dec_one
  rw [release_aux_teardown fuel s cur p force r hs hr hd]
  obtain ⟨r1, e1, e2, e3, _, _, e6, e7, e8⟩ :=
    release_unlink_fields (s.set_res p { r with ref_count := 0 }) p { r with ref_count := 0 }
      hs (by simp)
  have hsu : (release_unlink (s.set_res p { r with ref_count := 0 }) p).resources p = some r1 := by
    rw [e1]; simp
  rw [release_unmap_skip _ cur p r1 hsu (Or.inr (e3.trans hm))]
  have hS := release_vc_free_same (release_unlink (s.set_res p { r with ref_count := 0 }) p) p
  obtain ⟨r2, hr2, hk⟩ := same_fwd hS hsu
  rw [key_eq_iff] at hk
  obtain ⟨v1, v2⟩ := release_vc_free_facts _ p r1 e6 hsu
  have hnone : shared_of (release_vc_free
      (release_unlink (s.set_res p { r with ref_count := 0 }) p) p) p = none := by
    simp only [shared_of, hr2]
    exact hk.2.2.2.2.trans (e2.trans hsh)
  rw [hnone]
  simp only []
  obtain ⟨d1, d2, d3⟩ := deceased_facts _ p force r2 v1 hr2
  obtain ⟨f1, f2⟩ := kfree_facts (vc_sm_resource_deceased (release_vc_free
      (release_unlink (s.set_res p { r with ref_count := 0 }) p) p) p force) p
  refine ⟨(kfree_resource_status _ p).trans d1, ?_, fun g => ?_⟩
  · rw [f1, d2, v2, e7]; rfl
  · rw [f2, d3, hS.lists g, e8 g]; rfl

theorem drain_measure_le {f : Ptr} {c : Nat} {Z : Ptr → Prop} {s : SM_STATE_T}
    (h : Inv f c Z s) :
    drain_measure s f ≤ (s.sessions f).resource_list.length * 4294967296 + c := by
  unfold drain_measure
  cases hl : (s.sessions f).resource_list with
  | nil => simp
  | cons p L =>
    obtain ⟨r, hr, _, _, k3, _⟩ := h.listed f p (by rw [hl]; exact List.mem_cons_self _ _)
    simp only [hr, List.length_cons]
    omega

theorem release_all_step (s : SM_STATE_T) (cur : Nat) (f p : Ptr) (L : List Ptr)
    (r : SM_RESOURCE_T) (n : Nat) (hs : s.status = Status.running)
    (hl : (s.sessions f).resource_list = p :: L) (hr : s.resources p = some r)
    (h1 : 1 ≤ r.ref_count) (hlt : r.ref_count < 4294967295) :
    release_all (n + 1) s cur f =
      release_all n (vmcs_sm_release_resource s cur p true) cur f := by
  have hinc := u32_inc_of_lt hlt
  have hfirst : vmcs_sm_release_resource
      (s.set_res p { r with ref_count := u32_inc r.ref_count }) cur p false = s := by
    unfold vmcs_sm_release_resource
    have hd := u32_dec_of_two_le (n := r.ref_count + 1) (by omega) (by omega)
    rw [release_aux_keep p (s.set_res p { r with ref_count := u32_inc r.ref_count }) cur p false
      { r with ref_count := u32_inc r.ref_count } hs (by simp) (by simp only [hinc]; exact hd.2)]
    simp only [hinc, hd.1]
    simp [← hr]
  simp only [release_all, vmcs_sm_acquire_first_resource, ne_eq, hs, not_true_eq_false,
    if_false, hl, take_ref, hr]
  rw [hfirst]

theorem release_all_drains (f : Ptr) (c : Nat) (hc : c + 1 < 4294967296) (cur : Nat) :
    ∀ (fuel : Nat) (s : SM_STATE_T), Inv f c (fun _ => False) s → s.status = Status.running →
      drain_measure s f < fuel →
      (release_all fuel s cur f).status = Status.running ∧
      ((release_all fuel s cur f).sessions f).resource_list = [] ∧
      (∀ x ∈ (s.sessions f).resource_list, x ∉ (release_all fuel s cur f).resource_list) ∧
      (∀ x, x ∈ (release_all fuel s cur f).resource_list → x ∈ s.resource_list) ∧
      (release_all fuel s cur f).map_list = [] := by
  intro fuel
  induction fuel with
  | zero => intro s _ _ hm; exact absurd hm (Nat.not_lt_zero _)
  | succ n ih =>
    intro s h hs hm
    cases hl : (s.sessions f).resource_list with
    | nil =>
      have he : release_all (n + 1) s cur f = s := by
        simp [release_all, vmcs_sm_acquire_first_resource, hs, hl]
      rw [he]
      exact ⟨hs, hl, fun x hx => absurd hx (List.not_mem_nil x), fun _ hx => hx, h.maps⟩
    | cons p L =>
      obtain ⟨r, hr, k1, k2, k3, _, k5, k6⟩ := h.listed f p (by rw [hl]; exact List.mem_cons_self _ _)
      have hms : drain_measure s f = (L.length + 1) * 4294967296 + r.ref_count := by
        simp [drain_measure, hl, hr]
      rw [release_all_step s cur f p L r n hs hl hr k2 (by omega)]
      by_cases h2 : 2 ≤ r.ref_count
      · have hd := u32_dec_of_two_le h2 (by omega)
        have hk : vmcs_sm_release_resource s cur p true =
            s.set_res p { r with ref_count := r.ref_count - 1 } := by
          unfold vmcs_sm_release_resource
          rw [release_aux_keep p s cur p true r hs hr hd.2, hd.1]
        rw [hk]
        have hI := inv_set_ref h hr (r.ref_count - 1) (by omega) (by omega)
        have hm1 : drain_measure (s.set_res p { r with ref_count := r.ref_count - 1 }) f < n := by
          have : drain_measure (s.set_res p { r with ref_count := r.ref_count - 1 }) f =
              (L.length + 1) * 4294967296 + (r.ref_count - 1) := by
            simp [drain_measure, hl]
          omega
        obtain ⟨a1, a2, a3, a4, a5⟩ := ih _ hI hs hm1
        exact ⟨a1, a2, fun x hx => a3 x (by rw [← hl] at hx; exact hx), a4, a5⟩
      · have h1 : r.ref_count = 1 := by omega
        obtain ⟨g1, g2, g3⟩ := release_plain_facts p s cur p true r hs hr h1 k5 (k6 rfl)
        have hI : Inv f c (fun _ => False) (vmcs_sm_release_resource s cur p true) :=
          release_resource_inv (by omega) cur p true h g1
        have hlist : ((vmcs_sm_release_resource s cur p true).sessions f).resource_list =
            list_del p L := by
          have := g3 f
          rw [if_pos k1.symm, hl] at this
          rw [show vmcs_sm_release_resource s cur p true = release_aux (p + 1) s cur p true from rfl,
            this]
          simp [list_del]
        have hlen : (list_del p L).length ≤ L.length := List.length_filter_le _ _
        have hm1 : drain_measure (vmcs_sm_release_resource s cur p true) f < n := by
          have := drain_measure_le hI
          rw [hlist] at this
          omega
        obtain ⟨a1, a2, a3, a4, a5⟩ := ih _ hI g1 hm1
        have hg : (vmcs_sm_release_resource s cur p true).resource_list =
            list_del p s.resource_list := g2
        refine ⟨a1, a2, fun x hx hfin => ?_, fun x hx => ?_, a5⟩
        · by_cases hxp : x = p
          · have := a4 x hfin
            rw [hg, hxp] at this
            exact (mem_list_del.mp this).2 rfl
          · refine a3 x ?_ hfin
            rw [hlist]
            rcases List.mem_cons.mp hx with e | e
            · exact absurd e hxp
            · exact mem_list_del.mpr ⟨e, hxp⟩
        · have := a4 x hx
          rw [hg] at this
          exact (mem_list_del.mp this).1

theorem call_run_running {s : SM_STATE_T} {call : Call}
    (h : (call.run s).status = Status.running) : s.status = Status.running := by
  by_contra hs
  cases call <;>
    simp [Call.run, vc_sm_ioctl_alloc, vc_sm_ioctl_alloc_share, vc_sm_ioctl_lock,
      vc_sm_ioctl_unlock, vc_sm_ioctl_free, hs] at h

theorem call_run_inv {f : Ptr} {c : Nat} {s : SM_STATE_T} (call : Call)
    (h : Inv f c (fun _ => False) s) (hc : c + 1 < 4294967296)
    (hadm : call.admissible f = true) (hrun : (call.run s).status = Status.running) :
    Inv f (c + 1) (fun _ => False) (call.run s) := by
  cases call with
  | alloc priv cur ioparam kz reply =>
    simp [Call.admissible] at hadm
    exact alloc_inv priv cur ioparam kz reply hadm h
  | alloc_share priv cur ioparam kz =>
    simp [Call.admissible] at hadm
    exact share_inv priv cur ioparam kz hadm.1 hadm.2 h hc hrun
  | lock priv cur ioparam change_cache cache_type vc_addr reply kz ioremap_ret =>
    exact lock_inv priv cur ioparam change_cache cache_type vc_addr reply kz ioremap_ret h hc hrun
  | unlock priv cur ioparam flush wait_reply no_vc_unlock reply =>
    exact unlock_inv priv cur ioparam flush wait_reply no_vc_unlock reply h hc hrun
  | free priv cur ioparam => exact free_inv priv cur ioparam h hc hrun

theorem run_calls_running : ∀ (calls : List Call) (s : SM_STATE_T),
    (run_calls s calls).status = Status.running → s.status = Status.running := by
  intro calls
  induction calls with
  | nil => intro s h; exact h
  | cons call l ih => intro s h; exact call_run_running (ih (call.run s) h)

theorem run_calls_inv (f : Ptr) : ∀ (calls : List Call) (s : SM_STATE_T) (c : Nat),
    Inv f c (fun _ => False) s → c + calls.length < 4294967296 →
    (∀ call ∈ calls, call.admissible f = true) →
    (run_calls s calls).status = Status.running →
    Inv f (c + calls.length) (fun _ => False) (run_calls s calls) := by
  intro calls
  induction calls with
  | nil => intro s c h _ _ _; exact h
  | cons call l ih =>
    intro s c h hc hadm hrun
    have hrun1 : (call.run s).status = Status.running := run_calls_running l _ hrun
    have hI := call_run_inv call h (by simp at hc; omega) (hadm call (List.mem_cons_self _ _)) hrun1
    have := ih (call.run s) (c + 1) hI (by simp at hc; omega)
      (fun x hx => hadm x (List.mem_cons_of_mem _ hx)) hrun
    simp only [List.length_cons]
    rw [show c + (l.length + 1) = c + 1 + l.length by omega]
    exact this

theorem init_inv (f : Ptr) (vf : List Event → Nat → Nat → FreeReply) :
    Inv f 0 (fun _ => False) (SM_STATE_T.init vf) :=
  ⟨fun g x hx => by simp [SM_STATE_T.init, SM_PRIV_DATA_T.zero] at hx,
    fun x r hr => by simp [SM_STATE_T.init] at hr, rfl,
    fun _ hz => hz.elim⟩

theorem release_clean_up_same (s : SM_STATE_T) (f : Ptr) :
    Same s (release_clean_up s f) ∧ (release_clean_up s f).status = s.status ∧
    (release_clean_up s f).resource_list = s.resource_list := by
  unfold release_clean_up
  split
  · exact ⟨same_refl s, rfl, rfl⟩
  · dsimp only
    split <;> exact ⟨⟨Nat.le_refl _, rfl, fun _ => rfl, fun _ => rfl⟩, rfl, rfl⟩

/-- C5: closing a session drains it.  Take any sequence of fewer than 2^32
allocate, share, lock, unlock and free calls made by user processes on any
sessions, in which session `f` takes no alias itself (other sessions may hold
aliases of its resources), and which stays within defined behaviour.  Then
`vc_sm_release` on `f` terminates (every large enough bound on the rounds of its
loop gives the same kind of result): it ends in a running state in which the
resource list of `f` is empty, no resource that was on that list is on the
global resource list any more, and the global mapping list is empty, so that no
mapping of those resources is left. -/
theorem release_drains_session (vf : List Event → Nat → Nat → FreeReply) (f : Ptr) (cur : Nat)
    (calls : List Call) (hadm : ∀ call ∈ calls, call.admissible f = true)
    (hlen : calls.length + 1 < 4294967296)
    (hrun : (run_calls (SM_STATE_T.init vf) calls).status = Status.running) :
    ∃ N, ∀ fuel, N ≤ fuel →
      (vc_sm_release fuel (run_calls (SM_STATE_T.init vf) calls) cur f).status =
        Status.running ∧
      ((vc_sm_release fuel (run_calls (SM_STATE_T.init vf) calls) cur f).sessions
        f).resource_list = [] ∧
      (∀ x ∈ ((run_calls (SM_STATE_T.init vf) calls).sessions f).resource_list,
        x ∉ (vc_sm_release fuel (run_calls (SM_STATE_T.init vf) calls) cur f).resource_list) ∧
      (vc_sm_release fuel (run_calls (SM_STATE_T.init vf) calls) cur f).map_list = [] := by
  have hI := run_calls_inv f calls (SM_STATE_T.init vf) 0 (init_inv f vf) (by omega) hadm hrun
  rw [Nat.zero_add] at hI
  obtain ⟨hS, hst, _⟩ := release_clean_up_same (run_calls (SM_STATE_T.init vf) calls) f
  refine ⟨drain_measure (release_clean_up (run_calls (SM_STATE_T.init vf) calls) f) f + 1,
    fun fuel hfuel => ?_⟩
  obtain ⟨a1, a2, a3, _, a5⟩ := release_all_drains f calls.length hlen cur fuel _
    (inv_same hI hS) (hst.trans hrun) (by omega)
  exact ⟨a1, a2, fun x hx => a3 x (by rw [hS.lists f]; exact hx), a5⟩

/-- C5 on `demo_calls`: closing session 10, which still owns the page shared with
session 20 and a second page, drains it. -/
theorem release_drains_session_witness :
    ∃ N, ∀ fuel, N ≤ fuel →
      (vc_sm_release fuel (run_calls (SM_STATE_T.init vf_ok) demo_calls) 100 10).status =
        Status.running ∧
      ((vc_sm_release fuel (run_calls (SM_STATE_T.init vf_ok) demo_calls) 100 10).sessions
        10).resource_list = [] ∧
      (∀ x ∈ ((run_calls (SM_STATE_T.init vf_ok) demo_calls).sessions 10).resource_list,
        x ∉ (vc_sm_release fuel (run_calls (SM_STATE_T.init vf_ok) demo_calls) 100
          10).resource_list) ∧
      (vc_sm_release fuel (run_calls (SM_STATE_T.init vf_ok) demo_calls) 100 10).map_list = [] :=
  release_drains_session vf_ok 10 100 demo_calls (by decide) (by decide) (by decide)

theorem demo_calls_owned :
    ((run_calls (SM_STATE_T.init vf_ok) demo_calls).sessions 10).resource_list = [3, 1] := by
  decide

/-! ## Issuing many GUIDs -/

theorem run_calls_cons (s : SM_STATE_T) (call : Call) (l : List Call) :
    run_calls s (call :: l) = run_calls (call.run s) l := rfl

theorem run_calls_nil (s : SM_STATE_T) : run_calls s [] = s := rfl

theorem call_run_alloc (s : SM_STATE_T) (priv : Ptr) (cur : Nat) (io : vmcs_sm_ioctl_alloc)
    (kz : Bool) (reply : AllocReply) :
    Call.run s (Call.alloc priv cur io kz reply) =
      (vc_sm_ioctl_alloc s priv cur io kz reply).1 := rfl

theorem run_calls_append (s : SM_STATE_T) (l1 l2 : List Call) :
    run_calls s (l1 ++ l2) = run_calls (run_calls s l1) l2 := by
  simp [run_calls, List.foldl_append]

theorem alloc_ok_fields (s : SM_STATE_T) (priv : Ptr) (cur : Nat) (io : vmcs_sm_ioctl_alloc)
    (reply : AllocReply) (hs : s.status = Status.running)
    (hok : reply.status = 0) (hmem : reply.res_mem ≠ 0) (hg : s.guid + 1 < 4294967296) :
    (vc_sm_ioctl_alloc s priv cur io true reply).1.status = Status.running ∧
    (vc_sm_ioctl_alloc s priv cur io true reply).1.guid = s.guid + 1 ∧
    (vc_sm_ioctl_alloc s priv cur io true reply).1.brk = s.brk + 1 ∧
    (vc_sm_ioctl_alloc s priv cur io true reply).1.resource_list = s.brk :: s.resource_list ∧
    (∀ x, x ≠ s.brk → (vc_sm_ioctl_alloc s priv cur io true reply).1.resources x =
      s.resources x) ∧
    ((vc_sm_ioctl_alloc s priv cur io true reply).1.resources s.brk).map
      (fun r => r.res_guid) = some (((s.guid + 1) <<< PAGE_SHIFT) % 4294967296) ∧
    (vc_sm_ioctl_alloc s priv cur io true reply).2.1 = 0 ∧
    (vc_sm_ioctl_alloc s priv cur io true reply).2.2.handle =
      ((s.guid + 1) <<< PAGE_SHIFT) % 4294967296 := by
  have hinc : u32_inc s.guid = s.guid + 1 := u32_inc_of_lt (by omega)
  rw [alloc_ok s priv cur io reply hs hok hmem]
  refine ⟨hs, ?_, rfl, rfl, fun x hx => ?_, ?_, rfl, ?_⟩
  · simp only [next_guid, hinc]
  · simp only [Function.update_noteq hx]
  · simp only [Function.update_same, Option.map_some', next_guid, hinc]
  · simp only [next_guid, hinc]

theorem run_allocs (call : Call) (priv : Ptr) (cur : Nat) (io : vmcs_sm_ioctl_alloc)
    (reply : AllocReply) (hcall : call = Call.alloc priv cur io true reply)
    (hok : reply.status = 0) (hmem : reply.res_mem ≠ 0) :
    ∀ (n : Nat) (s : SM_STATE_T), s.status = Status.running → s.guid + n < 4294967296 →
      (run_calls s (List.replicate n call)).status = Status.running ∧
      (run_calls s (List.replicate n call)).guid = s.guid + n ∧
      (run_calls s (List.replicate n call)).brk = s.brk + n ∧
      (∀ x, x < s.brk → (run_calls s (List.replicate n call)).resources x = s.resources x) ∧
      (∀ x ∈ s.resource_list, x ∈ (run_calls s (List.replicate n call)).resource_list) := by
  intro n
  induction n with
  | zero => intro s hs _; exact ⟨hs, rfl, rfl, fun _ _ => rfl, fun _ hx => hx⟩
  | succ n ih =>
    intro s hs hg
    rw [List.replicate_succ, run_calls_cons]
    have hrun : call.run s = (vc_sm_ioctl_alloc s priv cur io true reply).1 := by
      rw [hcall]; rfl
    rw [hrun]
    obtain ⟨b1, b2, b3, b4, b5, _⟩ := alloc_ok_fields s priv cur io reply hs hok hmem (by omega)
    obtain ⟨a1, a2, a3, a4, a5⟩ := ih (vc_sm_ioctl_alloc s priv cur io true reply).1 b1
      (by rw [b2]; omega)
    refine ⟨a1, ?_, ?_, fun x hx => ?_, fun x hx => ?_⟩
    · rw [a2, b2]; omega
    · rw [a3, b3]; exact Nat.add_right_comm s.brk 1 n
    · rw [a4 x (by rw [b3]; exact Nat.lt_succ_of_lt hx), b5 x (Nat.ne_of_lt hx)]
    · exact a5 x (by rw [b4]; exact List.mem_cons_of_mem _ hx)

theorem guid_shift_wrap : ((1048575 + 1) <<< PAGE_SHIFT) % 4294967296 = 0 := by decide

theorem guid_shift_again : ((1048576 + 1) <<< PAGE_SHIFT) % 4294967296 = 4096 := by decide

/-- Claim C9 at its failing input: the 1048576th successful allocation after
start-up succeeds and returns GUID 0. -/
theorem guid_wraps_to_zero :
    (vc_sm_ioctl_alloc (run_calls demo_init (List.replicate 1048575 demo_alloc_call)) 10 100
      { size := 4096, num := 1, cached := 3, handle := 0 } true
      { status := 0, res_handle := 77, res_mem := 5000, trans_id := 1 }).2.1 = 0 ∧
    (vc_sm_ioctl_alloc (run_calls demo_init (List.replicate 1048575 demo_alloc_call)) 10 100
      { size := 4096, num := 1, cached := 3, handle := 0 } true
      { status := 0, res_handle := 77, res_mem := 5000, trans_id := 1 }).2.2.handle = 0 := by
  obtain ⟨a1, a2, _⟩ := run_allocs demo_alloc_call 10 100
    { size := 4096, num := 1, cached := 3, handle := 0 }
    { status := 0, res_handle := 77, res_mem := 5000, trans_id := 1 } rfl rfl (by decide)
    1048575 demo_init rfl (by rw [show demo_init.guid = 0 from rfl]; norm_num)
  have hg : (run_calls demo_init (List.replicate 1048575 demo_alloc_call)).guid = 1048575 :=
    a2.trans (Nat.zero_add 1048575)
  obtain ⟨_, _, _, _, _, _, b7, b8⟩ := alloc_ok_fields
    (run_calls demo_init (List.replicate 1048575 demo_alloc_call)) 10 100
    { size := 4096, num := 1, cached := 3, handle := 0 }
    { status := 0, res_handle := 77, res_mem := 5000, trans_id := 1 } a1 rfl (by decide)
    (by rw [hg]; norm_num)
  exact ⟨b7, b8.trans ((congrArg (fun g => ((g + 1) <<< PAGE_SHIFT) % 4294967296) hg).trans
    guid_shift_wrap)⟩

/-- Claim C8 at its failing input: after 1048577 successful allocations in a row
the first resource and the last one are both on the global resource list and
both have GUID 4096. -/
theorem guid_issued_twice :
    (run_calls demo_init (List.replicate 1048577 demo_alloc_call)).status = Status.running ∧
    1 ∈ (run_calls demo_init (List.replicate 1048577 demo_alloc_call)).resource_list ∧
    1048577 ∈ (run_calls demo_init (List.replicate 1048577 demo_alloc_call)).resource_list ∧
    ((run_calls demo_init (List.replicate 1048577 demo_alloc_call)).resources 1).map
      (fun r => r.res_guid) = some 4096 ∧
    ((run_calls demo_init (List.replicate 1048577 demo_alloc_call)).resources 1048577).map
      (fun r => r.res_guid) = some 4096 := by
  have e : List.replicate 1048577 demo_alloc_call =
      demo_alloc_call :: (List.replicate 1048575 demo_alloc_call ++ [demo_alloc_call]) :=
    (List.replicate_succ demo_alloc_call 1048576).trans
      (congrArg _ (List.replicate_succ' 1048575 demo_alloc_call))
  have e1 : Call.run demo_init demo_alloc_call = demo_alloc.1 := rfl
  have g1 : demo_alloc.1.guid = 1 := by decide
  have g2 : demo_alloc.1.brk = 2 := by decide
  have g3 : (demo_alloc.1.resources 1).map (fun r => r.res_guid) = some 4096 := by decide
  obtain ⟨a1, a2, a3, a4, a5⟩ := run_allocs demo_alloc_call 10 100
    { size := 4096, num := 1, cached := 3, handle := 0 }
    { status := 0, res_handle := 77, res_mem := 5000, trans_id := 1 } rfl rfl (by decide)
    1048575 demo_alloc.1 (by decide) (by rw [g1]; norm_num)
  have hg : (run_calls demo_alloc.1 (List.replicate 1048575 demo_alloc_call)).guid = 1048576 :=
    a2.trans (by rw [g1])
  have hb : (run_calls demo_alloc.1 (List.replicate 1048575 demo_alloc_call)).brk = 1048577 :=
    a3.trans (by rw [g2])
  have h1 : (run_calls demo_alloc.1 (List.replicate 1048575 demo_alloc_call)).resources 1 =
      demo_alloc.1.resources 1 := a4 1 (by rw [g2]; decide)
  have hm : (1 : Ptr) ∈
      (run_calls demo_alloc.1 (List.replicate 1048575 demo_alloc_call)).resource_list :=
    a5 1 (by decide)
  obtain ⟨b1, _, _, b4, b5, b6, _⟩ := alloc_ok_fields
    (run_calls demo_alloc.1 (List.replicate 1048575 demo_alloc_call)) 10 100
    { size := 4096, num := 1, cached := 3, handle := 0 }
    { status := 0, res_handle := 77, res_mem := 5000, trans_id := 1 } a1 rfl (by decide)
    (by rw [hg]; norm_num)
  have e2 : run_calls demo_init (List.replicate 1048577 demo_alloc_call) =
      (vc_sm_ioctl_alloc (run_calls demo_alloc.1 (List.replicate 1048575 demo_alloc_call)) 10 100
        { size := 4096, num := 1, cached := 3, handle := 0 } true
        { status := 0, res_handle := 77, res_mem := 5000, trans_id := 1 }).1 := by
    rewrite [e, run_calls_cons, run_calls_append, e1, run_calls_cons, run_calls_nil]
    exact call_run_alloc _ 10 100 { size := 4096, num := 1, cached := 3, handle := 0 } true
      { status := 0, res_handle := 77, res_mem := 5000, trans_id := 1 }
  rw [e2]
  rw [hb] at b4 b5 b6
  rw [hg] at b6
  refine ⟨b1, ?_, ?_, ?_, ?_⟩
  · rw [b4]; exact List.mem_cons_of_mem _ hm
  · rw [b4]; exact List.mem_cons_self _ _
  · rw [b5 1 (by decide), h1]; exact g3
  · exact b6.trans (congrArg some guid_shift_again)

/-! ## What a successful allocation and a successful share register -/

/-- Claim C11, amended.  When the remote allocate call succeeds with a non-null address,
`vc_sm_ioctl_alloc` returns 0, puts one new record (the one `kzalloc` handed out,
`s.brk`) at the head of the list of the calling session and of the global list,
leaves the other session lists and the other records alone, and the new record
has `ref_count` 1, `lock_count` 0, `map_count` 0, no mapping, no alias link, the
handle and address of the reply, the requested cache policy, the calling
session and process, a size equal to the `uint32_t` product of the rounded
unit size and the unit count (the plain product when that is below `2 ^ 32`),
and its GUID is the handle returned. -/
theorem alloc_registers_resource (s : SM_STATE_T) (priv : Ptr) (cur : Nat)
    (io : vmcs_sm_ioctl_alloc) (reply : AllocReply) (hs : s.status = Status.running)
    (hok : reply.status = 0) (hmem : reply.res_mem ≠ 0) :
    (vc_sm_ioctl_alloc s priv cur io true reply).2.1 = 0 ∧
    ((vc_sm_ioctl_alloc s priv cur io true reply).1.sessions priv).resource_list =
      s.brk :: (s.sessions priv).resource_list ∧
    (vc_sm_ioctl_alloc s priv cur io true reply).1.resource_list = s.brk :: s.resource_list ∧
    (∀ g, g ≠ priv →
      ((vc_sm_ioctl_alloc s priv cur io true reply).1.sessions g).resource_list =
        (s.sessions g).resource_list) ∧
    (∀ q, q ≠ s.brk → (vc_sm_ioctl_alloc s priv cur io true reply).1.resources q =
      s.resources q) ∧
    ∃ r, (vc_sm_ioctl_alloc s priv cur io true reply).1.resources s.brk = some r ∧
      r.ref_count = 1 ∧ r.lock_count = 0 ∧ r.map_count = 0 ∧ r.map_list = [] ∧
      r.res_shared = none ∧ r.res_handle = reply.res_handle ∧
      r.res_base_mem = reply.res_mem ∧ r.res_cached = io.cached ∧
      r.priv = priv ∧ r.pid = cur ∧
      r.res_size = (align_unit io.size 4096 * io.num) % 4294967296 ∧
      (align_unit io.size 4096 * io.num < 4294967296 →
        r.res_size = align_unit io.size 4096 * io.num) ∧
      (vc_sm_ioctl_alloc s priv cur io true reply).2.2.handle = r.res_guid := by
  rw [alloc_ok s priv cur io reply hs hok hmem]
  refine ⟨rfl, ?_, rfl, fun g hg => ?_, fun q hq => ?_, ?_⟩
  · simp
  · simp [Function.update_noteq hg]
  · simp [Function.update_noteq hq]
  · exact ⟨_, Function.update_same _ _ _, rfl, rfl, rfl, rfl, rfl, rfl, rfl, rfl, rfl, rfl, rfl,
      fun h => Nat.mod_eq_of_lt h, rfl⟩

/-- Claim C11, amended, on the first allocation after start-up. -/
theorem alloc_registers_resource_witness :
    (vc_sm_ioctl_alloc demo_init 10 100 { size := 4000, num := 2, cached := 3, handle := 0 }
      true { status := 0, res_handle := 77, res_mem := 5000, trans_id := 1 }).2.1 = 0 ∧
    ((vc_sm_ioctl_alloc demo_init 10 100 { size := 4000, num := 2, cached := 3, handle := 0 }
      true { status := 0, res_handle := 77, res_mem := 5000, trans_id := 1 }).1.sessions
        10).resource_list = demo_init.brk :: (demo_init.sessions 10).resource_list ∧
    (vc_sm_ioctl_alloc demo_init 10 100 { size := 4000, num := 2, cached := 3, handle := 0 }
      true { status := 0, res_handle := 77, res_mem := 5000, trans_id := 1 }).1.resource_list =
        demo_init.brk :: demo_init.resource_list ∧
    (∀ g, g ≠ 10 →
      ((vc_sm_ioctl_alloc demo_init 10 100 { size := 4000, num := 2, cached := 3, handle := 0 }
        true { status := 0, res_handle := 77, res_mem := 5000, trans_id := 1 }).1.sessions
          g).resource_list = (demo_init.sessions g).resource_list) ∧
    (∀ q, q ≠ demo_init.brk →
      (vc_sm_ioctl_alloc demo_init 10 100 { size := 4000, num := 2, cached := 3, handle := 0 }
        true { status := 0, res_handle := 77, res_mem := 5000, trans_id := 1 }).1.resources q =
        demo_init.resources q) ∧
    ∃ r, (vc_sm_ioctl_alloc demo_init 10 100
        { size := 4000, num := 2, cached := 3, handle := 0 }
        true { status := 0, res_handle := 77, res_mem := 5000, trans_id := 1 }).1.resources
          demo_init.brk = some r ∧
      r.ref_count = 1 ∧ r.lock_count = 0 ∧ r.map_count = 0 ∧ r.map_list = [] ∧
      r.res_shared = none ∧ r.res_handle = 77 ∧ r.res_base_mem = 5000 ∧ r.res_cached = 3 ∧
      r.priv = 10 ∧ r.pid = 100 ∧
      r.res_size = (align_unit 4000 4096 * 2) % 4294967296 ∧
      (align_unit 4000 4096 * 2 < 4294967296 → r.res_size = align_unit 4000 4096 * 2) ∧
      (vc_sm_ioctl_alloc demo_init 10 100 { size := 4000, num := 2, cached := 3, handle := 0 }
        true { status := 0, res_handle := 77, res_mem := 5000, trans_id := 1 }).2.2.handle =
          r.res_guid :=
  alloc_registers_resource demo_init 10 100 { size := 4000, num := 2, cached := 3, handle := 0 }
    { status := 0, res_handle := 77, res_mem := 5000, trans_id := 1 } rfl rfl (by decide)

theorem next_guid_fresh (guid : Nat) (h : guid + 1 < 1048576) :
    (next_guid guid).2 = (guid + 1) * 4096 := by
  have hinc : u32_inc guid = guid + 1 := u32_inc_of_lt (by omega)
  simp only [next_guid, hinc, PAGE_SHIFT, Nat.shiftLeft_eq]
  norm_num
  omega

/-- Claim C12 as amended.  For a GUID `g` that the global list resolves to the live
resource `q`, and when the tracking record can be allocated,
`vc_sm_ioctl_alloc_share` returns 0, puts one new record (`s.brk`) at the head
of the caller's session list and of the global list, raises the `ref_count` of
`q` by one and changes no other record; the new record has the handle, base
address, size and cache policy of `q`, its alias link is `q`, its `ref_count` is
1, its GUID is the handle returned, and that GUID differs from the GUID of `q`
while fewer than `2 ^ 20 - 1` GUIDs have been issued.  For a GUID that the global
list does not resolve, the call returns `-ENOMEM` and the state is unchanged. -/
theorem share_creates_alias (s : SM_STATE_T) (priv : Ptr) (cur g sz : Nat)
    (hs : s.status = Status.running) :
    (∀ q rq, find_guid s.resources s.resource_list g = some q → s.resources q = some rq →
      s.resources s.brk = none → rq.ref_count < 4294967295 →
      (vc_sm_ioctl_alloc_share s priv cur ⟨g, sz⟩ true).2.1 = 0 ∧
      ((vc_sm_ioctl_alloc_share s priv cur ⟨g, sz⟩ true).1.sessions priv).resource_list =
        s.brk :: (s.sessions priv).resource_list ∧
      (vc_sm_ioctl_alloc_share s priv cur ⟨g, sz⟩ true).1.resource_list =
        s.brk :: s.resource_list ∧
      (vc_sm_ioctl_alloc_share s priv cur ⟨g, sz⟩ true).1.resources q =
        some { rq with ref_count := rq.ref_count + 1 } ∧
      (∀ x, x ≠ q → x ≠ s.brk →
        (vc_sm_ioctl_alloc_share s priv cur ⟨g, sz⟩ true).1.resources x = s.resources x) ∧
      ∃ r, (vc_sm_ioctl_alloc_share s priv cur ⟨g, sz⟩ true).1.resources s.brk = some r ∧
        r.res_handle = rq.res_handle ∧ r.res_base_mem = rq.res_base_mem ∧
        r.res_size = rq.res_size ∧ r.res_cached = rq.res_cached ∧
        r.res_shared = some q ∧ r.ref_count = 1 ∧ r.priv = priv ∧
        (vc_sm_ioctl_alloc_share s priv cur ⟨g, sz⟩ true).2.2.handle = r.res_guid ∧
        (s.guid + 1 < 1048576 → rq.res_guid ≤ s.guid * 4096 → r.res_guid ≠ rq.res_guid)) ∧
    (find_guid s.resources s.resource_list g = none →
      ∀ kz, vc_sm_ioctl_alloc_share s priv cur ⟨g, sz⟩ kz = (s, -ENOMEM, ⟨g, sz⟩)) := by
  constructor
  · intro q rq hf hr hfree hlt
    have hq : q ≠ s.brk := fun e => by rw [e, hfree] at hr; cases hr
    rw [share_ok s priv cur g sz q rq hs hf hr, u32_inc_of_lt hlt]
    refine ⟨rfl, ?_, rfl, ?_, fun x hx hxb => ?_, ?_⟩
    · simp
    · simp [Function.update_noteq hq]
    · simp [Function.update_noteq hxb, Function.update_noteq hx]
    · refine ⟨_, Function.update_same _ _ _, rfl, rfl, rfl, rfl, rfl, rfl, rfl, rfl,
        fun hc hg => ?_⟩
      show (next_guid s.guid).2 ≠ rq.res_guid
      rw [next_guid_fresh s.guid hc]
      omega
  · intro hf kz
    simp [vc_sm_ioctl_alloc_share, vmcs_sm_acquire_global_resource, hs, hf]

/-- Claim C12 as amended, on the page of `demo_alloc` shared by session 20, and on
a GUID nobody owns. -/
theorem share_creates_alias_witness :
    ((vc_sm_ioctl_alloc_share demo_alloc.1 20 200 ⟨4096, 0⟩ true).2.1 = 0 ∧
      ((vc_sm_ioctl_alloc_share demo_alloc.1 20 200 ⟨4096, 0⟩ true).1.sessions
        20).resource_list = demo_alloc.1.brk :: (demo_alloc.1.sessions 20).resource_list ∧
      (vc_sm_ioctl_alloc_share demo_alloc.1 20 200 ⟨4096, 0⟩ true).1.resource_list =
        demo_alloc.1.brk :: demo_alloc.1.resource_list ∧
      (vc_sm_ioctl_alloc_share demo_alloc.1 20 200 ⟨4096, 0⟩ true).1.resources 1 =
        some { demo_record with ref_count := demo_record.ref_count + 1 } ∧
      (∀ x, x ≠ 1 → x ≠ demo_alloc.1.brk →
        (vc_sm_ioctl_alloc_share demo_alloc.1 20 200 ⟨4096, 0⟩ true).1.resources x =
          demo_alloc.1.resources x) ∧
      ∃ r, (vc_sm_ioctl_alloc_share demo_alloc.1 20 200 ⟨4096, 0⟩ true).1.resources
          demo_alloc.1.brk = some r ∧
        r.res_handle = demo_record.res_handle ∧ r.res_base_mem = demo_record.res_base_mem ∧
        r.res_size = demo_record.res_size ∧ r.res_cached = demo_record.res_cached ∧
        r.res_shared = some 1 ∧ r.ref_count = 1 ∧ r.priv = 20 ∧
        (vc_sm_ioctl_alloc_share demo_alloc.1 20 200 ⟨4096, 0⟩ true).2.2.handle = r.res_guid ∧
        (demo_alloc.1.guid + 1 < 1048576 → demo_record.res_guid ≤ demo_alloc.1.guid * 4096 →
          r.res_guid ≠ demo_record.res_guid)) ∧
    (∀ kz, vc_sm_ioctl_alloc_share demo_alloc.1 20 200 ⟨8192, 0⟩ kz =
      (demo_alloc.1, -ENOMEM, ⟨8192, 0⟩)) :=
  ⟨(share_creates_alias demo_alloc.1 20 200 4096 0 (by decide)).1 1 demo_record (by decide)
      (by decide) (by decide) (by decide),
    (share_creates_alias demo_alloc.1 20 200 8192 0 (by decide)).2 (by decide)⟩

/-- Claim C12 as stated fails when the tracking record cannot be allocated: the GUID
4096 is in the global list, yet the call returns `-ENOMEM`, creates no resource
and leaves the `ref_count` of the resource found at 1. -/
theorem share_without_memory :
    find_guid demo_alloc.1.resources demo_alloc.1.resource_list 4096 = some 1 ∧
    (vc_sm_ioctl_alloc_share demo_alloc.1 20 200 ⟨4096, 0⟩ false).2.1 = -ENOMEM ∧
    (vc_sm_ioctl_alloc_share demo_alloc.1 20 200 ⟨4096, 0⟩ false).1.resource_list = [1] ∧
    ((vc_sm_ioctl_alloc_share demo_alloc.1 20 200 ⟨4096, 0⟩ false).1.sessions
      20).resource_list = [] ∧
    ((vc_sm_ioctl_alloc_share demo_alloc.1 20 200 ⟨4096, 0⟩ false).1.resources 1).map
      (fun r => r.ref_count) = some 1 := by
  decide

/-! ## Taking a reference for the time of a call -/

theorem acquire_hit (s : SM_STATE_T) (priv : Ptr) (g : Nat) (p : Ptr) (r : SM_RESOURCE_T)
    (hs : s.status = Status.running)
    (hf : find_guid s.resources (s.sessions priv).resource_list g = some p)
    (hr : s.resources p = some r) :
    vmcs_sm_acquire_resource s priv g =
      (s.set_res p { r with ref_count := u32_inc r.ref_count }, some p) := by
  simp [vmcs_sm_acquire_resource, hs, hf, take_ref, hr]

theorem u32_dec_inc {n : Nat} (h1 : 1 ≤ n) (hlt : n < 4294967295) :
    u32_inc n = n + 1 ∧ u32_dec (n + 1) = n ∧ u32_dec (n + 1) ≠ 0 := by
  unfold u32_inc u32_dec
  omega

theorem release_keep (s : SM_STATE_T) (cur : Nat) (p : Ptr) (r : SM_RESOURCE_T) (n : Nat)
    (hs : s.status = Status.running) (hr : s.resources p = some r)
    (hn : r.ref_count = n + 1) (h1 : 1 ≤ n) (hlt : n < 4294967295) :
    vmcs_sm_release_resource s cur p false = s.set_res p { r with ref_count := n } := by
  obtain ⟨_, h2, h3⟩ := u32_dec_inc h1 hlt
  unfold vmcs_sm_release_resource
  rw [release_aux_keep p s cur p false r hs hr (by rw [hn]; exact h3), hn, h2]

theorem mmap_error_back (s : SM_STATE_T) (cur : Nat) (p : Ptr) (r : SM_RESOURCE_T) (ret : Int)
    (hs : s.status = Status.running)
    (h1 : 1 ≤ r.ref_count) (hlt : r.ref_count < 4294967295) :
    mmap_error (s.set_res p { r with ref_count := u32_inc r.ref_count }) cur p ret =
      (s.set_res p { r with res_stats := stat_inc r.res_stats MAP_FAIL }, ret) := by
  obtain ⟨h0, _, _⟩ := u32_dec_inc h1 hlt
  unfold mmap_error
  rw [release_keep (s.set_res p { r with ref_count := u32_inc r.ref_count }) cur p
    { r with ref_count := u32_inc r.ref_count } r.ref_count hs (by simp) h0 h1 hlt]
  simp [hs]

/-- Claim C13.  `vc_sm_mmap` on a resource `p` that the offset of the request names in
the caller's session: when the owner of `p` is a process other than the caller
the call returns `-EPERM`; otherwise, when the length of the region differs
from `res_size`, it returns `-EINVAL`.  In both cases the state afterwards is
the state before with `MAP_FAIL` counted on `p`: no mapping is added to any
list, `map_count` and `ref_count` are what they were. -/
theorem mmap_rejects (s : SM_STATE_T) (file_data : Ptr) (cur vm_start vm_end vm_pgoff : Nat)
    (kz : Bool) (p : Ptr) (r : SM_RESOURCE_T) (hs : s.status = Status.running)
    (hf : find_guid s.resources (s.sessions file_data).resource_list
      (((vm_pgoff % 4294967296) <<< PAGE_SHIFT) % 4294967296) = some p)
    (hr : s.resources p = some r) (h1 : 1 ≤ r.ref_count) (hlt : r.ref_count < 4294967295) :
    (r.pid ≠ 0 ∧ r.pid ≠ cur →
      vc_sm_mmap s file_data cur vm_start vm_end vm_pgoff kz =
        (s.set_res p { r with res_stats := stat_inc r.res_stats MAP_FAIL }, -EPERM)) ∧
    (¬ (r.pid ≠ 0 ∧ r.pid ≠ cur) → r.res_size ≠ (vm_end - vm_start) % 4294967296 →
      vc_sm_mmap s file_data cur vm_start vm_end vm_pgoff kz =
        (s.set_res p { r with res_stats := stat_inc r.res_stats MAP_FAIL }, -EINVAL)) := by
  have hb := fun ret => mmap_error_back s cur p r ret hs h1 hlt
  constructor
  · intro hp
    unfold vc_sm_mmap
    rw [if_neg (not_not.mpr hs), acquire_hit s file_data _ p r hs hf hr]
    simp only [SM_STATE_T.set_res, Function.update_same, hp, not_false_eq_true, and_self,
      if_true, ne_eq]
    exact hb _
  · intro hp hsz
    unfold vc_sm_mmap
    rw [if_neg (not_not.mpr hs), acquire_hit s file_data _ p r hs hf hr]
    simp only [SM_STATE_T.set_res, Function.update_same, hp, if_false, ne_eq, hsz,
      not_false_eq_true, if_true]
    exact hb _

/-- Claim C13 on the page of `demo_alloc` (owner 100, one page): process 200 is
refused, and process 100 is refused a region of two pages. -/
theorem mmap_rejects_witness :
    vc_sm_mmap demo_alloc.1 10 200 65536 69632 1 true =
      (demo_alloc.1.set_res 1
        { demo_record with res_stats := stat_inc demo_record.res_stats MAP_FAIL }, -EPERM) ∧
    vc_sm_mmap demo_alloc.1 10 100 65536 73728 1 true =
      (demo_alloc.1.set_res 1
        { demo_record with res_stats := stat_inc demo_record.res_stats MAP_FAIL }, -EINVAL) :=
  ⟨(mmap_rejects demo_alloc.1 10 200 65536 69632 1 true 1 demo_record (by decide) (by decide)
      (by decide) (by decide) (by decide)).1 (by decide),
    (mmap_rejects demo_alloc.1 10 100 65536 73728 1 true 1 demo_record (by decide) (by decide)
      (by decide) (by decide) (by decide)).2 (by decide) (by decide)⟩

/-! ## A successful mapping request -/

theorem mmap_ok (s : SM_STATE_T) (file_data : Ptr) (cur vm_start vm_end vm_pgoff : Nat)
    (p : Ptr) (r : SM_RESOURCE_T) (hs : s.status = Status.running)
    (hf : find_guid s.resources (s.sessions file_data).resource_list
      (((vm_pgoff % 4294967296) <<< PAGE_SHIFT) % 4294967296) = some p)
    (hr : s.resources p = some r) (h1 : 1 ≤ r.ref_count) (hlt : r.ref_count < 4294967295)
    (hpid : ¬ (r.pid ≠ 0 ∧ r.pid ≠ cur))
    (hsz : r.res_size = (vm_end - vm_start) % 4294967296) :
    vc_sm_mmap s file_data cur vm_start vm_end vm_pgoff true =
      ({ s with
          brk := s.brk + 2
          maps := Function.update s.maps (s.brk + 1)
            (some { resource := p, res_pid := cur, res_vc_hdl := r.res_handle,
                    res_usr_hdl := r.res_guid, res_addr := vm_start, vma := some s.brk,
                    ref_count := 1 })
          vmas := (s.brk, { vm_mm := cur, vm_start := vm_start, vm_end := vm_end,
                            vm_private_data := s.brk + 1 }) :: s.vmas
          map_list := (s.brk + 1) :: s.map_list
          resources := Function.update s.resources p
            (some { r with
                    map_list := (s.brk + 1) :: r.map_list
                    map_count := u8_inc r.map_count
                    res_stats := stat_inc r.res_stats MAP }) }, 0) := by
  obtain ⟨h0, h2, h3⟩ := u32_dec_inc h1 hlt
  unfold vc_sm_mmap
  rw [if_neg (not_not.mpr hs), acquire_hit s file_data _ p r hs hf hr]
  simp only [SM_STATE_T.set_res, Function.update_same, hpid, if_false, ne_eq, hsz,
    not_true_eq_false, Bool.true_eq_false, vmcs_sm_add_map, hs, vcsm_vma_open,
    Function.update_idem]
  rw [release_keep _ cur p _ r.ref_count]
  pick_goal 3
  · exact Function.update_same _ _ _
  · simp [Function.update_idem, u32_inc]
  · rfl
  · exact h0
  · exact h1
  · exact hlt

theorem demo_mmaps_spec : ∀ n, n ≤ 255 →
    (demo_mmaps n).status = Status.running ∧
    ((demo_mmaps n).sessions 10).resource_list = [1] ∧
    ∃ r, (demo_mmaps n).resources 1 = some r ∧ r.res_guid = 4096 ∧ r.pid = 100 ∧
      r.res_size = 4096 ∧ r.ref_count = 1 ∧ r.map_count = n ∧ r.map_list.length = n := by
  intro n
  induction n with
  | zero => intro _; exact ⟨by decide, by decide, demo_record, by decide, rfl, rfl, rfl, rfl, rfl, rfl⟩
  | succ n ih =>
    intro hn
    obtain ⟨hs, hl, r, hr, hg, hp, hz, hc, hm, hlen⟩ := ih (by omega)
    have e : (((1 % 4294967296) <<< PAGE_SHIFT) % 4294967296) = 4096 := by decide
    have hf : find_guid (demo_mmaps n).resources ((demo_mmaps n).sessions 10).resource_list
        (((1 % 4294967296) <<< PAGE_SHIFT) % 4294967296) = some 1 := by
      rw [e, hl]; exact find_guid_cons_hit hr hg
    have hok := mmap_ok (demo_mmaps n) 10 100 (65536 + 4096 * n) (65536 + 4096 * n + 4096) 1 1 r
      hs hf hr (by omega) (by omega) (by simp [hp]) (by rw [hz]; omega)
    have hd : demo_mmaps (n + 1) =
        (vc_sm_mmap (demo_mmaps n) 10 100 (65536 + 4096 * n) (65536 + 4096 * n + 4096) 1
          true).1 := rfl
    rw [hd, hok]
    dsimp only
    refine ⟨hs, hl, _, Function.update_same _ _ _, hg, hp, hz, hc, ?_, ?_⟩
    · show u8_inc r.map_count = n + 1
      rw [hm]; unfold u8_inc; omega
    · show (_ :: r.map_list).length = n + 1
      rw [List.length_cons, hlen]

/-- Claim C14 at its failing input: process 100 maps the page of `demo_alloc` 256
times.  Before the last request `map_count` is 255 and the page has 255
mappings; the last request succeeds and registers one more mapping, and
`map_count` is 0 afterwards. -/
theorem mmap_wraps_map_count :
    ((demo_mmaps 255).resources 1).map (fun r => (r.map_count, r.map_list.length)) =
      some (255, 255) ∧
    (vc_sm_mmap (demo_mmaps 255) 10 100 (65536 + 4096 * 255) (65536 + 4096 * 255 + 4096) 1
      true).2 = 0 ∧
    ((vc_sm_mmap (demo_mmaps 255) 10 100 (65536 + 4096 * 255) (65536 + 4096 * 255 + 4096) 1
      true).1.resources 1).map (fun r => (r.map_count, r.map_list.length)) = some (0, 256) := by
  obtain ⟨hs, hl, r, hr, hg, hp, hz, hc, hm, hlen⟩ := demo_mmaps_spec 255 (Nat.le_refl _)
  have e : (((1 % 4294967296) <<< PAGE_SHIFT) % 4294967296) = 4096 := by decide
  have hf : find_guid (demo_mmaps 255).resources ((demo_mmaps 255).sessions 10).resource_list
      (((1 % 4294967296) <<< PAGE_SHIFT) % 4294967296) = some 1 := by
    rw [e, hl]; exact find_guid_cons_hit hr hg
  have hok := mmap_ok (demo_mmaps 255) 10 100 (65536 + 4096 * 255) (65536 + 4096 * 255 + 4096)
    1 1 r hs hf hr (by omega) (by omega) (by simp [hp]) (by rw [hz])
  rw [hok, hr]
  refine ⟨by simp [hm, hlen], rfl, ?_⟩
  simp [hm, hlen, u8_inc]

/-! ## Resizing -/

theorem release_back (s : SM_STATE_T) (cur : Nat) (p : Ptr) (r : SM_RESOURCE_T)
    (hs : s.status = Status.running) (hr : s.resources p = some r)
    (h1 : 1 ≤ r.ref_count) (hlt : r.ref_count < 4294967295) :
    vmcs_sm_release_resource (s.set_res p { r with ref_count := u32_inc r.ref_count }) cur p
      false = s := by
  obtain ⟨h0, _, _⟩ := u32_dec_inc h1 hlt
  rw [release_keep (s.set_res p { r with ref_count := u32_inc r.ref_count }) cur p
    { r with ref_count := u32_inc r.ref_count } r.ref_count hs (by simp) h0 h1 hlt]
  simp only [SM_STATE_T.set_res, Function.update_idem]
  exact set_res_self s p r hr

theorem resize_cases (s : SM_STATE_T) (priv : Ptr) (cur : Nat) (io : vmcs_sm_ioctl_resize)
    (reply : ResizeReply) (p : Ptr) (r : SM_RESOURCE_T) (hs : s.status = Status.running)
    (hf : find_guid s.resources (s.sessions priv).resource_list io.handle = some p)
    (hr : s.resources p = some r) (h1 : 1 ≤ r.ref_count) (hlt : r.ref_count < 4294967295) :
    (r.lock_count ≠ 0 → vc_sm_ioctl_resize s priv cur io reply = (s, -EFAULT, io)) ∧
    (r.lock_count = 0 → (r.pid ≠ 0 ∧ r.pid ≠ cur) →
      vc_sm_ioctl_resize s priv cur io reply = (s, -EPERM, io)) ∧
    (r.lock_count = 0 → ¬ (r.pid ≠ 0 ∧ r.pid ≠ cur) → r.map_count ≠ 0 →
      vc_sm_ioctl_resize s priv cur io reply = (s, -EFAULT, io)) ∧
    (r.lock_count = 0 → ¬ (r.pid ≠ 0 ∧ r.pid ≠ cur) → r.map_count = 0 →
      (reply.status = -EINTR →
        vc_sm_ioctl_resize s priv cur io reply =
          ({ resize_sent s priv r io.new_size reply.trans_id with
              sessions := Function.update s.sessions priv
                { s.sessions priv with
                  int_trans_id := reply.trans_id, restart_sys := -EINTR,
                  int_action := VC_SM_MSG_TYPE.VC_SM_MSG_TYPE_RESIZE } },
            -ERESTARTSYS, io)) ∧
      (reply.status ≠ -EINTR → reply.status ≠ 0 →
        vc_sm_ioctl_resize s priv cur io reply =
          (resize_sent s priv r io.new_size reply.trans_id, -EPERM, io)) ∧
      (reply.status = 0 →
        vc_sm_ioctl_resize s priv cur io reply =
          ((resize_sent s priv r io.new_size reply.trans_id).set_res p
              { r with res_size := io.new_size },
            0, { io with old_size := r.res_size }))) := by
  have hb := release_back s cur p r hs hr h1 hlt
  have hu : vc_sm_ioctl_resize s priv cur io reply =
      (let s1 := s.set_res p { r with ref_count := u32_inc r.ref_count }
       let r1 : SM_RESOURCE_T := { r with ref_count := u32_inc r.ref_count }
       if r1.lock_count ≠ 0 then
        (vmcs_sm_release_resource s1 cur p false, -EFAULT, io)
      else if r1.pid ≠ 0 ∧ r1.pid ≠ cur then
        (vmcs_sm_release_resource s1 cur p false, -EPERM, io)
      else if r1.map_count ≠ 0 then
        (vmcs_sm_release_resource s1 cur p false, -EFAULT, io)
      else
        let f := s1.sessions priv
        let s2 := { s1 with
          trace := s1.trace ++
            [Event.vc_vchi_sm_resize r1.res_handle r1.res_base_mem io.new_size]
          sessions := Function.update s1.sessions priv { f with int_trans_id := reply.trans_id } }
        if reply.status = -EINTR then
          let f1 := s2.sessions priv
          let s3 := { s2 with
            sessions := Function.update s2.sessions priv
              { f1 with restart_sys := -EINTR,
                        int_action := VC_SM_MSG_TYPE.VC_SM_MSG_TYPE_RESIZE } }
          (vmcs_sm_release_resource s3 cur p false, -ERESTARTSYS, io)
        else if reply.status ≠ 0 then
          (vmcs_sm_release_resource s2 cur p false, -EPERM, io)
        else
          let s3 := s2.set_res p { r1 with res_size := io.new_size }
          (vmcs_sm_release_resource s3 cur p false, 0,
            { io with old_size := r1.res_size })) := by
    unfold vc_sm_ioctl_resize
    rw [if_neg (not_not.mpr hs), acquire_hit s priv _ p r hs hf hr]
    simp only [SM_STATE_T.set_res, Function.update_same]
  obtain ⟨h0, _, _⟩ := u32_dec_inc h1 hlt
  have hself : Function.update s.resources p (some r) = s.resources := by
    rw [← hr, Function.update_eq_self]
  refine ⟨?_, ?_, ?_, ?_⟩
  · intro hl
    rw [hu]; dsimp only
    rw [if_pos hl, hb]
  · intro hl hp
    rw [hu]; dsimp only
    rw [if_neg (not_not.mpr hl), if_pos hp, hb]
  · intro hl hp hm
    rw [hu]; dsimp only
    rw [if_neg (not_not.mpr hl), if_neg hp, if_pos hm, hb]
  · intro hl hp hm
    refine ⟨?_, ?_, ?_⟩
    · intro he
      rw [hu]; dsimp only
      rw [if_neg (not_not.mpr hl), if_neg hp, if_neg (not_not.mpr hm), if_pos he]
      rw [release_keep _ cur p _ r.ref_count]
      pick_goal 3
      · exact Function.update_same _ _ _
      · simp only [SM_STATE_T.set_res, Function.update_idem, resize_sent,
          Function.update_same]
        rw [hself]
      · exact hs
      · exact h0
      · exact h1
      · exact hlt
    · intro he hne
      rw [hu]; dsimp only
      rw [if_neg (not_not.mpr hl), if_neg hp, if_neg (not_not.mpr hm), if_neg he, if_pos hne]
      rw [release_keep _ cur p _ r.ref_count]
      pick_goal 3
      · exact Function.update_same _ _ _
      · simp only [SM_STATE_T.set_res, Function.update_idem, resize_sent,
          Function.update_same]
        rw [hself]
      · exact hs
      · exact h0
      · exact h1
      · exact hlt
    · intro he
      have he1 : reply.status ≠ -EINTR := by rw [he]; decide
      rw [hu]; dsimp only
      rw [if_neg (not_not.mpr hl), if_neg hp, if_neg (not_not.mpr hm), if_neg he1,
        if_neg (not_not.mpr he)]
      rw [release_keep _ cur p _ r.ref_count]
      pick_goal 3
      · exact Function.update_same _ _ _
      · simp only [SM_STATE_T.set_res, Function.update_idem, resize_sent,
          Function.update_same]
      · exact hs
      · exact h0
      · exact h1
      · exact hlt

/-- Claim C15, amended.  `vc_sm_ioctl_resize` on a resource `p` of the caller's
session: when `lock_count > 0` the call returns `-EFAULT`; when the resource is
unlocked and `map_count > 0` it returns `-EFAULT`, or `-EPERM` if another
process owns the resource; in all these cases the state, and with it
`res_size`, is what it was.  When the resource is neither locked nor mapped,
is ownerless or owned by the caller, and the remote side reports success, the
call returns 0, sets `res_size` to the requested size and reports the former
`res_size` in `old_size`. -/
theorem resize_contract (s : SM_STATE_T) (priv : Ptr) (cur : Nat) (io : vmcs_sm_ioctl_resize)
    (reply : ResizeReply) (p : Ptr) (r : SM_RESOURCE_T) (hs : s.status = Status.running)
    (hf : find_guid s.resources (s.sessions priv).resource_list io.handle = some p)
    (hr : s.resources p = some r) (h1 : 1 ≤ r.ref_count) (hlt : r.ref_count < 4294967295) :
    (0 < r.lock_count → vc_sm_ioctl_resize s priv cur io reply = (s, -EFAULT, io)) ∧
    (r.lock_count = 0 → 0 < r.map_count → (r.pid = 0 ∨ r.pid = cur) →
      vc_sm_ioctl_resize s priv cur io reply = (s, -EFAULT, io)) ∧
    (r.lock_count = 0 → 0 < r.map_count → (r.pid ≠ 0 ∧ r.pid ≠ cur) →
      vc_sm_ioctl_resize s priv cur io reply = (s, -EPERM, io)) ∧
    (r.lock_count = 0 → r.map_count = 0 → (r.pid = 0 ∨ r.pid = cur) → reply.status = 0 →
      vc_sm_ioctl_resize s priv cur io reply =
        ((resize_sent s priv r io.new_size reply.trans_id).set_res p
            { r with res_size := io.new_size },
          0, { io with old_size := r.res_size })) := by
  obtain ⟨c1, c2, c3, c4⟩ := resize_cases s priv cur io reply p r hs hf hr h1 hlt
  have hown : (r.pid = 0 ∨ r.pid = cur) → ¬ (r.pid ≠ 0 ∧ r.pid ≠ cur) := by
    intro h hn
    rcases h with h | h
    · exact hn.1 h
    · exact hn.2 h
  exact ⟨fun h => c1 (Nat.pos_iff_ne_zero.mp h),
    fun hl hm hp => c3 hl (hown hp) (Nat.pos_iff_ne_zero.mp hm),
    fun hl _ hp => c2 hl hp,
    fun hl hm hp he => (c4 hl (hown hp) hm).2.2 he⟩

/-- Claim C15, amended, on the page of `demo_alloc`: its owner resizes it from 4096
to 8192 bytes. -/
theorem resize_contract_witness :
    vc_sm_ioctl_resize demo_alloc.1 10 100 { handle := 4096, new_size := 8192, old_size := 0 }
        { status := 0, trans_id := 5 } =
      ((resize_sent demo_alloc.1 10 demo_record 8192 5).set_res 1
          { demo_record with res_size := 8192 },
        0, { handle := 4096, new_size := 8192, old_size := 4096 }) :=
  (resize_contract demo_alloc.1 10 100 { handle := 4096, new_size := 8192, old_size := 0 }
    { status := 0, trans_id := 5 } 1 demo_record (by decide) (by decide) (by decide)
    (by decide) (by decide)).2.2.2 rfl rfl (Or.inr rfl) rfl

/-- Claim C15 as stated fails in three ways.  The owner of the page of `demo_mapped`
(one mapping, in the caller's session) asks to resize it: the status is
`-EFAULT`, not `-EINVAL`.  The owner of the page of `demo_alloc` (not locked,
not mapped) asks to resize it and the remote side answers with status 1: the
call returns `-EPERM` and the size stays 4096.  Process 200 asks to resize that
page through session 10 and the remote side would confirm: the call returns
`-EPERM` and the size stays 4096. -/
theorem resize_refused_status :
    find_guid demo_mapped.resources (demo_mapped.sessions 10).resource_list 4096 = some 1 ∧
    (demo_mapped.resources 1).map (fun r => (r.lock_count, r.map_count)) = some (0, 1) ∧
    (vc_sm_ioctl_resize demo_mapped 10 100 { handle := 4096, new_size := 8192, old_size := 0 }
      { status := 0, trans_id := 5 }).2.1 = -EFAULT ∧
    -EFAULT ≠ -EINVAL ∧
    (demo_alloc.1.resources 1).map (fun r => (r.lock_count, r.map_count)) = some (0, 0) ∧
    (vc_sm_ioctl_resize demo_alloc.1 10 100 { handle := 4096, new_size := 8192, old_size := 0 }
      { status := 1, trans_id := 5 }).2.1 = -EPERM ∧
    ((vc_sm_ioctl_resize demo_alloc.1 10 100
      { handle := 4096, new_size := 8192, old_size := 0 }
      { status := 1, trans_id := 5 }).1.resources 1).map (fun r => r.res_size) = some 4096 ∧
    (vc_sm_ioctl_resize demo_alloc.1 10 200 { handle := 4096, new_size := 8192, old_size := 0 }
      { status := 0, trans_id := 5 }).2.1 = -EPERM ∧
    ((vc_sm_ioctl_resize demo_alloc.1 10 200
      { handle := 4096, new_size := 8192, old_size := 0 }
      { status := 0, trans_id := 5 }).1.resources 1).map (fun r => r.res_size) = some 4096 := by
  decide

/-! ## Page faults -/

theorem fault_frame_plain (s : SM_STATE_T) (base off : Nat) (hb : base < 4294967296)
    (ho : (base &&& 1073741823) + s.mm_vc_mem_phys_addr + off < 4294967296) :
    ((phys_of s base + off % 4294967296) % 4294967296) >>> PAGE_SHIFT =
      ((base &&& 1073741823) + s.mm_vc_mem_phys_addr + off) >>> PAGE_SHIFT := by
  unfold phys_of
  rw [Nat.mod_eq_of_lt hb, Nat.mod_eq_of_lt (by omega : off < 4294967296),
    Nat.mod_eq_of_lt (by omega : (base &&& 1073741823) + s.mm_vc_mem_phys_addr < 4294967296),
    Nat.mod_eq_of_lt ho]

theorem fault_cases (s : SM_STATE_T) (vma : vm_area_struct) (va : Nat) (reply : LockReply)
    (insert_ret : Int) (m : sm_mmap) (r : SM_RESOURCE_T) (hs : s.status = Status.running)
    (hm : s.maps vma.vm_private_data = some m) (hr : s.resources m.resource = some r) :
    (r.lock_count = 0 → (reply.status ≠ 0 ∨ reply.res_mem = 0) →
      vcsm_vma_fault s vma va reply insert_ret =
        ({ s with
            trace := s.trace ++ [Event.vc_vchi_sm_lock r.res_handle r.res_base_mem]
            resources := Function.update s.resources m.resource
              (some { r with res_stats := stat_inc r.res_stats LOCK_FAIL }) },
          VmFault.VM_FAULT_SIGBUS)) ∧
    (r.lock_count ≠ 0 →
      (vcsm_vma_fault s vma va reply insert_ret).1 =
        { s with
          trace := s.trace ++
            [Event.vm_insert_pfn vma.vm_mm va
              (((phys_of s r.res_base_mem + (va - vma.vm_start) % 4294967296) % 4294967296)
                >>> PAGE_SHIFT)]
          ptes := fun mm a =>
            if insert_ret = 0 ∧ mm = vma.vm_mm ∧ a = va then true else s.ptes mm a }) ∧
    (r.lock_count = 0 → reply.status = 0 → reply.res_mem ≠ 0 →
      (vcsm_vma_fault s vma va reply insert_ret).1 =
        { s with
          trace := s.trace ++ [Event.vc_vchi_sm_lock r.res_handle r.res_base_mem] ++
            [Event.outer_inv_range (pfn_to_phys (vcaddr_to_pfn s r.res_base_mem))
              (ulong_add (pfn_to_phys (vcaddr_to_pfn s r.res_base_mem)) r.res_size)] ++
            [Event.vm_insert_pfn vma.vm_mm va
              (((phys_of s (if reply.res_old_mem ≠ 0 ∧ reply.res_mem ≠ reply.res_old_mem
                  then reply.res_mem else r.res_base_mem) +
                (va - vma.vm_start) % 4294967296) % 4294967296) >>> PAGE_SHIFT)]
          ptes := fun mm a =>
            if insert_ret = 0 ∧ mm = vma.vm_mm ∧ a = va then true else s.ptes mm a
          resources := Function.update s.resources m.resource
            (some { r with
              res_stats := stat_inc r.res_stats LOCK
              lock_count := 1
              res_base_mem := if reply.res_old_mem ≠ 0 ∧ reply.res_mem ≠ reply.res_old_mem
                then reply.res_mem else r.res_base_mem }) }) := by
  refine ⟨?_, ?_, ?_⟩
  · intro hl hf
    unfold vcsm_vma_fault fault_lock
    simp [hs, hm, hr, hl, hf, SM_STATE_T.set_res]
  · intro hl
    unfold vcsm_vma_fault fault_lock
    simp only [hs, hm, hr, hl, ne_eq, not_true_eq_false, if_false, not_false_eq_true, if_true,
      Bool.true_eq_false]
    split_ifs <;> rfl
  · intro hl h0 hmem
    unfold vcsm_vma_fault fault_lock
    by_cases hrel : reply.res_old_mem ≠ 0 ∧ reply.res_mem ≠ reply.res_old_mem
    · simp only [hs, hm, hr, hl, h0, hmem, hrel, ne_eq, not_true_eq_false, if_false,
        not_false_eq_true, if_true, Bool.true_eq_false, SM_STATE_T.set_res,
        Function.update_same, or_self, and_self, u32_inc, phys_of]
      split_ifs <;> simp [phys_of]
    · simp only [hs, hm, hr, hl, h0, hmem, hrel, ne_eq, not_true_eq_false, if_false,
        not_false_eq_true, if_true, Bool.true_eq_false, SM_STATE_T.set_res,
        Function.update_same, or_self, and_self, u32_inc, phys_of, and_false, true_and]
      split_ifs <;> simp [phys_of]

/-- Claim C16.  `vcsm_vma_fault` on an area whose mapping `m` and resource `r` are
live.  With `lock_count = 0` exactly one remote call, a lock of `r`, is issued;
if it fails or returns a null address the result is `VM_FAULT_SIGBUS`, no
`vm_insert_pfn` is called, the page table is untouched and `lock_count` stays
0.  With `lock_count > 0` no remote call is issued and the record of the
resource is unchanged.  When the lock is held or obtained, `lock_count` is at
least 1 afterwards, the base address is the one the lock reported if it
reported a relocation, and `vm_insert_pfn` is called exactly once, at the
faulting address, for the frame
`((base & 0x3FFFFFFF) + phys_base + (address - vm_start)) >> PAGE_SHIFT` of that
base address (computed on 32 bits; it is the plain value when nothing
overflows); when `vm_insert_pfn` returns 0 the entry at the faulting address
is the only change of the page table. -/
theorem fault_contract (s : SM_STATE_T) (vma : vm_area_struct) (va : Nat) (reply : LockReply)
    (insert_ret : Int) (m : sm_mmap) (r : SM_RESOURCE_T) (hs : s.status = Status.running)
    (hm : s.maps vma.vm_private_data = some m) (hr : s.resources m.resource = some r) :
    (r.lock_count = 0 →
      remote_calls (vcsm_vma_fault s vma va reply insert_ret).1.trace =
        remote_calls s.trace ++ [Event.vc_vchi_sm_lock r.res_handle r.res_base_mem]) ∧
    (r.lock_count = 0 → (reply.status ≠ 0 ∨ reply.res_mem = 0) →
      (vcsm_vma_fault s vma va reply insert_ret).2 = VmFault.VM_FAULT_SIGBUS ∧
      (vcsm_vma_fault s vma va reply insert_ret).1.ptes = s.ptes ∧
      pfn_inserts (vcsm_vma_fault s vma va reply insert_ret).1.trace = pfn_inserts s.trace ∧
      ((vcsm_vma_fault s vma va reply insert_ret).1.resources m.resource).map
        (fun x => x.lock_count) = some 0) ∧
    (0 < r.lock_count →
      remote_calls (vcsm_vma_fault s vma va reply insert_ret).1.trace = remote_calls s.trace ∧
      (vcsm_vma_fault s vma va reply insert_ret).1.resources m.resource = some r) ∧
    ((0 < r.lock_count ∨ (reply.status = 0 ∧ reply.res_mem ≠ 0)) →
      ∃ r1, (vcsm_vma_fault s vma va reply insert_ret).1.resources m.resource = some r1 ∧
        1 ≤ r1.lock_count ∧
        r1.res_base_mem =
          (if r.lock_count = 0 ∧ reply.res_old_mem ≠ 0 ∧ reply.res_mem ≠ reply.res_old_mem
            then reply.res_mem else r.res_base_mem) ∧
        pfn_inserts (vcsm_vma_fault s vma va reply insert_ret).1.trace =
          pfn_inserts s.trace ++
            [Event.vm_insert_pfn vma.vm_mm va
              (((phys_of s r1.res_base_mem + (va - vma.vm_start) % 4294967296) % 4294967296)
                >>> PAGE_SHIFT)] ∧
        (insert_ret = 0 → ∀ mm a,
          (vcsm_vma_fault s vma va reply insert_ret).1.ptes mm a =
            if mm = vma.vm_mm ∧ a = va then true else s.ptes mm a) ∧
        (r1.res_base_mem < 4294967296 →
          (r1.res_base_mem &&& 1073741823) + s.mm_vc_mem_phys_addr + (va - vma.vm_start) <
            4294967296 →
          ((phys_of s r1.res_base_mem + (va - vma.vm_start) % 4294967296) % 4294967296)
              >>> PAGE_SHIFT =
            ((r1.res_base_mem &&& 1073741823) + s.mm_vc_mem_phys_addr + (va - vma.vm_start))
              >>> PAGE_SHIFT)) := by
  obtain ⟨ca, cb, cc⟩ := fault_cases s vma va reply insert_ret m r hs hm hr
  have hB : 0 < r.lock_count →
      ∃ r1, (vcsm_vma_fault s vma va reply insert_ret).1.resources m.resource = some r1 ∧
        1 ≤ r1.lock_count ∧
        r1.res_base_mem =
          (if r.lock_count = 0 ∧ reply.res_old_mem ≠ 0 ∧ reply.res_mem ≠ reply.res_old_mem
            then reply.res_mem else r.res_base_mem) ∧
        pfn_inserts (vcsm_vma_fault s vma va reply insert_ret).1.trace =
          pfn_inserts s.trace ++
            [Event.vm_insert_pfn vma.vm_mm va
              (((phys_of s r1.res_base_mem + (va - vma.vm_start) % 4294967296) % 4294967296)
                >>> PAGE_SHIFT)] ∧
        (insert_ret = 0 → ∀ mm a,
          (vcsm_vma_fault s vma va reply insert_ret).1.ptes mm a =
            if mm = vma.vm_mm ∧ a = va then true else s.ptes mm a) := by
    intro hl
    have hl0 : r.lock_count ≠ 0 := Nat.pos_iff_ne_zero.mp hl
    rw [cb hl0]
    refine ⟨r, hr, hl, ?_, ?_, ?_⟩
    · rw [if_neg (fun h => hl0 h.1)]
    · simp [pfn_inserts, List.filter_append, Event.is_vm_insert_pfn]
    · intro h0 mm a
      simp [h0]
  have hC : r.lock_count = 0 → reply.status = 0 → reply.res_mem ≠ 0 →
      ∃ r1, (vcsm_vma_fault s vma va reply insert_ret).1.resources m.resource = some r1 ∧
        1 ≤ r1.lock_count ∧
        r1.res_base_mem =
          (if r.lock_count = 0 ∧ reply.res_old_mem ≠ 0 ∧ reply.res_mem ≠ reply.res_old_mem
            then reply.res_mem else r.res_base_mem) ∧
        pfn_inserts (vcsm_vma_fault s vma va reply insert_ret).1.trace =
          pfn_inserts s.trace ++
            [Event.vm_insert_pfn vma.vm_mm va
              (((phys_of s r1.res_base_mem + (va - vma.vm_start) % 4294967296) % 4294967296)
                >>> PAGE_SHIFT)] ∧
        (insert_ret = 0 → ∀ mm a,
          (vcsm_vma_fault s vma va reply insert_ret).1.ptes mm a =
            if mm = vma.vm_mm ∧ a = va then true else s.ptes mm a) := by
    intro hl h0 hmem
    rw [cc hl h0 hmem]
    refine ⟨_, Function.update_same _ _ _, Nat.le_refl _, ?_, ?_, ?_⟩
    · simp only [hl, true_and]
    · simp [pfn_inserts, List.filter_append, Event.is_vm_insert_pfn]
    · intro h0 mm a
      simp [h0]
  refine ⟨?_, ?_, ?_, ?_⟩
  · intro hl
    by_cases hf : reply.status ≠ 0 ∨ reply.res_mem = 0
    · rw [ca hl hf]
      simp [remote_calls, List.filter_append, Event.is_remote]
    · rw [not_or, not_not] at hf
      rw [cc hl hf.1 hf.2]
      simp [remote_calls, List.filter_append, Event.is_remote]
  · intro hl hf
    rw [ca hl hf]
    refine ⟨rfl, rfl, ?_, ?_⟩
    · simp [pfn_inserts, List.filter_append, Event.is_vm_insert_pfn]
    · simp [hl]
  · intro hl
    rw [cb (Nat.pos_iff_ne_zero.mp hl)]
    refine ⟨?_, hr⟩
    simp [remote_calls, List.filter_append, Event.is_remote]
  · intro h
    have hex : ∃ r1, (vcsm_vma_fault s vma va reply insert_ret).1.resources m.resource = some r1 ∧
        1 ≤ r1.lock_count ∧
        r1.res_base_mem =
          (if r.lock_count = 0 ∧ reply.res_old_mem ≠ 0 ∧ reply.res_mem ≠ reply.res_old_mem
            then reply.res_mem else r.res_base_mem) ∧
        pfn_inserts (vcsm_vma_fault s vma va reply insert_ret).1.trace =
          pfn_inserts s.trace ++
            [Event.vm_insert_pfn vma.vm_mm va
              (((phys_of s r1.res_base_mem + (va - vma.vm_start) % 4294967296) % 4294967296)
                >>> PAGE_SHIFT)] ∧
        (insert_ret = 0 → ∀ mm a,
          (vcsm_vma_fault s vma va reply insert_ret).1.ptes mm a =
            if mm = vma.vm_mm ∧ a = va then true else s.ptes mm a) := by
      by_cases hl : 0 < r.lock_count
      · exact hB hl
      · rcases h with h | h
        · exact absurd h hl
        · exact hC (Nat.eq_zero_of_not_pos hl) h.1 h.2
    obtain ⟨r1, e1, e2, e3, e4, e5⟩ := hex
    exact ⟨r1, e1, e2, e3, e4, e5, fun hb ho => fault_frame_plain s _ _ hb ho⟩

/-- Claim C16 on `demo_mapped`: the first fault at address 65536 of the area of
process 100 issues one remote lock of handle 77. -/
theorem fault_contract_witness :
    remote_calls (vcsm_vma_fault demo_mapped
        { vm_mm := 100, vm_start := 65536, vm_end := 69632, vm_private_data := 2 } 65536
        { status := 0, res_mem := 5000, res_old_mem := 0, trans_id := 0 } 0).1.trace =
      remote_calls demo_mapped.trace ++ [Event.vc_vchi_sm_lock 77 5000] :=
  (fault_contract demo_mapped
    { vm_mm := 100, vm_start := 65536, vm_end := 69632, vm_private_data := 2 } 65536
    { status := 0, res_mem := 5000, res_old_mem := 0, trans_id := 0 } 0
    { resource := 1, res_pid := 100, res_vc_hdl := 77, res_usr_hdl := 4096,
      res_addr := 65536, vma := some 3, ref_count := 1 }
    { demo_record with map_count := 1, map_list := [2] } (by decide) (by decide)
    (by decide)).1 rfl

/-! ## Locking -/

/-- Claim C17 at its failing input: the kernel client locks the page of `demo_knl`
(kernel-owned, `lock_count` 0, no mapping) through `vc_sm_lock`; the remote
lock succeeds and the allocation of the record of the kernel window fails.
The call returns `-ENOMEM`, and `lock_count` is 1 afterwards. -/
theorem lock_counts_failed_window :
    demo_knl.2 = (0, 4096) ∧
    (demo_knl.1.resources 1).map (fun r => (r.pid, r.lock_count, r.map_count)) =
      some (0, 0, 0) ∧
    (vc_sm_lock demo_knl.1 1 4096 false 3735928559
      { status := 0, res_mem := 5000, res_old_mem := 0, trans_id := 2 } false 0).2.1 =
        -ENOMEM ∧
    ((vc_sm_lock demo_knl.1 1 4096 false 3735928559
      { status := 0, res_mem := 5000, res_old_mem := 0, trans_id := 2 } false 0).1.resources
        1).map (fun r => r.lock_count) = some 1 ∧
    (vc_sm_ioctl_lock demo_knl.1 0 1 { handle := 4096, addr := 0 } true VMCS_SM_CACHE_NONE 0
      { status := 0, res_mem := 5000, res_old_mem := 0, trans_id := 2 } false 0).2.1 =
        -ENOMEM ∧
    ((vc_sm_ioctl_lock demo_knl.1 0 1 { handle := 4096, addr := 0 } true VMCS_SM_CACHE_NONE 0
      { status := 0, res_mem := 5000, res_old_mem := 0, trans_id := 2 } false 0).1.resources
        1).map (fun r => r.lock_count) = some 1 := by
  decide

/-! ## Unlocking -/

theorem steady_refl (s : SM_STATE_T) : Steady s s := ⟨rfl, rfl, rfl, fun _ => rfl⟩

theorem steady_trans {s s1 s2 : SM_STATE_T} (h1 : Steady s s1) (h2 : Steady s1 s2) :
    Steady s s2 :=
  ⟨h2.resource_list.trans h1.resource_list, h2.sessions.trans h1.sessions,
   h2.remote.trans h1.remote, fun p => (h2.ident p).trans (h1.ident p)⟩

theorem steady_crash (s : SM_STATE_T) : Steady s s.crash := ⟨rfl, rfl, rfl, fun _ => rfl⟩

theorem ident_core (r : SM_RESOURCE_T) : r.core.ident = r.ident := rfl

theorem mapframe_steady {s s1 : SM_STATE_T} (h : MapFrame s s1) : Steady s s1 := by
  refine ⟨h.resource_list, h.sessions, h.remote, fun p => ?_⟩
  have hc := congrArg (Option.map SM_RESOURCE_T.ident) (h.core p)
  simp only [Option.map_map] at hc
  exact hc

theorem steady_foldl {α : Type} (f : SM_STATE_T → α → SM_STATE_T)
    (hf : ∀ st a, Steady st (f st a)) (l : List α) (s : SM_STATE_T) :
    Steady s (l.foldl f s) := by
  induction l generalizing s with
  | nil => exact steady_refl s
  | cons a l ih => exact steady_trans (hf s a) (ih (f s a))

theorem with_vma_steady (k : SM_STATE_T → vm_area_struct → SM_STATE_T)
    (hk : ∀ st v, Steady st (k st v)) (s : SM_STATE_T) (mp : Ptr) :
    Steady s (with_vma s mp k) := by
  unfold with_vma
  split_ifs
  · exact steady_refl s
  · split
    · exact steady_crash s
    · split
      · exact steady_refl s
      · split
        · exact hk _ _
        · exact steady_crash s

theorem clean_page_range_steady (s : SM_STATE_T) (cur addr stop : Nat) :
    Steady s (vcsm_vma_cache_clean_page_range s cur addr stop) := by
  unfold vcsm_vma_cache_clean_page_range
  split_ifs
  · exact steady_refl s
  · exact steady_refl s
  · refine ⟨rfl, rfl, ?_, fun _ => rfl⟩
    simp [remote_calls, List.filter_append, List.filter_map, Event.is_remote,
      Function.comp_def]

theorem zap_vma_ptes_steady (s : SM_STATE_T) (mm addr size : Nat) :
    Steady s (zap_vma_ptes s mm addr size) := by
  unfold zap_vma_ptes
  split_ifs
  · exact steady_refl s
  · refine ⟨rfl, rfl, ?_, fun _ => rfl⟩
    simp [remote_calls, List.filter_append, Event.is_remote]

theorem drop_window_steady (s : SM_STATE_T) (mp : Ptr) : Steady s (drop_window s mp) := by
  unfold drop_window
  split_ifs
  · exact steady_refl s
  · split
    · exact steady_crash s
    · refine steady_trans ?_ (mapframe_steady (vmcs_sm_remove_map_frame _ _ _))
      refine ⟨rfl, rfl, ?_, fun _ => rfl⟩
      simp [remote_calls, List.filter_append, Event.is_remote]

theorem flush_steady (s : SM_STATE_T) (cur : Nat) (p : Ptr) (r : SM_RESOURCE_T)
    (hr : s.resources p = some r) (phys_addr : Nat) :
    Steady s
      { (r.map_list.foldl (fun st mp =>
            with_vma st mp (fun st1 v =>
              vcsm_vma_cache_clean_page_range st1 cur v.vm_start v.vm_end))
          (s.set_res p { r with res_stats := stat_inc r.res_stats FLUSH })) with
        trace := (r.map_list.foldl (fun st mp =>
            with_vma st mp (fun st1 v =>
              vcsm_vma_cache_clean_page_range st1 cur v.vm_start v.vm_end))
          (s.set_res p { r with res_stats := stat_inc r.res_stats FLUSH })).trace ++
          [Event.outer_clean_range phys_addr (ulong_add phys_addr r.res_size)] } := by
  have a : Steady s (s.set_res p { r with res_stats := stat_inc r.res_stats FLUSH }) := by
    refine ⟨rfl, rfl, rfl, fun q => ?_⟩
    by_cases hq : q = p
    · subst hq; simp [SM_STATE_T.set_res, hr, SM_RESOURCE_T.ident]
    · simp [SM_STATE_T.set_res, Function.update_noteq hq]
  have b := steady_foldl (fun st mp =>
      with_vma st mp (fun st1 v =>
        vcsm_vma_cache_clean_page_range st1 cur v.vm_start v.vm_end))
    (fun st a => with_vma_steady _ (fun st1 v => clean_page_range_steady _ _ _ _) st a)
    r.map_list (s.set_res p { r with res_stats := stat_inc r.res_stats FLUSH })
  refine steady_trans (steady_trans a b) ⟨rfl, rfl, ?_, fun _ => rfl⟩
  simp [remote_calls, List.filter_append, Event.is_remote]

theorem zap_all_steady (s : SM_STATE_T) (l : List Ptr) :
    Steady s (l.foldl (fun st mp =>
      with_vma st mp (fun st1 v =>
        zap_vma_ptes st1 v.vm_mm v.vm_start (v.vm_end - v.vm_start))) s) :=
  steady_foldl _ (fun st a => with_vma_steady _ (fun _ _ => zap_vma_ptes_steady _ _ _ _) st a)
    l s

theorem unlock_prepare_steady (s : SM_STATE_T) (cur : Nat) (p : Ptr) (flush : Bool) :
    Steady s (unlock_prepare s cur p flush) := by
  unfold unlock_prepare
  split
  · exact steady_crash s
  · rename_i r hr
    dsimp only
    split_ifs
    all_goals first
      | exact steady_refl s
      | exact flush_steady s cur p r hr _
      | exact zap_all_steady _ _
      | exact steady_trans (flush_steady s cur p r hr _) (zap_all_steady _ _)
      | skip
    all_goals
      split
      · exact steady_refl s
      · split
        · exact steady_crash s
        · refine steady_trans ?_ (drop_window_steady _ _)
          first
            | exact steady_refl s
            | (refine ⟨rfl, rfl, ?_, fun _ => rfl⟩
               simp [remote_calls, List.filter_append, Event.is_remote])

theorem ident_eq_fields {a b : SM_RESOURCE_T} (h : a.ident = b.ident) :
    a.pid = b.pid ∧ a.res_guid = b.res_guid ∧ a.lock_count = b.lock_count ∧
    a.ref_count = b.ref_count ∧ a.res_handle = b.res_handle ∧
    a.res_base_mem = b.res_base_mem ∧ a.res_size = b.res_size ∧
    a.res_cached = b.res_cached ∧ a.res_shared = b.res_shared ∧ a.priv = b.priv := by
  cases a; cases b
  simp only [SM_RESOURCE_T.ident, SM_RESOURCE_T.mk.injEq] at h
  simp only
  tauto

theorem steady_lookup {s s1 : SM_STATE_T} (h : Steady s s1) {p : Ptr} {r : SM_RESOURCE_T}
    (hr : s.resources p = some r) : ∃ r1, s1.resources p = some r1 ∧ r1.ident = r.ident := by
  have hi := h.ident p
  rw [hr] at hi
  cases h1 : s1.resources p with
  | none => rw [h1] at hi; simp at hi
  | some r1 =>
    rw [h1] at hi
    exact ⟨r1, rfl, Option.some.inj hi⟩

theorem unlock_remote_running {s : SM_STATE_T} {priv p : Ptr} {uh um wait_reply : Nat}
    {no_vc_unlock : Bool} {reply : UnlockReply}
    (h : (unlock_remote s priv p uh um wait_reply no_vc_unlock reply).1.status =
      Status.running) : s.status = Status.running := by
  by_contra hs
  simp [unlock_remote, hs] at h

theorem unlock_remote_cases (s : SM_STATE_T) (priv p : Ptr) (uh um wait_reply : Nat)
    (no_vc_unlock : Bool) (reply : UnlockReply) (r : SM_RESOURCE_T)
    (hs : s.status = Status.running) (hr : s.resources p = some r) :
    (r.lock_count = 0 →
      unlock_remote s priv p uh um wait_reply no_vc_unlock reply = (s, 0)) ∧
    (r.lock_count ≠ 0 → no_vc_unlock = true →
      unlock_remote s priv p uh um wait_reply no_vc_unlock reply =
        (s.set_res p { r with res_stats := stat_inc r.res_stats UNLOCK,
                              lock_count := u32_dec r.lock_count }, 0)) ∧
    (r.lock_count ≠ 0 → no_vc_unlock = false → reply.status = -EINTR →
      unlock_remote s priv p uh um wait_reply no_vc_unlock reply =
        ({ unlock_sent s priv uh um wait_reply reply.trans_id with
            resources := Function.update s.resources p
              (some { r with res_stats := stat_dec r.res_stats UNLOCK })
            sessions := Function.update s.sessions priv
              { s.sessions priv with
                int_trans_id := reply.trans_id, restart_sys := -EINTR,
                int_action := VC_SM_MSG_TYPE.VC_SM_MSG_TYPE_UNLOCK } },
          -ERESTARTSYS)) ∧
    (r.lock_count ≠ 0 → no_vc_unlock = false → reply.status ≠ -EINTR → reply.status ≠ 0 →
      unlock_remote s priv p uh um wait_reply no_vc_unlock reply =
        ((unlock_sent s priv uh um wait_reply reply.trans_id).set_res p
            { r with res_stats := stat_inc r.res_stats UNLOCK_FAIL }, -EPERM)) ∧
    (r.lock_count ≠ 0 → no_vc_unlock = false → reply.status = 0 →
      unlock_remote s priv p uh um wait_reply no_vc_unlock reply =
        ((unlock_sent s priv uh um wait_reply reply.trans_id).set_res p
            { r with res_stats := stat_inc r.res_stats UNLOCK,
                     lock_count := u32_dec r.lock_count }, 0)) := by
  refine ⟨?_, ?_, ?_, ?_, ?_⟩
  · intro hl
    simp [unlock_remote, hs, hr, hl]
  · intro hl hn
    simp [unlock_remote, hs, hr, hl, hn]
  · intro hl hn he
    simp [unlock_remote, hs, hr, hl, hn, he, unlock_sent, SM_STATE_T.set_res]
  · intro hl hn he h0
    simp [unlock_remote, hs, hr, hl, hn, he, h0, unlock_sent, SM_STATE_T.set_res]
  · intro hl hn h0
    have hE : ¬ (EINTR = 0) := by decide
    simp [unlock_remote, hs, hr, hl, hn, hE, h0, unlock_sent, SM_STATE_T.set_res]

theorem release_keep_facts (s : SM_STATE_T) (cur : Nat) (p : Ptr) (r : SM_RESOURCE_T) (n : Nat)
    (hs : s.status = Status.running) (hr : s.resources p = some r)
    (hn : r.ref_count = n + 1) (h1 : 1 ≤ n) (hlt : n < 4294967295) :
    (vmcs_sm_release_resource s cur p false).resources p = some { r with ref_count := n } ∧
    (vmcs_sm_release_resource s cur p false).trace = s.trace ∧
    (vmcs_sm_release_resource s cur p false).sessions = s.sessions ∧
    (vmcs_sm_release_resource s cur p false).resource_list = s.resource_list := by
  rw [release_keep s cur p r n hs hr hn h1 hlt]
  exact ⟨Function.update_same _ _ _, rfl, rfl, rfl⟩

theorem unlock_shape (s : SM_STATE_T) (priv : Ptr) (cur : Nat)
    (io : vmcs_sm_ioctl_lock_unlock) (flush : Bool) (wait_reply : Nat) (no_vc_unlock : Bool)
    (reply : UnlockReply) (p : Ptr) (r : SM_RESOURCE_T) (hs : s.status = Status.running)
    (hf : find_guid s.resources (s.sessions priv).resource_list io.handle = some p)
    (hr : s.resources p = some r) (hpid : r.pid = 0 ∨ r.pid = cur)
    (h1 : 1 ≤ r.ref_count) (hlt : r.ref_count < 4294967295)
    (hrun : (vc_sm_ioctl_unlock s priv cur io flush wait_reply no_vc_unlock reply).1.status =
      Status.running) :
    ∃ s2 r2, s2.status = Status.running ∧ s2.resource_list = s.resource_list ∧
      s2.sessions = s.sessions ∧ remote_calls s2.trace = remote_calls s.trace ∧
      s2.resources p = some r2 ∧ r2.ref_count = r.ref_count + 1 ∧
      r2.lock_count = r.lock_count ∧ r2.res_size = r.res_size ∧
      r2.res_base_mem = r.res_base_mem ∧
      vc_sm_ioctl_unlock s priv cur io flush wait_reply no_vc_unlock reply =
        (vmcs_sm_release_resource
            (unlock_remote s2 priv p r.res_handle r.res_base_mem wait_reply no_vc_unlock
              reply).1 cur p false,
          (unlock_remote s2 priv p r.res_handle r.res_base_mem wait_reply no_vc_unlock
            reply).2) := by
  have hown : ¬ (r.pid ≠ 0 ∧ r.pid ≠ cur) := by
    intro hn
    rcases hpid with h | h
    · exact hn.1 h
    · exact hn.2 h
  obtain ⟨h0, _, _⟩ := u32_dec_inc h1 hlt
  have hu : vc_sm_ioctl_unlock s priv cur io flush wait_reply no_vc_unlock reply =
      (vmcs_sm_release_resource
          (unlock_remote
            (unlock_prepare (s.set_res p { r with ref_count := u32_inc r.ref_count }) cur p
              flush)
            priv p r.res_handle r.res_base_mem wait_reply no_vc_unlock reply).1 cur p false,
        (unlock_remote
          (unlock_prepare (s.set_res p { r with ref_count := u32_inc r.ref_count }) cur p
            flush)
          priv p r.res_handle r.res_base_mem wait_reply no_vc_unlock reply).2) := by
    unfold vc_sm_ioctl_unlock
    rw [if_neg (not_not.mpr hs), acquire_hit s priv _ p r hs hf hr]
    simp only [SM_STATE_T.set_res, Function.update_same, hown, if_false]
  have hst := unlock_prepare_steady (s.set_res p { r with ref_count := u32_inc r.ref_count })
    cur p flush
  have hr0 : (s.set_res p { r with ref_count := u32_inc r.ref_count }).resources p =
      some { r with ref_count := u32_inc r.ref_count } := Function.update_same _ _ _
  obtain ⟨r2, hr2, hid⟩ := steady_lookup hst hr0
  obtain ⟨_, _, e3, e4, _, e6, e7, _, _, _⟩ := ident_eq_fields hid
  rw [hu] at hrun
  refine ⟨_, r2, unlock_remote_running (release_resource_running hrun), hst.resource_list,
    hst.sessions, hst.remote, hr2, e4.trans h0, e3, e7, e6, hu⟩

theorem unlock_outcome (s : SM_STATE_T) (priv : Ptr) (cur : Nat)
    (io : vmcs_sm_ioctl_lock_unlock) (flush : Bool) (wait_reply : Nat) (no_vc_unlock : Bool)
    (reply : UnlockReply) (p : Ptr) (r : SM_RESOURCE_T) (hs : s.status = Status.running)
    (hf : find_guid s.resources (s.sessions priv).resource_list io.handle = some p)
    (hr : s.resources p = some r) (hpid : r.pid = 0 ∨ r.pid = cur)
    (h1 : 1 ≤ r.ref_count) (hlt : r.ref_count < 4294967295)
    (hrun : (vc_sm_ioctl_unlock s priv cur io flush wait_reply no_vc_unlock reply).1.status =
      Status.running) :
    ∃ (t : SM_STATE_T) (rt : SM_RESOURCE_T), (vc_sm_ioctl_unlock s priv cur io flush wait_reply no_vc_unlock reply).1.resources p =
        some { rt with ref_count := r.ref_count } ∧
      (vc_sm_ioctl_unlock s priv cur io flush wait_reply no_vc_unlock reply).1.trace = t.trace ∧
      (vc_sm_ioctl_unlock s priv cur io flush wait_reply no_vc_unlock reply).1.sessions =
        t.sessions ∧
      (vc_sm_ioctl_unlock s priv cur io flush wait_reply no_vc_unlock reply).1.resource_list =
        s.resource_list ∧
      rt.res_size = r.res_size ∧ rt.res_base_mem = r.res_base_mem ∧
      (r.lock_count = 0 →
        (vc_sm_ioctl_unlock s priv cur io flush wait_reply no_vc_unlock reply).2 = 0 ∧
        rt.lock_count = r.lock_count ∧ remote_calls t.trace = remote_calls s.trace ∧
        t.sessions = s.sessions) ∧
      (r.lock_count ≠ 0 → no_vc_unlock = true →
        (vc_sm_ioctl_unlock s priv cur io flush wait_reply no_vc_unlock reply).2 = 0 ∧
        rt.lock_count = u32_dec r.lock_count ∧ remote_calls t.trace = remote_calls s.trace ∧
        t.sessions = s.sessions) ∧
      (r.lock_count ≠ 0 → no_vc_unlock = false →
        remote_calls t.trace = remote_calls s.trace ++
          [Event.vc_vchi_sm_unlock r.res_handle r.res_base_mem wait_reply] ∧
        (reply.status = -EINTR →
          (vc_sm_ioctl_unlock s priv cur io flush wait_reply no_vc_unlock reply).2 =
            -ERESTARTSYS ∧
          rt.lock_count = r.lock_count ∧
          t.sessions = Function.update s.sessions priv
            { s.sessions priv with
              int_trans_id := reply.trans_id, restart_sys := -EINTR,
              int_action := VC_SM_MSG_TYPE.VC_SM_MSG_TYPE_UNLOCK }) ∧
        (reply.status ≠ -EINTR → reply.status ≠ 0 →
          (vc_sm_ioctl_unlock s priv cur io flush wait_reply no_vc_unlock reply).2 = -EPERM ∧
          rt.lock_count = r.lock_count) ∧
        (reply.status = 0 →
          (vc_sm_ioctl_unlock s priv cur io flush wait_reply no_vc_unlock reply).2 = 0 ∧
          rt.lock_count = u32_dec r.lock_count)) := by
  obtain ⟨s2, r2, hs2, hl2, hse2, hrem2, hr2, hrc, hlc, hsz, hbase, hu⟩ :=
    unlock_shape s priv cur io flush wait_reply no_vc_unlock reply p r hs hf hr hpid h1 hlt hrun
  obtain ⟨ca, cb, cc, cd, ce⟩ := unlock_remote_cases s2 priv p r.res_handle r.res_base_mem
    wait_reply no_vc_unlock reply r2 hs2 hr2
  have hsent : remote_calls
      (unlock_sent s2 priv r.res_handle r.res_base_mem wait_reply reply.trans_id).trace =
      remote_calls s.trace ++
        [Event.vc_vchi_sm_unlock r.res_handle r.res_base_mem wait_reply] := by
    rw [← hrem2]
    simp [unlock_sent, remote_calls, List.filter_append, Event.is_remote]
  by_cases hl : r.lock_count = 0
  · have hl0 : r2.lock_count = 0 := hlc.trans hl
    obtain ⟨k1, k2, k3, k4⟩ := release_keep_facts s2 cur p r2 r.ref_count hs2 hr2 hrc h1 hlt
    rw [hu, ca hl0]
    exact ⟨s2, r2, k1, k2, k3, k4.trans hl2, hsz, hbase,
      fun _ => ⟨rfl, hlc, hrem2, hse2⟩, fun h => absurd hl h, fun h => absurd hl h⟩
  · have hl0 : r2.lock_count ≠ 0 := fun h => hl (hlc.symm.trans h)
    cases hn : no_vc_unlock with
    | true =>
      obtain ⟨k1, k2, k3, k4⟩ := release_keep_facts
        (s2.set_res p { r2 with res_stats := stat_inc r2.res_stats UNLOCK,
                                lock_count := u32_dec r2.lock_count })
        cur p _ r.ref_count hs2 (Function.update_same _ _ _) hrc h1 hlt
      rw [hn] at hu cb
      rw [hu, cb hl0 rfl]
      exact ⟨_, _, k1, k2, k3, k4.trans hl2, hsz, hbase, fun h => absurd h hl,
        fun _ _ => ⟨rfl, by rw [hlc], hrem2, hse2⟩, fun _ h => Bool.noConfusion h⟩
    | false =>
      rw [hn] at hu cc cd ce
      by_cases he : reply.status = -EINTR
      · obtain ⟨k1, k2, k3, k4⟩ := release_keep_facts
          { unlock_sent s2 priv r.res_handle r.res_base_mem wait_reply reply.trans_id with
            resources := Function.update s2.resources p
              (some { r2 with res_stats := stat_dec r2.res_stats UNLOCK })
            sessions := Function.update s2.sessions priv
              { s2.sessions priv with
                int_trans_id := reply.trans_id, restart_sys := -EINTR,
                int_action := VC_SM_MSG_TYPE.VC_SM_MSG_TYPE_UNLOCK } }
          cur p _ r.ref_count hs2 (Function.update_same _ _ _) hrc h1 hlt
        have hne : reply.status ≠ 0 := by rw [he]; decide
        rw [hu, cc hl0 rfl he]
        refine ⟨_, _, k1, k2, k3, k4.trans hl2, hsz, hbase, fun h => absurd h hl,
          fun _ h => Bool.noConfusion h, fun _ _ => ⟨hsent, fun _ => ⟨rfl, hlc, ?_⟩,
            fun h => absurd he h, fun h => absurd h hne⟩⟩
        show Function.update s2.sessions priv _ = _
        rw [hse2]
      · by_cases h0 : reply.status = 0
        · obtain ⟨k1, k2, k3, k4⟩ := release_keep_facts
            ((unlock_sent s2 priv r.res_handle r.res_base_mem wait_reply reply.trans_id).set_res
              p { r2 with res_stats := stat_inc r2.res_stats UNLOCK,
                          lock_count := u32_dec r2.lock_count })
            cur p _ r.ref_count hs2 (Function.update_same _ _ _) hrc h1 hlt
          rw [hu, ce hl0 rfl h0]
          exact ⟨_, _, k1, k2, k3, k4.trans hl2, hsz, hbase, fun h => absurd h hl,
            fun _ h => Bool.noConfusion h, fun _ _ => ⟨hsent, fun h => absurd h he,
              fun _ h => absurd h0 h, fun _ => ⟨rfl, by rw [hlc]⟩⟩⟩
        · obtain ⟨k1, k2, k3, k4⟩ := release_keep_facts
            ((unlock_sent s2 priv r.res_handle r.res_base_mem wait_reply reply.trans_id).set_res
              p { r2 with res_stats := stat_inc r2.res_stats UNLOCK_FAIL })
            cur p _ r.ref_count hs2 (Function.update_same _ _ _) hrc h1 hlt
          rw [hu, cd hl0 rfl he h0]
          exact ⟨_, _, k1, k2, k3, k4.trans hl2, hsz, hbase, fun h => absurd h hl,
            fun _ h => Bool.noConfusion h, fun _ _ => ⟨hsent, fun h => absurd h he,
              fun _ _ => ⟨rfl, hlc⟩, fun h => absurd h h0⟩⟩

/-- Claim C18.  `vc_sm_ioctl_unlock` on a resource `p` of the caller's session that
the caller may unlock, in a run that dereferences no freed record.  With
`lock_count > 0`: when `no_vc_unlock` is set the call returns 0, `lock_count`
is one less and no remote call is issued; otherwise exactly one remote call, an
unlock of the resource, is issued, and `lock_count` is one less if it reports
success (the call returns 0), unchanged if it is interrupted (the call returns
`-ERESTARTSYS`) or fails (the call returns `-EPERM`).  With `lock_count = 0`
no remote call is issued, the call returns 0 and `lock_count` is still 0. -/
theorem unlock_contract (s : SM_STATE_T) (priv : Ptr) (cur : Nat)
    (io : vmcs_sm_ioctl_lock_unlock) (flush : Bool) (wait_reply : Nat) (no_vc_unlock : Bool)
    (reply : UnlockReply) (p : Ptr) (r : SM_RESOURCE_T) (hs : s.status = Status.running)
    (hf : find_guid s.resources (s.sessions priv).resource_list io.handle = some p)
    (hr : s.resources p = some r) (hpid : r.pid = 0 ∨ r.pid = cur)
    (h1 : 1 ≤ r.ref_count) (hlt : r.ref_count < 4294967295)
    (hlc : r.lock_count < 4294967296)
    (hrun : (vc_sm_ioctl_unlock s priv cur io flush wait_reply no_vc_unlock reply).1.status =
      Status.running) :
    (0 < r.lock_count → no_vc_unlock = true →
      (vc_sm_ioctl_unlock s priv cur io flush wait_reply no_vc_unlock reply).2 = 0 ∧
      ((vc_sm_ioctl_unlock s priv cur io flush wait_reply no_vc_unlock reply).1.resources
        p).map (fun x => x.lock_count) = some (r.lock_count - 1) ∧
      remote_calls
          (vc_sm_ioctl_unlock s priv cur io flush wait_reply no_vc_unlock reply).1.trace =
        remote_calls s.trace) ∧
    (0 < r.lock_count → no_vc_unlock = false →
      remote_calls
          (vc_sm_ioctl_unlock s priv cur io flush wait_reply no_vc_unlock reply).1.trace =
        remote_calls s.trace ++
          [Event.vc_vchi_sm_unlock r.res_handle r.res_base_mem wait_reply] ∧
      (reply.status = 0 →
        (vc_sm_ioctl_unlock s priv cur io flush wait_reply no_vc_unlock reply).2 = 0 ∧
        ((vc_sm_ioctl_unlock s priv cur io flush wait_reply no_vc_unlock reply).1.resources
          p).map (fun x => x.lock_count) = some (r.lock_count - 1)) ∧
      (reply.status = -EINTR →
        (vc_sm_ioctl_unlock s priv cur io flush wait_reply no_vc_unlock reply).2 =
          -ERESTARTSYS ∧
        ((vc_sm_ioctl_unlock s priv cur io flush wait_reply no_vc_unlock reply).1.resources
          p).map (fun x => x.lock_count) = some r.lock_count) ∧
      (reply.status ≠ 0 → reply.status ≠ -EINTR →
        (vc_sm_ioctl_unlock s priv cur io flush wait_reply no_vc_unlock reply).2 = -EPERM ∧
        ((vc_sm_ioctl_unlock s priv cur io flush wait_reply no_vc_unlock reply).1.resources
          p).map (fun x => x.lock_count) = some r.lock_count)) ∧
    (r.lock_count = 0 →
      (vc_sm_ioctl_unlock s priv cur io flush wait_reply no_vc_unlock reply).2 = 0 ∧
      ((vc_sm_ioctl_unlock s priv cur io flush wait_reply no_vc_unlock reply).1.resources
        p).map (fun x => x.lock_count) = some 0 ∧
      remote_calls
          (vc_sm_ioctl_unlock s priv cur io flush wait_reply no_vc_unlock reply).1.trace =
        remote_calls s.trace) := by
  obtain ⟨t, rt, k1, k2, _, _, _, _, ca, cb, cc⟩ :=
    unlock_outcome s priv cur io flush wait_reply no_vc_unlock reply p r hs hf hr hpid h1 hlt
      hrun
  have hdec : 0 < r.lock_count → u32_dec r.lock_count = r.lock_count - 1 := by
    intro h; unfold u32_dec; omega
  rw [k1, k2]
  refine ⟨?_, ?_, ?_⟩
  · intro hl hn
    obtain ⟨a1, a2, a3, _⟩ := cb (Nat.pos_iff_ne_zero.mp hl) hn
    exact ⟨a1, by simp [a2, hdec hl], a3⟩
  · intro hl hn
    obtain ⟨a1, a2, a3, a4⟩ := cc (Nat.pos_iff_ne_zero.mp hl) hn
    refine ⟨a1, fun h0 => ?_, fun he => ?_, fun h0 he => ?_⟩
    · exact ⟨(a4 h0).1, by simp [(a4 h0).2, hdec hl]⟩
    · exact ⟨(a2 he).1, by simp [(a2 he).2.1]⟩
    · exact ⟨(a3 he h0).1, by simp [(a3 he h0).2]⟩
  · intro hl
    obtain ⟨a1, a2, a3, _⟩ := ca hl
    exact ⟨a1, by simp [a2, hl], a3⟩

/-- Claim C18 on the page locked in `demo_locked`: its owner unlocks it and the
remote side confirms; the call returns 0 and `lock_count` is 0 afterwards. -/
theorem unlock_contract_witness :
    (vc_sm_ioctl_unlock demo_locked.1 10 100 { handle := 4096, addr := 0 } false 1 false
      { status := 0, trans_id := 3 }).2 = 0 ∧
    ((vc_sm_ioctl_unlock demo_locked.1 10 100 { handle := 4096, addr := 0 } false 1 false
      { status := 0, trans_id := 3 }).1.resources 1).map (fun x => x.lock_count) =
        some (demo_locked_record.lock_count - 1) :=
  ((unlock_contract demo_locked.1 10 100 { handle := 4096, addr := 0 } false 1 false
    { status := 0, trans_id := 3 } 1 demo_locked_record (by decide) (by decide) (by decide)
    (by decide) (by decide) (by decide) (by decide) (by decide)).2.1 (by decide) rfl).2.1 rfl

/-! ## Interrupted remote calls -/

theorem lock_body_interrupted (s : SM_STATE_T) (priv : Ptr) (cur : Nat) (p : Ptr)
    (io : vmcs_sm_ioctl_lock_unlock) (change_cache : Bool) (cache_type : Nat)
    (reply : LockReply) (kz : Bool) (ioremap_ret : Nat) (r : SM_RESOURCE_T)
    (hr : s.resources p = some r) (he : reply.status = -EINTR) :
    lock_body s priv cur p io change_cache cache_type 0 reply kz ioremap_ret =
      ({ s with
          trace := s.trace ++ [Event.vc_vchi_sm_lock r.res_handle r.res_base_mem]
          sessions := Function.update s.sessions priv
            { s.sessions priv with
              int_trans_id := reply.trans_id, restart_sys := -EINTR,
              int_action := VC_SM_MSG_TYPE.VC_SM_MSG_TYPE_LOCK } },
        -ERESTARTSYS, io) := by
  unfold lock_body
  rw [hr]
  simp -zeta only []
  lift_lets
  intro f s1 f1 ra rb moved rc s2 s3
  rw [if_pos]
  · simp [s1, f, f1]
  · simp [he]

theorem lock_interrupted (s : SM_STATE_T) (priv : Ptr) (cur : Nat)
    (io : vmcs_sm_ioctl_lock_unlock) (change_cache : Bool) (cache_type : Nat)
    (reply : LockReply) (kz : Bool) (ioremap_ret : Nat) (p : Ptr) (r : SM_RESOURCE_T)
    (hs : s.status = Status.running)
    (hf : find_guid s.resources (s.sessions priv).resource_list io.handle = some p)
    (hr : s.resources p = some r) (hpid : r.pid = 0 ∨ r.pid = cur)
    (h1 : 1 ≤ r.ref_count) (hlt : r.ref_count < 4294967295)
    (he : reply.status = -EINTR) :
    vc_sm_ioctl_lock s priv cur io change_cache cache_type 0 reply kz ioremap_ret =
      ({ s with
          trace := s.trace ++ [Event.vc_vchi_sm_lock r.res_handle r.res_base_mem]
          sessions := Function.update s.sessions priv
            { s.sessions priv with
              int_trans_id := reply.trans_id, restart_sys := -EINTR,
              int_action := VC_SM_MSG_TYPE.VC_SM_MSG_TYPE_LOCK } },
        -ERESTARTSYS, io) := by
  have hown : ¬ (r.pid ≠ 0 ∧ r.pid ≠ cur) := by
    intro hn
    rcases hpid with h | h
    · exact hn.1 h
    · exact hn.2 h
  obtain ⟨h0, _, _⟩ := u32_dec_inc h1 hlt
  have hself : Function.update s.resources p (some r) = s.resources := by
    rw [← hr, Function.update_eq_self]
  unfold vc_sm_ioctl_lock
  rw [if_neg (not_not.mpr hs), acquire_hit s priv _ p r hs hf hr]
  simp only [SM_STATE_T.set_res, Function.update_same, hown, if_false]
  rw [lock_body_interrupted _ priv cur p io change_cache cache_type reply kz ioremap_ret
    { r with ref_count := u32_inc r.ref_count } (Function.update_same _ _ _) he]
  dsimp only
  rw [release_keep _ cur p _ r.ref_count]
  pick_goal 3
  · exact Function.update_same _ _ _
  · simp only [SM_STATE_T.set_res, Function.update_idem]
    rw [hself]
  · exact hs
  · exact h0
  · exact h1
  · exact hlt

theorem alloc_interrupted (s : SM_STATE_T) (priv cur : Nat) (io : vmcs_sm_ioctl_alloc)
    (reply : AllocReply) (hs : s.status = Status.running) (he : reply.status = -EINTR) :
    vc_sm_ioctl_alloc s priv cur io true reply =
      ({ s with
          brk := s.brk + 1
          trace := s.trace ++ [Event.vc_vchi_sm_alloc
            (io.cached == VMCS_SM_CACHE_VC || io.cached == VMCS_SM_CACHE_BOTH)
            (align_unit io.size 4096) io.num 4096 cur]
          sessions := Function.update s.sessions priv
            { s.sessions priv with
              int_trans_id := reply.trans_id, restart_sys := -EINTR,
              int_action := VC_SM_MSG_TYPE.VC_SM_MSG_TYPE_ALLOC }
          resources := Function.update s.resources s.brk none
          res_terminated_cnt := u32_inc s.res_terminated_cnt
          terminated := stats_add s.terminated (List.replicate 15 0) },
        -ERESTARTSYS, io) := by
  simp [vc_sm_ioctl_alloc, hs, he, alloc_discard, vc_sm_resource_deceased, kfree_resource,
    SM_RESOURCE_T.zero]

theorem abandoned_update (s : SM_STATE_T) (priv : Ptr) (kind : VC_SM_MSG_TYPE) (trans_id : Nat)
    (s1 : SM_STATE_T) (hl : s1.resource_list = s.resource_list)
    (hse : s1.sessions = Function.update s.sessions priv
      { s.sessions priv with
        int_trans_id := trans_id, restart_sys := -EINTR, int_action := kind }) :
    Abandoned s s1 priv kind trans_id := by
  unfold Abandoned
  rw [hse]
  refine ⟨by simp, by simp, by simp, hl, fun g => ?_⟩
  by_cases hg : g = priv
  · subst hg; simp
  · simp [Function.update_noteq hg]

/-- Claim C19.  In a running state, when the remote call of an allocation, a lock,
an unlock or a resize reports `-EINTR`, the operation returns `-ERESTARTSYS`
and leaves session `priv` with `restart_sys = -EINTR`, `int_action` the kind
of the operation and `int_trans_id` the transaction id of the call; the global
list and every session list are as before.  An allocation leaves every record
that existed as it was; a lock, an unlock (in a run that dereferences no freed
record) and a resize leave `lock_count`, `res_size`, `res_base_mem` and
`ref_count` of the resource `p` they were called on as they were. -/
theorem interrupted_contract (s : SM_STATE_T) (priv : Ptr) (cur : Nat)
    (hs : s.status = Status.running) :
    (∀ (io : vmcs_sm_ioctl_alloc) (reply : AllocReply), reply.status = -EINTR →
      (vc_sm_ioctl_alloc s priv cur io true reply).2.1 = -ERESTARTSYS ∧
      Abandoned s (vc_sm_ioctl_alloc s priv cur io true reply).1 priv
        VC_SM_MSG_TYPE.VC_SM_MSG_TYPE_ALLOC reply.trans_id ∧
      ∀ q, q ≠ s.brk →
        (vc_sm_ioctl_alloc s priv cur io true reply).1.resources q = s.resources q) ∧
    (∀ (g : Nat) (p : Ptr) (r : SM_RESOURCE_T),
      find_guid s.resources (s.sessions priv).resource_list g = some p →
      s.resources p = some r → (r.pid = 0 ∨ r.pid = cur) →
      1 ≤ r.ref_count → r.ref_count < 4294967295 →
      (∀ (addr : Nat) (change_cache : Bool) (cache_type : Nat) (reply : LockReply) (kz : Bool)
          (ioremap_ret : Nat), reply.status = -EINTR →
        (vc_sm_ioctl_lock s priv cur { handle := g, addr := addr } change_cache cache_type 0
          reply kz ioremap_ret).2.1 = -ERESTARTSYS ∧
        Abandoned s (vc_sm_ioctl_lock s priv cur { handle := g, addr := addr } change_cache
          cache_type 0 reply kz ioremap_ret).1 priv VC_SM_MSG_TYPE.VC_SM_MSG_TYPE_LOCK
          reply.trans_id ∧
        ((vc_sm_ioctl_lock s priv cur { handle := g, addr := addr } change_cache cache_type 0
          reply kz ioremap_ret).1.resources p).map SM_RESOURCE_T.held = some r.held) ∧
      (∀ (addr : Nat) (flush : Bool) (wait_reply : Nat) (reply : UnlockReply),
        reply.status = -EINTR → r.lock_count ≠ 0 →
        (vc_sm_ioctl_unlock s priv cur { handle := g, addr := addr } flush wait_reply false
          reply).1.status = Status.running →
        (vc_sm_ioctl_unlock s priv cur { handle := g, addr := addr } flush wait_reply false
          reply).2 = -ERESTARTSYS ∧
        Abandoned s (vc_sm_ioctl_unlock s priv cur { handle := g, addr := addr } flush
          wait_reply false reply).1 priv VC_SM_MSG_TYPE.VC_SM_MSG_TYPE_UNLOCK
          reply.trans_id ∧
        ((vc_sm_ioctl_unlock s priv cur { handle := g, addr := addr } flush wait_reply false
          reply).1.resources p).map SM_RESOURCE_T.held = some r.held) ∧
      (∀ (new_size old_size : Nat) (reply : ResizeReply),
        reply.status = -EINTR → r.lock_count = 0 → r.map_count = 0 →
        (vc_sm_ioctl_resize s priv cur
          { handle := g, new_size := new_size, old_size := old_size } reply).2.1 =
            -ERESTARTSYS ∧
        Abandoned s (vc_sm_ioctl_resize s priv cur
          { handle := g, new_size := new_size, old_size := old_size } reply).1 priv
          VC_SM_MSG_TYPE.VC_SM_MSG_TYPE_RESIZE reply.trans_id ∧
        ((vc_sm_ioctl_resize s priv cur
          { handle := g, new_size := new_size, old_size := old_size } reply).1.resources
            p).map SM_RESOURCE_T.held = some r.held)) := by
  refine ⟨?_, ?_⟩
  · intro io reply he
    rw [alloc_interrupted s priv cur io reply hs he]
    refine ⟨rfl, abandoned_update s priv _ _ _ rfl rfl, fun q hq => ?_⟩
    exact Function.update_noteq hq _ _
  · intro g p r hf hr hpid h1 hlt
    have hown : ¬ (r.pid ≠ 0 ∧ r.pid ≠ cur) := by
      intro hn
      rcases hpid with h | h
      · exact hn.1 h
      · exact hn.2 h
    refine ⟨?_, ?_, ?_⟩
    · intro addr change_cache cache_type reply kz ioremap_ret he
      rw [lock_interrupted s priv cur { handle := g, addr := addr } change_cache cache_type
        reply kz ioremap_ret p r hs hf hr hpid h1 hlt he]
      refine ⟨rfl, abandoned_update s priv _ _ _ rfl rfl, ?_⟩
      show (s.resources p).map SM_RESOURCE_T.held = _
      rw [hr]; rfl
    · intro addr flush wait_reply reply he hl hrun
      obtain ⟨t, rt, k1, _, k3, k4, k5, k6, _, _, cc⟩ :=
        unlock_outcome s priv cur { handle := g, addr := addr } flush wait_reply false reply p r
          hs hf hr hpid h1 hlt hrun
      obtain ⟨_, a2, _, _⟩ := cc hl rfl
      obtain ⟨b1, b2, b3⟩ := a2 he
      refine ⟨b1, abandoned_update s priv _ _ _ k4 (k3.trans b3), ?_⟩
      rw [k1]
      simp [SM_RESOURCE_T.held, b2, k5, k6]
    · intro new_size old_size reply he hl hm
      obtain ⟨_, _, _, c4⟩ := resize_cases s priv cur
        { handle := g, new_size := new_size, old_size := old_size } reply p r hs hf hr h1 hlt
      rw [(c4 hl hown hm).1 he]
      refine ⟨rfl, abandoned_update s priv _ _ _ rfl rfl, ?_⟩
      show (s.resources p).map SM_RESOURCE_T.held = _
      rw [hr]; rfl

/-- Claim C19 on the page of `demo_alloc`: an interrupted lock by its owner returns
`-ERESTARTSYS` and leaves session 10 with a pending `LOCK` of transaction 9. -/
theorem interrupted_contract_witness :
    (vc_sm_ioctl_lock demo_alloc.1 10 100 { handle := 4096, addr := 0 } false 0 0
      { status := -EINTR, res_mem := 0, res_old_mem := 0, trans_id := 9 } true 0).2.1 =
        -ERESTARTSYS ∧
    Abandoned demo_alloc.1 (vc_sm_ioctl_lock demo_alloc.1 10 100 { handle := 4096, addr := 0 }
      false 0 0 { status := -EINTR, res_mem := 0, res_old_mem := 0, trans_id := 9 }
      true 0).1 10 VC_SM_MSG_TYPE.VC_SM_MSG_TYPE_LOCK 9 ∧
    ((vc_sm_ioctl_lock demo_alloc.1 10 100 { handle := 4096, addr := 0 } false 0 0
      { status := -EINTR, res_mem := 0, res_old_mem := 0, trans_id := 9 } true 0).1.resources
        1).map SM_RESOURCE_T.held = some demo_record.held :=
  ((interrupted_contract demo_alloc.1 10 100 (by decide)).2 4096 1 demo_record (by decide)
    (by decide) (by decide) (by decide) (by decide)).1 0 false 0
    { status := -EINTR, res_mem := 0, res_old_mem := 0, trans_id := 9 } true 0 rfl

/-! ## The page-table walk -/

theorem page_flushes_eq (P : Nat → Nat → Bool) (c a e : Nat) :
    page_flushes P c a e =
      (((List.range ((e - a + (PAGE_SIZE - 1)) / PAGE_SIZE)).map
        (fun i => a + i * PAGE_SIZE)).filter (fun b => P c b)).map
          (fun b => Event.dmac_flush_range b (b + PAGE_SIZE)) := by
  unfold page_flushes
  split_ifs with h
  · have hn : (e - a + (PAGE_SIZE - 1)) / PAGE_SIZE = 0 := by
      unfold PAGE_SIZE
      omega
    rw [hn]
    rfl
  · rfl

theorem page_flushes_empty (P : Nat → Nat → Bool) (c a e : Nat) (h : e ≤ a) :
    page_flushes P c a e = [] := by
  unfold page_flushes
  rw [if_pos h]

theorem page_flushes_cons (P : Nat → Nat → Bool) (c a e : Nat) (h : a < e) :
    page_flushes P c a e =
      (if P c a then [Event.dmac_flush_range a (a + PAGE_SIZE)] else []) ++
        page_flushes P c (a + PAGE_SIZE) e := by
  rw [page_flushes_eq, page_flushes_eq]
  have hn : (e - a + (PAGE_SIZE - 1)) / PAGE_SIZE =
      (e - (a + PAGE_SIZE) + (PAGE_SIZE - 1)) / PAGE_SIZE + 1 := by
    unfold PAGE_SIZE
    omega
  rw [hn, List.range_succ_eq_map, List.map_cons, List.map_map, List.filter_cons]
  have hf : ((fun i => a + i * PAGE_SIZE) ∘ Nat.succ) = fun i => a + PAGE_SIZE + i * PAGE_SIZE := by
    funext i
    simp only [Function.comp, Nat.succ_eq_add_one]
    ring
  rw [hf]
  simp only [Nat.zero_mul, Nat.add_zero]
  split_ifs <;> simp

theorem page_flushes_congr (P Q : Nat → Nat → Bool) (c d : Nat) (e : Nat) :
    ∀ (k a : Nat), e ≤ a + k * PAGE_SIZE → PAGE_SIZE ∣ a →
      (∀ b, a ≤ b → b < e → PAGE_SIZE ∣ b → P c b = Q d b) →
      page_flushes P c a e = page_flushes Q d a e := by
  intro k
  induction k with
  | zero =>
    intro a h _ _
    rw [page_flushes_empty _ _ _ _ (by omega), page_flushes_empty _ _ _ _ (by omega)]
  | succ k ih =>
    intro a h ha hb
    by_cases hae : e ≤ a
    · rw [page_flushes_empty _ _ _ _ hae, page_flushes_empty _ _ _ _ hae]
    · rw [page_flushes_cons _ _ _ _ (by omega), page_flushes_cons Q _ _ _ (by omega),
        hb a (le_refl a) (by omega) ha,
        ih (a + PAGE_SIZE) (by rw [Nat.succ_mul] at h; omega) (Dvd.dvd.add ha (dvd_refl _))
          (fun b h1 h2 h3 => hb b (by omega) h2 h3)]

theorem page_flushes_split (P : Nat → Nat → Bool) (c e : Nat) :
    ∀ (j a : Nat), a + j * PAGE_SIZE ≤ e →
      page_flushes P c a e =
        page_flushes P c a (a + j * PAGE_SIZE) ++ page_flushes P c (a + j * PAGE_SIZE) e := by
  intro j
  induction j with
  | zero =>
    intro a _
    rw [Nat.zero_mul, Nat.add_zero, page_flushes_empty P c a a (le_refl a), List.nil_append]
  | succ j ih =>
    intro a h
    have hp : 0 < PAGE_SIZE := by unfold PAGE_SIZE; omega
    have e1 : a + (j + 1) * PAGE_SIZE = a + PAGE_SIZE + j * PAGE_SIZE := by ring
    rw [e1] at h ⊢
    rw [page_flushes_cons P c a e (by omega),
      page_flushes_cons P c a (a + PAGE_SIZE + j * PAGE_SIZE) (by omega),
      ih (a + PAGE_SIZE) h, List.append_assoc]

theorem page_flushes_split_at (P : Nat → Nat → Bool) (c a m e : Nat) (ha : PAGE_SIZE ∣ a)
    (hm : PAGE_SIZE ∣ m) (h1 : a ≤ m) (h2 : m ≤ e) :
    page_flushes P c a e = page_flushes P c a m ++ page_flushes P c m e := by
  obtain ⟨j, hj⟩ := (Nat.dvd_sub' hm ha)
  have e1 : m = a + j * PAGE_SIZE := by
    rw [Nat.mul_comm] at hj
    omega
  rw [e1] at h2 ⊢
  exact page_flushes_split P c e j a h2

theorem page_flushes_none (P : Nat → Nat → Bool) (c a e : Nat) (ha : PAGE_SIZE ∣ a)
    (h : ∀ b, a ≤ b → b < e → PAGE_SIZE ∣ b → P c b = false) :
    page_flushes P c a e = [] := by
  rw [page_flushes_congr P (fun _ _ => false) c c e (e - a) a ?_ ha h]
  · rw [page_flushes_eq]
    simp
  · have hp : 0 < PAGE_SIZE := by unfold PAGE_SIZE; omega
    have := Nat.le_mul_of_pos_right (e - a) hp
    omega

theorem clean_page_range_eq (s : SM_STATE_T) (cur addr stop : Nat)
    (hs : s.status = Status.running) :
    vcsm_vma_cache_clean_page_range s cur addr stop =
      { s with trace := s.trace ++ page_flushes s.ptes cur addr stop } := by
  unfold vcsm_vma_cache_clean_page_range page_flushes
  rw [if_neg (not_not.mpr hs)]
  split_ifs
  · simp
  · rfl

theorem walk_pte_succ (T : PageTables) (fuel pte addr pmd_next : Nat) (tr : List Event) :
    walk_pte T (fuel + 1) pte addr pmd_next tr =
      if ulong_add addr PAGE_SIZE ≠ pmd_next then
        walk_pte T fuel (pte + 1) (ulong_add addr PAGE_SIZE) pmd_next
          (if T.pte_none_or_absent pte then tr
            else tr ++ [Event.dmac_flush_range addr (ulong_add addr PAGE_SIZE)])
      else some (if T.pte_none_or_absent pte then tr
            else tr ++ [Event.dmac_flush_range addr (ulong_add addr PAGE_SIZE)]) := rfl

theorem walk_level_succ (addr_end : Nat → Nat → Nat) (none_or_bad : Nat → Bool)
    (offset : Nat → Nat → Nat)
    (inner : Nat → Nat → Nat → Nat → List Event → Option (List Event))
    (fuel p addr stop : Nat) (tr : List Event) :
    walk_level addr_end none_or_bad offset inner (fuel + 1) p addr stop tr =
      match (if none_or_bad p then some tr
          else inner fuel (offset p addr) addr (addr_end addr stop) tr) with
      | none => none
      | some tr1 =>
        if addr_end addr stop ≠ stop then
          walk_level addr_end none_or_bad offset inner fuel (p + 1) (addr_end addr stop) stop tr1
        else some tr1 := rfl

theorem walk_pte_spec (T : PageTables) (PT : Nat → Nat) (a e : Nat) (he : PAGE_SIZE ∣ e)
    (hlt : e < 4294967296)
    (hstep : ∀ w, a ≤ w → w + PAGE_SIZE < e → PAGE_SIZE ∣ w → PT (w + PAGE_SIZE) = PT w + 1) :
    ∀ (fuel x : Nat) (tr : List Event), a ≤ x → x < e → PAGE_SIZE ∣ x →
      (e - x) / PAGE_SIZE ≤ fuel →
      walk_pte T fuel (PT x) x e tr =
        some (tr ++ page_flushes (fun _ b => !T.pte_none_or_absent (PT b)) 0 x e) := by
  intro fuel
  induction fuel with
  | zero =>
    intro x tr _ hx hpx hf
    exfalso
    unfold PAGE_SIZE at *
    omega
  | succ n ih =>
    intro x tr hax hx hpx hf
    have hle : x + PAGE_SIZE ≤ e := by
      unfold PAGE_SIZE at *
      omega
    have hmod : ulong_add x PAGE_SIZE = x + PAGE_SIZE := Nat.mod_eq_of_lt (by omega)
    rw [walk_pte_succ, hmod]
    rw [page_flushes_cons _ _ _ _ hx]
    by_cases hend : x + PAGE_SIZE = e
    · rw [if_neg (not_not.mpr hend), hend, page_flushes_empty _ _ _ _ (le_refl e)]
      cases T.pte_none_or_absent (PT x) <;> simp
    · rw [if_pos hend, ← hstep x hax (by omega) hpx,
        ih (x + PAGE_SIZE) _ (by omega) (by omega) (Dvd.dvd.add hpx (dvd_refl _))
          (by unfold PAGE_SIZE at *; omega)]
      cases T.pte_none_or_absent (PT x) <;> simp

theorem walk_level_spec (addr_end : Nat → Nat → Nat) (none_or_bad : Nat → Bool)
    (offset : Nat → Nat → Nat)
    (inner : Nat → Nat → Nat → Nat → List Event → Option (List Event))
    (D : Nat → Nat) (Pin : Nat → Nat → Bool) (d a e : Nat) (hL : Level addr_end D a e)
    (hin : ∀ x, a ≤ x → x < e → PAGE_SIZE ∣ x → ∀ (fuel : Nat) (tr : List Event),
      (addr_end x e - x) / PAGE_SIZE + d ≤ fuel →
      inner fuel (offset (D x) x) x (addr_end x e) tr =
        some (tr ++ page_flushes (fun _ b => Pin (offset (D x) b) b) 0 x (addr_end x e))) :
    ∀ (fuel x : Nat) (tr : List Event), a ≤ x → x < e → PAGE_SIZE ∣ x →
      (e - x) / PAGE_SIZE + d + 1 ≤ fuel →
      walk_level addr_end none_or_bad offset inner fuel (D x) x e tr =
        some (tr ++
          page_flushes (fun _ b => !none_or_bad (D b) && Pin (offset (D b) b) b) 0 x e) := by
  intro fuel
  induction fuel with
  | zero =>
    intro x tr _ _ _ hf
    exact absurd hf (Nat.not_succ_le_zero _)
  | succ n ih =>
    intro x tr hax hx hpx hf
    obtain ⟨h1, h2, h3, h4, h5⟩ := hL x hax hx hpx
    have hstep : x + PAGE_SIZE ≤ addr_end x e := by
      obtain ⟨k, hk⟩ := h3
      obtain ⟨j, hj⟩ := hpx
      unfold PAGE_SIZE at *
      omega
    have hfu : (addr_end x e - x) / PAGE_SIZE + d ≤ n := by
      have : (addr_end x e - x) / PAGE_SIZE ≤ (e - x) / PAGE_SIZE :=
        Nat.div_le_div_right (by omega)
      omega
    -- the part of the range under the entry of `x`
    have hblock : (if none_or_bad (D x) then some tr
        else inner n (offset (D x) x) x (addr_end x e) tr) =
        some (tr ++ page_flushes
          (fun _ b => !none_or_bad (D b) && Pin (offset (D b) b) b) 0 x (addr_end x e)) := by
      cases hbad : none_or_bad (D x) with
      | true =>
        rw [if_pos rfl, page_flushes_none _ _ _ _ hpx, List.append_nil]
        intro b hb1 hb2 hb3
        simp only [h4 b hb1 hb2 hb3, hbad, Bool.not_true, Bool.false_and]
      | false =>
        rw [if_neg (by simp), hin x hax hx hpx n tr hfu]
        congr 2
        refine page_flushes_congr _ _ 0 0 _ (addr_end x e - x) x ?_ hpx ?_
        · have hp : 0 < PAGE_SIZE := by unfold PAGE_SIZE; omega
          have := Nat.le_mul_of_pos_right (addr_end x e - x) hp
          omega
        · intro b hb1 hb2 hb3
          simp only [h4 b hb1 hb2 hb3, hbad, Bool.not_false, Bool.true_and]
    rw [walk_level_succ, hblock]
    dsimp only
    rw [page_flushes_split_at _ 0 x (addr_end x e) e hpx h3 (le_of_lt h1) h2]
    by_cases hend : addr_end x e = e
    · rw [if_neg (not_not.mpr hend), hend, page_flushes_empty _ _ e e (le_refl e),
        List.append_nil]
    · rw [if_pos hend, ← h5 hend,
        ih (addr_end x e) _ (by omega) (by omega) h3 ?_, List.append_assoc]
      have hd : (e - addr_end x e) / PAGE_SIZE + 1 ≤ (e - x) / PAGE_SIZE := by
        have h6 : e - addr_end x e + PAGE_SIZE ≤ e - x := by omega
        calc (e - addr_end x e) / PAGE_SIZE + 1
            = (e - addr_end x e + PAGE_SIZE) / PAGE_SIZE := by
              rw [Nat.add_div_right _ (by unfold PAGE_SIZE; omega)]
          _ ≤ (e - x) / PAGE_SIZE := Nat.div_le_div_right h6
      omega

theorem walk_pgd_spec (T : PageTables) (addr stop : Nat) (hreg : T.Regular addr stop)
    (hlt : stop < 4294967296) (fuel : Nat) (tr : List Event) (h : addr < stop)
    (ha : PAGE_SIZE ∣ addr) (hf : (stop - addr) / PAGE_SIZE + 3 ≤ fuel) :
    walk_pgd T fuel (T.pgd_offset addr) addr stop tr =
      some (tr ++ page_flushes (fun _ b => T.present b) 0 addr stop) := by
  obtain ⟨hg, hrest⟩ := hreg
  refine walk_level_spec T.pgd_addr_end T.pgd_none_or_bad T.pud_offset (walk_pud T)
    T.pgd_offset
    (fun pud b => !T.pud_none_or_bad pud &&
      (!T.pmd_none_or_bad (T.pmd_offset pud b) &&
        !T.pte_none_or_absent (T.pte_offset_map (T.pmd_offset pud b) b)))
    2 addr stop hg ?_ fuel addr tr (le_refl _) h ha hf
  intro x hax hx hpx fuel1 tr1 hf1
  obtain ⟨hu, hrest1⟩ := hrest x hax hx hpx
  obtain ⟨g1, g2, g3, _, _⟩ := hg x hax hx hpx
  refine walk_level_spec T.pud_addr_end T.pud_none_or_bad T.pmd_offset (walk_pmd T)
    (T.pud_offset (T.pgd_offset x))
    (fun pmd b => !T.pmd_none_or_bad pmd && !T.pte_none_or_absent (T.pte_offset_map pmd b))
    1 x (T.pgd_addr_end x stop) hu ?_ fuel1 x tr1 (le_refl _) g1 hpx hf1
  intro y hxy hy hpy fuel2 tr2 hf2
  obtain ⟨hm, hrest2⟩ := hrest1 y hxy hy hpy
  obtain ⟨u1, u2, u3, _, _⟩ := hu y hxy hy hpy
  refine walk_level_spec T.pmd_addr_end T.pmd_none_or_bad T.pte_offset_map (walk_pte T)
    (T.pmd_offset (T.pud_offset (T.pgd_offset x) y))
    (fun pte _ => !T.pte_none_or_absent pte)
    0 y (T.pud_addr_end y (T.pgd_addr_end x stop)) hm ?_ fuel2 y tr2 (le_refl _) u1 hpy hf2
  intro z hyz hz hpz fuel3 tr3 hf3
  obtain ⟨m1, m2, m3, _, _⟩ := hm z hyz hz hpz
  exact walk_pte_spec T
    (fun b => T.pte_offset_map (T.pmd_offset (T.pud_offset (T.pgd_offset x) y) z) b) z
    (T.pmd_addr_end z (T.pud_addr_end y (T.pgd_addr_end x stop))) m3 (by omega)
    (fun w h1 h2 h3 => hrest2 z hyz hz hpz w h1 h2 h3) fuel3 z tr3 (le_refl _) m1 hpz
    (by omega)

theorem page_flushes_count (P : Nat → Nat → Bool) (c e b : Nat) :
    ∀ (k a : Nat), e ≤ a + k * PAGE_SIZE →
      (page_flushes P c a e).count (Event.dmac_flush_range b (b + PAGE_SIZE)) =
        if a ≤ b ∧ b < e ∧ PAGE_SIZE ∣ (b - a) ∧ P c b = true then 1 else 0 := by
  intro k
  induction k with
  | zero =>
    intro a h
    rw [page_flushes_empty _ _ _ _ (by omega), if_neg (by omega)]
    rfl
  | succ k ih =>
    intro a h
    by_cases hae : e ≤ a
    · rw [page_flushes_empty _ _ _ _ hae, if_neg (by omega)]
      rfl
    · rw [page_flushes_cons _ _ _ _ (by omega), List.count_append,
        ih (a + PAGE_SIZE) (by rw [Nat.succ_mul] at h; omega)]
      by_cases hab : a = b
      · subst hab
        have h2 : ¬ (a + PAGE_SIZE ≤ a ∧ a < e ∧ PAGE_SIZE ∣ (a - (a + PAGE_SIZE)) ∧
            P c a = true) := by
          unfold PAGE_SIZE
          omega
        have h3 : a < e := not_le.mp hae
        rw [if_neg h2]
        cases hp : P c a <;> simp [hp, h3]
      · have h0 : (if P c a = true then [Event.dmac_flush_range a (a + PAGE_SIZE)]
            else []).count (Event.dmac_flush_range b (b + PAGE_SIZE)) = 0 := by
          split_ifs
          · rw [List.count_eq_zero]
            simp only [List.mem_singleton, Event.dmac_flush_range.injEq, not_and]
            exact fun h5 => absurd h5.symm hab
          · rfl
        rw [h0, Nat.zero_add]
        have hiff : (a + PAGE_SIZE ≤ b ∧ b < e ∧ PAGE_SIZE ∣ (b - (a + PAGE_SIZE)) ∧
            P c b = true) ↔ (a ≤ b ∧ b < e ∧ PAGE_SIZE ∣ (b - a) ∧ P c b = true) := by
          unfold PAGE_SIZE
          constructor
          · rintro ⟨h1, h2, h3, h4⟩
            exact ⟨by omega, h2, by omega, h4⟩
          · rintro ⟨h1, h2, h3, h4⟩
            exact ⟨by omega, h2, by omega, h4⟩
        simp only [hiff]

theorem page_flushes_shape (P : Nat → Nat → Bool) (c a e : Nat) (ev : Event)
    (h : ev ∈ page_flushes P c a e) : ∃ b, ev = Event.dmac_flush_range b (b + PAGE_SIZE) := by
  rw [page_flushes_eq] at h
  obtain ⟨b, _, hb⟩ := List.mem_map.mp h
  exact ⟨b, hb.symm⟩

theorem demo_tables_regular (addr stop : Nat) (hlt : stop < 4294967296)
    (hst : PAGE_SIZE ∣ stop) : demo_tables.Regular addr stop := by
  unfold PageTables.Regular Level
  simp only [demo_tables]
  unfold PAGE_SIZE at *
  have hg : ∀ x, addr ≤ x → x < stop → 4096 ∣ x →
      x < (if ((x % 4294967296 / 2097152 + 1) * 2097152 % 4294967296 + 4294967295) %
          4294967296 < (stop + 4294967295) % 4294967296
        then (x % 4294967296 / 2097152 + 1) * 2097152 % 4294967296 else stop) ∧
      (if ((x % 4294967296 / 2097152 + 1) * 2097152 % 4294967296 + 4294967295) %
          4294967296 < (stop + 4294967295) % 4294967296
        then (x % 4294967296 / 2097152 + 1) * 2097152 % 4294967296 else stop) ≤ stop ∧
      (if ((x % 4294967296 / 2097152 + 1) * 2097152 % 4294967296 + 4294967295) %
          4294967296 < (stop + 4294967295) % 4294967296
        then (x % 4294967296 / 2097152 + 1) * 2097152 % 4294967296 else stop) ≤
        (x / 2097152 + 1) * 2097152 ∧
      4096 ∣ (if ((x % 4294967296 / 2097152 + 1) * 2097152 % 4294967296 + 4294967295) %
          4294967296 < (stop + 4294967295) % 4294967296
        then (x % 4294967296 / 2097152 + 1) * 2097152 % 4294967296 else stop) ∧
      ((if ((x % 4294967296 / 2097152 + 1) * 2097152 % 4294967296 + 4294967295) %
          4294967296 < (stop + 4294967295) % 4294967296
        then (x % 4294967296 / 2097152 + 1) * 2097152 % 4294967296 else stop) ≠ stop →
        (if ((x % 4294967296 / 2097152 + 1) * 2097152 % 4294967296 + 4294967295) %
          4294967296 < (stop + 4294967295) % 4294967296
        then (x % 4294967296 / 2097152 + 1) * 2097152 % 4294967296 else stop) =
        (x / 2097152 + 1) * 2097152) := by
    intro x _ hx _
    split_ifs
    · refine ⟨by omega, by omega, by omega, by omega, fun _ => by omega⟩
    · exact ⟨hx, le_refl _, by omega, hst, fun h => absurd rfl h⟩
  refine ⟨fun x hax hx hpx => ?_, fun x hax hx hpx => ?_⟩
  · obtain ⟨g1, g2, g3, g4, g5⟩ := hg x hax hx hpx
    refine ⟨g1, g2, g4, fun b hb1 hb2 _ => by omega, fun hne => ?_⟩
    rw [g5 hne]
    omega
  · obtain ⟨g1, g2, g3, g4, g5⟩ := hg x hax hx hpx
    refine ⟨fun y _ hy _ => ⟨hy, le_refl _, g4, fun _ _ _ _ => trivial, fun h => absurd rfl h⟩,
      fun y hxy hy hpy => ⟨fun z _ hz _ =>
        ⟨hz, le_refl _, g4, fun _ _ _ _ => trivial, fun h => absurd rfl h⟩,
        fun z hyz hz hpz w hzw hw hpw => ?_⟩⟩
    omega

/-- Claim C29.  `vcsm_vma_cache_clean_page_range`, loop by loop, on page tables `T`
that are regular on the range and agree with `ptes` of the state.  For
page-aligned `addr < stop` (32-bit addresses) the walk terminates: with a bound
of `(stop - addr) / PAGE_SIZE + 3` iterations or more it returns, and what it
returns is the state with the flushes of `page_flushes` added to the trace, which
is what the one-step model `vcsm_vma_cache_clean_page_range` gives.  These
flushes are calls `dmac_flush_range(b, b + PAGE_SIZE)`, one call for `b` when
`b` is a page of `[addr, stop)` with a present page-table entry and none
otherwise.  For `addr ≥ stop` the walk returns the state as it is. -/
theorem page_walk_flushes_present (T : PageTables) (s : SM_STATE_T) (cur addr stop : Nat)
    (hs : s.status = Status.running) :
    (addr < stop → PAGE_SIZE ∣ addr → PAGE_SIZE ∣ stop → stop < 4294967296 →
      T.Regular addr stop → (∀ b, s.ptes cur b = T.present b) →
      (∀ fuel, (stop - addr) / PAGE_SIZE + 3 ≤ fuel →
        clean_page_range_walk T fuel s addr stop =
          some { s with trace := s.trace ++ page_flushes s.ptes cur addr stop } ∧
        clean_page_range_walk T fuel s addr stop =
          some (vcsm_vma_cache_clean_page_range s cur addr stop)) ∧
      (∀ ev, ev ∈ page_flushes s.ptes cur addr stop →
        ∃ b, ev = Event.dmac_flush_range b (b + PAGE_SIZE)) ∧
      ∀ b, (page_flushes s.ptes cur addr stop).count
          (Event.dmac_flush_range b (b + PAGE_SIZE)) =
        if addr ≤ b ∧ b < stop ∧ PAGE_SIZE ∣ b ∧ s.ptes cur b = true then 1 else 0) ∧
    (stop ≤ addr → ∀ fuel, clean_page_range_walk T fuel s addr stop = some s) := by
  refine ⟨fun h ha he hlt hreg hpt => ⟨fun fuel hf => ?_, ?_, fun b => ?_⟩,
    fun h fuel => ?_⟩
  · have hw : clean_page_range_walk T fuel s addr stop =
        some { s with trace := s.trace ++ page_flushes s.ptes cur addr stop } := by
      unfold clean_page_range_walk
      rw [if_neg (not_not.mpr hs), if_neg (not_le.mpr h),
        walk_pgd_spec T addr stop hreg hlt fuel s.trace h ha hf]
      dsimp only
      rw [page_flushes_congr (fun _ b => T.present b) s.ptes 0 cur stop (stop - addr) addr
        ?_ ha (fun b _ _ _ => (hpt b).symm)]
      have hp : 0 < PAGE_SIZE := by unfold PAGE_SIZE; omega
      have := Nat.le_mul_of_pos_right (stop - addr) hp
      omega
    exact ⟨hw, by rw [hw, clean_page_range_eq s cur addr stop hs]⟩
  · exact fun ev hev => page_flushes_shape _ _ _ _ ev hev
  · have hp : 0 < PAGE_SIZE := by unfold PAGE_SIZE; omega
    have hk : stop ≤ addr + (stop - addr) * PAGE_SIZE := by
      have := Nat.le_mul_of_pos_right (stop - addr) hp
      omega
    rw [page_flushes_count s.ptes cur stop b (stop - addr) addr hk]
    have hiff : (addr ≤ b ∧ b < stop ∧ PAGE_SIZE ∣ (b - addr) ∧ s.ptes cur b = true) ↔
        (addr ≤ b ∧ b < stop ∧ PAGE_SIZE ∣ b ∧ s.ptes cur b = true) := by
      unfold PAGE_SIZE at *
      constructor
      · rintro ⟨h1, h2, h3, h4⟩
        exact ⟨h1, h2, by omega, h4⟩
      · rintro ⟨h1, h2, h3, h4⟩
        exact ⟨h1, h2, by omega, h4⟩
    simp only [hiff]
  · unfold clean_page_range_walk
    rw [if_neg (not_not.mpr hs), if_pos h]

/-- Claim C29 on `demo_tables`, for the four pages around the end of the first
2 MiB: the walk returns within seven iterations of each loop, and it flushes the
page at 2093056, the one page of the range with a present page-table entry. -/
theorem page_walk_flushes_present_witness :
    clean_page_range_walk demo_tables 7 demo_paged 2088960 2105344 =
      some { demo_paged with
        trace := demo_paged.trace ++ page_flushes demo_paged.ptes 0 2088960 2105344 } ∧
    page_flushes demo_paged.ptes 0 2088960 2105344 =
      [Event.dmac_flush_range 2093056 2097152] :=
  ⟨(((page_walk_flushes_present demo_tables demo_paged 0 2088960 2105344 (by decide)).1
      (by decide) (by decide) (by decide) (by decide)
      (demo_tables_regular 2088960 2105344 (by decide) (by decide)) (fun _ => rfl)).1 7
      (by decide)).1,
    by decide⟩

theorem walk_pte_remote (T : PageTables) :
    ∀ (fuel pte addr pmd_next : Nat) (tr tr1 : List Event),
      walk_pte T fuel pte addr pmd_next tr = some tr1 → remote_calls tr1 = remote_calls tr := by
  intro fuel
  induction fuel with
  | zero =>
    intro pte addr pmd_next tr tr1 h
    have h0 : walk_pte T 0 pte addr pmd_next tr = none := rfl
    rw [h0] at h
    exact Option.noConfusion h
  | succ n ih =>
    intro pte addr pmd_next tr tr1 h
    rw [walk_pte_succ] at h
    have hstep : remote_calls (if T.pte_none_or_absent pte then tr
        else tr ++ [Event.dmac_flush_range addr (ulong_add addr PAGE_SIZE)]) =
        remote_calls tr := by
      split_ifs
      · rfl
      · simp [remote_calls, List.filter_append, Event.is_remote]
    by_cases hc : ulong_add addr PAGE_SIZE ≠ pmd_next
    · rw [if_pos hc] at h
      exact (ih _ _ _ _ _ h).trans hstep
    · rw [if_neg hc] at h
      rw [← Option.some.inj h]
      exact hstep

theorem walk_level_remote (addr_end : Nat → Nat → Nat) (none_or_bad : Nat → Bool)
    (offset : Nat → Nat → Nat)
    (inner : Nat → Nat → Nat → Nat → List Event → Option (List Event))
    (hin : ∀ (fuel p addr stop : Nat) (tr tr1 : List Event),
      inner fuel p addr stop tr = some tr1 → remote_calls tr1 = remote_calls tr) :
    ∀ (fuel p addr stop : Nat) (tr tr1 : List Event),
      walk_level addr_end none_or_bad offset inner fuel p addr stop tr = some tr1 →
      remote_calls tr1 = remote_calls tr := by
  intro fuel
  induction fuel with
  | zero =>
    intro p addr stop tr tr1 h
    have h0 : walk_level addr_end none_or_bad offset inner 0 p addr stop tr = none := rfl
    rw [h0] at h
    exact Option.noConfusion h
  | succ n ih =>
    intro p addr stop tr tr1 h
    rw [walk_level_succ] at h
    cases hb : (if none_or_bad p then some tr
        else inner n (offset p addr) addr (addr_end addr stop) tr) with
    | none =>
      rw [hb] at h
      exact Option.noConfusion h
    | some tr2 =>
      rw [hb] at h
      dsimp only at h
      have h2 : remote_calls tr2 = remote_calls tr := by
        by_cases hc : none_or_bad p = true
        · rw [if_pos hc] at hb
          rw [← Option.some.inj hb]
        · rw [if_neg hc] at hb
          exact hin _ _ _ _ _ _ hb
      by_cases hc : addr_end addr stop ≠ stop
      · rw [if_pos hc] at h
        exact (ih _ _ _ _ _ h).trans h2
      · rw [if_neg hc] at h
        rw [← Option.some.inj h]
        exact h2

theorem clean_walk_remote (T : PageTables) (fuel : Nat) (s s1 : SM_STATE_T) (addr stop : Nat)
    (h : clean_page_range_walk T fuel s addr stop = some s1) :
    remote_calls s1.trace = remote_calls s.trace ∧ s1 = { s with trace := s1.trace } := by
  unfold clean_page_range_walk at h
  by_cases c1 : s.status ≠ Status.running
  · rw [if_pos c1] at h
    rw [← Option.some.inj h]
    exact ⟨rfl, rfl⟩
  rw [if_neg c1] at h
  by_cases c2 : addr ≥ stop
  · rw [if_pos c2] at h
    rw [← Option.some.inj h]
    exact ⟨rfl, rfl⟩
  rw [if_neg c2] at h
  cases hw : walk_pgd T fuel (T.pgd_offset addr) addr stop s.trace with
  | none =>
    rw [hw] at h
    exact Option.noConfusion h
  | some tr =>
    rw [hw] at h
    dsimp only at h
    rw [← Option.some.inj h]
    refine ⟨?_, rfl⟩
    exact walk_level_remote _ _ _ _
      (walk_level_remote _ _ _ _ (walk_level_remote _ _ _ _ (walk_pte_remote T)))
      _ _ _ _ _ _ hw

theorem clean_walk_aligned (T : PageTables) (s : SM_STATE_T) (cur addr stop fuel : Nat)
    (hs : s.status = Status.running) (h : addr < stop) (ha : PAGE_SIZE ∣ addr)
    (hlt : stop < 4294967296) (hreg : T.Regular addr stop)
    (hpt : ∀ b, s.ptes cur b = T.present b) (hf : (stop - addr) / PAGE_SIZE + 3 ≤ fuel) :
    clean_page_range_walk T fuel s addr stop =
      some { s with trace := s.trace ++ page_flushes s.ptes cur addr stop } := by
  unfold clean_page_range_walk
  rw [if_neg (not_not.mpr hs), if_neg (not_le.mpr h),
    walk_pgd_spec T addr stop hreg hlt fuel s.trace h ha hf]
  dsimp only
  rw [page_flushes_congr (fun _ b => T.present b) s.ptes 0 cur stop (stop - addr) addr
    ?_ ha (fun b _ _ _ => (hpt b).symm)]
  have hp : 0 < PAGE_SIZE := by unfold PAGE_SIZE; omega
  have := Nat.le_mul_of_pos_right (stop - addr) hp
  omega

theorem walk_pte_never (T : PageTables) (pmd_next : Nat) (hn : pmd_next % 4096 ≠ 0) :
    ∀ (fuel pte addr : Nat) (tr : List Event), addr % 4096 = 0 →
      walk_pte T fuel pte addr pmd_next tr = none := by
  intro fuel
  induction fuel with
  | zero => intro _ _ _ _; rfl
  | succ n ih =>
    intro pte addr tr ha
    have h1 : ulong_add addr PAGE_SIZE % 4096 = 0 := by
      unfold ulong_add PAGE_SIZE
      omega
    have hc : ulong_add addr PAGE_SIZE ≠ pmd_next := fun h => hn (h ▸ h1)
    rw [walk_pte_succ, if_pos hc]
    exact ih _ _ _ h1

theorem walk_level_never (addr_end : Nat → Nat → Nat) (none_or_bad : Nat → Bool)
    (offset : Nat → Nat → Nat)
    (inner : Nat → Nat → Nat → Nat → List Event → Option (List Event))
    (p addr stop : Nat) (tr : List Event) (hb : none_or_bad p = false)
    (hin : ∀ fuel, inner fuel (offset p addr) addr (addr_end addr stop) tr = none) :
    ∀ fuel, walk_level addr_end none_or_bad offset inner fuel p addr stop tr = none := by
  intro fuel
  cases fuel with
  | zero => rfl
  | succ n =>
    rw [walk_level_succ, hb, if_neg (by simp), hin n]

/-! ## The clean-up of an interrupted action on the next command -/

theorem quiet_refl (s : SM_STATE_T) : Quiet s s := rfl

theorem quiet_trans {s s1 s2 : SM_STATE_T} (h1 : Quiet s s1) (h2 : Quiet s1 s2) : Quiet s s2 :=
  Eq.trans h2 h1

theorem quiet_trace {s s1 : SM_STATE_T} (h : s1.trace = s.trace) : Quiet s s1 := by
  unfold Quiet
  rw [h]

theorem quiet_event {s s1 : SM_STATE_T} {e : Event} (h : s1.trace = s.trace ++ [e])
    (he : e.is_clean_up = false) : Quiet s s1 := by
  unfold Quiet
  rw [h]
  simp [cleanups, List.filter_append, he]

theorem quiet_set_res {s t : SM_STATE_T} (h : Quiet s t) (p : Ptr) (r : SM_RESOURCE_T) :
    Quiet s (t.set_res p r) := h

theorem quiet_of_remote {s s1 : SM_STATE_T}
    (h : remote_calls s1.trace = remote_calls s.trace) : Quiet s s1 := by
  have hc : ∀ t : List Event, cleanups t = (remote_calls t).filter Event.is_clean_up := by
    intro t
    unfold cleanups remote_calls
    rw [List.filter_filter]
    congr 1
    funext e
    cases e <;> rfl
  unfold Quiet
  rw [hc, hc, h]

theorem quiet_foldl {α : Type} (f : SM_STATE_T → α → SM_STATE_T)
    (hf : ∀ st a, Quiet st (f st a)) (l : List α) (s : SM_STATE_T) :
    Quiet s (l.foldl f s) := by
  induction l generalizing s with
  | nil => exact quiet_refl s
  | cons a l ih => exact quiet_trans (hf s a) (ih (f s a))

theorem take_ref_quiet (s : SM_STATE_T) (p : Ptr) : Quiet s (take_ref s p).1 := by
  unfold take_ref
  split <;> exact quiet_trace rfl

theorem acquire_quiet (s : SM_STATE_T) (priv : Ptr) (g : Nat) :
    Quiet s (vmcs_sm_acquire_resource s priv g).1 := by
  unfold vmcs_sm_acquire_resource
  split_ifs
  · exact quiet_refl s
  · split
    · exact quiet_refl s
    · exact take_ref_quiet s _

theorem acquire_global_quiet (s : SM_STATE_T) (g : Nat) :
    Quiet s (vmcs_sm_acquire_global_resource s g).1 := by
  unfold vmcs_sm_acquire_global_resource
  split_ifs
  · exact quiet_refl s
  · split
    · exact quiet_refl s
    · exact take_ref_quiet s _

theorem deceased_quiet (s : SM_STATE_T) (p : Ptr) (t : Bool) :
    Quiet s (vc_sm_resource_deceased s p t) := by
  unfold vc_sm_resource_deceased
  split_ifs <;> (try split) <;> exact quiet_refl s

theorem kfree_quiet (s : SM_STATE_T) (p : Ptr) : Quiet s (kfree_resource s p) := by
  unfold kfree_resource
  split_ifs
  · exact quiet_refl s
  · exact quiet_trace rfl

theorem release_unlink_quiet (s : SM_STATE_T) (p : Ptr) : Quiet s (release_unlink s p) := by
  unfold release_unlink
  split_ifs
  · exact quiet_refl s
  · split <;> exact quiet_trace rfl

theorem release_vc_free_quiet (s : SM_STATE_T) (p : Ptr) : Quiet s (release_vc_free s p) := by
  unfold release_vc_free
  split_ifs
  · exact quiet_refl s
  · split
    · exact quiet_trace rfl
    · dsimp only
      split_ifs
      · exact quiet_refl s
      · exact (by apply quiet_event <;> rfl)
      · exact (by apply quiet_event <;> rfl)

theorem release_aux_quiet (fuel : Nat) : ∀ (s : SM_STATE_T) (cur : Nat) (p : Ptr) (force : Bool),
    Quiet s (release_aux fuel s cur p force) := by
  induction fuel with
  | zero =>
    intro s cur p force
    unfold release_aux
    split_ifs
    · exact quiet_refl s
    · exact quiet_trace rfl
  | succ n ih =>
    intro s cur p force
    unfold release_aux
    split_ifs
    · exact quiet_refl s
    · split
      · exact quiet_trace rfl
      · rename_i r hr
        dsimp only
        have h0 : Quiet s (s.set_res p { r with ref_count := u32_dec r.ref_count }) :=
          quiet_trace rfl
        split_ifs
        · exact h0
        · refine quiet_trans ?_ (kfree_quiet _ _)
          refine quiet_trans ?_ (deceased_quiet _ _ _)
          have h1 : ∀ t : SM_STATE_T,
              Quiet t (release_vc_free (release_unmap (release_unlink t p) cur p) p) :=
            fun t => quiet_trans (quiet_trans (release_unlink_quiet t p)
              (quiet_of_remote (release_unmap_frame _ cur p).remote))
              (release_vc_free_quiet _ p)
          split
          · exact quiet_trans (quiet_trans h0 (h1 _)) (ih _ _ _ _)
          · exact quiet_trans h0 (h1 _)

theorem release_quiet (s : SM_STATE_T) (cur : Nat) (p : Ptr) (force : Bool) :
    Quiet s (vmcs_sm_release_resource s cur p force) :=
  release_aux_quiet _ s cur p force

theorem add_resource_quiet (s : SM_STATE_T) (priv p : Ptr) :
    Quiet s (vmcs_sm_add_resource s priv p) := by
  unfold vmcs_sm_add_resource
  split_ifs
  · exact quiet_refl s
  · exact quiet_trace rfl

theorem add_map_quiet (s : SM_STATE_T) (p mp : Ptr) : Quiet s (vmcs_sm_add_map s p mp) := by
  unfold vmcs_sm_add_map
  split_ifs
  · exact quiet_refl s
  · split <;> exact quiet_trace rfl

theorem alloc_quiet (s : SM_STATE_T) (priv cur : Nat) (io : vmcs_sm_ioctl_alloc) (kz : Bool)
    (reply : AllocReply) : Quiet s (vc_sm_ioctl_alloc s priv cur io kz reply).1 := by
  unfold vc_sm_ioctl_alloc
  dsimp only
  split_ifs
  · exact quiet_refl s
  · exact quiet_refl s
  · exact quiet_trans ((by apply quiet_event <;> rfl))
      (quiet_trans (deceased_quiet _ _ _) (kfree_quiet _ _))
  · exact quiet_trans ((by apply quiet_event <;> rfl))
      (quiet_trans (deceased_quiet _ _ _) (kfree_quiet _ _))
  · exact quiet_trans (quiet_trans ((by apply quiet_event <;> rfl)) (add_resource_quiet _ _ _))
      (quiet_trace rfl)

theorem share_quiet (s : SM_STATE_T) (priv cur : Nat) (io : vmcs_sm_ioctl_alloc_share)
    (kz : Bool) : Quiet s (vc_sm_ioctl_alloc_share s priv cur io kz).1 := by
  unfold vc_sm_ioctl_alloc_share
  by_cases hs : s.status = Status.running
  · rw [if_neg (not_not.mpr hs)]
    have ha := acquire_global_quiet s io.handle
    rcases h : vmcs_sm_acquire_global_resource s io.handle with ⟨s1, _ | q⟩
    · rw [h] at ha
      exact ha
    · rw [h] at ha
      dsimp only
      cases kz with
      | false => exact quiet_trans ha (release_quiet _ _ _ _)
      | true =>
        rw [if_neg (by decide)]
        cases hq : s1.resources q with
        | none => exact quiet_trans ha (quiet_trace rfl)
        | some sh =>
          dsimp only
          refine quiet_trans ha (quiet_set_res ?_ _ _)
          refine quiet_trans ?_ (add_resource_quiet _ _ _)
          exact quiet_trace rfl
  · rw [if_pos hs]
    exact quiet_refl s

theorem free_quiet (s : SM_STATE_T) (priv cur : Nat) (io : vmcs_sm_ioctl_free) :
    Quiet s (vc_sm_ioctl_free s priv cur io).1 := by
  unfold vc_sm_ioctl_free
  by_cases hs : s.status = Status.running
  · rw [if_neg (not_not.mpr hs)]
    have ha := acquire_quiet s priv io.handle
    rcases h : vmcs_sm_acquire_resource s priv io.handle with ⟨s1, _ | q⟩
    · rw [h] at ha
      exact ha
    · rw [h] at ha
      dsimp only
      cases hq : s1.resources q with
      | none => exact quiet_trans ha (quiet_trace rfl)
      | some r =>
        dsimp only
        split_ifs
        · exact quiet_trans ha (release_quiet _ _ _ _)
        · exact quiet_trans ha (quiet_trans (release_quiet _ _ _ _) (release_quiet _ _ _ _))
  · rw [if_pos hs]
    exact quiet_refl s

theorem lock_window_quiet (s : SM_STATE_T) (p : Ptr) (kz : Bool) (ioremap_ret : Nat) :
    Quiet s (lock_window s p kz ioremap_ret).1 := by
  unfold lock_window
  cases hr : s.resources p with
  | none => exact quiet_refl s
  | some r =>
    dsimp only
    split_ifs
    · exact quiet_refl s
    · refine quiet_trans ?_ (add_map_quiet _ _ _)
      apply quiet_event <;> rfl
    · refine quiet_trans ?_ (add_map_quiet _ _ _)
      apply quiet_event <;> rfl
    · exact quiet_refl s

theorem lock_body_quiet (s : SM_STATE_T) (priv : Ptr) (cur : Nat) (p : Ptr)
    (ioparam : vmcs_sm_ioctl_lock_unlock) (change_cache : Bool) (cache_type : Nat)
    (vc_addr : Nat) (reply : LockReply) (kz : Bool) (ioremap_ret : Nat) :
    Quiet s (lock_body s priv cur p ioparam change_cache cache_type vc_addr reply kz
      ioremap_ret).1 := by
  unfold lock_body
  cases hr : s.resources p with
  | none => exact quiet_refl s
  | some r =>
    simp -zeta only []
    lift_lets
    intro f s1 f1 ra rb moved rc s2 s3
    have h1 : Quiet s s1 := by
      simp only [s1]
      split_ifs
      · apply quiet_event <;> rfl
      · exact quiet_refl s
    have h2 : Quiet s s2 := quiet_set_res h1 _ _
    have h3 : Quiet s s3 := by
      simp only [s3]
      split_ifs
      · split
        · exact quiet_trans h2 (quiet_of_remote (drop_window_steady _ _).remote)
        · exact h2
      · exact h2
    split
    · exact h1
    · split
      · exact quiet_set_res h1 _ _
      · split
        · exact h3
        · lift_lets
          intro re s4 w
          have h4 : Quiet s s4 := quiet_set_res h3 _ _
          split
          · exact h4
          · exact quiet_trans h4 (lock_window_quiet _ _ _ _)

theorem lock_quiet (s : SM_STATE_T) (priv : Ptr) (cur : Nat)
    (ioparam : vmcs_sm_ioctl_lock_unlock) (change_cache : Bool) (cache_type : Nat)
    (vc_addr : Nat) (reply : LockReply) (kz : Bool) (ioremap_ret : Nat) :
    Quiet s (vc_sm_ioctl_lock s priv cur ioparam change_cache cache_type vc_addr reply kz
      ioremap_ret).1 := by
  unfold vc_sm_ioctl_lock
  by_cases hs : s.status = Status.running
  · rw [if_neg (not_not.mpr hs)]
    have ha := acquire_quiet s priv ioparam.handle
    rcases h : vmcs_sm_acquire_resource s priv ioparam.handle with ⟨s1, _ | q⟩
    · rw [h] at ha
      exact ha
    · rw [h] at ha
      dsimp only
      cases hq : s1.resources q with
      | none => exact quiet_trans ha (quiet_refl _)
      | some r =>
        dsimp only
        split_ifs
        · exact quiet_trans ha (release_quiet _ _ _ _)
        · exact quiet_trans ha (quiet_trans (lock_body_quiet _ _ _ _ _ _ _ _ _ _ _)
            (release_quiet _ _ _ _))
  · rw [if_pos hs]
    exact quiet_refl s

theorem unlock_remote_quiet (s : SM_STATE_T) (priv : Ptr) (p : Ptr) (uh um : Nat)
    (wait_reply : Nat) (no_vc_unlock : Bool) (reply : UnlockReply) :
    Quiet s (unlock_remote s priv p uh um wait_reply no_vc_unlock reply).1 := by
  unfold unlock_remote
  by_cases hs : s.status = Status.running
  · rw [if_neg (not_not.mpr hs)]
    cases hr : s.resources p with
    | none => exact quiet_refl s
    | some r =>
      dsimp only
      split_ifs
      · exact quiet_refl s
      · exact quiet_refl s
      · apply quiet_event <;> rfl
      · apply quiet_event <;> rfl
      · apply quiet_event <;> rfl
  · rw [if_pos hs]
    exact quiet_refl s

theorem unlock_quiet (s : SM_STATE_T) (priv : Ptr) (cur : Nat)
    (ioparam : vmcs_sm_ioctl_lock_unlock) (flush : Bool) (wait_reply : Nat)
    (no_vc_unlock : Bool) (reply : UnlockReply) :
    Quiet s (vc_sm_ioctl_unlock s priv cur ioparam flush wait_reply no_vc_unlock reply).1 := by
  unfold vc_sm_ioctl_unlock
  by_cases hs : s.status = Status.running
  · rw [if_neg (not_not.mpr hs)]
    have ha := acquire_quiet s priv ioparam.handle
    rcases h : vmcs_sm_acquire_resource s priv ioparam.handle with ⟨s1, _ | q⟩
    · rw [h] at ha
      exact ha
    · rw [h] at ha
      dsimp only
      cases hq : s1.resources q with
      | none => exact quiet_trans ha (quiet_refl _)
      | some r =>
        dsimp only
        split_ifs
        · exact quiet_trans ha (release_quiet _ _ _ _)
        · exact quiet_trans ha (quiet_trans (quiet_trans
            (quiet_of_remote (unlock_prepare_steady _ _ _ _).remote)
            (unlock_remote_quiet _ _ _ _ _ _ _ _)) (release_quiet _ _ _ _))
  · rw [if_pos hs]
    exact quiet_refl s

theorem resize_quiet (s : SM_STATE_T) (priv : Ptr) (cur : Nat) (ioparam : vmcs_sm_ioctl_resize)
    (reply : ResizeReply) : Quiet s (vc_sm_ioctl_resize s priv cur ioparam reply).1 := by
  unfold vc_sm_ioctl_resize
  by_cases hs : s.status = Status.running
  · rw [if_neg (not_not.mpr hs)]
    have ha := acquire_quiet s priv ioparam.handle
    rcases h : vmcs_sm_acquire_resource s priv ioparam.handle with ⟨s1, _ | q⟩
    · rw [h] at ha
      exact ha
    · rw [h] at ha
      dsimp only
      cases hq : s1.resources q with
      | none => exact quiet_trans ha (quiet_refl _)
      | some r =>
        dsimp only
        have hev : Quiet s1
            { s1 with
              trace := s1.trace ++
                [Event.vc_vchi_sm_resize r.res_handle r.res_base_mem ioparam.new_size]
              sessions := Function.update s1.sessions priv
                { s1.sessions priv with int_trans_id := reply.trans_id } } := by
          apply quiet_event <;> rfl
        split_ifs
        · exact quiet_trans ha (release_quiet _ _ _ _)
        · exact quiet_trans ha (release_quiet _ _ _ _)
        · exact quiet_trans ha (release_quiet _ _ _ _)
        · exact quiet_trans ha (quiet_trans (quiet_trans hev (quiet_refl _))
            (release_quiet _ _ _ _))
        · exact quiet_trans ha (quiet_trans hev (release_quiet _ _ _ _))
        · exact quiet_trans ha (quiet_trans (quiet_set_res hev _ _) (release_quiet _ _ _ _))
  · rw [if_pos hs]
    exact quiet_refl s

theorem ioctl_cache_quiet (s : SM_STATE_T) (file_data : Ptr) (cur : Nat)
    (ioparam : vmcs_sm_ioctl_cache) (inval : Bool) (T : PageTables) (fuel : Nat) :
    Quiet s (ioctl_cache s file_data cur ioparam inval T fuel).1 := by
  unfold ioctl_cache
  have ha := acquire_quiet s file_data ioparam.handle
  rcases h : vmcs_sm_acquire_resource s file_data ioparam.handle with ⟨s1, _ | q⟩
  · rw [h] at ha
    exact ha
  · rw [h] at ha
    simp -zeta only []
    cases hq : s1.resources q with
    | none => exact quiet_trans ha (quiet_refl _)
    | some r =>
      simp -zeta only []
      by_cases hc : r.res_cached ≠ 0
      · rw [if_pos hc]
        lift_lets
        intro s2 phys_addr phys_end addr stop s21
        have h2 : Quiet s s2 := quiet_set_res ha _ _
        have h21 : Quiet s s21 := by
          refine quiet_trans h2 ?_
          apply quiet_event <;> rfl
        cases inval with
        | true =>
          rw [if_pos rfl]
          cases hw : clean_page_range_walk T fuel s21 addr stop with
          | none => exact quiet_trans h21 (quiet_trace rfl)
          | some s3 =>
            exact quiet_trans (quiet_trans h21
              (quiet_of_remote (clean_walk_remote T fuel s21 s3 addr stop hw).1))
              (release_quiet _ _ _ _)
        | false =>
          rw [if_neg (by simp)]
          cases hw : clean_page_range_walk T fuel s2 addr stop with
          | none => exact quiet_trans h2 (quiet_trace rfl)
          | some s3 =>
            refine quiet_trans (quiet_trans (quiet_trans h2
              (quiet_of_remote (clean_walk_remote T fuel s2 s3 addr stop hw).1)) ?_)
              (release_quiet _ _ _ _)
            apply quiet_event <;> rfl
      · rw [if_neg hc]
        exact quiet_trans ha (release_quiet _ _ _ _)

theorem query_quiet (s : SM_STATE_T) (file_data : Ptr) (cur : Nat) (g : Nat) (α : Type)
    (d d1 : α) (k : SM_STATE_T → SM_RESOURCE_T → α) :
    Quiet s (match vmcs_sm_acquire_resource s file_data g with
      | (s1, none) => (s1, d)
      | (s1, some resource) =>
        match s1.resources resource with
        | none => (s1.crash, d1)
        | some r => (vmcs_sm_release_resource s1 cur resource false, k s1 r)).1 := by
  have ha := acquire_quiet s file_data g
  rcases h : vmcs_sm_acquire_resource s file_data g with ⟨s1, _ | q⟩
  · rw [h] at ha
    exact ha
  · rw [h] at ha
    dsimp only
    cases hq : s1.resources q with
    | none => exact quiet_trans ha (quiet_refl _)
    | some r => exact quiet_trans ha (release_quiet _ _ _ _)

theorem ioctl_switch_quiet (s : SM_STATE_T) (file_data : Ptr) (cur : Nat) (req : Request)
    (env : IoctlEnv) : Quiet s (ioctl_switch s file_data cur req env).1 := by
  cases req with
  | VMCS_SM_CMD_ALLOC io =>
    simp only [ioctl_switch]
    split_ifs
    · exact quiet_refl s
    · exact alloc_quiet _ _ _ _ _ _
    · exact quiet_trans (alloc_quiet _ _ _ _ _ _) (free_quiet _ _ _ _)
    · exact alloc_quiet _ _ _ _ _ _
  | VMCS_SM_CMD_ALLOC_SHARE io =>
    simp only [ioctl_switch]
    split_ifs
    · exact quiet_refl s
    · exact share_quiet _ _ _ _ _
    · exact quiet_trans (share_quiet _ _ _ _ _) (free_quiet _ _ _ _)
    · exact share_quiet _ _ _ _ _
  | VMCS_SM_CMD_LOCK_CACHE io =>
    simp only [ioctl_switch]
    split_ifs
    · exact quiet_refl s
    · exact lock_quiet _ _ _ _ _ _ _ _ _ _
  | VMCS_SM_CMD_LOCK io =>
    simp only [ioctl_switch]
    split_ifs
    · exact quiet_refl s
    · exact lock_quiet _ _ _ _ _ _ _ _ _ _
    · exact lock_quiet _ _ _ _ _ _ _ _ _ _
  | VMCS_SM_CMD_UNLOCK io =>
    simp only [ioctl_switch]
    split_ifs
    · exact quiet_refl s
    · exact unlock_quiet _ _ _ _ _ _ _ _
  | VMCS_SM_CMD_RESIZE io =>
    simp only [ioctl_switch]
    split_ifs
    · exact quiet_refl s
    · exact resize_quiet _ _ _ _ _
    · exact resize_quiet _ _ _ _ _
  | VMCS_SM_CMD_FREE io =>
    simp only [ioctl_switch]
    split_ifs
    · exact quiet_refl s
    · exact free_quiet _ _ _ _
  | VMCS_SM_CMD_VC_WALK_ALLOC =>
    simp only [ioctl_switch]
    apply quiet_event <;> rfl
  | VMCS_SM_CMD_HOST_WALK_MAP => exact quiet_refl s
  | VMCS_SM_CMD_HOST_WALK_PID_ALLOC io =>
    simp only [ioctl_switch]
    split_ifs <;> exact quiet_refl s
  | VMCS_SM_CMD_HOST_WALK_PID_MAP io =>
    simp only [ioctl_switch]
    split_ifs <;> exact quiet_refl s
  | VMCS_SM_CMD_SIZE_USR_HANDLE io =>
    simp only [ioctl_switch]
    split_ifs
    · exact quiet_refl s
    · exact query_quiet s file_data cur _ _ _ _ (fun _ r => r.res_size)
    · exact query_quiet s file_data cur _ _ _ _ (fun _ r => r.res_size)
  | VMCS_SM_CMD_CHK_USR_HANDLE io =>
    simp only [ioctl_switch]
    split_ifs
    · exact quiet_refl s
    · exact query_quiet s file_data cur _ _ _ _ _
    · exact query_quiet s file_data cur _ _ _ _ _
  | VMCS_SM_CMD_MAPPED_USR_HANDLE io =>
    simp only [ioctl_switch]
    split_ifs
    · exact quiet_refl s
    · exact query_quiet s file_data cur _ _ _ _ _
    · exact query_quiet s file_data cur _ _ _ _ _
  | VMCS_SM_CMD_MAPPED_VC_HDL_FROM_ADDR io =>
    simp only [ioctl_switch]
    split_ifs <;> exact quiet_refl s
  | VMCS_SM_CMD_MAPPED_VC_HDL_FROM_HDL io =>
    simp only [ioctl_switch]
    split_ifs
    · exact quiet_refl s
    · exact query_quiet s file_data cur _ _ _ _ (fun _ r => r.res_handle)
    · exact query_quiet s file_data cur _ _ _ _ (fun _ r => r.res_handle)
  | VMCS_SM_CMD_MAPPED_USR_ADDRESS io =>
    simp only [ioctl_switch]
    split_ifs <;> exact quiet_refl s
  | VMCS_SM_CMD_FLUSH io =>
    simp only [ioctl_switch]
    split_ifs
    · exact quiet_refl s
    · exact ioctl_cache_quiet _ _ _ _ _ _ _
  | VMCS_SM_CMD_INVALID io =>
    simp only [ioctl_switch]
    split_ifs
    · exact quiet_refl s
    · exact ioctl_cache_quiet _ _ _ _ _ _ _
  | unknown n => exact quiet_refl s

/-- Claim C20.  `vc_sm_ioctl` in a running state, for every command and every
answer of the environment.  When session `file_data` has a pending interrupted
action (`restart_sys = -EINTR`), the command is processed from the state in
which `vc_vchi_sm_clean_up` has been called with the recorded `int_action` and
`int_trans_id` and `restart_sys` is 0, and that call is the only call of
`vc_vchi_sm_clean_up` the whole of `vc_sm_ioctl` adds to the trace.  When no
action is pending the command is processed from the state as it is and no call
of `vc_vchi_sm_clean_up` is added. -/
theorem ioctl_cleans_pending (s : SM_STATE_T) (file_data : Ptr) (cur : Nat) (req : Request)
    (env : IoctlEnv) (hs : s.status = Status.running) :
    ((s.sessions file_data).restart_sys = -EINTR →
      vc_sm_ioctl s file_data cur req env =
        ioctl_switch
          { s with
            trace := s.trace ++ [Event.vc_vchi_sm_clean_up (s.sessions file_data).int_action
              (s.sessions file_data).int_trans_id]
            sessions := Function.update s.sessions file_data
              { s.sessions file_data with restart_sys := 0 } }
          file_data cur req env ∧
      cleanups (vc_sm_ioctl s file_data cur req env).1.trace =
        cleanups s.trace ++ [Event.vc_vchi_sm_clean_up (s.sessions file_data).int_action
          (s.sessions file_data).int_trans_id]) ∧
    ((s.sessions file_data).restart_sys ≠ -EINTR →
      vc_sm_ioctl s file_data cur req env = ioctl_switch s file_data cur req env ∧
      cleanups (vc_sm_ioctl s file_data cur req env).1.trace = cleanups s.trace) := by
  constructor
  · intro hp
    have h1 : vc_sm_ioctl s file_data cur req env =
        ioctl_switch
          { s with
            trace := s.trace ++ [Event.vc_vchi_sm_clean_up (s.sessions file_data).int_action
              (s.sessions file_data).int_trans_id]
            sessions := Function.update s.sessions file_data
              { s.sessions file_data with restart_sys := 0 } }
          file_data cur req env := by
      unfold vc_sm_ioctl ioctl_clean_up
      rw [if_neg (not_not.mpr hs)]
      dsimp only
      rw [if_pos hp]
    refine ⟨h1, ?_⟩
    rw [h1]
    have hq := ioctl_switch_quiet
      { s with
        trace := s.trace ++ [Event.vc_vchi_sm_clean_up (s.sessions file_data).int_action
          (s.sessions file_data).int_trans_id]
        sessions := Function.update s.sessions file_data
          { s.sessions file_data with restart_sys := 0 } }
      file_data cur req env
    unfold Quiet at hq
    rw [hq]
    simp [cleanups, List.filter_append, Event.is_clean_up]
  · intro hp
    have h1 : vc_sm_ioctl s file_data cur req env = ioctl_switch s file_data cur req env := by
      unfold vc_sm_ioctl ioctl_clean_up
      rw [if_neg (not_not.mpr hs)]
      dsimp only
      rw [if_neg hp]
    refine ⟨h1, ?_⟩
    rw [h1]
    exact ioctl_switch_quiet s file_data cur req env

/-- Claim C20 on `demo_pending`, where session 10 has a pending `LOCK` of transaction
9: the next command, here one with an unknown number, adds exactly the clean-up
of that action. -/
theorem ioctl_cleans_pending_witness :
    cleanups (vc_sm_ioctl demo_pending.1 10 100 (Request.unknown 0) demo_env).1.trace =
      cleanups demo_pending.1.trace ++
        [Event.vc_vchi_sm_clean_up VC_SM_MSG_TYPE.VC_SM_MSG_TYPE_LOCK 9] :=
  ((ioctl_cleans_pending demo_pending.1 10 100 (Request.unknown 0) demo_env (by decide)).1
    (by decide)).2

/-! ## A remote allocation that does not deliver -/

theorem alloc_failed (s : SM_STATE_T) (priv cur : Nat) (io : vmcs_sm_ioctl_alloc)
    (reply : AllocReply) (hs : s.status = Status.running) (he : reply.status ≠ -EINTR)
    (hf : reply.status ≠ 0 ∨ reply.res_mem = 0) :
    vc_sm_ioctl_alloc s priv cur io true reply =
      ({ s with
          brk := s.brk + 1
          trace := s.trace ++ [Event.vc_vchi_sm_alloc
            (io.cached == VMCS_SM_CACHE_VC || io.cached == VMCS_SM_CACHE_BOTH)
            (align_unit io.size 4096) io.num 4096 cur]
          sessions := Function.update s.sessions priv
            { s.sessions priv with int_trans_id := reply.trans_id }
          resources := Function.update s.resources s.brk none
          res_terminated_cnt := u32_inc s.res_terminated_cnt
          terminated := stats_add s.terminated (stat_inc (List.replicate 15 0) ALLOC_FAIL) },
        -ENOMEM, io) := by
  simp [vc_sm_ioctl_alloc, hs, he, hf, alloc_discard, vc_sm_resource_deceased, kfree_resource,
    SM_RESOURCE_T.zero, SM_STATE_T.set_res]

/-- Claim C30.  In a running state, once the tracking record is allocated, a remote
allocate call that is interrupted (`-EINTR`), fails (another non-zero status)
or succeeds with a null address makes `vc_sm_ioctl_alloc` return
`-ERESTARTSYS` in the first case and `-ENOMEM` in the others.  The global list
and every session list are as before, the GUID counter is as before, the cell
of the tracking record is free again and every other record is untouched;
`res_terminated_cnt` is one higher, the statistics of the discarded record
(only `ALLOC_FAIL`, counted once unless the call was interrupted) are added to
`terminated`, and the counters of natural terminations are as before. -/
theorem alloc_failure_accounted (s : SM_STATE_T) (priv cur : Nat) (io : vmcs_sm_ioctl_alloc)
    (reply : AllocReply) (hs : s.status = Status.running)
    (hf : reply.status = -EINTR ∨ reply.status ≠ 0 ∨ reply.res_mem = 0) :
    (vc_sm_ioctl_alloc s priv cur io true reply).2.1 =
      (if reply.status = -EINTR then -ERESTARTSYS else -ENOMEM) ∧
    (vc_sm_ioctl_alloc s priv cur io true reply).2.1 ≠ 0 ∧
    (vc_sm_ioctl_alloc s priv cur io true reply).1.resource_list = s.resource_list ∧
    (∀ g, ((vc_sm_ioctl_alloc s priv cur io true reply).1.sessions g).resource_list =
      (s.sessions g).resource_list) ∧
    (vc_sm_ioctl_alloc s priv cur io true reply).1.guid = s.guid ∧
    (vc_sm_ioctl_alloc s priv cur io true reply).1.resources s.brk = none ∧
    (∀ q, q ≠ s.brk →
      (vc_sm_ioctl_alloc s priv cur io true reply).1.resources q = s.resources q) ∧
    (vc_sm_ioctl_alloc s priv cur io true reply).1.res_terminated_cnt =
      u32_inc s.res_terminated_cnt ∧
    (s.res_terminated_cnt < 4294967295 →
      (vc_sm_ioctl_alloc s priv cur io true reply).1.res_terminated_cnt =
        s.res_terminated_cnt + 1) ∧
    (vc_sm_ioctl_alloc s priv cur io true reply).1.terminated =
      stats_add s.terminated
        (if reply.status = -EINTR then List.replicate 15 0
          else stat_inc (List.replicate 15 0) ALLOC_FAIL) ∧
    (vc_sm_ioctl_alloc s priv cur io true reply).1.res_deceased_cnt = s.res_deceased_cnt ∧
    (vc_sm_ioctl_alloc s priv cur io true reply).1.deceased = s.deceased := by
  have hlist : ∀ (d : SM_PRIV_DATA_T), d.resource_list = (s.sessions priv).resource_list →
      ∀ g, (Function.update s.sessions priv d g).resource_list =
        (s.sessions g).resource_list := by
    intro d hd g
    by_cases hg : g = priv
    · subst hg; simp [hd]
    · simp [Function.update_noteq hg]
  by_cases he : reply.status = -EINTR
  · rw [alloc_interrupted s priv cur io reply hs he, if_pos he, if_pos he]
    refine ⟨rfl, (by decide : (-ERESTARTSYS : Int) ≠ 0), rfl, hlist _ rfl, rfl, Function.update_same _ _ _,
      fun q hq => Function.update_noteq hq _ _, rfl, fun h => u32_inc_of_lt h, rfl, rfl, rfl⟩
  · have hf1 : reply.status ≠ 0 ∨ reply.res_mem = 0 := hf.resolve_left he
    rw [alloc_failed s priv cur io reply hs he hf1, if_neg he, if_neg he]
    refine ⟨rfl, (by decide : (-ENOMEM : Int) ≠ 0), rfl, hlist _ rfl, rfl, Function.update_same _ _ _,
      fun q hq => Function.update_noteq hq _ _, rfl, fun h => u32_inc_of_lt h, rfl, rfl, rfl⟩

/-- Claim C30 after start-up: the remote side answers the first allocation with
status 0 and a null address. -/
theorem alloc_failure_accounted_witness :
    (vc_sm_ioctl_alloc demo_init 10 100 { size := 4096, num := 1, cached := 0, handle := 0 } true
      { status := 0, res_handle := 77, res_mem := 0, trans_id := 1 }).2.1 = -ENOMEM ∧
    (vc_sm_ioctl_alloc demo_init 10 100 { size := 4096, num := 1, cached := 0, handle := 0 } true
      { status := 0, res_handle := 77, res_mem := 0, trans_id := 1 }).1.resource_list = [] ∧
    (vc_sm_ioctl_alloc demo_init 10 100 { size := 4096, num := 1, cached := 0, handle := 0 } true
      { status := 0, res_handle := 77, res_mem := 0, trans_id := 1 }).1.guid = 0 ∧
    (vc_sm_ioctl_alloc demo_init 10 100 { size := 4096, num := 1, cached := 0, handle := 0 } true
      { status := 0, res_handle := 77, res_mem := 0, trans_id := 1 }).1.res_terminated_cnt = 1 :=
  have h := alloc_failure_accounted demo_init 10 100
    { size := 4096, num := 1, cached := 0, handle := 0 }
    { status := 0, res_handle := 77, res_mem := 0, trans_id := 1 } (by decide)
    (Or.inr (Or.inr rfl))
  ⟨h.1, h.2.2.1, h.2.2.2.2.1, h.2.2.2.2.2.2.2.1⟩

/-! ## Closing a session after an interrupted call -/

theorem acquire_first_quiet (s : SM_STATE_T) (priv : Ptr) :
    Quiet s (vmcs_sm_acquire_first_resource s priv).1 := by
  unfold vmcs_sm_acquire_first_resource
  split_ifs
  · exact quiet_refl s
  · split
    · exact quiet_refl s
    · exact take_ref_quiet s _

theorem release_all_quiet (cur : Nat) (file_data : Ptr) :
    ∀ (fuel : Nat) (s : SM_STATE_T), Quiet s (release_all fuel s cur file_data) := by
  intro fuel
  induction fuel with
  | zero =>
    intro s
    unfold release_all
    split_ifs <;> exact quiet_refl s
  | succ n ih =>
    intro s
    unfold release_all
    have ha := acquire_first_quiet s file_data
    rcases h : vmcs_sm_acquire_first_resource s file_data with ⟨s1, _ | q⟩
    · rw [h] at ha
      exact ha
    · rw [h] at ha
      dsimp only
      exact quiet_trans ha (quiet_trans (quiet_trans (release_quiet _ _ _ _)
        (release_quiet _ _ _ _)) (ih _))

theorem release_cleanups (fuel : Nat) (s : SM_STATE_T) (cur : Nat) (file_data : Ptr)
    (hs : s.status = Status.running) :
    cleanups (vc_sm_release fuel s cur file_data).trace =
      cleanups s.trace ++
        (if (s.sessions file_data).restart_sys = -EINTR then
          [Event.vc_vchi_sm_clean_up (s.sessions file_data).int_action
            (s.sessions file_data).int_trans_id]
        else []) := by
  unfold vc_sm_release
  have hq := release_all_quiet cur file_data fuel (release_clean_up s file_data)
  unfold Quiet at hq
  rw [hq]
  unfold release_clean_up
  rw [if_neg (not_not.mpr hs)]
  dsimp only
  split_ifs
  · simp [cleanups, List.filter_append, Event.is_clean_up]
  · simp

theorem ioctl_clean_up_facts (s : SM_STATE_T) (file_data : Ptr) :
    (ioctl_clean_up s file_data).status = s.status ∧
    (ioctl_clean_up s file_data).resources = s.resources ∧
    (ioctl_clean_up s file_data).resource_list = s.resource_list ∧
    ∀ g, ((ioctl_clean_up s file_data).sessions g).resource_list =
      (s.sessions g).resource_list := by
  unfold ioctl_clean_up
  dsimp only
  split_ifs
  · refine ⟨rfl, rfl, rfl, fun g => ?_⟩
    by_cases hg : g = file_data
    · subst hg; simp
    · simp [Function.update_noteq hg]
  · exact ⟨rfl, rfl, rfl, fun _ => rfl⟩

/-- The close right after an interrupted lock.  A lock of a resource `p` of session
`file_data`, by a caller allowed
to lock it, whose remote call is interrupted, followed by the close of the
session with no request on it in between: `vc_sm_release` adds exactly one
call of `vc_vchi_sm_clean_up` to the trace, with action `VC_SM_MSG_TYPE_LOCK`
and the transaction id of the interrupted lock, whatever the bound on its
loop.  This holds for the lock function called on its own and for the `LOCK`
command entering through `vc_sm_ioctl`. -/
theorem close_cleans_interrupted_lock (s : SM_STATE_T) (file_data : Ptr) (cur cur2 : Nat)
    (io : vmcs_sm_ioctl_lock_unlock) (p : Ptr) (r : SM_RESOURCE_T) (fuel : Nat)
    (hs : s.status = Status.running)
    (hf : find_guid s.resources (s.sessions file_data).resource_list io.handle = some p)
    (hr : s.resources p = some r) (hpid : r.pid = 0 ∨ r.pid = cur)
    (h1 : 1 ≤ r.ref_count) (hlt : r.ref_count < 4294967295) :
    (∀ (change_cache : Bool) (cache_type : Nat) (reply : LockReply) (kz : Bool)
        (ioremap_ret : Nat), reply.status = -EINTR →
      cleanups (vc_sm_release fuel
          (vc_sm_ioctl_lock s file_data cur io change_cache cache_type 0 reply kz
            ioremap_ret).1 cur2 file_data).trace =
        cleanups (vc_sm_ioctl_lock s file_data cur io change_cache cache_type 0 reply kz
            ioremap_ret).1.trace ++
          [Event.vc_vchi_sm_clean_up VC_SM_MSG_TYPE.VC_SM_MSG_TYPE_LOCK reply.trans_id]) ∧
    (∀ (env : IoctlEnv), env.copy_from_user = true → env.lock_reply.status = -EINTR →
      cleanups (vc_sm_release fuel
          (vc_sm_ioctl s file_data cur (Request.VMCS_SM_CMD_LOCK io) env).1 cur2
            file_data).trace =
        cleanups (vc_sm_ioctl s file_data cur (Request.VMCS_SM_CMD_LOCK io) env).1.trace ++
          [Event.vc_vchi_sm_clean_up VC_SM_MSG_TYPE.VC_SM_MSG_TYPE_LOCK
            env.lock_reply.trans_id]) := by
  constructor
  · intro change_cache cache_type reply kz ioremap_ret he
    have hl := lock_interrupted s file_data cur io change_cache cache_type reply kz
      ioremap_ret p r hs hf hr hpid h1 hlt he
    rw [release_cleanups fuel _ cur2 file_data (by rw [hl]; exact hs)]
    rw [hl]
    simp
  · intro env hc he
    obtain ⟨c1, c2, _, c4⟩ := ioctl_clean_up_facts s file_data
    have hl := lock_interrupted (ioctl_clean_up s file_data) file_data cur io false 0
      env.lock_reply env.kz env.ioremap_ret p r (c1.trans hs)
      (by rw [c2, c4]; exact hf) (by rw [c2]; exact hr) hpid h1 hlt he
    have hu : (vc_sm_ioctl s file_data cur (Request.VMCS_SM_CMD_LOCK io) env).1 =
        (vc_sm_ioctl_lock (ioctl_clean_up s file_data) file_data cur io false 0 0
          env.lock_reply env.kz env.ioremap_ret).1 := by
      unfold vc_sm_ioctl
      rw [if_neg (not_not.mpr hs)]
      simp only [ioctl_switch, hc, Bool.true_eq_false, if_false]
      split_ifs <;> rfl
    rw [hu]
    rw [release_cleanups fuel _ cur2 file_data (by rw [hl]; exact c1.trans hs)]
    rw [hl]
    simp

/-- On the page of `demo_alloc`: the lock of its owner is interrupted
(transaction 9) and the session is closed. -/
theorem close_cleans_interrupted_lock_witness :
    cleanups (vc_sm_release 5
        (vc_sm_ioctl_lock demo_alloc.1 10 100 { handle := 4096, addr := 0 } false 0 0
          { status := -EINTR, res_mem := 0, res_old_mem := 0, trans_id := 9 } true 0).1 100
        10).trace =
      cleanups (vc_sm_ioctl_lock demo_alloc.1 10 100 { handle := 4096, addr := 0 } false 0 0
          { status := -EINTR, res_mem := 0, res_old_mem := 0, trans_id := 9 } true 0).1.trace ++
        [Event.vc_vchi_sm_clean_up VC_SM_MSG_TYPE.VC_SM_MSG_TYPE_LOCK 9] :=
  (close_cleans_interrupted_lock demo_alloc.1 10 100 100 { handle := 4096, addr := 0 } 1
    demo_record 5 (by decide) (by decide) (by decide) (by decide) (by decide) (by decide)).1
    false 0 { status := -EINTR, res_mem := 0, res_old_mem := 0, trans_id := 9 } true 0 rfl

/-! ## A teardown whose remote free fails -/

theorem free_fail_counted (st : List Nat) (hlen : st.length = 15) (A : List Nat) :
    (stat_inc (stat_inc st FREE) FREE_FAIL).getD FREE_FAIL 0 =
      u32_inc (st.getD FREE_FAIL 0) ∧
    (stats_add A (stat_inc (stat_inc st FREE) FREE_FAIL)).getD FREE_FAIL 0 =
      (A.getD FREE_FAIL 0 + u32_inc (st.getD FREE_FAIL 0)) % 4294967296 := by
  have h1 : (stat_inc (stat_inc st FREE) FREE_FAIL).getD FREE_FAIL 0 =
      u32_inc (st.getD FREE_FAIL 0) := by
    simp [stat_inc, FREE, FREE_FAIL, List.getD_eq_getElem?_getD, List.getElem?_set, hlen]
  refine ⟨h1, ?_⟩
  rw [← h1]
  simp [stats_add, END_ALL, FREE_FAIL, List.getD_eq_getElem?_getD, List.getElem?_map,
    List.getElem?_range]

theorem teardown_failed_free (s : SM_STATE_T) (cur : Nat) (p : Ptr) (force : Bool)
    (r : SM_RESOURCE_T) (hs : s.status = Status.running) (hr : s.resources p = some r)
    (h1 : r.ref_count = 1) (hsh : r.res_shared = none) (hH : r.res_handle ≠ 0)
    (hscan : ∀ q ∈ s.resource_list, q ≠ p → ∀ rq, s.resources q = some rq →
      rq.res_handle ≠ r.res_handle)
    (hfail : ∀ t, (s.vchi_free t r.res_handle r.res_base_mem).status ≠ 0 ∧
      (s.vchi_free t r.res_handle r.res_base_mem).status ≠ -EINTR)
    (hrun : (vmcs_sm_release_resource s cur p force).status = Status.running) :
    ∃ sm : SM_STATE_T, MapFrame
        { s with
          sessions := Function.update s.sessions r.priv
            { s.sessions r.priv with
              resource_list := list_del p (s.sessions r.priv).resource_list }
          resource_list := list_del p s.resource_list
          resources := Function.update s.resources p
            (some { r with ref_count := 0, res_stats := stat_inc r.res_stats FREE }) } sm ∧
      vmcs_sm_release_resource s cur p force =
        { sm with
          trace := sm.trace ++ [Event.vc_vchi_sm_free r.res_handle r.res_base_mem]
          sessions := Function.update sm.sessions r.priv
            { sm.sessions r.priv with
              int_trans_id := (s.vchi_free sm.trace r.res_handle r.res_base_mem).trans_id }
          resources := Function.update sm.resources p none
          res_terminated_cnt :=
            if force then u32_inc sm.res_terminated_cnt else sm.res_terminated_cnt
          terminated :=
            if force then stats_add sm.terminated
              (stat_inc (stat_inc r.res_stats FREE) FREE_FAIL)
            else sm.terminated
          res_deceased_cnt :=
            if force then sm.res_deceased_cnt else u32_inc sm.res_deceased_cnt
          deceased :=
            if force then sm.deceased
            else stats_add sm.deceased (stat_inc (stat_inc r.res_stats FREE) FREE_FAIL) } := by
  have hd : u32_dec r.ref_count = 0 := by rw [h1]; exact u32_dec_one
  unfold vmcs_sm_release_resource at hrun ⊢
  rw [release_aux_teardown p s cur p force r hs hr hd] at hrun ⊢
  have hu : release_unlink (s.set_res p { r with ref_count := 0 }) p =
      { s with
        sessions := Function.update s.sessions r.priv
          { s.sessions r.priv with
            resource_list := list_del p (s.sessions r.priv).resource_list }
        resource_list := list_del p s.resource_list
        resources := Function.update s.resources p
          (some { r with ref_count := 0, res_stats := stat_inc r.res_stats FREE }) } := by
    have hsc : handle_in_use
        (Function.update s.resources p (some { r with ref_count := 0 }))
        (list_del p s.resource_list) r.res_handle = false := by
      apply handle_in_use_eq_false
      intro q hq rq hrq
      simp only [mem_list_del] at hq
      simp only [Function.update_noteq hq.2] at hrq
      exact hscan q hq.1 hq.2 rq hrq
    simp [release_unlink, hs, hsc]
  rw [hu] at hrun ⊢
  have hF := release_unmap_frame
    { s with
      sessions := Function.update s.sessions r.priv
        { s.sessions r.priv with
          resource_list := list_del p (s.sessions r.priv).resource_list }
      resource_list := list_del p s.resource_list
      resources := Function.update s.resources p
        (some { r with ref_count := 0, res_stats := stat_inc r.res_stats FREE }) } cur p
  refine ⟨_, hF, ?_⟩
  generalize release_unmap
    { s with
      sessions := Function.update s.sessions r.priv
        { s.sessions r.priv with
          resource_list := list_del p (s.sessions r.priv).resource_list }
      resource_list := list_del p s.resource_list
      resources := Function.update s.resources p
        (some { r with ref_count := 0, res_stats := stat_inc r.res_stats FREE }) } cur p = sm
    at hrun hF ⊢
  obtain ⟨r1, hr1, hc⟩ := mapframe_lookup hF (Function.update_same _ _ _)
  obtain ⟨_, _, _, _, e5, e6, _, _, e9, e10, e11⟩ := core_eq_fields hc
  have e5' : r1.res_handle = r.res_handle := e5
  have e6' : r1.res_base_mem = r.res_base_mem := e6
  have e9' : r1.res_shared = none := e9.trans hsh
  have e10' : r1.res_stats = stat_inc r.res_stats FREE := e10
  have e11' : r1.priv = r.priv := e11
  have hsm : sm.status = Status.running := by
    by_contra hne
    have : release_vc_free sm p = sm := by simp [release_vc_free, hne]
    rw [this] at hrun
    have hso : shared_of sm p = none := by simp [shared_of, hr1, e9']
    rw [hso] at hrun
    simp [vc_sm_resource_deceased, kfree_resource, hne] at hrun
  have hvf : sm.vchi_free = s.vchi_free := hF.vchi_free
  have hfl := hfail sm.trace
  have hv : release_vc_free sm p =
      { sm with
        trace := sm.trace ++ [Event.vc_vchi_sm_free r.res_handle r.res_base_mem]
        sessions := Function.update sm.sessions r.priv
          { sm.sessions r.priv with
            int_trans_id := (s.vchi_free sm.trace r.res_handle r.res_base_mem).trans_id }
        resources := Function.update sm.resources p
          (some { r1 with res_stats := stat_inc (stat_inc r.res_stats FREE) FREE_FAIL }) } := by
    simp [release_vc_free, hsm, hr1, e5', e6', e10', e11', hH, hvf, hfl, SM_STATE_T.set_res]
  rw [hv]
  cases force <;>
    simp [shared_of, e9', vc_sm_resource_deceased, kfree_resource, hsm]

/-- Claim C22.  A release that takes the last reference (`ref_count` 1) of a resource
`p` without alias link whose remote handle no other registered resource has,
so that the remote free is issued, when the remote side refuses that free with
a status other than `-EINTR`, in a run that dereferences no freed record.  The
resource leaves the global list and the list of its session and its record is
freed; exactly one remote call, the free, is issued; one termination is
recorded, forced or natural as `force` says, and the statistics of the
resource, with `FREE` and `FREE_FAIL` each counted once more, are added to the
aggregate of that kind, whose `FREE_FAIL` entry thus grows by the `FREE_FAIL`
of the resource plus one; the counters of the other kind are as before. -/
theorem release_counts_failed_free (s : SM_STATE_T) (cur : Nat) (p : Ptr) (force : Bool)
    (r : SM_RESOURCE_T) (hs : s.status = Status.running) (hr : s.resources p = some r)
    (h1 : r.ref_count = 1) (hsh : r.res_shared = none) (hH : r.res_handle ≠ 0)
    (hscan : ∀ q ∈ s.resource_list, q ≠ p → ∀ rq, s.resources q = some rq →
      rq.res_handle ≠ r.res_handle)
    (hlen : r.res_stats.length = 15)
    (hfail : ∀ t, (s.vchi_free t r.res_handle r.res_base_mem).status ≠ 0 ∧
      (s.vchi_free t r.res_handle r.res_base_mem).status ≠ -EINTR)
    (hrun : (vmcs_sm_release_resource s cur p force).status = Status.running) :
    (vmcs_sm_release_resource s cur p force).resources p = none ∧
    (vmcs_sm_release_resource s cur p force).resource_list = list_del p s.resource_list ∧
    p ∉ (vmcs_sm_release_resource s cur p force).resource_list ∧
    (∀ g, ((vmcs_sm_release_resource s cur p force).sessions g).resource_list =
      if g = r.priv then list_del p (s.sessions g).resource_list
      else (s.sessions g).resource_list) ∧
    p ∉ ((vmcs_sm_release_resource s cur p force).sessions r.priv).resource_list ∧
    remote_calls (vmcs_sm_release_resource s cur p force).trace =
      remote_calls s.trace ++ [Event.vc_vchi_sm_free r.res_handle r.res_base_mem] ∧
    (vmcs_sm_release_resource s cur p force).res_terminated_cnt =
      (if force then u32_inc s.res_terminated_cnt else s.res_terminated_cnt) ∧
    (vmcs_sm_release_resource s cur p force).res_deceased_cnt =
      (if force then s.res_deceased_cnt else u32_inc s.res_deceased_cnt) ∧
    (vmcs_sm_release_resource s cur p force).terminated =
      (if force then stats_add s.terminated (stat_inc (stat_inc r.res_stats FREE) FREE_FAIL)
        else s.terminated) ∧
    (vmcs_sm_release_resource s cur p force).deceased =
      (if force then s.deceased
        else stats_add s.deceased (stat_inc (stat_inc r.res_stats FREE) FREE_FAIL)) ∧
    (if force then (vmcs_sm_release_resource s cur p force).terminated
      else (vmcs_sm_release_resource s cur p force).deceased).getD FREE_FAIL 0 =
      ((if force then s.terminated else s.deceased).getD FREE_FAIL 0 +
        u32_inc (r.res_stats.getD FREE_FAIL 0)) % 4294967296 := by
  obtain ⟨sm, hF, hE⟩ := teardown_failed_free s cur p force r hs hr h1 hsh hH hscan hfail hrun
  have hnm : ∀ l : List Ptr, p ∉ list_del p l := fun l h => (mem_list_del.mp h).2 rfl
  have hlist : ∀ g, (Function.update sm.sessions r.priv
      { sm.sessions r.priv with
        int_trans_id := (s.vchi_free sm.trace r.res_handle r.res_base_mem).trans_id }
      g).resource_list =
      if g = r.priv then list_del p (s.sessions g).resource_list
      else (s.sessions g).resource_list := by
    intro g
    rw [hF.sessions]
    by_cases hg : g = r.priv
    · subst hg; simp
    · simp [Function.update_noteq hg, hg]
  rw [hE]
  refine ⟨Function.update_same _ _ _, hF.resource_list, ?_, hlist, ?_, ?_, ?_, ?_, ?_, ?_, ?_⟩
  · show p ∉ sm.resource_list
    rw [hF.resource_list]; exact hnm _
  · have := hlist r.priv
    rw [if_pos rfl] at this
    show p ∉ (Function.update sm.sessions r.priv _ r.priv).resource_list
    rw [this]; exact hnm _
  · show remote_calls (sm.trace ++ _) = _
    rw [remote_calls_append, hF.remote]
    rfl
  · show (if force then u32_inc sm.res_terminated_cnt else sm.res_terminated_cnt) = _
    rw [hF.res_terminated_cnt]
  · show (if force then sm.res_deceased_cnt else u32_inc sm.res_deceased_cnt) = _
    rw [hF.res_deceased_cnt]
  · show (if force then stats_add sm.terminated _ else sm.terminated) = _
    rw [hF.terminated]
  · show (if force then sm.deceased else stats_add sm.deceased _) = _
    rw [hF.deceased]
  · cases force
    · show (stats_add sm.deceased _).getD FREE_FAIL 0 = _
      rw [hF.deceased]
      exact (free_fail_counted r.res_stats hlen s.deceased).2
    · show (stats_add sm.terminated _).getD FREE_FAIL 0 = _
      rw [hF.terminated]
      exact (free_fail_counted r.res_stats hlen s.terminated).2

/-- Claim C22 on the page of `demo_alloc` when the remote side refuses the free: the
last release unlinks the page and records one natural termination. -/
theorem release_counts_failed_free_witness :
    (vmcs_sm_release_resource demo_refused 100 1 false).resource_list =
      list_del 1 demo_refused.resource_list ∧
    (vmcs_sm_release_resource demo_refused 100 1 false).res_deceased_cnt =
      u32_inc demo_refused.res_deceased_cnt ∧
    (vmcs_sm_release_resource demo_refused 100 1 false).deceased.getD FREE_FAIL 0 =
      (demo_refused.deceased.getD FREE_FAIL 0 +
        u32_inc (demo_record.res_stats.getD FREE_FAIL 0)) % 4294967296 :=
  have h := release_counts_failed_free demo_refused 100 1 false demo_record (by decide)
    (by decide) (by decide) (by decide) (by decide)
    (by
      intro q hq hne
      have hl : demo_refused.resource_list = [1] := by decide
      rw [hl] at hq
      simp at hq
      exact absurd hq hne)
    (by decide) (fun _ => (by decide : (1 : Int) ≠ 0 ∧ (1 : Int) ≠ -EINTR)) (by decide)
  ⟨h.2.1, h.2.2.2.2.2.2.2.1, h.2.2.2.2.2.2.2.2.2.2⟩

/-! ## Cache maintenance on request -/

theorem ioctl_cache_cases (s : SM_STATE_T) (file_data : Ptr) (cur : Nat)
    (io : vmcs_sm_ioctl_cache) (inval : Bool) (T : PageTables) (fuel : Nat)
    (hs : s.status = Status.running) :
    (find_guid s.resources (s.sessions file_data).resource_list io.handle = none →
      ioctl_cache s file_data cur io inval T fuel = (s, -EINVAL)) ∧
    (∀ p r, find_guid s.resources (s.sessions file_data).resource_list io.handle = some p →
      s.resources p = some r → 1 ≤ r.ref_count → r.ref_count < 4294967295 →
      (r.res_cached = 0 → ioctl_cache s file_data cur io inval T fuel = (s, 0)) ∧
      (r.res_cached ≠ 0 →
        (clean_page_range_walk T fuel (cache_walk_start s p r io inval)
            (io.addr % 4294967296)
            (ulong_add (io.addr % 4294967296) (io.size % 4294967296)) = none →
          ioctl_cache s file_data cur io inval T fuel =
            ({ cache_walk_start s p r io inval with status := Status.out_of_fuel }, 0)) ∧
        (∀ tr, clean_page_range_walk T fuel (cache_walk_start s p r io inval)
            (io.addr % 4294967296)
            (ulong_add (io.addr % 4294967296) (io.size % 4294967296)) =
              some { cache_walk_start s p r io inval with trace := tr } →
          ioctl_cache s file_data cur io inval T fuel =
            ({ s with
                trace :=
                  if inval then tr
                  else tr ++ [Event.outer_clean_range (phys_of s r.res_base_mem)
                    (ulong_add (phys_of s r.res_base_mem) (io.size % 4294967296))]
                resources := Function.update s.resources p
                  (some { r with
                    res_stats := stat_inc r.res_stats (if inval then INVALID else FLUSH) }) },
              0)))) := by
  constructor
  · intro hf
    simp [ioctl_cache, vmcs_sm_acquire_resource, hs, hf]
  · intro p r hf hr h1 hlt
    obtain ⟨h0, _, _⟩ := u32_dec_inc h1 hlt
    have hu : ioctl_cache s file_data cur io inval T fuel =
        ((if r.res_cached ≠ 0 then
          (if inval then
            (match clean_page_range_walk T fuel (cache_walk_start s p r io true)
                (io.addr % 4294967296)
                (ulong_add (io.addr % 4294967296) (io.size % 4294967296)) with
              | none => ({ cache_walk_start s p r io true with status := Status.out_of_fuel }, 0)
              | some s3 => (vmcs_sm_release_resource s3 cur p false, 0))
          else
            (match clean_page_range_walk T fuel (cache_walk_start s p r io false)
                (io.addr % 4294967296)
                (ulong_add (io.addr % 4294967296) (io.size % 4294967296)) with
              | none => ({ cache_walk_start s p r io false with status := Status.out_of_fuel }, 0)
              | some s21 =>
                (vmcs_sm_release_resource
                  { s21 with trace := s21.trace ++
                      [Event.outer_clean_range (phys_of s r.res_base_mem)
                        (ulong_add (phys_of s r.res_base_mem) (io.size % 4294967296))] }
                  cur p false, 0)))
        else
          (vmcs_sm_release_resource
            (s.set_res p { r with ref_count := u32_inc r.ref_count }) cur p false, 0)) :
          SM_STATE_T × Int) := by
      unfold ioctl_cache
      rw [acquire_hit s file_data _ p r hs hf hr]
      cases inval <;>
        simp only [SM_STATE_T.set_res, Function.update_same, cache_walk_start,
          Function.update_idem, phys_of, Bool.false_eq_true, if_false, if_true]
    constructor
    · intro hc
      rw [hu, if_neg (not_not.mpr hc), release_back s cur p r hs hr h1 hlt]
    · intro hc
      rw [hu, if_pos hc]
      constructor
      · intro hw
        cases inval
        · simp only [Bool.false_eq_true, if_false]
          rw [hw]
        · simp only [if_true]
          rw [hw]
      · intro tr hw
        cases inval
        · simp only [Bool.false_eq_true, if_false]
          rw [hw]
          dsimp only
          rw [release_keep _ cur p _ r.ref_count]
          pick_goal 3
          · exact Function.update_same _ _ _
          · simp [SM_STATE_T.set_res, Function.update_idem, cache_walk_start]
          · exact hs
          · exact h0
          · exact h1
          · exact hlt
        · simp only [if_true]
          rw [hw]
          dsimp only
          rw [release_keep _ cur p _ r.ref_count]
          pick_goal 3
          · exact Function.update_same _ _ _
          · simp [SM_STATE_T.set_res, Function.update_idem, cache_walk_start]
          · exact hs
          · exact h0
          · exact h1
          · exact hlt

theorem clean_walk_never (T : PageTables) (s : SM_STATE_T) (addr stop : Nat)
    (hs : s.status = Status.running) (h : addr < stop)
    (hw : ∀ fuel, walk_pgd T fuel (T.pgd_offset addr) addr stop s.trace = none) (fuel : Nat) :
    clean_page_range_walk T fuel s addr stop = none := by
  unfold clean_page_range_walk
  rw [if_neg (not_not.mpr hs), if_neg (not_le.mpr h), hw fuel]

theorem ioctl_cache_switch (s : SM_STATE_T) (file_data : Ptr) (cur : Nat)
    (io : vmcs_sm_ioctl_cache) (env : IoctlEnv) (hc : env.copy_from_user = true)
    (inval : Bool) :
    ioctl_switch s file_data cur
        (if inval then Request.VMCS_SM_CMD_INVALID io else Request.VMCS_SM_CMD_FLUSH io) env =
      ((ioctl_cache s file_data cur io inval env.tables env.walk_fuel).1,
        (ioctl_cache s file_data cur io inval env.tables env.walk_fuel).2, none) := by
  cases inval <;> simp [ioctl_switch, hc]

theorem clean_walk_bounds (T : PageTables) (s : SM_STATE_T) (cur addr size fuel : Nat)
    (hs : s.status = Status.running) (ha : PAGE_SIZE ∣ addr) (hz : PAGE_SIZE ∣ size)
    (hlt : addr + size < 4294967296) (hreg : T.Regular addr (addr + size))
    (hpt : ∀ b, s.ptes cur b = T.present b) (hf : size / PAGE_SIZE + 3 ≤ fuel) :
    clean_page_range_walk T fuel s (addr % 4294967296)
        (ulong_add (addr % 4294967296) (size % 4294967296)) =
      some { s with trace := s.trace ++ page_flushes s.ptes cur addr (addr + size) } := by
  have e1 : addr % 4294967296 = addr := Nat.mod_eq_of_lt (by omega)
  have e2 : size % 4294967296 = size := Nat.mod_eq_of_lt (by omega)
  have e3 : ulong_add addr size = addr + size := Nat.mod_eq_of_lt hlt
  rw [e1, e2, e3]
  by_cases h0 : size = 0
  · subst h0
    unfold clean_page_range_walk
    rw [if_neg (not_not.mpr hs), if_pos (show addr ≥ addr + 0 from le_refl _),
      page_flushes_empty _ _ _ _ (show addr + 0 ≤ addr from le_refl _), List.append_nil]
  · exact clean_walk_aligned T s cur addr (addr + size) fuel hs (by omega) ha hlt hreg hpt
      (by rw [Nat.add_sub_cancel_left]; exact hf)

/-- The commands `FLUSH` and `INVALID` of `vc_sm_ioctl`, once the request has been
copied in, in a running state.  For a GUID that is not in the list of the
session both return `-EINVAL` and leave the state as it is.  For a live
resource of the session whose cache policy is `VMCS_SM_CACHE_NONE` both return
0 and leave the state as it is.  For one with another policy, when `addr` and
`size` are multiples of the page size, `addr + size` is below `2 ^ 32`, the page
tables are regular on the range and the bound on the walk is large enough, both
return 0: `FLUSH` appends to the trace the flushes of the present pages of
`[addr, addr + size)` and then the outer clean, `INVALID` appends the outer
invalidate and then those flushes; the outer range starts at
`(base & 0x3FFFFFFF) + mm_vc_mem_phys_addr` and ends at that plus `size`, both
on 32 bits. -/
theorem cache_commands_order (s : SM_STATE_T) (file_data : Ptr) (cur : Nat)
    (io : vmcs_sm_ioctl_cache) (env : IoctlEnv) (hs : s.status = Status.running)
    (hc : env.copy_from_user = true) :
    (find_guid s.resources (s.sessions file_data).resource_list io.handle = none →
      ioctl_switch s file_data cur (Request.VMCS_SM_CMD_FLUSH io) env = (s, -EINVAL, none) ∧
      ioctl_switch s file_data cur (Request.VMCS_SM_CMD_INVALID io) env =
        (s, -EINVAL, none)) ∧
    (∀ p r, find_guid s.resources (s.sessions file_data).resource_list io.handle = some p →
      s.resources p = some r → 1 ≤ r.ref_count → r.ref_count < 4294967295 →
      (r.res_cached = VMCS_SM_CACHE_NONE →
        ioctl_switch s file_data cur (Request.VMCS_SM_CMD_FLUSH io) env = (s, 0, none) ∧
        ioctl_switch s file_data cur (Request.VMCS_SM_CMD_INVALID io) env = (s, 0, none)) ∧
      (r.res_cached ≠ VMCS_SM_CACHE_NONE → PAGE_SIZE ∣ io.addr → PAGE_SIZE ∣ io.size →
        io.addr + io.size < 4294967296 → env.tables.Regular io.addr (io.addr + io.size) →
        (∀ b, s.ptes cur b = env.tables.present b) →
        io.size / PAGE_SIZE + 3 ≤ env.walk_fuel →
        ioctl_switch s file_data cur (Request.VMCS_SM_CMD_FLUSH io) env =
          ({ s with
              trace := s.trace ++ page_flushes s.ptes cur io.addr (io.addr + io.size) ++
                [Event.outer_clean_range (phys_of s r.res_base_mem)
                  (ulong_add (phys_of s r.res_base_mem) io.size)]
              resources := Function.update s.resources p
                (some { r with res_stats := stat_inc r.res_stats FLUSH }) }, 0, none) ∧
        ioctl_switch s file_data cur (Request.VMCS_SM_CMD_INVALID io) env =
          ({ s with
              trace := s.trace ++
                [Event.outer_inv_range (phys_of s r.res_base_mem)
                  (ulong_add (phys_of s r.res_base_mem) io.size)] ++
                page_flushes s.ptes cur io.addr (io.addr + io.size)
              resources := Function.update s.resources p
                (some { r with res_stats := stat_inc r.res_stats INVALID }) }, 0, none))) := by
  have hF := ioctl_cache_switch s file_data cur io env hc false
  have hI := ioctl_cache_switch s file_data cur io env hc true
  simp only [Bool.false_eq_true, if_false] at hF
  simp only [if_true] at hI
  rw [hF, hI]
  obtain ⟨cF0, cF1⟩ := ioctl_cache_cases s file_data cur io false env.tables env.walk_fuel hs
  obtain ⟨cI0, cI1⟩ := ioctl_cache_cases s file_data cur io true env.tables env.walk_fuel hs
  refine ⟨fun hf => ?_, fun p r hf hr h1 hlt =>
    ⟨fun h0 => ?_, fun h0 ha hz hsum hreg hpt hfuel => ?_⟩⟩
  · rw [cF0 hf, cI0 hf]
    exact ⟨rfl, rfl⟩
  · rw [(cF1 p r hf hr h1 hlt).1 h0, (cI1 p r hf hr h1 hlt).1 h0]
    exact ⟨rfl, rfl⟩
  · have e2 : io.size % 4294967296 = io.size := Nat.mod_eq_of_lt (by omega)
    have wF := clean_walk_bounds env.tables (cache_walk_start s p r io false) cur io.addr
      io.size env.walk_fuel hs ha hz hsum hreg hpt hfuel
    have wI := clean_walk_bounds env.tables (cache_walk_start s p r io true) cur io.addr
      io.size env.walk_fuel hs ha hz hsum hreg hpt hfuel
    rw [((cF1 p r hf hr h1 hlt).2 h0).2 _ wF, ((cI1 p r hf hr h1 hlt).2 h0).2 _ wI]
    simp [cache_walk_start, e2]

/-- The ordering of `cache_commands_order` on the page of `demo_alloc_paged` (cache
policy 3, base address 5000), for the four pages around the end of the first
2 MiB, of which the page at 2093056 is present: `FLUSH` flushes that page and
then cleans the outer range, `INVALID` invalidates the outer range and then
flushes that page. -/
theorem cache_commands_order_witness :
    (ioctl_switch demo_alloc_paged 10 100
      (Request.VMCS_SM_CMD_FLUSH { handle := 4096, addr := 2088960, size := 16384 })
      demo_env).1.trace =
      demo_alloc_paged.trace ++ [Event.dmac_flush_range 2093056 2097152,
        Event.outer_clean_range 5000 21384] ∧
    (ioctl_switch demo_alloc_paged 10 100
      (Request.VMCS_SM_CMD_INVALID { handle := 4096, addr := 2088960, size := 16384 })
      demo_env).1.trace =
      demo_alloc_paged.trace ++ [Event.outer_inv_range 5000 21384,
        Event.dmac_flush_range 2093056 2097152] := by
  have h := ((cache_commands_order demo_alloc_paged 10 100
    { handle := 4096, addr := 2088960, size := 16384 } demo_env (by decide) rfl).2 1
    demo_record (by decide) (by decide) (by decide) (by decide)).2 (by decide) (by decide)
    (by decide) (by decide) (demo_tables_regular 2088960 2105344 (by decide) (by decide))
    (fun _ => rfl) (by decide)
  rw [h.1, h.2]
  exact ⟨by decide, by decide⟩

theorem ioctl_no_pending (s : SM_STATE_T) (file_data : Ptr) (cur : Nat) (req : Request)
    (env : IoctlEnv) (hs : s.status = Status.running)
    (hp : (s.sessions file_data).restart_sys ≠ -EINTR) :
    vc_sm_ioctl s file_data cur req env = ioctl_switch s file_data cur req env := by
  unfold vc_sm_ioctl ioctl_clean_up
  rw [if_neg (not_not.mpr hs)]
  dsimp only
  rw [if_neg hp]

theorem demo_walk_never (tr : List Event) (fuel : Nat) :
    walk_pgd demo_tables fuel (demo_tables.pgd_offset 65536) 65536 65537 tr = none := by
  unfold walk_pgd
  refine walk_level_never _ _ _ _ _ _ _ _ (by decide) (fun f1 => ?_) fuel
  unfold walk_pud
  refine walk_level_never _ _ _ _ _ _ _ _ (by decide) (fun f2 => ?_) f1
  unfold walk_pmd
  refine walk_level_never _ _ _ _ _ _ _ _ (by decide) (fun f3 => ?_) f2
  exact walk_pte_never demo_tables _ (by decide) f3 _ 65536 tr (by decide)

/-- Claim C26 at its failing input: on the page of `demo_alloc` (cache policy 3), in an
address space with the page tables `demo_tables`, the owner asks
`vc_sm_ioctl` to `FLUSH`, and to `INVALID`, one byte at the page-aligned address
65536.  The walk is entered with the bounds 65536 and 65537; its innermost
loop steps by a page and stops only on `addr == pmd_next`, which is 65537, so
whatever the bound on the iterations the walk has not returned: the status is
`out_of_fuel` for every bound. -/
theorem flush_unaligned_never_returns (fuel : Nat) :
    (vc_sm_ioctl demo_alloc.1 10 100
      (Request.VMCS_SM_CMD_FLUSH { handle := 4096, addr := 65536, size := 1 })
      { demo_env with walk_fuel := fuel }).1.status = Status.out_of_fuel ∧
    (vc_sm_ioctl demo_alloc.1 10 100
      (Request.VMCS_SM_CMD_INVALID { handle := 4096, addr := 65536, size := 1 })
      { demo_env with walk_fuel := fuel }).1.status = Status.out_of_fuel := by
  have hF := ioctl_cache_switch demo_alloc.1 10 100 { handle := 4096, addr := 65536, size := 1 }
    { demo_env with walk_fuel := fuel } rfl false
  have hI := ioctl_cache_switch demo_alloc.1 10 100 { handle := 4096, addr := 65536, size := 1 }
    { demo_env with walk_fuel := fuel } rfl true
  simp only [Bool.false_eq_true, if_false] at hF
  simp only [if_true] at hI
  rw [ioctl_no_pending _ _ _ _ _ (by decide) (by decide),
    ioctl_no_pending _ _ _ _ _ (by decide) (by decide), hF, hI]
  have cF := (((ioctl_cache_cases demo_alloc.1 10 100
    { handle := 4096, addr := 65536, size := 1 } false demo_tables fuel (by decide)).2 1
    demo_record (by decide) (by decide) (by decide) (by decide)).2 (by decide)).1
    (clean_walk_never demo_tables _ 65536 65537 (by decide) (by decide)
      (demo_walk_never _) fuel)
  have cI := (((ioctl_cache_cases demo_alloc.1 10 100
    { handle := 4096, addr := 65536, size := 1 } true demo_tables fuel (by decide)).2 1
    demo_record (by decide) (by decide) (by decide) (by decide)).2 (by decide)).1
    (clean_walk_never demo_tables _ 65536 65537 (by decide) (by decide)
      (demo_walk_never _) fuel)
  constructor
  · show (ioctl_cache demo_alloc.1 10 100 { handle := 4096, addr := 65536, size := 1 } false
      demo_tables fuel).1.status = Status.out_of_fuel
    rw [cF]
  · show (ioctl_cache demo_alloc.1 10 100 { handle := 4096, addr := 65536, size := 1 } true
      demo_tables fuel).1.status = Status.out_of_fuel
    rw [cI]

/-! ## The reference taken for the time of a call is given back -/

theorem refs_refl (s : SM_STATE_T) : Refs s s := fun _ => rfl

theorem refs_trans {s s1 s2 : SM_STATE_T} (h1 : Refs s s1) (h2 : Refs s1 s2) : Refs s s2 :=
  fun q => (h2 q).trans (h1 q)

theorem refs_of_eq {s s1 : SM_STATE_T} (h : s1.resources = s.resources) : Refs s s1 :=
  fun q => by rw [h]

theorem refs_set {s t : SM_STATE_T} (h : Refs s t) {p : Ptr} {r : SM_RESOURCE_T}
    (hr : t.resources p = some r) (r1 : SM_RESOURCE_T) (hc : r1.ref_count = r.ref_count) :
    Refs s (t.set_res p r1) := by
  intro q
  by_cases hq : q = p
  · subst hq
    rw [← h q, hr]
    simp [SM_STATE_T.set_res, hc]
  · rw [← h q]
    simp [SM_STATE_T.set_res, Function.update_noteq hq]

theorem steady_refs {s s1 : SM_STATE_T} (h : Steady s s1) : Refs s s1 := by
  intro q
  have hi := congrArg (Option.map (fun r : SM_RESOURCE_T => r.ref_count)) (h.ident q)
  simpa [Option.map_map, Function.comp_def, SM_RESOURCE_T.ident] using hi

theorem refs_lookup {s s1 : SM_STATE_T} (h : Refs s s1) {p : Ptr} {r : SM_RESOURCE_T}
    (hr : s.resources p = some r) :
    ∃ r1, s1.resources p = some r1 ∧ r1.ref_count = r.ref_count := by
  have hq := h p
  rw [hr] at hq
  cases h1 : s1.resources p with
  | none => rw [h1] at hq; simp at hq
  | some r1 =>
    rw [h1] at hq
    exact ⟨r1, rfl, by simpa using hq⟩

theorem add_map_refs (s : SM_STATE_T) (p mp : Ptr) : Refs s (vmcs_sm_add_map s p mp) := by
  unfold vmcs_sm_add_map
  split_ifs
  · exact refs_refl s
  · cases hr : s.resources p with
    | none => exact refs_refl s
    | some r => exact refs_set (refs_refl s) hr _ rfl

theorem lock_window_refs (s : SM_STATE_T) (p : Ptr) (kz : Bool) (ioremap_ret : Nat) :
    Refs s (lock_window s p kz ioremap_ret).1 := by
  unfold lock_window
  cases hr : s.resources p with
  | none => exact refs_refl s
  | some r =>
    dsimp only
    split_ifs
    · exact refs_refl s
    · exact refs_trans (refs_of_eq rfl) (add_map_refs _ _ _)
    · exact refs_trans (refs_of_eq rfl) (add_map_refs _ _ _)
    · exact refs_refl s

theorem lock_body_refs (s : SM_STATE_T) (priv : Ptr) (cur : Nat) (p : Ptr)
    (ioparam : vmcs_sm_ioctl_lock_unlock) (change_cache : Bool) (cache_type : Nat)
    (vc_addr : Nat) (reply : LockReply) (kz : Bool) (ioremap_ret : Nat) :
    Refs s (lock_body s priv cur p ioparam change_cache cache_type vc_addr reply kz
      ioremap_ret).1 := by
  unfold lock_body
  cases hr : s.resources p with
  | none => exact refs_refl s
  | some r =>
    simp -zeta only []
    lift_lets
    intro f s1 f1 ra rb moved rc s2 s3
    have h1 : Refs s s1 := by
      simp only [s1]
      split_ifs
      · exact refs_of_eq rfl
      · exact refs_set (refs_refl s) hr _ rfl
    obtain ⟨r1, hr1, hc1⟩ := refs_lookup h1 hr
    have hrc : rc.ref_count = r.ref_count := by
      simp only [rc, rb, ra]
      split_ifs <;> rfl
    have h2 : Refs s s2 := refs_trans h1 (refs_set (refs_refl s1) hr1 _ (hrc.trans hc1.symm))
    have h3 : Refs s s3 := by
      simp only [s3]
      split_ifs
      · split
        · exact refs_trans h2 (steady_refs (drop_window_steady _ _))
        · exact h2
      · exact h2
    split
    · exact refs_trans h1 (refs_of_eq rfl)
    · split
      · exact refs_trans h1 (refs_set (refs_refl s1) hr1 _ hc1.symm)
      · split
        · exact h3
        · rename_i rd hrd
          lift_lets
          intro re s4 w
          have hre : re.ref_count = rd.ref_count := by
            simp only [re]
            split_ifs <;> rfl
          have h4 : Refs s s4 := refs_trans h3 (refs_set (refs_refl s3) hrd _ hre)
          split
          · exact h4
          · exact refs_trans h4 (lock_window_refs _ _ _ _)

theorem refs_released (s t : SM_STATE_T) (cur : Nat) (p : Ptr) (r : SM_RESOURCE_T)
    (h1 : 1 ≤ r.ref_count) (hlt : r.ref_count < 4294967295)
    (h : Refs (s.set_res p { r with ref_count := u32_inc r.ref_count }) t)
    (hrun : (vmcs_sm_release_resource t cur p false).status = Status.running) :
    ((vmcs_sm_release_resource t cur p false).resources p).map (fun x => x.ref_count) =
      some r.ref_count := by
  obtain ⟨h0, _, _⟩ := u32_dec_inc h1 hlt
  obtain ⟨rt, hrt, hc⟩ := refs_lookup h
    (show (s.set_res p { r with ref_count := u32_inc r.ref_count }).resources p = _ from
      Function.update_same _ _ _)
  have ht := release_resource_running hrun
  rw [(release_keep_facts t cur p rt r.ref_count ht hrt (hc.trans h0) h1 hlt).1]
  rfl

/-- Claim C28.  For a live resource `p` of the session whose `ref_count` is between 1
and `UINT32_MAX - 1`: after `vc_sm_ioctl_lock`, `vc_sm_ioctl_unlock` (both in
runs that dereference no freed record), `vc_sm_ioctl_resize` and `vc_sm_mmap`
on `p`, whatever the arguments and the answers of the environment, hence on
every path, the record of `p` is there with the `ref_count` it had on entry.
In particular a successful `vc_sm_mmap`, which registers a mapping, leaves
`ref_count` as it was. -/
theorem ref_count_restored (s : SM_STATE_T) (priv : Ptr) (cur : Nat) (p : Ptr)
    (r : SM_RESOURCE_T) (hs : s.status = Status.running) (hr : s.resources p = some r)
    (h1 : 1 ≤ r.ref_count) (hlt : r.ref_count < 4294967295) :
    (∀ (io : vmcs_sm_ioctl_lock_unlock) (change_cache : Bool) (cache_type vc_addr : Nat)
        (reply : LockReply) (kz : Bool) (ioremap_ret : Nat),
      find_guid s.resources (s.sessions priv).resource_list io.handle = some p →
      (vc_sm_ioctl_lock s priv cur io change_cache cache_type vc_addr reply kz
        ioremap_ret).1.status = Status.running →
      ((vc_sm_ioctl_lock s priv cur io change_cache cache_type vc_addr reply kz
        ioremap_ret).1.resources p).map (fun x => x.ref_count) = some r.ref_count) ∧
    (∀ (io : vmcs_sm_ioctl_lock_unlock) (flush : Bool) (wait_reply : Nat)
        (no_vc_unlock : Bool) (reply : UnlockReply),
      find_guid s.resources (s.sessions priv).resource_list io.handle = some p →
      (vc_sm_ioctl_unlock s priv cur io flush wait_reply no_vc_unlock reply).1.status =
        Status.running →
      ((vc_sm_ioctl_unlock s priv cur io flush wait_reply no_vc_unlock reply).1.resources
        p).map (fun x => x.ref_count) = some r.ref_count) ∧
    (∀ (io : vmcs_sm_ioctl_resize) (reply : ResizeReply),
      find_guid s.resources (s.sessions priv).resource_list io.handle = some p →
      ((vc_sm_ioctl_resize s priv cur io reply).1.resources p).map (fun x => x.ref_count) =
        some r.ref_count) ∧
    (∀ (vm_start vm_end vm_pgoff : Nat) (kz : Bool),
      find_guid s.resources (s.sessions priv).resource_list
        (((vm_pgoff % 4294967296) <<< PAGE_SHIFT) % 4294967296) = some p →
      ((vc_sm_mmap s priv cur vm_start vm_end vm_pgoff kz).1.resources p).map
        (fun x => x.ref_count) = some r.ref_count) := by
  have hback := release_back s cur p r hs hr h1 hlt
  have hsame : (s.resources p).map (fun x => x.ref_count) = some r.ref_count := by
    rw [hr]; rfl
  refine ⟨?_, ?_, ?_, ?_⟩
  · intro io change_cache cache_type vc_addr reply kz ioremap_ret hf hrun
    have hu : vc_sm_ioctl_lock s priv cur io change_cache cache_type vc_addr reply kz
          ioremap_ret =
        (if r.pid ≠ 0 ∧ r.pid ≠ cur then
          (vmcs_sm_release_resource
            (s.set_res p { r with ref_count := u32_inc r.ref_count }) cur p false, -EPERM, io)
        else
          (vmcs_sm_release_resource
            (lock_body (s.set_res p { r with ref_count := u32_inc r.ref_count }) priv cur p io
              change_cache cache_type vc_addr reply kz ioremap_ret).1 cur p false,
            (lock_body (s.set_res p { r with ref_count := u32_inc r.ref_count }) priv cur p io
              change_cache cache_type vc_addr reply kz ioremap_ret).2.1,
            (lock_body (s.set_res p { r with ref_count := u32_inc r.ref_count }) priv cur p io
              change_cache cache_type vc_addr reply kz ioremap_ret).2.2)) := by
      unfold vc_sm_ioctl_lock
      rw [if_neg (not_not.mpr hs), acquire_hit s priv _ p r hs hf hr]
      simp only [SM_STATE_T.set_res, Function.update_same]
    rw [hu] at hrun ⊢
    split_ifs at hrun ⊢
    · rw [hback]; exact hsame
    · exact refs_released s _ cur p r h1 hlt (lock_body_refs _ _ _ _ _ _ _ _ _ _ _) hrun
  · intro io flush wait_reply no_vc_unlock reply hf hrun
    by_cases hp : r.pid ≠ 0 ∧ r.pid ≠ cur
    · have hu : vc_sm_ioctl_unlock s priv cur io flush wait_reply no_vc_unlock reply =
          (vmcs_sm_release_resource
            (s.set_res p { r with ref_count := u32_inc r.ref_count }) cur p false, -EPERM) := by
        unfold vc_sm_ioctl_unlock
        rw [if_neg (not_not.mpr hs), acquire_hit s priv _ p r hs hf hr]
        simp only [SM_STATE_T.set_res, Function.update_same, hp, and_self, if_true,
          not_false_eq_true, ne_eq]
      rw [hu, hback]; exact hsame
    · have hpid : r.pid = 0 ∨ r.pid = cur := by
        by_contra hn
        rw [not_or] at hn
        exact hp hn
      obtain ⟨t, rt, k1, _⟩ := unlock_outcome s priv cur io flush wait_reply no_vc_unlock
        reply p r hs hf hr hpid h1 hlt hrun
      rw [k1]; rfl
  · intro io reply hf
    obtain ⟨c1, c2, c3, c4⟩ := resize_cases s priv cur io reply p r hs hf hr h1 hlt
    by_cases hl : r.lock_count = 0
    · by_cases hp : r.pid ≠ 0 ∧ r.pid ≠ cur
      · rw [c2 hl hp]; exact hsame
      · by_cases hm : r.map_count = 0
        · obtain ⟨d1, d2, d3⟩ := c4 hl hp hm
          by_cases he : reply.status = -EINTR
          · rw [d1 he]; exact hsame
          · by_cases h0 : reply.status = 0
            · rw [d3 h0]
              simp [SM_STATE_T.set_res]
            · rw [d2 he h0]; exact hsame
        · rw [c3 hl hp hm]; exact hsame
    · rw [c1 hl]; exact hsame
  · intro vm_start vm_end vm_pgoff kz hf
    obtain ⟨m1, m2⟩ := mmap_rejects s priv cur vm_start vm_end vm_pgoff kz p r hs hf hr h1 hlt
    by_cases hp : r.pid ≠ 0 ∧ r.pid ≠ cur
    · rw [m1 hp]
      simp [SM_STATE_T.set_res]
    · by_cases hsz : r.res_size ≠ (vm_end - vm_start) % 4294967296
      · rw [m2 hp hsz]
        simp [SM_STATE_T.set_res]
      · rw [not_not] at hsz
        cases kz with
        | true =>
          rw [mmap_ok s priv cur vm_start vm_end vm_pgoff p r hs hf hr h1 hlt hp hsz]
          simp
        | false =>
          have hu : vc_sm_mmap s priv cur vm_start vm_end vm_pgoff false =
              mmap_error (s.set_res p { r with ref_count := u32_inc r.ref_count }) cur p
                (-ENOMEM) := by
            unfold vc_sm_mmap
            rw [if_neg (not_not.mpr hs), acquire_hit s priv _ p r hs hf hr]
            simp only [SM_STATE_T.set_res, Function.update_same, hp, if_false, hsz, ne_eq,
              not_true_eq_false, if_true]
          rw [hu, mmap_error_back s cur p r _ hs h1 hlt]
          simp [SM_STATE_T.set_res]

/-- Claim C28 on the page of `demo_alloc`: a successful mapping request of its owner
leaves `ref_count` at 1. -/
theorem ref_count_restored_witness :
    ((vc_sm_mmap demo_alloc.1 10 100 65536 69632 1 true).1.resources 1).map
      (fun x => x.ref_count) = some demo_record.ref_count :=
  (ref_count_restored demo_alloc.1 10 100 1 demo_record (by decide) (by decide) (by decide)
    (by decide)).2.2.2 65536 69632 1 true (by decide)

/-! ## Counting the mappings of a resource -/

theorem demo_add_maps_spec : ∀ n, n ≤ 255 →
    (demo_add_maps n).status = Status.running ∧
    ∃ r, (demo_add_maps n).resources 1 = some r ∧ r.map_count = n ∧ r.map_list.length = n := by
  intro n
  induction n with
  | zero => intro _; exact ⟨by decide, demo_record, by decide, rfl, rfl⟩
  | succ n ih =>
    intro hn
    obtain ⟨hs, r, hr, hm, hlen⟩ := ih (by omega)
    have hd : demo_add_maps (n + 1) = vmcs_sm_add_map (demo_add_maps n) 1 (100 + n) := rfl
    rw [hd]
    unfold vmcs_sm_add_map
    rw [if_neg (not_not.mpr hs), hr]
    dsimp only
    refine ⟨hs, _, Function.update_same _ _ _, ?_, ?_⟩
    · show u8_inc r.map_count = n + 1
      rw [hm]; unfold u8_inc; omega
    · show (_ :: r.map_list).length = n + 1
      rw [List.length_cons, hlen]

/-- Claim C27 at its failing input: `vmcs_sm_add_map` is called 256 times on the page
of `demo_alloc`, each time with a new mapping.  After 255 calls `map_count` is
255 and the page has 255 mappings; after the 256th call the page has 256
mappings and `map_count` is 0. -/
theorem add_map_count_wraps :
    ((demo_add_maps 255).resources 1).map (fun r => (r.map_count, r.map_list.length)) =
      some (255, 255) ∧
    ((demo_add_maps 256).resources 1).map (fun r => (r.map_count, r.map_list.length)) =
      some (0, 256) := by
  obtain ⟨hs, r, hr, hm, hlen⟩ := demo_add_maps_spec 255 (Nat.le_refl _)
  have hd : demo_add_maps 256 = vmcs_sm_add_map (demo_add_maps 255) 1 (100 + 255) := rfl
  refine ⟨by rw [hr]; simp [hm, hlen], ?_⟩
  rw [hd]
  unfold vmcs_sm_add_map
  rw [if_neg (not_not.mpr hs), hr]
  dsimp only
  rw [Function.update_same]
  simp [hm, hlen, u8_inc]

/-! ## The address a lock returns -/

/-- Claim C24 at its failing input: the kernel client (running as process 1) locks the
kernel-owned page of `demo_knl` twice through `vc_sm_lock`.  The first lock
returns 0 and the address 4026531840 of the window it registers (a mapping of
the page recorded for pid 0, after which `map_count` is 1); the second lock
returns 0 too, and the address 0, which is the result of the lookup and not
what `ioparam.addr` held before (3735928559). -/
theorem second_kernel_lock_address :
    demo_knl_locked.2 = (0, 4026531840) ∧
    (demo_knl_locked.1.resources 1).map (fun r => (r.pid, r.map_count, r.map_list)) =
      some (0, 1, [2]) ∧
    (demo_knl_locked.1.maps 2).map (fun m => (m.resource, m.res_pid, m.res_addr)) =
      some (1, 0, 4026531840) ∧
    (vc_sm_lock demo_knl_locked.1 1 4096 false 3735928559
      { status := 0, res_mem := 5000, res_old_mem := 0, trans_id := 3 } true 0).2 = (0, 0) ∧
    ((vc_sm_lock demo_knl_locked.1 1 4096 false 3735928559
      { status := 0, res_mem := 5000, res_old_mem := 0, trans_id := 3 } true 0).1.resources
        1).map (fun r => (r.lock_count, r.map_count)) = some (2, 1) := by
  decide

/-! ## A lock that reports a relocation -/

theorem based_refl (s : SM_STATE_T) : Based s s := fun _ => rfl

theorem based_trans {s s1 s2 : SM_STATE_T} (h1 : Based s s1) (h2 : Based s1 s2) : Based s s2 :=
  fun q => (h2 q).trans (h1 q)

theorem based_of_eq {s s1 : SM_STATE_T} (h : s1.resources = s.resources) : Based s s1 :=
  fun q => by rw [h]

theorem based_set {s t : SM_STATE_T} (h : Based s t) {p : Ptr} {r : SM_RESOURCE_T}
    (hr : t.resources p = some r) (r1 : SM_RESOURCE_T) (hc : r1.res_base_mem = r.res_base_mem) :
    Based s (t.set_res p r1) := by
  intro q
  by_cases hq : q = p
  · subst hq
    rw [← h q, hr]
    simp [SM_STATE_T.set_res, hc]
  · rw [← h q]
    simp [SM_STATE_T.set_res, Function.update_noteq hq]

theorem steady_based {s s1 : SM_STATE_T} (h : Steady s s1) : Based s s1 := by
  intro q
  have hi := congrArg (Option.map (fun r : SM_RESOURCE_T => r.res_base_mem)) (h.ident q)
  simpa [Option.map_map, Function.comp_def, SM_RESOURCE_T.ident] using hi

theorem based_lookup {s s1 : SM_STATE_T} (h : Based s s1) {p : Ptr} {r : SM_RESOURCE_T}
    (hr : s.resources p = some r) :
    ∃ r1, s1.resources p = some r1 ∧ r1.res_base_mem = r.res_base_mem := by
  have hq := h p
  rw [hr] at hq
  cases h1 : s1.resources p with
  | none => rw [h1] at hq; simp at hq
  | some r1 =>
    rw [h1] at hq
    exact ⟨r1, rfl, by simpa using hq⟩

theorem add_map_based (s : SM_STATE_T) (p mp : Ptr) : Based s (vmcs_sm_add_map s p mp) := by
  unfold vmcs_sm_add_map
  split_ifs
  · exact based_refl s
  · cases hr : s.resources p with
    | none => exact based_refl s
    | some r => exact based_set (based_refl s) hr _ rfl

theorem lock_window_based (s : SM_STATE_T) (p : Ptr) (kz : Bool) (ioremap_ret : Nat) :
    Based s (lock_window s p kz ioremap_ret).1 := by
  unfold lock_window
  cases hr : s.resources p with
  | none => exact based_refl s
  | some r =>
    dsimp only
    split_ifs
    · exact based_refl s
    · exact based_trans (based_of_eq rfl) (add_map_based _ _ _)
    · exact based_trans (based_of_eq rfl) (add_map_based _ _ _)
    · exact based_refl s

theorem lock_body_moved_base (s : SM_STATE_T) (priv : Ptr) (cur : Nat) (p : Ptr)
    (ioparam : vmcs_sm_ioctl_lock_unlock) (change_cache : Bool) (cache_type : Nat)
    (reply : LockReply) (kz : Bool) (ioremap_ret : Nat) (r : SM_RESOURCE_T)
    (hr : s.resources p = some r) (h0 : reply.status = 0) (hmem : reply.res_mem ≠ 0)
    (hold : reply.res_old_mem ≠ 0) (hne : reply.res_mem ≠ reply.res_old_mem) :
    ((lock_body s priv cur p ioparam change_cache cache_type 0 reply kz
      ioremap_ret).1.resources p).map (fun x => x.res_base_mem) = some reply.res_mem := by
  have hE : (0 : Int) ≠ -EINTR := by decide
  unfold lock_body
  rw [hr]
  simp -zeta only []
  lift_lets
  intro f s1 f1 ra rb moved rc s2 s3
  have hmoved : moved = true := by simp [moved, hmem, hold, hne]
  have hb2 : (s2.resources p).map (fun x => x.res_base_mem) = some reply.res_mem := by
    simp [s2, SM_STATE_T.set_res, rc, hmoved]
  have h3 : Based s2 s3 := by
    simp only [s3]
    split_ifs
    · split
      · exact steady_based (drop_window_steady _ _)
      · exact based_refl s2
    · exact based_refl s2
  rw [if_neg (by rw [h0]; exact fun h => hE h.2), if_neg (by simp [h0, hmem])]
  split
  · show (s3.resources p).map _ = _
    rw [h3 p, hb2]
  · rename_i rd hrd
    lift_lets
    intro re s4 w
    have hre : re.res_base_mem = rd.res_base_mem := by
      simp only [re]
      split_ifs <;> rfl
    have h4 : Based s3 s4 := based_set (based_refl s3) hrd _ hre
    split
    · show (s4.resources p).map _ = _
      rw [h4 p, h3 p, hb2]
    · show (w.1.resources p).map _ = _
      rw [lock_window_based s4 p kz ioremap_ret p, h4 p, h3 p, hb2]

theorem lock_body_relocated_window (s : SM_STATE_T) (priv : Ptr) (cur : Nat) (p : Ptr)
    (io : vmcs_sm_ioctl_lock_unlock) (change_cache : Bool) (cache_type : Nat)
    (reply : LockReply) (kz : Bool) (ioremap_ret : Nat) (r : SM_RESOURCE_T) (mp : Ptr)
    (m : sm_mmap) (hs : s.status = Status.running) (hr : s.resources p = some r)
    (hpid : r.pid = 0) (h0 : reply.status = 0) (hmem : reply.res_mem ≠ 0)
    (hold : reply.res_old_mem ≠ 0) (hne : reply.res_mem ≠ reply.res_old_mem)
    (hw : first_window s r.map_list = some mp) (hm : s.maps mp = some m)
    (hmr : m.resource = p) (hfresh : s.maps s.brk = none) :
    (lock_body s priv cur p io change_cache cache_type 0 reply kz ioremap_ret).1.status =
      Status.running ∧
    (lock_body s priv cur p io change_cache cache_type 0 reply kz ioremap_ret).1.maps mp =
      none ∧
    (lock_body s priv cur p io change_cache cache_type 0 reply kz ioremap_ret).1.map_list =
      (if (if 0 < r.map_count then r.map_count - 1 else r.map_count) = 0 ∧ kz = true
        then [s.brk] else []) ++ list_del mp s.map_list ∧
    (∃ rf, (lock_body s priv cur p io change_cache cache_type 0 reply kz
        ioremap_ret).1.resources p = some rf ∧ rf.ref_count = r.ref_count ∧
      rf.map_list =
        (if (if 0 < r.map_count then r.map_count - 1 else r.map_count) = 0 ∧ kz = true
          then [s.brk] else []) ++ list_del mp r.map_list) ∧
    (lock_body s priv cur p io change_cache cache_type 0 reply kz ioremap_ret).1.trace =
      s.trace ++ [Event.vc_vchi_sm_lock r.res_handle r.res_base_mem,
        Event.iounmap m.res_addr] ++
      (if (if 0 < r.map_count then r.map_count - 1 else r.map_count) = 0 ∧ kz = true
        then [if (if change_cache then cache_type else r.res_cached) = VMCS_SM_CACHE_HOST
          then Event.ioremap_cached (phys_of s reply.res_mem) r.res_size
          else Event.ioremap_nocache (phys_of s reply.res_mem) r.res_size]
        else []) ∧
    ((if 0 < r.map_count then r.map_count - 1 else r.map_count) = 0 → kz = true →
      (lock_body s priv cur p io change_cache cache_type 0 reply kz ioremap_ret).1.maps
          s.brk =
        some { resource := p, res_pid := 0, res_vc_hdl := r.res_handle,
               res_usr_hdl := r.res_guid, res_addr := ioremap_ret, vma := none,
               ref_count := 0 }) := by
  have hE : (0 : Int) ≠ -EINTR := by decide
  have hbm : s.brk ≠ mp := by
    intro h
    rw [h, hm] at hfresh
    exact Option.noConfusion hfresh
  unfold first_window at hw
  by_cases hn : (if 0 < r.map_count then r.map_count - 1 else r.map_count) = 0
  · cases kz <;> cases change_cache <;>
      simp [lock_body, hr, h0, hmem, hold, hne, hpid, hE, first_window, hw, drop_window, hs,
        hm, hmr, vmcs_sm_remove_map, SM_STATE_T.set_res, hn, lock_window, vmcs_sm_add_map,
        phys_of, hbm, Function.update_noteq hbm, Function.update_noteq hbm.symm]
  · cases kz <;> cases change_cache <;>
      simp [lock_body, hr, h0, hmem, hold, hne, hpid, hE, first_window, hw, drop_window, hs,
        hm, hmr, vmcs_sm_remove_map, SM_STATE_T.set_res, hn]

/-- Claim C23.  `vc_sm_ioctl_lock` is called without an external address on a live
resource `p` of the session that the caller may lock; the remote lock succeeds
(status 0, non-null address) and its reply names an old address, non-null and
different from the new one.  Then, when the call returns in a run that
dereferences no freed record, the base address of `p` is the new address of the
reply.  If `p` is kernel-owned and has a window `mp` (the first mapping of its
list with a non-null address), the call does return so, and afterwards the record
of `mp` is freed, `mp` is neither on the global map list nor on the list of `p`,
and the trace of the call is the remote lock, then `iounmap` of the old window,
then, only when no mapping is left and the tracker is allocated, the `ioremap` of
the new physical address, whose window is the fresh record `s.brk` on the global
list: the old window is removed before the new one is registered. -/
theorem lock_tracks_relocation (s : SM_STATE_T) (priv : Ptr) (cur : Nat)
    (io : vmcs_sm_ioctl_lock_unlock) (change_cache : Bool) (cache_type : Nat)
    (reply : LockReply) (kz : Bool) (ioremap_ret : Nat) (p : Ptr) (r : SM_RESOURCE_T)
    (hs : s.status = Status.running)
    (hf : find_guid s.resources (s.sessions priv).resource_list io.handle = some p)
    (hr : s.resources p = some r) (hown : r.pid = 0 ∨ r.pid = cur)
    (h1 : 1 ≤ r.ref_count) (hlt : r.ref_count < 4294967295)
    (h0 : reply.status = 0) (hmem : reply.res_mem ≠ 0) (hold : reply.res_old_mem ≠ 0)
    (hne : reply.res_mem ≠ reply.res_old_mem) :
    ((vc_sm_ioctl_lock s priv cur io change_cache cache_type 0 reply kz
        ioremap_ret).1.status = Status.running →
      ((vc_sm_ioctl_lock s priv cur io change_cache cache_type 0 reply kz
        ioremap_ret).1.resources p).map (fun x => x.res_base_mem) = some reply.res_mem) ∧
    (∀ (mp : Ptr) (m : sm_mmap), r.pid = 0 → first_window s r.map_list = some mp →
      s.maps mp = some m → m.resource = p → s.maps s.brk = none →
      (vc_sm_ioctl_lock s priv cur io change_cache cache_type 0 reply kz
        ioremap_ret).1.status = Status.running ∧
      (vc_sm_ioctl_lock s priv cur io change_cache cache_type 0 reply kz
        ioremap_ret).1.maps mp = none ∧
      mp ∉ (vc_sm_ioctl_lock s priv cur io change_cache cache_type 0 reply kz
        ioremap_ret).1.map_list ∧
      (∃ rf, (vc_sm_ioctl_lock s priv cur io change_cache cache_type 0 reply kz
          ioremap_ret).1.resources p = some rf ∧ mp ∉ rf.map_list) ∧
      (vc_sm_ioctl_lock s priv cur io change_cache cache_type 0 reply kz
          ioremap_ret).1.trace =
        s.trace ++ [Event.vc_vchi_sm_lock r.res_handle r.res_base_mem,
          Event.iounmap m.res_addr] ++
        (if (if 0 < r.map_count then r.map_count - 1 else r.map_count) = 0 ∧ kz = true
          then [if (if change_cache then cache_type else r.res_cached) = VMCS_SM_CACHE_HOST
            then Event.ioremap_cached (phys_of s reply.res_mem) r.res_size
            else Event.ioremap_nocache (phys_of s reply.res_mem) r.res_size]
          else []) ∧
      ((if 0 < r.map_count then r.map_count - 1 else r.map_count) = 0 → kz = true →
        (vc_sm_ioctl_lock s priv cur io change_cache cache_type 0 reply kz
            ioremap_ret).1.maps s.brk =
          some { resource := p, res_pid := 0, res_vc_hdl := r.res_handle,
                 res_usr_hdl := r.res_guid, res_addr := ioremap_ret, vma := none,
                 ref_count := 0 } ∧
        s.brk ∈ (vc_sm_ioctl_lock s priv cur io change_cache cache_type 0 reply kz
          ioremap_ret).1.map_list)) := by
  obtain ⟨hinc, _, _⟩ := u32_dec_inc h1 hlt
  have hra : (s.set_res p { r with ref_count := u32_inc r.ref_count }).resources p =
      some { r with ref_count := u32_inc r.ref_count } := Function.update_same _ _ _
  have hu : vc_sm_ioctl_lock s priv cur io change_cache cache_type 0 reply kz ioremap_ret =
      (vmcs_sm_release_resource
        (lock_body (s.set_res p { r with ref_count := u32_inc r.ref_count }) priv cur p io
          change_cache cache_type 0 reply kz ioremap_ret).1 cur p false,
        (lock_body (s.set_res p { r with ref_count := u32_inc r.ref_count }) priv cur p io
          change_cache cache_type 0 reply kz ioremap_ret).2.1,
        (lock_body (s.set_res p { r with ref_count := u32_inc r.ref_count }) priv cur p io
          change_cache cache_type 0 reply kz ioremap_ret).2.2) := by
    have hp : ¬ (r.pid ≠ 0 ∧ r.pid ≠ cur) := by
      rintro ⟨a, b⟩
      rcases hown with h | h
      · exact a h
      · exact b h
    unfold vc_sm_ioctl_lock
    rw [if_neg (not_not.mpr hs), acquire_hit s priv _ p r hs hf hr]
    simp only [SM_STATE_T.set_res, Function.update_same, hp, if_false]
  rw [hu]
  dsimp only
  refine ⟨fun hrun => ?_, fun mp m hpid hw hm hmr hfresh => ?_⟩
  · have hb := lock_body_moved_base (s.set_res p { r with ref_count := u32_inc r.ref_count })
      priv cur p io change_cache cache_type reply kz ioremap_ret _ hra h0 hmem hold hne
    obtain ⟨rt, hrt, hc⟩ := refs_lookup
      (lock_body_refs (s.set_res p { r with ref_count := u32_inc r.ref_count }) priv cur p io
        change_cache cache_type 0 reply kz ioremap_ret) hra
    rw [hrt] at hb
    have ht := release_resource_running hrun
    rw [(release_keep_facts _ cur p rt r.ref_count ht hrt (hc.trans hinc) h1 hlt).1]
    simpa using hb
  · obtain ⟨b1, b2, b3, ⟨rf, b4, b5, b6⟩, b7, b8⟩ :=
      lock_body_relocated_window (s.set_res p { r with ref_count := u32_inc r.ref_count })
        priv cur p io change_cache cache_type reply kz ioremap_ret
        { r with ref_count := u32_inc r.ref_count } mp m hs hra hpid h0 hmem hold hne hw hm
        hmr hfresh
    rw [release_keep _ cur p rf r.ref_count b1 b4 (b5.trans hinc) h1 hlt]
    have hbm : s.brk ≠ mp := by
      intro h
      rw [h, hm] at hfresh
      exact Option.noConfusion hfresh
    refine ⟨b1, b2, ?_, ⟨_, Function.update_same _ _ _, ?_⟩, b7, fun hn hk => ⟨b8 hn hk, ?_⟩⟩
    · show mp ∉ (lock_body _ priv cur p io change_cache cache_type 0 reply kz
        ioremap_ret).1.map_list
      rw [b3]
      simp only [List.mem_append, mem_list_del, not_or]
      refine ⟨?_, fun h => h.2 rfl⟩
      split_ifs <;> simp [SM_STATE_T.set_res, hbm.symm]
    · show mp ∉ rf.map_list
      rw [b6]
      simp only [List.mem_append, mem_list_del, not_or]
      refine ⟨?_, fun h => h.2 rfl⟩
      split_ifs <;> simp [SM_STATE_T.set_res, hbm.symm]
    · show s.brk ∈ (lock_body _ priv cur p io change_cache cache_type 0 reply kz
        ioremap_ret).1.map_list
      rw [b3, if_pos ⟨hn, hk⟩]
      exact List.mem_append_left _ (List.mem_singleton.mpr rfl)

/-- Claim C23 on the page of `demo_knl_locked`: a second lock reports that the page
moved from 5000 to 6000; the window at 4026531840 is unmapped and unlinked before
the window for the new address is mapped. -/
theorem lock_tracks_relocation_witness :
    (vc_sm_ioctl_lock demo_knl_locked.1 0 1 { handle := 4096, addr := 0 } false 0 0
        { status := 0, res_mem := 6000, res_old_mem := 5000, trans_id := 3 } true
        4026535936).1.status = Status.running ∧
    (vc_sm_ioctl_lock demo_knl_locked.1 0 1 { handle := 4096, addr := 0 } false 0 0
        { status := 0, res_mem := 6000, res_old_mem := 5000, trans_id := 3 } true
        4026535936).1.maps 2 = none ∧
    (2 : Ptr) ∉ (vc_sm_ioctl_lock demo_knl_locked.1 0 1 { handle := 4096, addr := 0 } false 0 0
        { status := 0, res_mem := 6000, res_old_mem := 5000, trans_id := 3 } true
        4026535936).1.map_list :=
  have h := (lock_tracks_relocation demo_knl_locked.1 0 1 { handle := 4096, addr := 0 } false 0
    { status := 0, res_mem := 6000, res_old_mem := 5000, trans_id := 3 } true 4026535936 1
    demo_knl_record (by decide) (by decide) (by decide) (by decide) (by decide) (by decide)
    (by decide) (by decide) (by decide) (by decide)).2 2 demo_knl_window (by decide)
    (by decide) (by decide) (by decide) (by decide)
  ⟨h.1, h.2.1, h.2.2.1⟩

/-! ## Entry points without a clean-up prologue -/

theorem marked_refl (s : SM_STATE_T) : Marked s s := fun _ h => h

theorem marked_trans {s s1 s2 : SM_STATE_T} (h1 : Marked s s1) (h2 : Marked s1 s2) :
    Marked s s2 := fun f h => h2 f (h1 f h)

theorem marked_of_eq {s s1 : SM_STATE_T} (h : s1.sessions = s.sessions) : Marked s s1 :=
  fun f hf => by rw [h]; exact hf

theorem marked_update {s s1 : SM_STATE_T} (g : Ptr) (rec : SM_PRIV_DATA_T)
    (h : s1.sessions = Function.update s.sessions g rec)
    (hr : (s.sessions g).restart_sys = -EINTR → rec.restart_sys = -EINTR) : Marked s s1 := by
  intro f hf
  rw [h]
  by_cases hg : f = g
  · subst hg
    rw [Function.update_same]
    exact hr hf
  · rw [Function.update_noteq hg]
    exact hf

theorem marked_set_res {s t : SM_STATE_T} (h : Marked s t) (p : Ptr) (r : SM_RESOURCE_T) :
    Marked s (t.set_res p r) := h

theorem take_ref_marked (s : SM_STATE_T) (p : Ptr) : Marked s (take_ref s p).1 := by
  unfold take_ref
  split <;> exact marked_of_eq rfl

theorem acquire_marked (s : SM_STATE_T) (priv : Ptr) (g : Nat) :
    Marked s (vmcs_sm_acquire_resource s priv g).1 := by
  unfold vmcs_sm_acquire_resource
  split_ifs
  · exact marked_refl s
  · split
    · exact marked_refl s
    · exact take_ref_marked s _

theorem deceased_marked (s : SM_STATE_T) (p : Ptr) (t : Bool) :
    Marked s (vc_sm_resource_deceased s p t) := by
  unfold vc_sm_resource_deceased
  split_ifs <;> (try split) <;> exact marked_refl s

theorem kfree_marked (s : SM_STATE_T) (p : Ptr) : Marked s (kfree_resource s p) := by
  unfold kfree_resource
  split_ifs
  · exact marked_refl s
  · exact marked_of_eq rfl

theorem release_unlink_marked (s : SM_STATE_T) (p : Ptr) : Marked s (release_unlink s p) := by
  unfold release_unlink
  split_ifs
  · exact marked_refl s
  · split
    · exact marked_of_eq rfl
    · exact marked_update _ _ rfl (fun h => h)

theorem release_vc_free_marked (s : SM_STATE_T) (p : Ptr) :
    Marked s (release_vc_free s p) := by
  unfold release_vc_free
  split_ifs
  · exact marked_refl s
  · split
    · exact marked_of_eq rfl
    · dsimp only
      split_ifs
      · exact marked_refl s
      · exact marked_update _ _ rfl (fun h => h)
      · exact marked_update _ _ rfl (fun h => h)

theorem release_aux_marked (fuel : Nat) : ∀ (s : SM_STATE_T) (cur : Nat) (p : Ptr) (force : Bool),
    Marked s (release_aux fuel s cur p force) := by
  induction fuel with
  | zero =>
    intro s cur p force
    unfold release_aux
    split_ifs
    · exact marked_refl s
    · exact marked_of_eq rfl
  | succ n ih =>
    intro s cur p force
    unfold release_aux
    split_ifs
    · exact marked_refl s
    · split
      · exact marked_of_eq rfl
      · rename_i r hr
        dsimp only
        have h0 : Marked s (s.set_res p { r with ref_count := u32_dec r.ref_count }) :=
          marked_of_eq rfl
        split_ifs
        · exact h0
        · refine marked_trans ?_ (kfree_marked _ _)
          refine marked_trans ?_ (deceased_marked _ _ _)
          have h1 : ∀ t : SM_STATE_T,
              Marked t (release_vc_free (release_unmap (release_unlink t p) cur p) p) :=
            fun t => marked_trans (marked_trans (release_unlink_marked t p)
              (marked_of_eq (release_unmap_frame _ cur p).sessions))
              (release_vc_free_marked _ p)
          split
          · exact marked_trans (marked_trans h0 (h1 _)) (ih _ _ _ _)
          · exact marked_trans h0 (h1 _)

theorem release_marked (s : SM_STATE_T) (cur : Nat) (p : Ptr) (force : Bool) :
    Marked s (vmcs_sm_release_resource s cur p force) :=
  release_aux_marked _ s cur p force

theorem add_map_marked (s : SM_STATE_T) (p mp : Ptr) : Marked s (vmcs_sm_add_map s p mp) := by
  unfold vmcs_sm_add_map
  split_ifs
  · exact marked_refl s
  · split <;> exact marked_of_eq rfl

theorem free_marked (s : SM_STATE_T) (priv cur : Nat) (io : vmcs_sm_ioctl_free) :
    Marked s (vc_sm_ioctl_free s priv cur io).1 := by
  unfold vc_sm_ioctl_free
  by_cases hs : s.status = Status.running
  · rw [if_neg (not_not.mpr hs)]
    have ha := acquire_marked s priv io.handle
    rcases h : vmcs_sm_acquire_resource s priv io.handle with ⟨s1, _ | q⟩
    · rw [h] at ha
      exact ha
    · rw [h] at ha
      dsimp only
      cases hq : s1.resources q with
      | none => exact marked_trans ha (marked_of_eq rfl)
      | some r =>
        dsimp only
        split_ifs
        · exact marked_trans ha (release_marked _ _ _ _)
        · exact marked_trans ha (marked_trans (release_marked _ _ _ _) (release_marked _ _ _ _))
  · rw [if_pos hs]
    exact marked_refl s

theorem lock_window_marked (s : SM_STATE_T) (p : Ptr) (kz : Bool) (ioremap_ret : Nat) :
    Marked s (lock_window s p kz ioremap_ret).1 := by
  unfold lock_window
  cases hr : s.resources p with
  | none => exact marked_refl s
  | some r =>
    dsimp only
    split_ifs
    · exact marked_refl s
    · refine marked_trans ?_ (add_map_marked _ _ _)
      exact marked_of_eq rfl
    · refine marked_trans ?_ (add_map_marked _ _ _)
      exact marked_of_eq rfl
    · exact marked_refl s

theorem lock_body_marked (s : SM_STATE_T) (priv : Ptr) (cur : Nat) (p : Ptr)
    (ioparam : vmcs_sm_ioctl_lock_unlock) (change_cache : Bool) (cache_type : Nat)
    (vc_addr : Nat) (reply : LockReply) (kz : Bool) (ioremap_ret : Nat) :
    Marked s (lock_body s priv cur p ioparam change_cache cache_type vc_addr reply kz
      ioremap_ret).1 := by
  unfold lock_body
  cases hr : s.resources p with
  | none => exact marked_refl s
  | some r =>
    simp -zeta only []
    lift_lets
    intro f s1 f1 ra rb moved rc s2 s3
    have h1 : Marked s s1 := by
      simp only [s1]
      split_ifs
      · exact marked_update _ _ rfl (fun h => h)
      · exact marked_refl s
    have h2 : Marked s s2 := marked_set_res h1 _ _
    have h3 : Marked s s3 := by
      simp only [s3]
      split_ifs
      · split
        · exact marked_trans h2 (marked_of_eq (drop_window_steady _ _).sessions)
        · exact h2
      · exact h2
    split
    · exact marked_trans h1 (marked_update _ _ rfl (fun _ => rfl))
    · split
      · exact marked_set_res h1 _ _
      · split
        · exact h3
        · lift_lets
          intro re s4 w
          have h4 : Marked s s4 := marked_set_res h3 _ _
          split
          · exact h4
          · exact marked_trans h4 (lock_window_marked _ _ _ _)

theorem lock_marked (s : SM_STATE_T) (priv : Ptr) (cur : Nat)
    (ioparam : vmcs_sm_ioctl_lock_unlock) (change_cache : Bool) (cache_type : Nat)
    (vc_addr : Nat) (reply : LockReply) (kz : Bool) (ioremap_ret : Nat) :
    Marked s (vc_sm_ioctl_lock s priv cur ioparam change_cache cache_type vc_addr reply kz
      ioremap_ret).1 := by
  unfold vc_sm_ioctl_lock
  by_cases hs : s.status = Status.running
  · rw [if_neg (not_not.mpr hs)]
    have ha := acquire_marked s priv ioparam.handle
    rcases h : vmcs_sm_acquire_resource s priv ioparam.handle with ⟨s1, _ | q⟩
    · rw [h] at ha
      exact ha
    · rw [h] at ha
      dsimp only
      cases hq : s1.resources q with
      | none => exact marked_trans ha (marked_refl _)
      | some r =>
        dsimp only
        split_ifs
        · exact marked_trans ha (release_marked _ _ _ _)
        · exact marked_trans ha (marked_trans (lock_body_marked _ _ _ _ _ _ _ _ _ _ _)
            (release_marked _ _ _ _))
  · rw [if_pos hs]
    exact marked_refl s

theorem unlock_remote_marked (s : SM_STATE_T) (priv : Ptr) (p : Ptr) (uh um : Nat)
    (wait_reply : Nat) (no_vc_unlock : Bool) (reply : UnlockReply) :
    Marked s (unlock_remote s priv p uh um wait_reply no_vc_unlock reply).1 := by
  unfold unlock_remote
  by_cases hs : s.status = Status.running
  · rw [if_neg (not_not.mpr hs)]
    cases hr : s.resources p with
    | none => exact marked_refl s
    | some r =>
      dsimp only
      split_ifs
      · exact marked_refl s
      · exact marked_refl s
      · intro f hf
        by_cases hg : f = priv
        · subst hg
          simp
        · simpa [Function.update_noteq hg] using hf
      · exact marked_update priv _ rfl (fun h => h)
      · exact marked_update priv _ rfl (fun h => h)
  · rw [if_pos hs]
    exact marked_refl s

theorem unlock_marked (s : SM_STATE_T) (priv : Ptr) (cur : Nat)
    (ioparam : vmcs_sm_ioctl_lock_unlock) (flush : Bool) (wait_reply : Nat)
    (no_vc_unlock : Bool) (reply : UnlockReply) :
    Marked s (vc_sm_ioctl_unlock s priv cur ioparam flush wait_reply no_vc_unlock reply).1 := by
  unfold vc_sm_ioctl_unlock
  by_cases hs : s.status = Status.running
  · rw [if_neg (not_not.mpr hs)]
    have ha := acquire_marked s priv ioparam.handle
    rcases h : vmcs_sm_acquire_resource s priv ioparam.handle with ⟨s1, _ | q⟩
    · rw [h] at ha
      exact ha
    · rw [h] at ha
      dsimp only
      cases hq : s1.resources q with
      | none => exact marked_trans ha (marked_refl _)
      | some r =>
        dsimp only
        split_ifs
        · exact marked_trans ha (release_marked _ _ _ _)
        · exact marked_trans ha (marked_trans (marked_trans
            (marked_of_eq (unlock_prepare_steady _ _ _ _).sessions)
            (unlock_remote_marked _ _ _ _ _ _ _ _)) (release_marked _ _ _ _))
  · rw [if_pos hs]
    exact marked_refl s

theorem vma_open_frame (s : SM_STATE_T) (v : vm_area_struct) :
    Quiet s (vcsm_vma_open s v) ∧ Marked s (vcsm_vma_open s v) := by
  unfold vcsm_vma_open
  split_ifs
  · exact ⟨quiet_refl s, marked_refl s⟩
  · split <;> exact ⟨quiet_trace rfl, marked_of_eq rfl⟩

theorem mmap_error_frame (s : SM_STATE_T) (cur : Nat) (p : Ptr) (ret : Int) :
    Quiet s (mmap_error s cur p ret).1 ∧ Marked s (mmap_error s cur p ret).1 := by
  unfold mmap_error
  dsimp only
  have hq := release_quiet s cur p false
  have hm := release_marked s cur p false
  split_ifs
  · exact ⟨hq, hm⟩
  · split
    · exact ⟨quiet_trans hq (quiet_trace rfl), marked_trans hm (marked_of_eq rfl)⟩
    · exact ⟨quiet_set_res hq _ _, marked_set_res hm _ _⟩

theorem mmap_frame (s : SM_STATE_T) (file_data : Ptr) (cur vm_start vm_end vm_pgoff : Nat)
    (kz : Bool) :
    Quiet s (vc_sm_mmap s file_data cur vm_start vm_end vm_pgoff kz).1 ∧
    Marked s (vc_sm_mmap s file_data cur vm_start vm_end vm_pgoff kz).1 := by
  unfold vc_sm_mmap
  by_cases hs : s.status = Status.running
  · rw [if_neg (not_not.mpr hs)]
    have ha := acquire_quiet s file_data (((vm_pgoff % 4294967296) <<< PAGE_SHIFT) % 4294967296)
    have hb := acquire_marked s file_data
      (((vm_pgoff % 4294967296) <<< PAGE_SHIFT) % 4294967296)
    rcases h : vmcs_sm_acquire_resource s file_data
      (((vm_pgoff % 4294967296) <<< PAGE_SHIFT) % 4294967296) with ⟨s1, _ | q⟩
    · rw [h] at ha hb
      exact ⟨ha, hb⟩
    · rw [h] at ha hb
      simp -zeta only []
      cases hq : s1.resources q with
      | none => exact ⟨quiet_trans ha (quiet_trace rfl), marked_trans hb (marked_of_eq rfl)⟩
      | some r =>
        simp -zeta only []
        have he : ∀ ret, Quiet s (mmap_error s1 cur q ret).1 ∧
            Marked s (mmap_error s1 cur q ret).1 := fun ret =>
          ⟨quiet_trans ha (mmap_error_frame s1 cur q ret).1,
            marked_trans hb (mmap_error_frame s1 cur q ret).2⟩
        by_cases c1 : r.pid ≠ 0 ∧ r.pid ≠ cur
        · rw [if_pos c1]
          exact he _
        rw [if_neg c1]
        by_cases c2 : r.res_size ≠ (vm_end - vm_start) % 4294967296
        · rw [if_pos c2]
          exact he _
        rw [if_neg c2]
        by_cases c3 : kz = false
        · rw [if_pos c3]
          exact he _
        rw [if_neg c3]
        · lift_lets
          intro vma map m v s2 s3
          have h2 : Quiet s s2 ∧ Marked s s2 :=
            ⟨quiet_trans ha (quiet_trace rfl), marked_trans hb (marked_of_eq rfl)⟩
          have h3 : Quiet s s3 ∧ Marked s s3 :=
            ⟨quiet_trans (quiet_trans h2.1 (add_map_quiet s2 q map)) (vma_open_frame _ v).1,
              marked_trans (marked_trans h2.2 (add_map_marked s2 q map)) (vma_open_frame _ v).2⟩
          split
          · exact h3
          · split
            · exact ⟨quiet_trans h3.1 (quiet_trace rfl), marked_trans h3.2 (marked_of_eq rfl)⟩
            · exact ⟨quiet_trans (quiet_set_res h3.1 _ _) (release_quiet _ _ _ _),
                marked_trans (marked_set_res h3.2 _ _) (release_marked _ _ _ _)⟩
  · rw [if_pos hs]
    exact ⟨quiet_refl s, marked_refl s⟩

theorem ioctl_pending_cleanups (s : SM_STATE_T) (file_data : Ptr) (cur : Nat) (req : Request)
    (env : IoctlEnv) (hs : s.status = Status.running)
    (hp : (s.sessions file_data).restart_sys = -EINTR) :
    cleanups (vc_sm_ioctl s file_data cur req env).1.trace =
      cleanups s.trace ++ [Event.vc_vchi_sm_clean_up (s.sessions file_data).int_action
        (s.sessions file_data).int_trans_id] := by
  have h1 : vc_sm_ioctl s file_data cur req env =
      ioctl_switch
        { s with
          trace := s.trace ++ [Event.vc_vchi_sm_clean_up (s.sessions file_data).int_action
            (s.sessions file_data).int_trans_id]
          sessions := Function.update s.sessions file_data
            { s.sessions file_data with restart_sys := 0 } }
        file_data cur req env := by
    unfold vc_sm_ioctl ioctl_clean_up
    rw [if_neg (not_not.mpr hs)]
    dsimp only
    rw [if_pos hp]
  rw [h1]
  have hq := ioctl_switch_quiet
    { s with
      trace := s.trace ++ [Event.vc_vchi_sm_clean_up (s.sessions file_data).int_action
        (s.sessions file_data).int_trans_id]
      sessions := Function.update s.sessions file_data
        { s.sessions file_data with restart_sys := 0 } }
    file_data cur req env
  unfold Quiet at hq
  rw [hq]
  simp [cleanups, List.filter_append, Event.is_clean_up]

/-- The entry points outside `vc_sm_ioctl`, evaluated.  On `demo_pending`, where
session 10 has a pending
`LOCK`, a map request of the owner succeeds, adds no call of
`vc_vchi_sm_clean_up` to the trace and leaves the action pending.  On
`demo_knl_pending`, where the kernel session has a pending `LOCK`, the calls
`vc_sm_lock`, `vc_sm_unlock` and `vc_sm_free` of the kernel client add no call
of `vc_vchi_sm_clean_up` either and leave the action pending. -/
theorem mmap_skips_clean_up :
    (demo_pending.1.sessions 10).restart_sys = -EINTR ∧
    (vc_sm_mmap demo_pending.1 10 100 65536 69632 1 true).2 = 0 ∧
    cleanups (vc_sm_mmap demo_pending.1 10 100 65536 69632 1 true).1.trace = [] ∧
    ((vc_sm_mmap demo_pending.1 10 100 65536 69632 1 true).1.sessions 10).restart_sys =
      -EINTR ∧
    (demo_knl_pending.1.sessions demo_knl_pending.1.data_knl).restart_sys = -EINTR ∧
    (vc_sm_lock demo_knl_pending.1 1 4096 false 3735928559
      { status := 0, res_mem := 5000, res_old_mem := 0, trans_id := 10 } true
      4026531840).2.1 = 0 ∧
    cleanups (vc_sm_lock demo_knl_pending.1 1 4096 false 3735928559
      { status := 0, res_mem := 5000, res_old_mem := 0, trans_id := 10 } true
      4026531840).1.trace = [] ∧
    ((vc_sm_lock demo_knl_pending.1 1 4096 false 3735928559
      { status := 0, res_mem := 5000, res_old_mem := 0, trans_id := 10 } true
      4026531840).1.sessions demo_knl_pending.1.data_knl).restart_sys = -EINTR ∧
    cleanups (vc_sm_unlock demo_knl_pending.1 1 4096 false false
      { status := 0, trans_id := 10 }).1.trace = [] ∧
    ((vc_sm_unlock demo_knl_pending.1 1 4096 false false
      { status := 0, trans_id := 10 }).1.sessions demo_knl_pending.1.data_knl).restart_sys =
        -EINTR ∧
    (vc_sm_free demo_knl_pending.1 1 4096).2 = 0 ∧
    cleanups (vc_sm_free demo_knl_pending.1 1 4096).1.trace = [] ∧
    ((vc_sm_free demo_knl_pending.1 1 4096).1.sessions
      demo_knl_pending.1.data_knl).restart_sys = -EINTR := by
  decide

/-- No entry point outside `vc_sm_ioctl` cleans up.  The clean-up of a pending action
is made by
`vc_sm_ioctl` and `vc_sm_release` only.  When a session `f` has a pending
interrupted action, a map request (`vc_sm_mmap`, on any session) and the
in-kernel calls `vc_sm_lock`, `vc_sm_unlock` and `vc_sm_free` add no call of
`vc_vchi_sm_clean_up` to the trace, whatever their arguments and the answers of
the environment, and leave `f` marked as pending; after a map request the next
`vc_sm_ioctl` on `f` issues the one clean-up call, with the action and
transaction id then recorded. -/
theorem entry_points_skip_clean_up (s : SM_STATE_T) (f : Ptr)
    (hp : (s.sessions f).restart_sys = -EINTR) :
    (∀ (file_data : Ptr) (cur vm_start vm_end vm_pgoff : Nat) (kz : Bool),
      cleanups (vc_sm_mmap s file_data cur vm_start vm_end vm_pgoff kz).1.trace =
        cleanups s.trace ∧
      ((vc_sm_mmap s file_data cur vm_start vm_end vm_pgoff kz).1.sessions f).restart_sys =
        -EINTR ∧
      ∀ (cur2 : Nat) (req : Request) (env : IoctlEnv),
        (vc_sm_mmap s file_data cur vm_start vm_end vm_pgoff kz).1.status = Status.running →
        cleanups (vc_sm_ioctl (vc_sm_mmap s file_data cur vm_start vm_end vm_pgoff kz).1 f
            cur2 req env).1.trace =
          cleanups s.trace ++
            [Event.vc_vchi_sm_clean_up
              ((vc_sm_mmap s file_data cur vm_start vm_end vm_pgoff kz).1.sessions f).int_action
              ((vc_sm_mmap s file_data cur vm_start vm_end vm_pgoff kz).1.sessions
                f).int_trans_id]) ∧
    (∀ (cur handle : Nat) (cached_mode : Bool) (stack_addr : Nat) (reply : LockReply)
        (kz : Bool) (ioremap_ret : Nat),
      cleanups (vc_sm_lock s cur handle cached_mode stack_addr reply kz
        ioremap_ret).1.trace = cleanups s.trace ∧
      ((vc_sm_lock s cur handle cached_mode stack_addr reply kz ioremap_ret).1.sessions
        f).restart_sys = -EINTR) ∧
    (∀ (cur handle : Nat) (flush no_vc_unlock : Bool) (reply : UnlockReply),
      cleanups (vc_sm_unlock s cur handle flush no_vc_unlock reply).1.trace =
        cleanups s.trace ∧
      ((vc_sm_unlock s cur handle flush no_vc_unlock reply).1.sessions f).restart_sys =
        -EINTR) ∧
    (∀ (cur handle : Nat),
      cleanups (vc_sm_free s cur handle).1.trace = cleanups s.trace ∧
      ((vc_sm_free s cur handle).1.sessions f).restart_sys = -EINTR) := by
  refine ⟨fun file_data cur vm_start vm_end vm_pgoff kz => ?_,
    fun cur handle cached_mode stack_addr reply kz ioremap_ret => ?_,
    fun cur handle flush no_vc_unlock reply => ?_, fun cur handle => ?_⟩
  · obtain ⟨hq, hm⟩ := mmap_frame s file_data cur vm_start vm_end vm_pgoff kz
    refine ⟨hq, hm f hp, fun cur2 req env hrun => ?_⟩
    rw [ioctl_pending_cleanups _ f cur2 req env hrun (hm f hp), hq]
  · unfold vc_sm_lock
    by_cases c1 : s.status ≠ Status.running
    · rw [if_pos c1]
      exact ⟨rfl, hp⟩
    rw [if_neg c1]
    by_cases c2 : handle = 0
    · rw [if_pos c2]
      exact ⟨rfl, hp⟩
    rw [if_neg c2]
    exact ⟨lock_quiet _ _ _ _ _ _ _ _ _ _, lock_marked _ _ _ _ _ _ _ _ _ _ f hp⟩
  · unfold vc_sm_unlock
    split_ifs
    · exact ⟨rfl, hp⟩
    · exact ⟨rfl, hp⟩
    · exact ⟨unlock_quiet _ _ _ _ _ _ _ _, unlock_marked _ _ _ _ _ _ _ _ f hp⟩
  · unfold vc_sm_free
    split_ifs
    · exact ⟨rfl, hp⟩
    · exact ⟨rfl, hp⟩
    · exact ⟨free_quiet _ _ _ _, free_marked _ _ _ _ f hp⟩

/-- On `demo_pending`: the map request of the owner
adds no clean-up call and session 10 stays marked. -/
theorem entry_points_skip_clean_up_witness :
    cleanups (vc_sm_mmap demo_pending.1 10 100 65536 69632 1 true).1.trace =
      cleanups demo_pending.1.trace ∧
    ((vc_sm_mmap demo_pending.1 10 100 65536 69632 1 true).1.sessions 10).restart_sys =
      -EINTR :=
  ⟨((entry_points_skip_clean_up demo_pending.1 10 (by decide)).1 10 100 65536 69632 1 true).1,
    ((entry_points_skip_clean_up demo_pending.1 10 (by decide)).1 10 100 65536 69632 1
      true).2.1⟩

/-- Claim C21 at its failing input.  The lock of session 10 is interrupted under
transaction 9 and the session makes no further request; session 20 then frees
its alias of the same page, which tears the page of session 10 down and notes
the transaction id of that remote free (12) in the record of session 10.  The
close of session 10 issues one clean-up call, with action `LOCK` and
transaction id 12, not 9. -/
theorem close_sends_foreign_trans_id :
    demo_lent.status = Status.running ∧
    (demo_lent.sessions 10).resource_list = [1] ∧
    ((demo_lent_pending.sessions 10).restart_sys, (demo_lent_pending.sessions 10).int_action,
      (demo_lent_pending.sessions 10).int_trans_id) =
        (-EINTR, VC_SM_MSG_TYPE.VC_SM_MSG_TYPE_LOCK, 9) ∧
    cleanups demo_lent_pending.trace = [] ∧
    demo_lent_freed.status = Status.running ∧
    remote_calls demo_lent_freed.trace =
      remote_calls demo_lent_pending.trace ++ [Event.vc_vchi_sm_free 77 5000] ∧
    ((demo_lent_freed.sessions 10).restart_sys, (demo_lent_freed.sessions 10).int_action,
      (demo_lent_freed.sessions 10).int_trans_id) =
        (-EINTR, VC_SM_MSG_TYPE.VC_SM_MSG_TYPE_LOCK, 12) ∧
    (vc_sm_release 5 demo_lent_freed 100 10).status = Status.running ∧
    cleanups (vc_sm_release 5 demo_lent_freed 100 10).trace =
      [Event.vc_vchi_sm_clean_up VC_SM_MSG_TYPE.VC_SM_MSG_TYPE_LOCK 12] := by
  decide

/-- Claim C25 at its failing input.  The kernel client locks its page through
`vc_sm_lock` and the remote lock, transaction 9, is interrupted: the kernel
session `data_knl` has a pending `LOCK`.  A following `vc_sm_lock` that
succeeds, a `vc_sm_unlock` and a `vc_sm_free` each run without a call of
`vc_vchi_sm_clean_up` and leave the action pending; and when a following
`vc_sm_lock` is interrupted in turn, under transaction 10, the record of
transaction 9 is replaced without any clean-up call for it. -/
theorem kernel_pending_never_cleaned :
    ((demo_knl_pending.1.sessions demo_knl_pending.1.data_knl).restart_sys,
      (demo_knl_pending.1.sessions demo_knl_pending.1.data_knl).int_action,
      (demo_knl_pending.1.sessions demo_knl_pending.1.data_knl).int_trans_id) =
        (-EINTR, VC_SM_MSG_TYPE.VC_SM_MSG_TYPE_LOCK, 9) ∧
    cleanups demo_knl_pending.1.trace = [] ∧
    (vc_sm_lock demo_knl_pending.1 1 4096 false 0
      { status := 0, res_mem := 5000, res_old_mem := 0, trans_id := 10 } true
      4026531840).2 = (0, 4026531840) ∧
    cleanups (vc_sm_lock demo_knl_pending.1 1 4096 false 0
      { status := 0, res_mem := 5000, res_old_mem := 0, trans_id := 10 } true
      4026531840).1.trace = [] ∧
    ((vc_sm_lock demo_knl_pending.1 1 4096 false 0
      { status := 0, res_mem := 5000, res_old_mem := 0, trans_id := 10 } true
      4026531840).1.sessions demo_knl_pending.1.data_knl).restart_sys = -EINTR ∧
    cleanups (vc_sm_unlock demo_knl_pending.1 1 4096 false false
      { status := 0, trans_id := 10 }).1.trace = [] ∧
    ((vc_sm_unlock demo_knl_pending.1 1 4096 false false
      { status := 0, trans_id := 10 }).1.sessions demo_knl_pending.1.data_knl).restart_sys =
        -EINTR ∧
    (vc_sm_free demo_knl_pending.1 1 4096).2 = 0 ∧
    cleanups (vc_sm_free demo_knl_pending.1 1 4096).1.trace = [] ∧
    ((vc_sm_free demo_knl_pending.1 1 4096).1.sessions
      demo_knl_pending.1.data_knl).restart_sys = -EINTR ∧
    cleanups (vc_sm_lock demo_knl_pending.1 1 4096 false 0
      { status := -EINTR, res_mem := 0, res_old_mem := 0, trans_id := 10 } true 0).1.trace =
        [] ∧
    (((vc_sm_lock demo_knl_pending.1 1 4096 false 0
      { status := -EINTR, res_mem := 0, res_old_mem := 0, trans_id := 10 } true 0).1.sessions
        demo_knl_pending.1.data_knl).restart_sys,
     ((vc_sm_lock demo_knl_pending.1 1 4096 false 0
      { status := -EINTR, res_mem := 0, res_old_mem := 0, trans_id := 10 } true 0).1.sessions
        demo_knl_pending.1.data_knl).int_trans_id) = (-EINTR, 10) := by
  decide

/-- Claim C11 as stated fails on the size: for a request of 1048577 units of 4096
bytes, which the remote side grants, `vc_sm_ioctl_alloc` returns 0 and records
the size 4096, the product `4096 * 1048577` taken in `uint32_t`, not the
product itself. -/
theorem alloc_size_wraps :
    (vc_sm_ioctl_alloc demo_init 10 100
      { size := 4096, num := 1048577, cached := 3, handle := 0 } true
      { status := 0, res_handle := 77, res_mem := 5000, trans_id := 1 }).2.1 = 0 ∧
    ((vc_sm_ioctl_alloc demo_init 10 100
      { size := 4096, num := 1048577, cached := 3, handle := 0 } true
      { status := 0, res_handle := 77, res_mem := 5000, trans_id := 1 }).1.resources 1).map
        (fun r => r.res_size) = some 4096 ∧
    align_unit 4096 4096 * 1048577 = 4294971392 := by
  decide

end VcSm
